import Mathlib

/-! osmo-remsim: slot-map engine and RSPRO server connection manager

A shallow embedding of `src/slotmap.c` and `src/server/rspro_server.c`.

* C structures become Lean structures with the same field names.
* A pointer to a heap record is the record's address, a natural number;
  `talloc_zero` hands out the address, or `none` when it returns `NULL`.
* An intrusive `llist_head` list becomes a Lean `List` in list order
  (`llist_add_tail` appends at the end, `llist_for_each_entry` walks from the
  head).
* `uint16_t` fields are natural numbers; an assignment from a wider integer
  reduces it modulo `2^16`.
* The read-write locks guard against other threads only and are not part of the
  sequential semantics that is embedded here.
-/

namespace Remsim

/-! ## Data model of the slot-map engine (`slotmap.c`) -/

/-- Bank slot `struct bank_slot`: the pair `(bank_id, slot_nr)` addressing one
SIM reader of a bank. -/
structure bank_slot where
  bank_id : Nat
  slot_nr : Nat
deriving DecidableEq, Repr

/-- Client slot `struct client_slot`: the pair `(client_id, slot_nr)`
addressing one SIM socket of a client. -/
structure client_slot where
  client_id : Nat
  slot_nr : Nat
deriving DecidableEq, Repr

/-- Modelled from the spec: the inline helper `bank_slot_equals` of `slotmap.h`
is not part of the sources at hand; a BankSlot is the pair
`(bank_id, slot_nr)` and two of them are equal when both fields are. -/
def bank_slot_equals (a b : bank_slot) : Bool :=
  a.bank_id == b.bank_id && a.slot_nr == b.slot_nr

/-- Modelled from the spec: the inline helper `client_slot_equals` of
`slotmap.h` is not part of the sources at hand; a ClientSlot is the pair
`(client_id, slot_nr)` and two of them are equal when both fields are. -/
def client_slot_equals (a b : client_slot) : Bool :=
  a.client_id == b.client_id && a.slot_nr == b.slot_nr

/-- Modelled from the spec: `enum slot_mapping_state` of `slotmap.h` is not
part of the sources at hand; the states are listed in the order of the spec,
`NEW` first, so that `NEW` is the value zero which `talloc_zero` leaves in a
fresh record. -/
inductive slot_mapping_state where
  | SLMAP_S_NEW
  | SLMAP_S_UNACKNOWLEDGED
  | SLMAP_S_ACTIVE
  | SLMAP_S_DELETE_REQ
  | SLMAP_S_DELETING
deriving DecidableEq, Repr

open slot_mapping_state

/-- One `struct slot_mapping`. `addr` is the address of the record (what a
`struct slot_mapping *` holds); `bank`, `client` and `state` are its fields.
The links `list` and `bank_list` are represented by the lists the address or
record is a member of. -/
structure slot_mapping where
  addr : Nat
  bank : bank_slot
  client : client_slot
  state : slot_mapping_state
deriving DecidableEq, Repr

/-- The `struct slotmaps`: the global list `mappings` in list order. -/
structure slotmaps where
  mappings : List slot_mapping
deriving DecidableEq, Repr

/-- Errno value `EBUSY` of Linux. -/
def EBUSY : Int := 16

/-- Errno value `ENOMEM` of Linux. -/
def ENOMEM : Int := 12

/-- Lookup `slotmap_by_client`: the first mapping in list order whose client
slot equals `client`, `none` for `NULL`. -/
def slotmap_by_client (maps : slotmaps) (client : client_slot) : Option slot_mapping :=
  maps.mappings.find? (fun map => client_slot_equals map.client client)

/-- Lookup `slotmap_by_bank`: the first mapping in list order whose bank slot
equals `bank`, `none` for `NULL`. -/
def slotmap_by_bank (maps : slotmaps) (bank : bank_slot) : Option slot_mapping :=
  maps.mappings.find? (fun map => bank_slot_equals map.bank bank)

/-- Function `slotmap_add`. `talloc` is what `talloc_zero` returns: `none` for
`NULL`, `some addr` for the address of the zeroed record. The result is the
return value and the mapping set after the call. -/
def slotmap_add (maps : slotmaps) (bank : bank_slot) (client : client_slot)
    (talloc : Option Nat) : Int × slotmaps :=
  match slotmap_by_bank maps bank with
  | some _ => (-EBUSY, maps)
  | none =>
    match slotmap_by_client maps client with
    | some _ => (-EBUSY, maps)
    | none =>
      match talloc with
      | none => (-ENOMEM, maps)
      | some addr =>
        (0, { maps with
              mappings := maps.mappings ++
                [{ addr := addr, bank := bank, client := client, state := SLMAP_S_NEW }] })

/-- Function `slotmap_del`: `llist_del(&map->list)` unlinks the node at address
`map` from the global list, then the record is freed. -/
def slotmap_del (maps : slotmaps) (map : Nat) : slotmaps :=
  { maps with mappings := maps.mappings.eraseP (fun m => m.addr == map) }

/-- Function `slotmap_init`: the empty mapping set. -/
def slotmap_init : slotmaps :=
  { mappings := [] }

/-- One call into the slot-map engine. -/
inductive slotmap_call where
  | add (bank : bank_slot) (client : client_slot) (talloc : Option Nat)
  | del (map : Nat)
deriving DecidableEq, Repr

/-- Effect of one call on the mapping set. -/
def slotmap_call_run (maps : slotmaps) : slotmap_call → slotmaps
  | .add bank client talloc => (slotmap_add maps bank client talloc).2
  | .del map => slotmap_del maps map

/-- Effect of a finite sequence of calls, first call first. -/
def slotmap_calls_run (maps : slotmaps) (calls : List slotmap_call) : slotmaps :=
  calls.foldl slotmap_call_run maps

/-- Any two mappings at different positions of the list differ in the bank slot
and in the client slot. -/
def slotmaps_unique (maps : slotmaps) : Prop :=
  maps.mappings.Pairwise (fun m1 m2 => m1.bank ≠ m2.bank ∧ m1.client ≠ m2.client)

/-! ## Data model of the RSPRO server (`rspro_server.c`) -/

/-- Modelled from the spec: the ASN.1 type `ComponentType` (generated header
not among the sources); the type of a component identity is one of Client,
Bank, Server. `remsimClient` is the value zero. -/
inductive ComponentType where
  | remsimClient
  | remsimBankd
  | remsimServer
deriving DecidableEq, Repr

/-- Modelled from the spec: the ASN.1 type `ResultCode` (generated header not
among the sources): `ok`, `identityInUse`, `illegalClientId`,
`unknownSlotmap`, and the other domain codes lumped into `other`. -/
inductive ResultCode where
  | ok
  | identityInUse
  | illegalClientId
  | unknownSlotmap
  | other
deriving DecidableEq, Repr

/-- Modelled from the spec: the tagged union `RsproPDU` with the message kinds
the server core uses, each with the fields the server reads or writes. Of a
component identity only the type is kept. `other` stands for every further
kind of the choice. A slot inside a PDU has unbounded integer fields. -/
inductive RsproPDU where
  | connectBankReq (identity : ComponentType) (bankId : Nat) (numberOfSlots : Nat)
  | connectBankRes (result : ResultCode)
  | connectClientReq (identity : ComponentType) (clientSlot : Option client_slot)
  | connectClientRes (result : ResultCode)
  | createMappingReq (client : client_slot) (bank : bank_slot)
  | createMappingRes (result : ResultCode)
  | removeMappingReq (client : client_slot) (bank : bank_slot)
  | removeMappingRes (result : ResultCode)
  | configClientIdRes (result : ResultCode)
  | configClientBankReq (bankSlot : bank_slot) (ip : Nat) (port : Nat)
  | configClientBankRes (result : ResultCode)
  | other
deriving DecidableEq, Repr

/-- The `enum remsim_server_client_fsm_state`. -/
inductive remsim_server_client_fsm_state where
  | CLNTC_ST_INIT
  | CLNTC_ST_ESTABLISHED
  | CLNTC_ST_WAIT_CONF_RES
  | CLNTC_ST_CONNECTED_BANKD
  | CLNTC_ST_CONNECTED_CLIENT
  | CLNTC_ST_REJECTED
deriving DecidableEq, Repr

/-- The `enum remsim_server_client_event`. -/
inductive remsim_server_client_event where
  | CLNTC_E_TCP_UP
  | CLNTC_E_CLIENT_CONN
  | CLNTC_E_BANK_CONN
  | CLNTC_E_TCP_DOWN
  | CLNTC_E_KA_TIMEOUT
  | CLNTC_E_CREATE_MAP_RES
  | CLNTC_E_REMOVE_MAP_RES
  | CLNTC_E_CONFIG_CL_RES
  | CLNTC_E_PUSH
  | CLNTC_E_CL_CFG_BANKD
deriving DecidableEq, Repr

/-- Termination causes of `osmo_fsm_inst_term` that the server uses or that the
FSM core uses on timer expiry. -/
inductive osmo_fsm_term_cause where
  | OSMO_FSM_TERM_REGULAR
  | OSMO_FSM_TERM_ERROR
  | OSMO_FSM_TERM_TIMEOUT
deriving DecidableEq, Repr

open remsim_server_client_fsm_state remsim_server_client_event osmo_fsm_term_cause

/-- The part of a `struct osmo_fsm_inst` that the server FSM depends on: the
current state, the timer number `T`, and the pending timer (`none` when no
timer is armed, else the timeout in seconds). -/
structure osmo_fsm_inst where
  state : remsim_server_client_fsm_state
  T : Nat
  timer : Option Nat
deriving DecidableEq, Repr

/-- The stream handle `struct osmo_stream_srv` as far as the server reads it:
what `osmo_sock_get_ip_and_port` finds for the remote end, `none` when it
fails, else the value of `ntohl(inet_addr(ip_str))`. -/
structure osmo_stream_srv where
  remote_ip : Option Nat
deriving DecidableEq, Repr

/-- The five list heads `conn->bank.maps_*`. -/
inductive bank_list_head where
  | maps_new
  | maps_unack
  | maps_active
  | maps_delreq
  | maps_deleting
deriving DecidableEq, Repr

/-- Last bank coordinates told to a client: `conn->client.bankd`. -/
structure conn_bankd where
  slot : bank_slot
  ip : Nat
  port : Nat
deriving DecidableEq, Repr

/-- The member `conn->client`. -/
structure conn_client where
  slot : client_slot
  bankd : conn_bankd
deriving DecidableEq, Repr

/-- The member `conn->bank`; each queue lists the addresses of the mappings
linked to it through `bank_list`, head first. -/
structure conn_bank where
  bank_id : Nat
  num_slots : Nat
  maps_new : List Nat
  maps_unack : List Nat
  maps_active : List Nat
  maps_delreq : List Nat
  maps_deleting : List Nat
deriving DecidableEq, Repr

/-- One `struct rspro_client_conn`. `addr` is the address of the record;
`peer` and `fi` are `none` for `NULL`; `comp_id_type` is `conn->comp_id.type`.
Two fields record what the outside sees: `tx` lists the PDUs handed to
`osmo_stream_srv_send` for this peer, oldest first, and `term_cause` is the
cause with which the FSM instance was terminated. -/
structure rspro_client_conn where
  addr : Nat
  peer : Option osmo_stream_srv
  fi : Option osmo_fsm_inst
  comp_id_type : ComponentType
  client : conn_client
  bank : conn_bank
  tx : List RsproPDU
  term_cause : Option osmo_fsm_term_cause
deriving DecidableEq, Repr

/-- The `struct rspro_server`: the three registry lists and the mapping set. -/
structure rspro_server where
  connections : List rspro_client_conn
  clients : List rspro_client_conn
  banks : List rspro_client_conn
  slotmaps : slotmaps
deriving DecidableEq, Repr

/-- Queue of `conn->bank` behind a list head. -/
def conn_bank.queue (b : conn_bank) : bank_list_head → List Nat
  | .maps_new => b.maps_new
  | .maps_unack => b.maps_unack
  | .maps_active => b.maps_active
  | .maps_delreq => b.maps_delreq
  | .maps_deleting => b.maps_deleting

/-- Effect of `llist_add_tail(&map->bank_list, head)` on `conn->bank`. -/
def conn_bank.add_tail (b : conn_bank) (head : bank_list_head) (map : Nat) : conn_bank :=
  match head with
  | .maps_new => { b with maps_new := b.maps_new ++ [map] }
  | .maps_unack => { b with maps_unack := b.maps_unack ++ [map] }
  | .maps_active => { b with maps_active := b.maps_active ++ [map] }
  | .maps_delreq => { b with maps_delreq := b.maps_delreq ++ [map] }
  | .maps_deleting => { b with maps_deleting := b.maps_deleting ++ [map] }

/-- Effect of `llist_del(&map->bank_list)` on `conn->bank`: the mapping is on
none of the five queues afterwards. -/
def conn_bank.unlink (b : conn_bank) (map : Nat) : conn_bank :=
  { b with
    maps_new := b.maps_new.filter (fun a => a != map)
    maps_unack := b.maps_unack.filter (fun a => a != map)
    maps_active := b.maps_active.filter (fun a => a != map)
    maps_delreq := b.maps_delreq.filter (fun a => a != map)
    maps_deleting := b.maps_deleting.filter (fun a => a != map) }

/-- Apply `f` to every peer record of the three registries. -/
def map_conns (f : rspro_client_conn → rspro_client_conn) (srv : rspro_server) :
    rspro_server :=
  { srv with
    connections := srv.connections.map f
    clients := srv.clients.map f
    banks := srv.banks.map f }

/-- A write through the pointer `conn` as seen by one record: `f` is applied to
the record at that address, which stays where it is; any other record is left
alone. -/
def conn_write (conn : Nat) (f : rspro_client_conn → rspro_client_conn)
    (c : rspro_client_conn) : rspro_client_conn :=
  if c.addr = conn then { f c with addr := c.addr } else c

/-- A write through the pointer `conn`. -/
def update_conn (srv : rspro_server) (conn : Nat)
    (f : rspro_client_conn → rspro_client_conn) : rspro_server :=
  map_conns (conn_write conn f) srv

/-- A read through the pointer `conn`. -/
def find_conn (srv : rspro_server) (conn : Nat) : Option rspro_client_conn :=
  (srv.connections ++ srv.clients ++ srv.banks).find? (fun c => c.addr == conn)

/-- A read through a `struct slot_mapping *`. -/
def slotmap_deref (maps : slotmaps) (map : Nat) : Option slot_mapping :=
  maps.mappings.find? (fun m => m.addr == map)

/-- Lookup `client_conn_by_slot`: first peer on `clients` with the client
slot. -/
def client_conn_by_slot (srv : rspro_server) (cslot : client_slot) :
    Option rspro_client_conn :=
  srv.clients.find? (fun conn => client_slot_equals conn.client.slot cslot)

/-- Lookup `bankd_conn_by_id`: first peer on `banks` with the bank id. -/
def bankd_conn_by_id (srv : rspro_server) (bank_id : Nat) : Option rspro_client_conn :=
  srv.banks.find? (fun conn => conn.bank.bank_id == bank_id)

/-- Modelled from the spec: `rspro2client_slot` of `rspro_util.c` is not among
the sources; it copies the two numbers of the PDU's ClientSlot into the
`uint16_t` fields of a `struct client_slot`. -/
def rspro2client_slot (clientSlot : client_slot) : client_slot :=
  { client_id := clientSlot.client_id % 65536, slot_nr := clientSlot.slot_nr % 65536 }

/-- Modelled from the spec: `rspro_gen_ConnectClientRes` of `rspro_util.c` is
not among the sources; it builds a `connectClientRes` with the result code. -/
def rspro_gen_ConnectClientRes (result : ResultCode) : Option RsproPDU :=
  some (RsproPDU.connectClientRes result)

/-- Modelled from the spec: `rspro_gen_ConnectBankRes` of `rspro_util.c` is not
among the sources; it builds a `connectBankRes` with the result code. -/
def rspro_gen_ConnectBankRes (result : ResultCode) : Option RsproPDU :=
  some (RsproPDU.connectBankRes result)

/-- Modelled from the spec: `rspro_gen_ConfigClientBankReq` of `rspro_util.c`
is not among the sources; it builds `configClientBankReq(slot, ip, port)`. -/
def rspro_gen_ConfigClientBankReq (bslot : bank_slot) (ip port : Nat) : Option RsproPDU :=
  some (RsproPDU.configClientBankReq bslot ip port)

/-- Function `slotmap2CreateMappingReq`, with `rspro_gen_CreateMappingReq`
modelled from the spec as building `createMappingReq(clslot, bslot)`. -/
def slotmap2CreateMappingReq (slotmap : slot_mapping) : Option RsproPDU :=
  some (RsproPDU.createMappingReq slotmap.client slotmap.bank)

/-- Function `slotmap2RemoveMappingReq`, with `rspro_gen_RemoveMappingReq`
modelled from the spec as building `removeMappingReq(clslot, bslot)`. -/
def slotmap2RemoveMappingReq (slotmap : slot_mapping) : Option RsproPDU :=
  some (RsproPDU.removeMappingReq slotmap.client slotmap.bank)

/-- Function `client_conn_send`: a `NULL` PDU is logged and dropped, any other
is encoded and handed to the stream of `conn`. -/
def client_conn_send (srv : rspro_server) (conn : Nat) (pdu : Option RsproPDU) :
    rspro_server :=
  match pdu with
  | none => srv
  | some p => update_conn srv conn (fun c => { c with tx := c.tx ++ [p] })

/-- The write `map->state = new_state` as seen by one mapping of the global
list: only the record at the address `map` changes. -/
def map_set_state (map : Nat) (new_state : slot_mapping_state) (m : slot_mapping) :
    slot_mapping :=
  if m.addr = map then { m with state := new_state } else m

/-- The unlinking `llist_del(&map->bank_list)` as seen by one peer record. -/
def conn_unlink (map : Nat) (c : rspro_client_conn) : rspro_client_conn :=
  { c with bank := c.bank.unlink map }

/-- Modelled from the spec: `_slotmap_state_change` of the slot-map engine is
not among the sources; it is the atomic re-linking across per-peer lists
combined with the state transition: the mapping gets the new state, leaves the
queue it is on, and is appended to `new_bank_list` (a queue head of a peer)
when one is given. -/
def _slotmap_state_change (srv : rspro_server) (map : Nat) (new_state : slot_mapping_state)
    (new_bank_list : Option (Nat × bank_list_head)) : rspro_server :=
  let mappings1 := srv.slotmaps.mappings.map (map_set_state map new_state)
  let srv1 : rspro_server := { srv with slotmaps := { mappings := mappings1 } }
  let srv2 := map_conns (conn_unlink map) srv1
  match new_bank_list with
  | none => srv2
  | some (conn, head) =>
    update_conn srv2 conn (fun c => { c with bank := c.bank.add_tail head map })

/-- Modelled from the spec: `_slotmap_del` of the slot-map engine is not among
the sources; `del` unlinks the mapping from the global set and from any
per-peer list and releases it. -/
def _slotmap_del (srv : rspro_server) (map : Nat) : rspro_server :=
  { map_conns (conn_unlink map) srv with slotmaps := slotmap_del srv.slotmaps map }

/-- Field `maps` of `struct slot_mapping`, the pointer to the set that a
mapping belongs to; `none` is `NULL`. No statement of the sources writes the
field: `slotmap_add` fills in `bank` and `client` of the record that
`talloc_zero` cleared, so the pointer is `NULL` in every mapping. -/
def slot_mapping.maps (_map : slot_mapping) : Option Unit := none

/-- The call `slotmap_del(maps, map)` seen from the server, `maps` being a
pointer: the function of `slotmap.c` locks `&maps->rwlock` first, which has no
defined behaviour for `NULL` (`none`); for the set of the server it unlinks
the mapping from the global list only. -/
def server_slotmap_del (srv : rspro_server) (maps : Option Unit) (map : Nat) :
    Option rspro_server :=
  match maps with
  | none => none
  | some _ => some { srv with slotmaps := slotmap_del srv.slotmaps map }

/-- The call `slotmap_add(srv->slotmaps, bank, client)` seen from the server:
the function of `slotmap.c` receives the mapping set only. -/
def server_slotmap_add (srv : rspro_server) (bank : bank_slot) (client : client_slot)
    (talloc : Option Nat) : Int × rspro_server :=
  ((slotmap_add srv.slotmaps bank client talloc).1,
   { srv with slotmaps := (slotmap_add srv.slotmaps bank client talloc).2 })

/-- Table `server_client_fsm_states[].in_event_mask`. -/
def in_event_mask : remsim_server_client_fsm_state → List remsim_server_client_event
  | CLNTC_ST_INIT => [CLNTC_E_TCP_UP]
  | CLNTC_ST_ESTABLISHED => [CLNTC_E_CLIENT_CONN, CLNTC_E_BANK_CONN]
  | CLNTC_ST_WAIT_CONF_RES => [CLNTC_E_CONFIG_CL_RES]
  | CLNTC_ST_CONNECTED_CLIENT => [CLNTC_E_CL_CFG_BANKD]
  | CLNTC_ST_CONNECTED_BANKD => [CLNTC_E_CREATE_MAP_RES, CLNTC_E_REMOVE_MAP_RES, CLNTC_E_PUSH]
  | CLNTC_ST_REJECTED => []

/-- Table `server_client_fsm_states[].out_state_mask`. -/
def out_state_mask : remsim_server_client_fsm_state → List remsim_server_client_fsm_state
  | CLNTC_ST_INIT => [CLNTC_ST_ESTABLISHED]
  | CLNTC_ST_ESTABLISHED =>
    [CLNTC_ST_CONNECTED_CLIENT, CLNTC_ST_WAIT_CONF_RES, CLNTC_ST_CONNECTED_BANKD,
      CLNTC_ST_REJECTED]
  | CLNTC_ST_WAIT_CONF_RES => [CLNTC_ST_CONNECTED_CLIENT]
  | CLNTC_ST_CONNECTED_CLIENT => []
  | CLNTC_ST_CONNECTED_BANKD => []
  | CLNTC_ST_REJECTED => []

/-- Field `remsim_server_client_fsm.allstate_event_mask`. -/
def allstate_event_mask : List remsim_server_client_event :=
  [CLNTC_E_TCP_DOWN, CLNTC_E_KA_TIMEOUT]

/-- Action `clnt_st_connected_client`. The `default` arm is an
`OSMO_ASSERT(0)` that the event mask of the state keeps out of reach. -/
def clnt_st_connected_client (srv : rspro_server) (conn : Nat)
    (event : remsim_server_client_event) : rspro_server :=
  match event with
  | CLNTC_E_CL_CFG_BANKD =>
    match find_conn srv conn with
    | none => srv
    | some c =>
      client_conn_send srv conn
        (rspro_gen_ConfigClientBankReq c.client.bankd.slot c.client.bankd.ip
          c.client.bankd.port)
  | _ => srv

/-- One round of the first loop of the `CLNTC_E_PUSH` arm: send the
createMappingReq of the mapping, then move it to `maps_unack`. -/
def push_create (conn : Nat) (srv : rspro_server) (map : Nat) : rspro_server :=
  match slotmap_deref srv.slotmaps map with
  | none => srv
  | some m =>
    _slotmap_state_change (client_conn_send srv conn (slotmap2CreateMappingReq m)) map
      SLMAP_S_UNACKNOWLEDGED (some (conn, bank_list_head.maps_unack))

/-- One round of the second loop of the `CLNTC_E_PUSH` arm: send the
removeMappingReq of the mapping, then move it to `maps_deleting`. -/
def push_remove (conn : Nat) (srv : rspro_server) (map : Nat) : rspro_server :=
  match slotmap_deref srv.slotmaps map with
  | none => srv
  | some m =>
    _slotmap_state_change (client_conn_send srv conn (slotmap2RemoveMappingReq m)) map
      SLMAP_S_DELETING (some (conn, bank_list_head.maps_deleting))

/-- The `case CLNTC_E_PUSH` arm of `clnt_st_connected_bankd`: each loop walks the
queue as it is when the loop starts (`llist_for_each_entry_safe`). -/
def clnt_st_connected_bankd_push (srv : rspro_server) (conn : Nat) : rspro_server :=
  match find_conn srv conn with
  | none => srv
  | some c =>
    let srv1 := c.bank.maps_new.foldl (push_create conn) srv
    match find_conn srv1 conn with
    | none => srv1
    | some c1 => c1.bank.maps_delreq.foldl (push_remove conn) srv1

/-- The instance an event is dispatched to, when `osmo_fsm_inst_dispatch`
finds one: `none` when the pointer `conn->fi` is `NULL`. -/
def conn_fi (srv : rspro_server) (conn : Nat) : Option osmo_fsm_inst :=
  match find_conn srv conn with
  | none => none
  | some c => c.fi

/-- Library call `osmo_fsm_inst_dispatch` for the two events that the server
dispatches from inside an action, `CLNTC_E_CL_CFG_BANKD` and `CLNTC_E_PUSH`:
without an instance, or with the event outside the `in_event_mask` of the
current state, nothing happens; else the action of the state runs. -/
def osmo_fsm_inst_dispatch_inner (srv : rspro_server) (conn : Nat)
    (event : remsim_server_client_event) : rspro_server :=
  match conn_fi srv conn with
  | none => srv
  | some fi =>
    if event ∈ in_event_mask fi.state then
      match fi.state, event with
      | CLNTC_ST_CONNECTED_CLIENT, _ => clnt_st_connected_client srv conn event
      | CLNTC_ST_CONNECTED_BANKD, CLNTC_E_PUSH => clnt_st_connected_bankd_push srv conn
      | _, _ => srv
    else srv

/-- Function `_update_client_for_slotmap`. `bankd_conn` is `none` for `NULL`.
The result is `none` where the code has no defined behaviour: for a bank peer
whose stream is gone, `osmo_stream_srv_get_fd` is handed the `NULL` of
`bankd_conn->peer`. A stream whose address cannot be read is the failing
`osmo_sock_get_ip_and_port`, on which the function returns. -/
def _update_client_for_slotmap (map : Nat) (srv : rspro_server) (bankd_conn : Option Nat) :
    Option rspro_server :=
  match slotmap_deref srv.slotmaps map with
  | none => some srv
  | some m =>
    match client_conn_by_slot srv m.client with
    | none => some srv
    | some conn =>
      let changed_slot := !bank_slot_equals conn.client.bankd.slot m.bank
      let srv1 :=
        if changed_slot then
          update_conn srv conn.addr (fun c => { c with client.bankd.slot := m.bank })
        else srv
      let bankd : Option rspro_client_conn :=
        match bankd_conn with
        | some b => find_conn srv1 b
        | none => bankd_conn_by_id srv1 m.bank.bank_id
      let coords : Option (Option (Nat × Nat)) :=
        if m.state = SLMAP_S_DELETING then some (some (0, 0))
        else
          match bankd with
          | none => some (some (0, 0))
          | some b =>
            match b.peer with
            | none => none
            | some stream =>
              match stream.remote_ip with
              | none => some none
              | some ip => some (some (ip, 9999))
      match coords with
      | none => none
      | some none => some srv1
      | some (some (bankd_ip, bankd_port)) =>
        let changed_ip :=
          conn.client.bankd.port != bankd_port || conn.client.bankd.ip != bankd_ip
        let srv2 :=
          if changed_ip then
            update_conn srv1 conn.addr
              (fun c => { c with client.bankd.ip := bankd_ip, client.bankd.port := bankd_port })
          else srv1
        if changed_slot || changed_ip then
          some (osmo_fsm_inst_dispatch_inner srv2 conn.addr CLNTC_E_CL_CFG_BANKD)
        else some srv2

/-- Callback `clnt_st_connected_client_onenter`; `none` when the client
update has no defined behaviour. -/
def clnt_st_connected_client_onenter (srv : rspro_server) (conn : Nat) :
    Option rspro_server :=
  match find_conn srv conn with
  | none => some srv
  | some c =>
    match srv.slotmaps.mappings.find? (fun map => client_slot_equals map.client c.client.slot) with
    | none => some srv
    | some map => _update_client_for_slotmap map.addr srv none

/-- Callback `clnt_st_connected_bankd_onenter`. -/
def clnt_st_connected_bankd_onenter (srv : rspro_server) (conn : Nat) : rspro_server :=
  match find_conn srv conn with
  | none => srv
  | some c =>
    srv.slotmaps.mappings.foldl
      (fun s map =>
        if map.bank.bank_id = c.bank.bank_id then
          _slotmap_state_change s map.addr SLMAP_S_NEW (some (conn, bank_list_head.maps_new))
        else s)
      srv

/-- Table `server_client_fsm_states[].onenter`; `none` when the callback has
no defined behaviour. -/
def server_client_fsm_onenter (state : remsim_server_client_fsm_state) (srv : rspro_server)
    (conn : Nat) : Option rspro_server :=
  match state with
  | CLNTC_ST_CONNECTED_CLIENT => clnt_st_connected_client_onenter srv conn
  | CLNTC_ST_CONNECTED_BANKD => some (clnt_st_connected_bankd_onenter srv conn)
  | _ => some srv

/-- Library call `osmo_fsm_inst_state_chg`: a state outside the
`out_state_mask` of the current state is refused; else the pending timer is
deleted, the state is set, `T` is stored and the timer is armed when
`timeout_secs` is not zero, and the `onenter` callback of the new state runs
last. The server FSM has no `onleave` callback. The result is `none` when the
`onenter` callback has no defined behaviour. -/
def osmo_fsm_inst_state_chg (srv : rspro_server) (conn : Nat)
    (new_state : remsim_server_client_fsm_state) (timeout_secs : Nat) (T : Nat) :
    Option rspro_server :=
  match conn_fi srv conn with
  | none => some srv
  | some fi =>
    if new_state ∈ out_state_mask fi.state then
      server_client_fsm_onenter new_state
        (update_conn srv conn (fun c =>
          { c with fi := some { state := new_state, T := T,
                                timer := if timeout_secs = 0 then none else some timeout_secs } }))
        conn
    else some srv

/-- One round of the first three loops of `_unlink_all_slotmaps`. -/
def unlink_to_new (srv : rspro_server) (smap : Nat) : rspro_server :=
  _slotmap_state_change srv smap SLMAP_S_NEW none

/-- Function `_unlink_all_slotmaps`; each loop walks the queue as it is when
the loop starts. -/
def _unlink_all_slotmaps (srv : rspro_server) (conn : Nat) : rspro_server :=
  let q := fun (s : rspro_server) (head : bank_list_head) =>
    match find_conn s conn with
    | none => []
    | some c => c.bank.queue head
  let srv1 := (q srv bank_list_head.maps_new).foldl unlink_to_new srv
  let srv2 := (q srv1 bank_list_head.maps_unack).foldl unlink_to_new srv1
  let srv3 := (q srv2 bank_list_head.maps_active).foldl unlink_to_new srv2
  let srv4 := (q srv3 bank_list_head.maps_delreq).foldl _slotmap_del srv3
  (q srv4 bank_list_head.maps_deleting).foldl _slotmap_del srv4

/-- Function `rspro_client_conn_destroy`: with a stream still attached, the
stream is destroyed, `conn->peer` is cleared and the function returns; else the
mappings are unlinked, the record leaves its registry list and is freed. -/
def rspro_client_conn_destroy (srv : rspro_server) (conn : Nat) : rspro_server :=
  match find_conn srv conn with
  | none => srv
  | some c =>
    match c.peer with
    | some _ => update_conn srv conn (fun c => { c with peer := none })
    | none =>
      let srv1 := _unlink_all_slotmaps srv conn
      { srv1 with
        connections := srv1.connections.filter (fun c => c.addr != conn)
        clients := srv1.clients.filter (fun c => c.addr != conn)
        banks := srv1.banks.filter (fun c => c.addr != conn) }

/-- Callback `server_client_cleanup`. -/
def server_client_cleanup (srv : rspro_server) (conn : Nat) : rspro_server :=
  rspro_client_conn_destroy (update_conn srv conn (fun c => { c with fi := none })) conn

/-- Library call `osmo_fsm_inst_term`: the `cleanup` callback runs and the
instance is freed. The cause is recorded in `term_cause`. -/
def osmo_fsm_inst_term (srv : rspro_server) (conn : Nat) (cause : osmo_fsm_term_cause) :
    rspro_server :=
  match conn_fi srv conn with
  | none => srv
  | some _ =>
    server_client_cleanup
      (update_conn srv conn (fun c => { c with term_cause := some cause })) conn

/-- Action `clnt_st_init`. -/
def clnt_st_init (srv : rspro_server) (conn : Nat) (event : remsim_server_client_event) :
    Option rspro_server :=
  match event with
  | CLNTC_E_TCP_UP => osmo_fsm_inst_state_chg srv conn CLNTC_ST_ESTABLISHED 10 1
  | _ => some srv

/-- Action `clnt_st_established`. `data` is the PDU that `handle_rx_rspro`
passes along with the event. The result is `none` where the code has no
defined behaviour: the action starts by reading the descriptor of its own
stream, `osmo_stream_srv_get_fd(conn->peer)`, each collision branch reads the
one of the peer it found, `osmo_stream_srv_get_fd(previous_conn->peer)`, and a
stream that is gone is `NULL` there; and where the on-entry action of the new
state has none. -/
def clnt_st_established (srv : rspro_server) (conn : Nat)
    (event : remsim_server_client_event) (data : Option RsproPDU) : Option rspro_server :=
  match (find_conn srv conn).bind (fun c => c.peer) with
  | none => none
  | some _ =>
    match event, data with
    | CLNTC_E_CLIENT_CONN, some (RsproPDU.connectClientReq identity clientSlot) =>
      let srv1 := update_conn srv conn (fun c => { c with comp_id_type := identity })
      if identity ≠ ComponentType.remsimClient then
        some (osmo_fsm_inst_term srv1 conn OSMO_FSM_TERM_ERROR)
      else
        match clientSlot with
        | none => some (osmo_fsm_inst_term srv1 conn OSMO_FSM_TERM_ERROR)
        | some cs =>
          let srv2 := update_conn srv1 conn
            (fun c => { c with client.slot := rspro2client_slot cs })
          let previous_conn := client_conn_by_slot srv2 (rspro2client_slot cs)
          if (previous_conn.map (fun p => p.addr != conn)).getD false then
            match previous_conn.bind (fun p => p.peer) with
            | none => none
            | some _ =>
              osmo_fsm_inst_state_chg
                (client_conn_send srv2 conn
                  (rspro_gen_ConnectClientRes ResultCode.identityInUse))
                conn CLNTC_ST_REJECTED 1 2
          else
            match find_conn srv2 conn with
            | none => some srv2
            | some c =>
              let srv3 : rspro_server :=
                { srv2 with
                  connections := srv2.connections.filter (fun x => x.addr != conn)
                  clients := srv2.clients.filter (fun x => x.addr != conn) ++ [c]
                  banks := srv2.banks.filter (fun x => x.addr != conn) }
              osmo_fsm_inst_state_chg
                (client_conn_send srv3 conn (rspro_gen_ConnectClientRes ResultCode.ok))
                conn CLNTC_ST_CONNECTED_CLIENT 0 0
    | CLNTC_E_BANK_CONN, some (RsproPDU.connectBankReq identity bankId numberOfSlots) =>
      let srv1 := update_conn srv conn (fun c => { c with comp_id_type := identity })
      if identity ≠ ComponentType.remsimBankd then
        some (osmo_fsm_inst_term srv1 conn OSMO_FSM_TERM_ERROR)
      else
        let srv2 := update_conn srv1 conn
          (fun c => { c with bank.bank_id := bankId % 65536,
                             bank.num_slots := numberOfSlots % 65536 })
        let previous_conn := bankd_conn_by_id srv2 (bankId % 65536)
        if (previous_conn.map (fun p => p.addr != conn)).getD false then
          match previous_conn.bind (fun p => p.peer) with
          | none => none
          | some _ =>
            osmo_fsm_inst_state_chg
              (client_conn_send srv2 conn (rspro_gen_ConnectBankRes ResultCode.identityInUse))
              conn CLNTC_ST_REJECTED 1 2
        else
          match find_conn srv2 conn with
          | none => some srv2
          | some c =>
            let srv3 : rspro_server :=
              { srv2 with
                connections := srv2.connections.filter (fun x => x.addr != conn)
                clients := srv2.clients.filter (fun x => x.addr != conn)
                banks := srv2.banks.filter (fun x => x.addr != conn) ++ [c] }
            (osmo_fsm_inst_state_chg
              (client_conn_send srv3 conn (rspro_gen_ConnectBankRes ResultCode.ok))
              conn CLNTC_ST_CONNECTED_BANKD 0 0).map
              (fun s => osmo_fsm_inst_dispatch_inner s conn CLNTC_E_PUSH)
    | _, _ => some srv

/-- Action `clnt_st_wait_cl_conf_res`. -/
def clnt_st_wait_cl_conf_res (srv : rspro_server) (conn : Nat)
    (event : remsim_server_client_event) : Option rspro_server :=
  match event with
  | CLNTC_E_CONFIG_CL_RES => osmo_fsm_inst_state_chg srv conn CLNTC_ST_CONNECTED_CLIENT 0 0
  | _ => some srv

/-- Action `clnt_st_connected_bankd`. The result is `none` when the C code
aborts or has no defined behaviour: `llist_first_entry` of an empty queue is
not `NULL` but a pointer computed from the list head, which is no mapping, so
the `!map` test cannot fire; `OSMO_ASSERT` aborts when the head of
`maps_deleting` is not in state DELETING; the client update may have none; and
`slotmap_del(map->maps, map)` is handed the `NULL` of `map->maps`. -/
def clnt_st_connected_bankd (srv : rspro_server) (conn : Nat)
    (event : remsim_server_client_event) : Option rspro_server :=
  match event with
  | CLNTC_E_CREATE_MAP_RES =>
    match find_conn srv conn with
    | none => none
    | some c =>
      match c.bank.maps_unack with
      | [] => none
      | map :: _ =>
        _update_client_for_slotmap map
          (_slotmap_state_change srv map SLMAP_S_ACTIVE
            (some (conn, bank_list_head.maps_active)))
          (some conn)
  | CLNTC_E_REMOVE_MAP_RES =>
    match find_conn srv conn with
    | none => none
    | some c =>
      match c.bank.maps_deleting with
      | [] => none
      | map :: _ =>
        match slotmap_deref srv.slotmaps map with
        | none => none
        | some m =>
          if m.state = SLMAP_S_DELETING then
            (_update_client_for_slotmap map srv (some conn)).bind
              (fun srv1 => server_slotmap_del srv1 m.maps map)
          else none
  | CLNTC_E_PUSH => some (clnt_st_connected_bankd_push srv conn)
  | _ => none

/-- Action `clnt_allstate_action`. -/
def clnt_allstate_action (srv : rspro_server) (conn : Nat)
    (event : remsim_server_client_event) : rspro_server :=
  match event with
  | CLNTC_E_TCP_DOWN => osmo_fsm_inst_term srv conn OSMO_FSM_TERM_REGULAR
  | CLNTC_E_KA_TIMEOUT => osmo_fsm_inst_term srv conn OSMO_FSM_TERM_REGULAR
  | _ => srv

/-- Library call `osmo_fsm_inst_dispatch` on the FSM
`remsim_server_client_fsm`: without an instance nothing happens; an event of
the `allstate_event_mask` goes to the all-state action; an event outside the
`in_event_mask` of the current state is logged and dropped; else the action of
the state runs (REJECTED has none). The result is `none` when the action
aborts or has no defined behaviour. -/
def osmo_fsm_inst_dispatch (srv : rspro_server) (conn : Nat)
    (event : remsim_server_client_event) (data : Option RsproPDU) : Option rspro_server :=
  match conn_fi srv conn with
  | none => some srv
  | some fi =>
    if event ∈ allstate_event_mask then some (clnt_allstate_action srv conn event)
    else if event ∈ in_event_mask fi.state then
      match fi.state with
      | CLNTC_ST_INIT => clnt_st_init srv conn event
      | CLNTC_ST_ESTABLISHED => clnt_st_established srv conn event data
      | CLNTC_ST_WAIT_CONF_RES => clnt_st_wait_cl_conf_res srv conn event
      | CLNTC_ST_CONNECTED_BANKD => clnt_st_connected_bankd srv conn event
      | CLNTC_ST_CONNECTED_CLIENT => some (clnt_st_connected_client srv conn event)
      | CLNTC_ST_REJECTED => some srv
    else some srv

/-- Callback `server_client_fsm_timer_cb` on the timer number `T`: `some 1`
asks the core to terminate the instance, `none` is the `OSMO_ASSERT(0)`. -/
def server_client_fsm_timer_cb (T : Nat) : Option Int :=
  match T with
  | 1 => some 1
  | 2 => some 1
  | _ => none

/-- Expiry of the timer of the instance of `conn` (library function
`fsm_tmr_cb`): the timer callback runs, and on its result 1 the instance is
terminated with cause `OSMO_FSM_TERM_TIMEOUT`. Without a pending timer nothing
expires. -/
def fsm_tmr_cb (srv : rspro_server) (conn : Nat) : Option rspro_server :=
  match conn_fi srv conn with
  | none => some srv
  | some fi =>
    match fi.timer with
    | none => some srv
    | some _ =>
      match server_client_fsm_timer_cb fi.T with
      | none => none
      | some rc =>
        if rc = 1 then some (osmo_fsm_inst_term srv conn OSMO_FSM_TERM_TIMEOUT)
        else some srv

/-- Function `handle_rx_rspro`: return value and server state, `none` when the
dispatched action aborts or has no defined behaviour. -/
def handle_rx_rspro (srv : rspro_server) (conn : Nat) (pdu : RsproPDU) :
    Option (Int × rspro_server) :=
  match pdu with
  | RsproPDU.connectClientReq _ _ =>
    (osmo_fsm_inst_dispatch srv conn CLNTC_E_CLIENT_CONN (some pdu)).map (fun s => (0, s))
  | RsproPDU.connectBankReq _ _ _ =>
    (osmo_fsm_inst_dispatch srv conn CLNTC_E_BANK_CONN (some pdu)).map (fun s => (0, s))
  | RsproPDU.createMappingRes _ =>
    (osmo_fsm_inst_dispatch srv conn CLNTC_E_CREATE_MAP_RES (some pdu)).map (fun s => (0, s))
  | RsproPDU.removeMappingRes _ =>
    (osmo_fsm_inst_dispatch srv conn CLNTC_E_REMOVE_MAP_RES (some pdu)).map (fun s => (0, s))
  | RsproPDU.configClientIdRes _ =>
    (osmo_fsm_inst_dispatch srv conn CLNTC_E_CONFIG_CL_RES (some pdu)).map (fun s => (0, s))
  | RsproPDU.configClientBankRes _ => some (0, srv)
  | _ => some (-1, srv)

/-- Callback `sock_closed_cb` of the stream of `conn`: a stream whose data
pointer was cleared does nothing; else `conn->peer` is cleared and
`CLNTC_E_TCP_DOWN` is dispatched when there is an instance. -/
def sock_closed_cb (srv : rspro_server) (conn : Nat) : Option rspro_server :=
  match find_conn srv conn with
  | none => some srv
  | some c =>
    match c.peer with
    | none => some srv
    | some _ =>
      match c.fi with
      | none => some srv
      | some _ =>
        osmo_fsm_inst_dispatch (update_conn srv conn (fun c => { c with peer := none })) conn
          CLNTC_E_TCP_DOWN none

/-- The zeroed peer record that `accept_cb` sets up before it links it: the
stream, the FSM instance in its initial state, empty queues. -/
def accept_conn (conn : Nat) (stream : osmo_stream_srv) : rspro_client_conn :=
  { addr := conn
    peer := some stream
    fi := some { state := CLNTC_ST_INIT, T := 0, timer := none }
    comp_id_type := ComponentType.remsimClient
    client := { slot := ⟨0, 0⟩, bankd := { slot := ⟨0, 0⟩, ip := 0, port := 0 } }
    bank := { bank_id := 0, num_slots := 0, maps_new := [], maps_unack := [],
              maps_active := [], maps_delreq := [], maps_deleting := [] }
    tx := []
    term_cause := none }

/-- Function `accept_cb` when its three allocations succeed (each failure exit
returns -1 before the record is linked to a list): `conn` is the address of the
new record, `stream` the accepted connection. -/
def accept_cb (srv : rspro_server) (conn : Nat) (stream : osmo_stream_srv) :
    Option rspro_server :=
  osmo_fsm_inst_dispatch
    { srv with connections := srv.connections ++ [accept_conn conn stream] }
    conn CLNTC_E_TCP_UP none

/-- Function `event_fd_cb`. `rc` is what `read` returns. -/
def event_fd_cb (srv : rspro_server) (rc : Int) : Int × rspro_server :=
  if rc < 8 then (rc, srv)
  else
    (0, srv.banks.foldl
      (fun s conn =>
        match find_conn s conn.addr with
        | none => s
        | some c =>
          let non_empty_new := c.bank.maps_new.isEmpty
          let non_empty_del := c.bank.maps_delreq.isEmpty
          if non_empty_new || non_empty_del then
            osmo_fsm_inst_dispatch_inner s conn.addr CLNTC_E_PUSH
          else s)
      srv)

/-- Function `rspro_server_create` as far as the state goes: three empty
registries; the mapping set is the one of `slotmap_init`. -/
def rspro_server_create : rspro_server :=
  { connections := [], clients := [], banks := [], slotmaps := slotmap_init }

/-- Addresses of the live peer records. -/
def conn_addrs (srv : rspro_server) : List Nat :=
  (srv.connections ++ srv.clients ++ srv.banks).map (fun c => c.addr)

/-- What can happen to the server from outside. -/
inductive server_input where
  | accept (conn : Nat) (stream : osmo_stream_srv)
  | rx (conn : Nat) (pdu : RsproPDU)
  | closed (conn : Nat)
  | ka_timeout (conn : Nat)
  | timer (conn : Nat)
  | event_fd (rc : Int)
  | slotmap_add (bank : bank_slot) (client : client_slot) (talloc : Option Nat)
deriving DecidableEq, Repr

/-- One step of the server main loop. There is no next state (`none`) when the
code aborts or has no defined behaviour, and when the input cannot occur: an
allocator hands out no address of a live record. -/
def server_step (srv : rspro_server) : server_input → Option rspro_server
  | .accept conn stream =>
    if conn ∈ conn_addrs srv then none else accept_cb srv conn stream
  | .rx conn pdu => (handle_rx_rspro srv conn pdu).map (fun r => r.2)
  | .closed conn => sock_closed_cb srv conn
  | .ka_timeout conn => osmo_fsm_inst_dispatch srv conn CLNTC_E_KA_TIMEOUT none
  | .timer conn => fsm_tmr_cb srv conn
  | .event_fd rc => some (event_fd_cb srv rc).2
  | .slotmap_add bank client talloc =>
    match talloc with
    | none => some (server_slotmap_add srv bank client none).2
    | some a =>
      if a ∈ srv.slotmaps.mappings.map (fun m => m.addr) then none
      else some (server_slotmap_add srv bank client (some a)).2

/-- The server after a finite sequence of inputs, first input first. -/
def server_run (srv : rspro_server) : List server_input → Option rspro_server
  | [] => some srv
  | i :: rest =>
    match server_step srv i with
    | none => none
    | some srv1 => server_run srv1 rest

/-- No two peers on `clients` have the same client slot and no two peers on
`banks` have the same bank id. -/
def registries_unique (srv : rspro_server) : Prop :=
  srv.clients.Pairwise (fun c1 c2 => c1.client.slot ≠ c2.client.slot) ∧
  srv.banks.Pairwise (fun c1 c2 => c1.bank.bank_id ≠ c2.bank.bank_id)


/-- What the registry invariants depend on in a peer record: its address, its
client slot, its bank id and the state of its FSM instance. -/
structure peer_key where
  addr : Nat
  slot : client_slot
  bank_id : Nat
  state : Option remsim_server_client_fsm_state
deriving DecidableEq, Repr

/-- Key of a peer record. -/
def conn_key (c : rspro_client_conn) : peer_key :=
  { addr := c.addr, slot := c.client.slot, bank_id := c.bank.bank_id,
    state := c.fi.map (fun fi => fi.state) }

/-- The three registries reduced to keys. -/
structure registry_view where
  connections : List peer_key
  clients : List peer_key
  banks : List peer_key
deriving DecidableEq, Repr

/-- The three registries of a server reduced to the keys of their records. -/
def registry_keys (srv : rspro_server) : registry_view :=
  { connections := srv.connections.map conn_key
    clients := srv.clients.map conn_key
    banks := srv.banks.map conn_key }

/-- First key with the address, in the order in which `find_conn` looks. -/
def registry_view.find (k : registry_view) (a : Nat) : Option peer_key :=
  (k.connections ++ k.clients ++ k.banks).find? (fun x => x.addr == a)

/-- Keys after a write through the pointer `a`. -/
def registry_view.update (k : registry_view) (a : Nat) (g : peer_key → peer_key) :
    registry_view :=
  { connections := k.connections.map (fun x => if x.addr = a then g x else x)
    clients := k.clients.map (fun x => if x.addr = a then g x else x)
    banks := k.banks.map (fun x => if x.addr = a then g x else x) }

/-- Keys after the record at `a` left its list. -/
def registry_view.remove (k : registry_view) (a : Nat) : registry_view :=
  { connections := k.connections.filter (fun x => x.addr != a)
    clients := k.clients.filter (fun x => x.addr != a)
    banks := k.banks.filter (fun x => x.addr != a) }

/-- Invariant of the registries: client slots on `clients` are pairwise
distinct, bank ids on `banks` are pairwise distinct, no record of `clients` or
`banks` has the address of a record on `connections`, and no record of
`clients` or `banks` has an instance in INIT or ESTABLISHED. -/
def registry_view.inv (k : registry_view) : Prop :=
  (k.clients.map (fun x => x.slot)).Nodup ∧
  (k.banks.map (fun x => x.bank_id)).Nodup ∧
  (∀ x ∈ k.clients ++ k.banks, ∀ y ∈ k.connections, x.addr ≠ y.addr) ∧
  (∀ x ∈ k.clients ++ k.banks,
    x.state ≠ some CLNTC_ST_INIT ∧ x.state ≠ some CLNTC_ST_ESTABLISHED)

/-- A peer that is on `connections` and whose address is on neither `clients`
nor `banks`. -/
def unregistered (srv : rspro_server) (c : rspro_client_conn) : Prop :=
  srv.connections.find? (fun x => x.addr == c.addr) = some c ∧
  ∀ y ∈ srv.clients ++ srv.banks, y.addr ≠ c.addr

/-- The server after writes through the pointer `a` to a peer that is on
`connections` only: `g` is what the writes together do to the record. -/
def conn_written (srv : rspro_server) (a : Nat)
    (g : rspro_client_conn → rspro_client_conn) : rspro_server :=
  { srv with connections := srv.connections.map (conn_write a g) }

/-- The server after the record `x` was taken off `connections` and appended
to `clients`. -/
def conn_to_clients (srv : rspro_server) (x : rspro_client_conn) : rspro_server :=
  { srv with
    connections := srv.connections.filter (fun c => c.addr != x.addr)
    clients := srv.clients ++ [x] }

/-- The server after the record `x` was taken off `connections` and appended
to `banks`. -/
def conn_to_banks (srv : rspro_server) (x : rspro_client_conn) : rspro_server :=
  { srv with
    connections := srv.connections.filter (fun c => c.addr != x.addr)
    banks := srv.banks ++ [x] }

/-! ## The reconnect schedule of the client FSM (`rspro_client_fsm.c`) -/

/-- Table `k_reestablish_delay_s`: the seconds to wait before a reconnect
attempt, by the number of attempts made so far: three immediate retries, then
thirty entries each of 1, 2, 4 and 8 seconds, then 16 seconds. -/
def k_reestablish_delay_s : List Int :=
  [0, 0, 0,
   1, 1, 1, 1, 1, 1, 1, 1, 1, 1,
   1, 1, 1, 1, 1, 1, 1, 1, 1, 1,
   1, 1, 1, 1, 1, 1, 1, 1, 1, 1,
   2, 2, 2, 2, 2, 2, 2, 2, 2, 2,
   2, 2, 2, 2, 2, 2, 2, 2, 2, 2,
   2, 2, 2, 2, 2, 2, 2, 2, 2, 2,
   4, 4, 4, 4, 4, 4, 4, 4, 4, 4,
   4, 4, 4, 4, 4, 4, 4, 4, 4, 4,
   4, 4, 4, 4, 4, 4, 4, 4, 4, 4,
   8, 8, 8, 8, 8, 8, 8, 8, 8, 8,
   8, 8, 8, 8, 8, 8, 8, 8, 8, 8,
   8, 8, 8, 8, 8, 8, 8, 8, 8, 8,
   16]

/-- Macro `REESTABLISH_DELAY_COUNT`: `ARRAY_SIZE(k_reestablish_delay_s)`. -/
def REESTABLISH_DELAY_COUNT : Nat := k_reestablish_delay_s.length

/-! ## Concrete states used as test inputs -/

/-- Record of the peer at address `a` once `accept_cb` has returned: the FSM is
in ESTABLISHED with timer T1 armed for 10 seconds. -/
def example_peer (a ip : Nat) : rspro_client_conn :=
  { accept_conn a ⟨some ip⟩ with
    fi := some { state := CLNTC_ST_ESTABLISHED, T := 1, timer := some 10 } }

/-- Two mappings in the global set, no peer registered, peer 1 waiting for its
handshake. -/
def example_waiting : rspro_server :=
  { connections := [example_peer 1 100]
    clients := []
    banks := []
    slotmaps := ⟨[⟨50, ⟨3, 5⟩, ⟨7, 0⟩, SLMAP_S_NEW⟩, ⟨51, ⟨4, 1⟩, ⟨8, 0⟩, SLMAP_S_NEW⟩]⟩ }

/-- Client `(7, 0)` and bank 3 are connected, peer 9 is waiting for its
handshake. -/
def example_conflict : rspro_server :=
  { connections := [example_peer 9 900]
    clients :=
      [{ example_peer 1 100 with
         client := { slot := ⟨7, 0⟩, bankd := { slot := ⟨0, 0⟩, ip := 0, port := 0 } }
         fi := some { state := CLNTC_ST_CONNECTED_CLIENT, T := 0, timer := none }
         tx := [RsproPDU.connectClientRes ResultCode.ok] }]
    banks :=
      [{ example_peer 2 200 with
         comp_id_type := ComponentType.remsimBankd
         bank := ⟨3, 8, [], [], [], [], []⟩
         fi := some { state := CLNTC_ST_CONNECTED_BANKD, T := 0, timer := none }
         tx := [RsproPDU.connectBankRes ResultCode.ok] }]
    slotmaps := slotmap_init }

/-- Bank 3 is connected, the mapping set is empty. -/
def example_bank_connected : rspro_server :=
  { connections := []
    clients := []
    banks :=
      [{ example_peer 2 200 with
         comp_id_type := ComponentType.remsimBankd
         bank := ⟨3, 8, [], [], [], [], []⟩
         fi := some { state := CLNTC_ST_CONNECTED_BANKD, T := 0, timer := none }
         tx := [RsproPDU.connectBankRes ResultCode.ok] }]
    slotmaps := slotmap_init }

/-- A run of the server: two mappings are added, a client connects, a second
peer claims the same client slot, a bank connects. -/
def example_inputs : List server_input :=
  [ .slotmap_add ⟨3, 5⟩ ⟨7, 0⟩ (some 50),
    .slotmap_add ⟨4, 1⟩ ⟨8, 0⟩ (some 51),
    .accept 1 ⟨some 100⟩,
    .rx 1 (RsproPDU.connectClientReq ComponentType.remsimClient (some ⟨7, 0⟩)),
    .accept 2 ⟨some 200⟩,
    .rx 2 (RsproPDU.connectClientReq ComponentType.remsimClient (some ⟨7, 0⟩)),
    .accept 3 ⟨some 300⟩,
    .rx 3 (RsproPDU.connectBankReq ComponentType.remsimBankd 3 8) ]

/-- The server that `example_inputs` leads to from `rspro_server_create`. -/
def example_final : rspro_server :=
  { connections :=
      [{ example_peer 2 200 with
         client := { slot := ⟨7, 0⟩, bankd := { slot := ⟨0, 0⟩, ip := 0, port := 0 } }
         fi := some { state := CLNTC_ST_REJECTED, T := 2, timer := some 1 }
         tx := [RsproPDU.connectClientRes ResultCode.identityInUse] }]
    clients :=
      [{ example_peer 1 100 with
         client := { slot := ⟨7, 0⟩, bankd := { slot := ⟨3, 5⟩, ip := 0, port := 0 } }
         fi := some { state := CLNTC_ST_CONNECTED_CLIENT, T := 0, timer := none }
         tx := [RsproPDU.connectClientRes ResultCode.ok,
                RsproPDU.configClientBankReq ⟨3, 5⟩ 0 0] }]
    banks :=
      [{ example_peer 3 300 with
         comp_id_type := ComponentType.remsimBankd
         bank := ⟨3, 8, [], [50], [], [], []⟩
         fi := some { state := CLNTC_ST_CONNECTED_BANKD, T := 0, timer := none }
         tx := [RsproPDU.connectBankRes ResultCode.ok,
                RsproPDU.createMappingReq ⟨7, 0⟩ ⟨3, 5⟩] }]
    slotmaps :=
      ⟨[⟨50, ⟨3, 5⟩, ⟨7, 0⟩, SLMAP_S_UNACKNOWLEDGED⟩, ⟨51, ⟨4, 1⟩, ⟨8, 0⟩, SLMAP_S_NEW⟩]⟩ }

/-- The five queues of `conn->bank` one after the other. -/
def conn_bank.all (b : conn_bank) : List Nat :=
  b.maps_new ++ b.maps_unack ++ b.maps_active ++ b.maps_delreq ++ b.maps_deleting

/-- The server after every peer record went through `F` and the list of
mappings through `G`. -/
def srv_map (F : rspro_client_conn → rspro_client_conn)
    (G : List slot_mapping → List slot_mapping) (srv : rspro_server) : rspro_server :=
  { connections := srv.connections.map F
    clients := srv.clients.map F
    banks := srv.banks.map F
    slotmaps := ⟨G srv.slotmaps.mappings⟩ }

/-- The mappings with an address in `as` get the state `st`. -/
def set_states (as : List Nat) (st : slot_mapping_state) (L : List slot_mapping) :
    List slot_mapping :=
  L.map (fun y => if y.addr ∈ as then { y with state := st } else y)

/-- A write that leaves the queues, the instance and the stream of a peer
alone. -/
def keeps_link (g : rspro_client_conn → rspro_client_conn) : Prop :=
  ∀ y, (g y).bank = y.bank ∧ (g y).fi = y.fi ∧ (g y).peer = y.peer

/-- The bank coordinates that `_update_client_for_slotmap` works out for the
mapping `m` (its `bankd_ip` and `bankd_port`) on the server `srv1`: `none` when
the stream of the bank peer is gone (no defined behaviour), `some none` when
`osmo_sock_get_ip_and_port` fails. -/
def bankd_coords (srv1 : rspro_server) (m : slot_mapping) (bankd_conn : Option Nat) :
    Option (Option (Nat × Nat)) :=
  if m.state = SLMAP_S_DELETING then some (some (0, 0))
  else
    match (match bankd_conn with
      | some b => find_conn srv1 b
      | none => bankd_conn_by_id srv1 m.bank.bank_id) with
    | none => some (some (0, 0))
    | some b =>
      match b.peer with
      | none => none
      | some stream =>
        match stream.remote_ip with
        | none => some none
        | some ip => some (some (ip, 9999))

/-- Record of bank 3 at address 2 in CONNECTED_BANKD with the five queues
`bank`. -/
def example_bank (new unack active delreq deleting : List Nat) (tx : List RsproPDU) :
    rspro_client_conn :=
  { addr := 2
    peer := some ⟨some 200⟩
    fi := some { state := CLNTC_ST_CONNECTED_BANKD, T := 0, timer := none }
    comp_id_type := ComponentType.remsimBankd
    client := { slot := ⟨0, 0⟩, bankd := { slot := ⟨0, 0⟩, ip := 0, port := 0 } }
    bank := ⟨3, 8, new, unack, active, delreq, deleting⟩
    tx := RsproPDU.connectBankRes ResultCode.ok :: tx
    term_cause := none }

/-- Record of client `(7, 0)` at address 1 in CONNECTED_CLIENT with the
last-known coordinates `bankd`. -/
def example_client (bankd : conn_bankd) (tx : List RsproPDU) : rspro_client_conn :=
  { addr := 1
    peer := some ⟨some 100⟩
    fi := some { state := CLNTC_ST_CONNECTED_CLIENT, T := 0, timer := none }
    comp_id_type := ComponentType.remsimClient
    client := { slot := ⟨7, 0⟩, bankd := bankd }
    bank := ⟨0, 0, [], [], [], [], []⟩
    tx := RsproPDU.connectClientRes ResultCode.ok :: tx
    term_cause := none }

/-- Bank 3 is connected and has work pending on both queues: mapping 50 waits
on `maps_new`, mapping 51 on `maps_delreq`. -/
def example_pending : rspro_server :=
  { connections := []
    clients := []
    banks := [example_bank [50] [] [] [51] [] []]
    slotmaps := ⟨[⟨50, ⟨3, 5⟩, ⟨7, 0⟩, SLMAP_S_NEW⟩, ⟨51, ⟨3, 6⟩, ⟨8, 0⟩, SLMAP_S_DELETE_REQ⟩]⟩ }

/-- The server `example_pending` after a PUSH to bank 3. -/
def example_pushed : rspro_server :=
  { connections := []
    clients := []
    banks := [example_bank [] [50] [] [] [51]
      [RsproPDU.createMappingReq ⟨7, 0⟩ ⟨3, 5⟩, RsproPDU.removeMappingReq ⟨8, 0⟩ ⟨3, 6⟩]]
    slotmaps :=
      ⟨[⟨50, ⟨3, 5⟩, ⟨7, 0⟩, SLMAP_S_UNACKNOWLEDGED⟩, ⟨51, ⟨3, 6⟩, ⟨8, 0⟩, SLMAP_S_DELETING⟩]⟩ }

/-- A run of the server: a mapping is added, bank 3 connects and acknowledges
the mapping, then client `(7, 0)` connects and is told where the bank is. -/
def example_active_inputs : List server_input :=
  [ .slotmap_add ⟨3, 5⟩ ⟨7, 0⟩ (some 50),
    .accept 2 ⟨some 200⟩,
    .rx 2 (RsproPDU.connectBankReq ComponentType.remsimBankd 3 8),
    .rx 2 (RsproPDU.createMappingRes ResultCode.ok),
    .accept 1 ⟨some 100⟩,
    .rx 1 (RsproPDU.connectClientReq ComponentType.remsimClient (some ⟨7, 0⟩)) ]

/-- The server that `example_active_inputs` leads to: mapping 50 is ACTIVE on
the `maps_active` queue of bank 3, and client `(7, 0)` knows the bank at
address 200, port 9999. -/
def example_active : rspro_server :=
  { connections := []
    clients := [example_client ⟨⟨3, 5⟩, 200, 9999⟩ [RsproPDU.configClientBankReq ⟨3, 5⟩ 200 9999]]
    banks := [example_bank [] [] [50] [] [] [RsproPDU.createMappingReq ⟨7, 0⟩ ⟨3, 5⟩]]
    slotmaps := ⟨[⟨50, ⟨3, 5⟩, ⟨7, 0⟩, SLMAP_S_ACTIVE⟩]⟩ }

/-- The server `example_active` after the stream of bank 3 closed. -/
def example_bank_gone : rspro_server :=
  { connections := []
    clients := [example_client ⟨⟨3, 5⟩, 200, 9999⟩ [RsproPDU.configClientBankReq ⟨3, 5⟩ 200 9999]]
    banks := []
    slotmaps := ⟨[⟨50, ⟨3, 5⟩, ⟨7, 0⟩, SLMAP_S_NEW⟩]⟩ }

/-- The server `example_active` after the keep-alive of bank 3 timed out. -/
def example_bank_timed_out : rspro_server :=
  { connections := []
    clients := [example_client ⟨⟨3, 5⟩, 200, 9999⟩ [RsproPDU.configClientBankReq ⟨3, 5⟩ 200 9999]]
    banks :=
      [{ example_bank [] [] [50] [] [] [RsproPDU.createMappingReq ⟨7, 0⟩ ⟨3, 5⟩] with
         peer := none
         fi := none
         term_cause := some OSMO_FSM_TERM_REGULAR }]
    slotmaps := ⟨[⟨50, ⟨3, 5⟩, ⟨7, 0⟩, SLMAP_S_ACTIVE⟩]⟩ }

/-- Bank 3 was sent the removeMappingReq of mapping 50, which is DELETING on
its `maps_deleting` queue; client `(7, 0)` knows the bank at address 200, port
9999. -/
def example_deleting : rspro_server :=
  { connections := []
    clients := [example_client ⟨⟨3, 5⟩, 200, 9999⟩ [RsproPDU.configClientBankReq ⟨3, 5⟩ 200 9999]]
    banks := [example_bank [] [] [] [] [50]
      [RsproPDU.createMappingReq ⟨7, 0⟩ ⟨3, 5⟩, RsproPDU.removeMappingReq ⟨7, 0⟩ ⟨3, 5⟩]]
    slotmaps := ⟨[⟨50, ⟨3, 5⟩, ⟨7, 0⟩, SLMAP_S_DELETING⟩]⟩ }

/-- The server `example_deleting` after the client update that the
removeMappingRes of bank 3 starts with: client `(7, 0)` was told ip 0 and
port 0; mapping 50 is where it was. -/
def example_client_cleared : rspro_server :=
  { connections := []
    clients := [example_client ⟨⟨3, 5⟩, 0, 0⟩
      [RsproPDU.configClientBankReq ⟨3, 5⟩ 200 9999, RsproPDU.configClientBankReq ⟨3, 5⟩ 0 0]]
    banks := [example_bank [] [] [] [] [50]
      [RsproPDU.createMappingReq ⟨7, 0⟩ ⟨3, 5⟩, RsproPDU.removeMappingReq ⟨7, 0⟩ ⟨3, 5⟩]]
    slotmaps := ⟨[⟨50, ⟨3, 5⟩, ⟨7, 0⟩, SLMAP_S_DELETING⟩]⟩ }

/-- Bank 3 has the mappings 50 and 51 on `maps_delreq`. -/
def example_two_delreq : rspro_server :=
  { connections := []
    clients := []
    banks := [example_bank [] [] [] [50, 51] [] []]
    slotmaps :=
      ⟨[⟨50, ⟨3, 5⟩, ⟨7, 0⟩, SLMAP_S_DELETE_REQ⟩, ⟨51, ⟨3, 6⟩, ⟨8, 0⟩, SLMAP_S_DELETE_REQ⟩]⟩ }

/-- The server `example_two_delreq` after a PUSH to bank 3. -/
def example_two_deleting : rspro_server :=
  { connections := []
    clients := []
    banks := [example_bank [] [] [] [] [50, 51]
      [RsproPDU.removeMappingReq ⟨7, 0⟩ ⟨3, 5⟩, RsproPDU.removeMappingReq ⟨8, 0⟩ ⟨3, 6⟩]]
    slotmaps :=
      ⟨[⟨50, ⟨3, 5⟩, ⟨7, 0⟩, SLMAP_S_DELETING⟩, ⟨51, ⟨3, 6⟩, ⟨8, 0⟩, SLMAP_S_DELETING⟩]⟩ }

/-- The unlinking `llist_del(&map->bank_list)` of every mapping of `ms`, one
after the other, as seen by one peer record. -/
def unlink_list (ms : List Nat) (y : rspro_client_conn) : rspro_client_conn :=
  ms.foldl (fun y ma => conn_unlink ma y) y

/-- The global list after `slotmap_del` of every mapping of `ms`, one after the
other. -/
def erase_list (ms : List Nat) (L : List slot_mapping) : List slot_mapping :=
  ms.foldl (fun L ma => L.eraseP (fun m => m.addr == ma)) L

/-- Bank 3 has the mappings 50 and 51 on `maps_new`. -/
def example_two_new : rspro_server :=
  { connections := []
    clients := []
    banks := [example_bank [50, 51] [] [] [] [] []]
    slotmaps := ⟨[⟨50, ⟨3, 5⟩, ⟨7, 0⟩, SLMAP_S_NEW⟩, ⟨51, ⟨3, 6⟩, ⟨8, 0⟩, SLMAP_S_NEW⟩]⟩ }

/-- The server `example_two_new` after a PUSH to bank 3 and its first
createMappingRes. -/
def example_one_acked : rspro_server :=
  { connections := []
    clients := []
    banks := [example_bank [] [51] [50] [] []
      [RsproPDU.createMappingReq ⟨7, 0⟩ ⟨3, 5⟩, RsproPDU.createMappingReq ⟨8, 0⟩ ⟨3, 6⟩]]
    slotmaps :=
      ⟨[⟨50, ⟨3, 5⟩, ⟨7, 0⟩, SLMAP_S_ACTIVE⟩, ⟨51, ⟨3, 6⟩, ⟨8, 0⟩, SLMAP_S_UNACKNOWLEDGED⟩]⟩ }

/-- The server `example_one_acked` after the second createMappingRes of
bank 3. -/
def example_two_acked : rspro_server :=
  { connections := []
    clients := []
    banks := [example_bank [] [] [50, 51] [] []
      [RsproPDU.createMappingReq ⟨7, 0⟩ ⟨3, 5⟩, RsproPDU.createMappingReq ⟨8, 0⟩ ⟨3, 6⟩]]
    slotmaps :=
      ⟨[⟨50, ⟨3, 5⟩, ⟨7, 0⟩, SLMAP_S_ACTIVE⟩, ⟨51, ⟨3, 6⟩, ⟨8, 0⟩, SLMAP_S_ACTIVE⟩]⟩ }

/-! ## Data model of the client-side connection FSM (`rspro_client_fsm.c`) -/

/-- The `enum server_conn_fsm_state`. -/
inductive server_conn_fsm_state where
  | SRVC_ST_INIT
  | SRVC_ST_ESTABLISHED
  | SRVC_ST_CONNECTED
  | SRVC_ST_REESTABLISH_DELAY
  | SRVC_ST_REESTABLISH
deriving DecidableEq, Repr

/-- Modelled from the spec: the `enum server_conn_fsm_event` (declared in a
header that is not among the sources); the members are the entries of the
table `server_conn_fsm_event_names`. -/
inductive server_conn_fsm_event where
  | SRVC_E_ESTABLISH
  | SRVC_E_DISCONNECT
  | SRVC_E_TCP_UP
  | SRVC_E_TCP_DOWN
  | SRVC_E_KA_TIMEOUT
  | SRVC_E_KA_TERMINATED
  | SRVC_E_CLIENT_CONN_RES
  | SRVC_E_RSPRO_TX
deriving DecidableEq, Repr

open server_conn_fsm_state server_conn_fsm_event

/-- What the client FSM does to the outside besides queueing PDUs: the library
calls on the channel and on the keepalive supervisor, and the signals to the
parent FSM. `enc_failed` is the release of a PDU that `rspro_enc_msg` could not
encode. -/
inductive srvc_call where
  | ipa_client_conn_close
  | ipa_client_conn_destroy
  | ipa_keepalive_fsm_stop
  | keepalive_term
  | parent_conn_evt
  | parent_disc_evt
  | enc_failed (pdu : RsproPDU)
deriving DecidableEq, Repr

/-- The channel handle `struct ipa_client_conn` as far as the FSM depends on
it: whether its socket is open, and the PDUs handed to `push_and_send`, oldest
first. -/
structure ipa_client_conn where
  fd_open : Bool
  tx : List RsproPDU
deriving DecidableEq, Repr

/-- The keepalive supervisor created by `ipa_client_conn_alloc_keepalive_fsm`:
whether `ipa_keepalive_fsm_start` has started it. -/
structure ipa_keepalive_fsm where
  running : Bool
deriving DecidableEq, Repr

/-- The part of the `struct osmo_fsm_inst` of the client FSM that the code
depends on: the state, the timer number `T`, and the pending timer (`none`
when no timer is armed, else the monotonic time in milliseconds at which it
expires). -/
structure srvc_fsm_inst where
  state : server_conn_fsm_state
  T : Int
  timer : Option Int
deriving DecidableEq, Repr

/-- One run of `srvc_do_reestablish` as its log lines tell it: whether the
index was reset, the index used for the table, and the delay in milliseconds
handed to the state change. -/
structure reestablish_record where
  reset : Bool
  idx : Nat
  delay_ms : Int
deriving DecidableEq, Repr

/-- Modelled from the spec: the `struct rspro_server_conn` (declared in a
header that is not among the sources) with the members the FSM reads or
writes. `conn` and `keepalive_fi` are `none` for `NULL`; `has_parent` is
`fi->proc.parent != NULL`. Two fields record what the outside sees: `calls`
lists the library calls and parent signals, oldest first, and `delays` lists
the runs of `srvc_do_reestablish`, oldest first. -/
structure rspro_server_conn where
  fi : srvc_fsm_inst
  conn : Option ipa_client_conn
  keepalive_fi : Option ipa_keepalive_fsm
  own_comp_id_type : ComponentType
  clslot : Option client_slot
  bankd_bank_id : Nat
  bankd_num_slots : Nat
  has_parent : Bool
  reestablish_delay_idx : Nat
  reestablish_last_ms : Int
  calls : List srvc_call
  delays : List reestablish_record
deriving DecidableEq, Repr

/-- What the library calls of one callback return: whether `rspro_enc_msg`
encodes the PDU, whether `ipa_client_conn_create2` and
`ipa_client_conn_alloc_keepalive_fsm` return an object, and the return value
of `ipa_client_conn_open`. -/
structure srvc_lib where
  enc_ok : Bool
  create_ok : Bool
  keepalive_ok : Bool
  open_rc : Int
deriving DecidableEq, Repr

/-- Macro `T1_WAIT_CLIENT_CONN_RES`, in seconds. -/
def T1_WAIT_CLIENT_CONN_RES : Int := 10

/-- Macro `T2_RECONNECT`, in seconds. -/
def T2_RECONNECT : Int := 10

/-- Error number `EINVAL`. -/
def EINVAL : Int := 22

/-- Error number `EPERM`. -/
def EPERM : Int := 1

/-- Value of an `int64_t` expression: the mathematical value reduced to the
range of 64-bit two-complement integers. -/
def int64_t (x : Int) : Int :=
  (x + 9223372036854775808) % 18446744073709551616 - 9223372036854775808

/-- Table `server_conn_fsm_states[].in_event_mask`. -/
def server_conn_fsm_in_event_mask : server_conn_fsm_state → List server_conn_fsm_event
  | SRVC_ST_INIT => []
  | SRVC_ST_ESTABLISHED => [SRVC_E_TCP_DOWN, SRVC_E_KA_TIMEOUT, SRVC_E_CLIENT_CONN_RES]
  | SRVC_ST_CONNECTED => [SRVC_E_TCP_DOWN, SRVC_E_KA_TIMEOUT, SRVC_E_RSPRO_TX]
  | SRVC_ST_REESTABLISH_DELAY => []
  | SRVC_ST_REESTABLISH => [SRVC_E_TCP_UP, SRVC_E_TCP_DOWN]

/-- Table `server_conn_fsm_states[].out_state_mask`. -/
def server_conn_fsm_out_state_mask : server_conn_fsm_state → List server_conn_fsm_state
  | SRVC_ST_INIT => [SRVC_ST_INIT, SRVC_ST_REESTABLISH_DELAY]
  | SRVC_ST_ESTABLISHED => [SRVC_ST_CONNECTED, SRVC_ST_REESTABLISH_DELAY, SRVC_ST_INIT]
  | SRVC_ST_CONNECTED => [SRVC_ST_REESTABLISH_DELAY, SRVC_ST_INIT]
  | SRVC_ST_REESTABLISH_DELAY => [SRVC_ST_REESTABLISH, SRVC_ST_INIT]
  | SRVC_ST_REESTABLISH => [SRVC_ST_ESTABLISHED, SRVC_ST_REESTABLISH_DELAY, SRVC_ST_INIT]

/-- Field `remsim_client_server_fsm.allstate_event_mask`. -/
def server_conn_fsm_allstate_event_mask : List server_conn_fsm_event :=
  [SRVC_E_ESTABLISH, SRVC_E_DISCONNECT]

/-- Modelled from the spec: `rspro_get_result` of `rspro_util.c` (not among
the sources): the result code that a response PDU carries; `none` for a PDU
without one. -/
def rspro_get_result : RsproPDU → Option ResultCode
  | .connectBankRes r => some r
  | .connectClientRes r => some r
  | .createMappingRes r => some r
  | .removeMappingRes r => some r
  | .configClientIdRes r => some r
  | .configClientBankRes r => some r
  | _ => none

/-- Function `ipa_client_conn_send_rspro`: when `rspro_enc_msg` fails the PDU
is released and the result is -1; else the message is handed to
`push_and_send` and the result is 0. `none` is the use of a `NULL` channel. -/
def ipa_client_conn_send_rspro (srvc : rspro_server_conn) (rspro : RsproPDU) (lib : srvc_lib) :
    Option (Int × rspro_server_conn) :=
  if lib.enc_ok then
    match srvc.conn with
    | none => none
    | some ipa => some (0, { srvc with conn := some { ipa with tx := ipa.tx ++ [rspro] } })
  else some (-1, { srvc with calls := srvc.calls ++ [srvc_call.enc_failed rspro] })

/-- Function `_server_conn_send_rspro`. -/
def _server_conn_send_rspro (srvc : rspro_server_conn) (rspro : RsproPDU) (lib : srvc_lib) :
    Option (Int × rspro_server_conn) :=
  ipa_client_conn_send_rspro srvc rspro lib

/-- Callback `srvc_st_established_onenter`: the keepalive supervisor is
started and the connect request of the own component type is sent; the result
of the send is not looked at. -/
def srvc_st_established_onenter (srvc : rspro_server_conn) (lib : srvc_lib) :
    Option rspro_server_conn :=
  let srvc1 := { srvc with
    keepalive_fi := srvc.keepalive_fi.map (fun _ => { running := true }) }
  let pdu :=
    if srvc1.own_comp_id_type = ComponentType.remsimClient then
      RsproPDU.connectClientReq srvc1.own_comp_id_type srvc1.clslot
    else
      RsproPDU.connectBankReq srvc1.own_comp_id_type srvc1.bankd_bank_id srvc1.bankd_num_slots
  (_server_conn_send_rspro srvc1 pdu lib).map (fun r => r.2)

/-- Callback `srvc_st_connected_onenter`: the parent, if any, is sent
`parent_conn_evt`. -/
def srvc_st_connected_onenter (srvc : rspro_server_conn) : rspro_server_conn :=
  if srvc.has_parent then { srvc with calls := srvc.calls ++ [srvc_call.parent_conn_evt] }
  else srvc

/-- Callback `srvc_st_connected_onleave`: the parent, if any, is sent
`parent_disc_evt`. -/
def srvc_st_connected_onleave (srvc : rspro_server_conn) : rspro_server_conn :=
  if srvc.has_parent then { srvc with calls := srvc.calls ++ [srvc_call.parent_disc_evt] }
  else srvc

/-- Teardown of the keepalive supervisor as in `srvc_st_reestablish_delay_onenter`
and in the DISCONNECT arm: stop, terminate, clear the handle. The termination
sends `SRVC_E_KA_TERMINATED` to the client FSM, which is in no event mask and
is dropped. -/
def srvc_keepalive_teardown (srvc : rspro_server_conn) : rspro_server_conn :=
  match srvc.keepalive_fi with
  | none => srvc
  | some _ =>
    { srvc with
      keepalive_fi := none
      calls := srvc.calls ++ [srvc_call.ipa_keepalive_fsm_stop, srvc_call.keepalive_term] }

/-- Teardown of the channel as in `srvc_st_reestablish_delay_onenter` and in
the DISCONNECT arm: close, destroy, clear the handle. -/
def srvc_conn_teardown (srvc : rspro_server_conn) : rspro_server_conn :=
  match srvc.conn with
  | none => srvc
  | some _ =>
    { srvc with
      conn := none
      calls := srvc.calls ++
        [srvc_call.ipa_client_conn_close, srvc_call.ipa_client_conn_destroy] }

/-- Callback `srvc_st_reestablish_delay_onenter`: keepalive and channel are
torn down and the index advances unless it is at the last entry. -/
def srvc_st_reestablish_delay_onenter (srvc : rspro_server_conn) : rspro_server_conn :=
  let srvc1 := srvc_conn_teardown (srvc_keepalive_teardown srvc)
  if srvc1.reestablish_delay_idx < REESTABLISH_DELAY_COUNT - 1 then
    { srvc1 with reestablish_delay_idx := srvc1.reestablish_delay_idx + 1 }
  else srvc1

/-- Callback `srvc_st_reestablish_onenter` at the monotonic time `now`: the
time of the attempt is stored, a channel and a keepalive supervisor are
created and the channel is opened. `none` is the `exit(1)` when one of the
two cannot be created and the `OSMO_ASSERT(0)` when the open fails. -/
def srvc_st_reestablish_onenter (srvc : rspro_server_conn) (now : Int) (lib : srvc_lib) :
    Option rspro_server_conn :=
  let srvc1 := { srvc with reestablish_last_ms := now }
  if !lib.create_ok then none
  else
    let srvc2 := { srvc1 with conn := some { fd_open := false, tx := [] } }
    if !lib.keepalive_ok then none
    else
      let srvc3 := { srvc2 with keepalive_fi := some { running := false } }
      if lib.open_rc < 0 then none
      else some { srvc3 with conn := some { fd_open := true, tx := [] } }

/-- Field `onleave` of the state table. -/
def server_conn_fsm_onleave (state : server_conn_fsm_state) (srvc : rspro_server_conn) :
    rspro_server_conn :=
  match state with
  | SRVC_ST_CONNECTED => srvc_st_connected_onleave srvc
  | _ => srvc

/-- Field `onenter` of the state table. -/
def server_conn_fsm_onenter (state : server_conn_fsm_state) (srvc : rspro_server_conn)
    (now : Int) (lib : srvc_lib) : Option rspro_server_conn :=
  match state with
  | SRVC_ST_INIT => some srvc
  | SRVC_ST_ESTABLISHED => srvc_st_established_onenter srvc lib
  | SRVC_ST_CONNECTED => some (srvc_st_connected_onenter srvc)
  | SRVC_ST_REESTABLISH_DELAY => some (srvc_st_reestablish_delay_onenter srvc)
  | SRVC_ST_REESTABLISH => srvc_st_reestablish_onenter srvc now lib

/-- Library call `osmo_fsm_inst_state_chg_ms` on the client FSM at the
monotonic time `now`: a state outside the `out_state_mask` of the current
state is refused and nothing changes; else the pending timer is deleted, the
`onleave` callback of the old state runs, the state is set, `T` is stored and
the timer is armed to expire `timeout_ms` from now when that is not zero, and
the `onenter` callback of the new state runs last. -/
def srvc_fsm_inst_state_chg_ms (srvc : rspro_server_conn) (new_state : server_conn_fsm_state)
    (timeout_ms : Nat) (T : Int) (now : Int) (lib : srvc_lib) : Option rspro_server_conn :=
  if new_state ∈ server_conn_fsm_out_state_mask srvc.fi.state then
    let srvc1 := server_conn_fsm_onleave srvc.fi.state
      { srvc with fi := { srvc.fi with timer := none } }
    server_conn_fsm_onenter new_state
      { srvc1 with fi := { state := new_state, T := T,
                           timer := if timeout_ms = 0 then none else some (now + timeout_ms) } }
      now lib
  else some srvc

/-- Library call `osmo_fsm_inst_state_chg` on the client FSM: the timeout is
in seconds. -/
def srvc_fsm_inst_state_chg (srvc : rspro_server_conn) (new_state : server_conn_fsm_state)
    (timeout_secs : Nat) (T : Int) (now : Int) (lib : srvc_lib) : Option rspro_server_conn :=
  srvc_fsm_inst_state_chg_ms srvc new_state (timeout_secs * 1000) T now lib
/-- The local `reset_ms` of `srvc_do_reestablish`: twice the largest of the
two timeouts and the last entry of the table, in milliseconds. -/
def srvc_reset_ms : Int :=
  2 * 1000 * max (max T1_WAIT_CLIENT_CONN_RES T2_RECONNECT)
    (k_reestablish_delay_s.getD (REESTABLISH_DELAY_COUNT - 1) 0)

/-- The good-connection check at the head of `srvc_do_reestablish`: when more
than `reset_ms` milliseconds have passed since the last attempt, the index is
set to 0. -/
def srvc_reestablish_reset (srvc : rspro_server_conn) (now : Int) : rspro_server_conn :=
  let since_last_ms := int64_t (now - srvc.reestablish_last_ms)
  if since_last_ms > srvc_reset_ms then { srvc with reestablish_delay_idx := 0 } else srvc

/-- Function `srvc_do_reestablish` at the monotonic time `now`: after the
good-connection check the delay of the index is looked up, what has passed
since the last attempt is taken off, a result that is not positive becomes
1 ms, and the state change to REESTABLISH_DELAY is asked for with timer 3.
`none` is a read behind the end of the table. -/
def srvc_do_reestablish (srvc : rspro_server_conn) (now : Int) (lib : srvc_lib) :
    Option rspro_server_conn :=
  let since_last_ms := int64_t (now - srvc.reestablish_last_ms)
  let srvc1 := srvc_reestablish_reset srvc now
  match k_reestablish_delay_s[srvc1.reestablish_delay_idx]? with
  | none => none
  | some delay_s =>
    let need_ms := int64_t (delay_s * 1000)
    let delay_ms := int64_t (need_ms - since_last_ms)
    let delay_ms := if delay_ms > 0 then delay_ms else 1
    srvc_fsm_inst_state_chg_ms
      { srvc1 with delays := srvc1.delays ++
          [{ reset := decide (since_last_ms > srvc_reset_ms),
             idx := srvc1.reestablish_delay_idx, delay_ms := delay_ms }] }
      SRVC_ST_REESTABLISH_DELAY (delay_ms % 18446744073709551616).toNat 3 now lib

/-- The signature of `osmo_fsm_inst_dispatch` on the client FSM: the result is
the return value and the new record, `none` when an action aborts or has no
defined behaviour. -/
abbrev srvc_dispatch_fn :=
  rspro_server_conn → server_conn_fsm_event → Option RsproPDU → Int → srvc_lib →
    Option (Int × rspro_server_conn)

/-- Library call `ipa_client_conn_close` on `srvc->conn`; `none` is the use of
a `NULL` channel. -/
def ipa_client_conn_close (srvc : rspro_server_conn) : Option rspro_server_conn :=
  match srvc.conn with
  | none => none
  | some ipa =>
    some { srvc with
      conn := some { ipa with fd_open := false }
      calls := srvc.calls ++ [srvc_call.ipa_client_conn_close] }

/-- Action `srvc_st_init`: every event is an `OSMO_ASSERT(0)`. -/
def srvc_st_init (_srvc : rspro_server_conn) (_event : server_conn_fsm_event) :
    Option rspro_server_conn :=
  none

/-- Action `srvc_st_established`; `dispatch` is the `osmo_fsm_inst_dispatch`
that the action calls on its own instance. -/
def srvc_st_established (dispatch : srvc_dispatch_fn) (srvc : rspro_server_conn)
    (event : server_conn_fsm_event) (data : Option RsproPDU) (now : Int) (lib : srvc_lib) :
    Option rspro_server_conn :=
  match event with
  | SRVC_E_TCP_DOWN => srvc_do_reestablish srvc now lib
  | SRVC_E_KA_TIMEOUT => srvc_do_reestablish srvc now lib
  | SRVC_E_CLIENT_CONN_RES =>
    match data.bind rspro_get_result with
    | none => none
    | some res =>
      if res ≠ ResultCode.ok then
        match ipa_client_conn_close srvc with
        | none => none
        | some srvc1 => (dispatch srvc1 SRVC_E_TCP_DOWN none now lib).map (fun r => r.2)
      else srvc_fsm_inst_state_chg srvc SRVC_ST_CONNECTED 0 0 now lib
  | _ => none

/-- Action `srvc_st_connected`; the result of the send is not looked at. -/
def srvc_st_connected (srvc : rspro_server_conn) (event : server_conn_fsm_event)
    (data : Option RsproPDU) (now : Int) (lib : srvc_lib) : Option rspro_server_conn :=
  match event with
  | SRVC_E_TCP_DOWN => srvc_do_reestablish srvc now lib
  | SRVC_E_KA_TIMEOUT => srvc_do_reestablish srvc now lib
  | SRVC_E_RSPRO_TX =>
    match data with
    | none => none
    | some pdu => (_server_conn_send_rspro srvc pdu lib).map (fun r => r.2)
  | _ => none

/-- Action `srvc_st_reestablish_delay`: every event is an `OSMO_ASSERT(0)`. -/
def srvc_st_reestablish_delay (_srvc : rspro_server_conn) (_event : server_conn_fsm_event) :
    Option rspro_server_conn :=
  none

/-- Action `srvc_st_reestablish`. -/
def srvc_st_reestablish (srvc : rspro_server_conn) (event : server_conn_fsm_event)
    (now : Int) (lib : srvc_lib) : Option rspro_server_conn :=
  match event with
  | SRVC_E_TCP_UP =>
    srvc_fsm_inst_state_chg srvc SRVC_ST_ESTABLISHED T1_WAIT_CLIENT_CONN_RES.toNat 1 now lib
  | SRVC_E_TCP_DOWN => some srvc
  | _ => none

/-- Action `srvc_allstate_action`. -/
def srvc_allstate_action (srvc : rspro_server_conn) (event : server_conn_fsm_event)
    (now : Int) (lib : srvc_lib) : Option rspro_server_conn :=
  match event with
  | SRVC_E_ESTABLISH =>
    srvc_do_reestablish
      { srvc with reestablish_delay_idx := 0, reestablish_last_ms := 0 } now lib
  | SRVC_E_DISCONNECT =>
    srvc_fsm_inst_state_chg (srvc_conn_teardown (srvc_keepalive_teardown srvc))
      SRVC_ST_INIT 0 0 now lib
  | _ => none

/-- Library call `osmo_fsm_inst_dispatch` on the client FSM, with `dispatch`
for the calls that the actions make on their own instance: an event of the
`allstate_event_mask` goes to the all-state action; an event outside the
`in_event_mask` of the current state is logged and refused with -1; else the
action of the state runs and the result is 0. -/
def srvc_fsm_inst_dispatch_with (dispatch : srvc_dispatch_fn) : srvc_dispatch_fn :=
  fun srvc event data now lib =>
    if event ∈ server_conn_fsm_allstate_event_mask then
      (srvc_allstate_action srvc event now lib).map (fun s => (0, s))
    else if event ∈ server_conn_fsm_in_event_mask srvc.fi.state then
      (match srvc.fi.state with
        | SRVC_ST_INIT => srvc_st_init srvc event
        | SRVC_ST_ESTABLISHED => srvc_st_established dispatch srvc event data now lib
        | SRVC_ST_CONNECTED => srvc_st_connected srvc event data now lib
        | SRVC_ST_REESTABLISH_DELAY => srvc_st_reestablish_delay srvc event
        | SRVC_ST_REESTABLISH => srvc_st_reestablish srvc event now lib).map (fun s => (0, s))
    else some (-1, srvc)

/-- The `osmo_fsm_inst_dispatch` that runs inside an action or the timer
callback. Only `SRVC_E_TCP_DOWN` is dispatched there, and no action for it
dispatches again. -/
def srvc_fsm_inst_dispatch_inner : srvc_dispatch_fn :=
  srvc_fsm_inst_dispatch_with (fun _ _ _ _ _ => none)

/-- Library call `osmo_fsm_inst_dispatch` on the client FSM from outside. -/
def srvc_fsm_inst_dispatch : srvc_dispatch_fn :=
  srvc_fsm_inst_dispatch_with srvc_fsm_inst_dispatch_inner

/-- Callback `server_conn_fsm_timer_cb`: the result is the return value 0 and
the new record; `none` is an abort. -/
def server_conn_fsm_timer_cb (srvc : rspro_server_conn) (now : Int) (lib : srvc_lib) :
    Option (Int × rspro_server_conn) :=
  match srvc.fi.T with
  | 3 =>
    (srvc_fsm_inst_state_chg srvc SRVC_ST_REESTABLISH T2_RECONNECT.toNat 2 now lib).map
      (fun s => (0, s))
  | 2 => (srvc_do_reestablish srvc now lib).map (fun s => (0, s))
  | 1 =>
    match ipa_client_conn_close srvc with
    | none => none
    | some srvc1 =>
      (srvc_fsm_inst_dispatch_inner srvc1 SRVC_E_TCP_DOWN none now lib).map
        (fun r => (0, r.2))
  | _ => none

/-- Expiry of the timer of the client FSM at the monotonic time `now` (library
function `fsm_tmr_cb`): a timer expires only when it is armed and its time has
come; then it is no longer pending and the timer callback runs, whose result 0
leaves the instance alive. -/
def srvc_fsm_tmr_cb (srvc : rspro_server_conn) (now : Int) (lib : srvc_lib) :
    Option rspro_server_conn :=
  match srvc.fi.timer with
  | none => some srvc
  | some expiry =>
    if expiry ≤ now then
      (server_conn_fsm_timer_cb { srvc with fi := { srvc.fi with timer := none } } now lib).map
        (fun r => r.2)
    else some srvc

/-- Function `server_conn_send_rspro`: a `NULL` PDU is refused with `-EINVAL`;
when the dispatch of `SRVC_E_RSPRO_TX` is refused the PDU is released and the
result is `-EPERM`; else the result is 0. -/
def server_conn_send_rspro (srvc : rspro_server_conn) (rspro : Option RsproPDU) (now : Int)
    (lib : srvc_lib) : Option (Int × rspro_server_conn) :=
  match rspro with
  | none => some (-EINVAL, srvc)
  | some pdu =>
    match srvc_fsm_inst_dispatch srvc SRVC_E_RSPRO_TX (some pdu) now lib with
    | none => none
    | some (rc, srvc1) => if rc < 0 then some (-EPERM, srvc1) else some (0, srvc1)

/-- Function `server_conn_fsm_alloc`: when the instance cannot be allocated
the result is -1; else the instance starts in INIT without a timer, index and
time of the last attempt are 0, and the result is 0. -/
def server_conn_fsm_alloc (srvc : rspro_server_conn) (alloc_ok : Bool) :
    Int × rspro_server_conn :=
  if !alloc_ok then (-1, srvc)
  else
    (0, { srvc with
      fi := { state := SRVC_ST_INIT, T := 0, timer := none }
      reestablish_delay_idx := 0
      reestablish_last_ms := 0 })

/-- What can happen to a client FSM from outside: an event is dispatched (by
the application, by `srvc_updown_cb`, by `ipa_kaepalive_timeout_cb`), a PDU is
given to `server_conn_send_rspro`, or the timer expires. -/
inductive srvc_input where
  | dispatch (event : server_conn_fsm_event) (data : Option RsproPDU)
  | send_rspro (rspro : Option RsproPDU)
  | timer
deriving DecidableEq, Repr

/-- One step of the client FSM at the monotonic time `now`. -/
def srvc_step (srvc : rspro_server_conn) (now : Int) (lib : srvc_lib) :
    srvc_input → Option rspro_server_conn
  | .dispatch event data => (srvc_fsm_inst_dispatch srvc event data now lib).map (fun r => r.2)
  | .send_rspro rspro => (server_conn_send_rspro srvc rspro now lib).map (fun r => r.2)
  | .timer => srvc_fsm_tmr_cb srvc now lib

/-- Run of the client FSM over inputs, each with its time and the results of
the library calls. -/
def srvc_run (srvc : rspro_server_conn) :
    List (Int × srvc_lib × srvc_input) → Option rspro_server_conn
  | [] => some srvc
  | (now, lib, i) :: rest =>
    match srvc_step srvc now lib i with
    | none => none
    | some srvc1 => srvc_run srvc1 rest

/-- A client FSM as `server_conn_fsm_alloc` leaves it, for a component of type
Client with slot (7,0) and a parent FSM. -/
def example_srvc_init : rspro_server_conn :=
  { fi := { state := SRVC_ST_INIT, T := 0, timer := none }
    conn := none, keepalive_fi := none
    own_comp_id_type := ComponentType.remsimClient
    clslot := some { client_id := 7, slot_nr := 0 }
    bankd_bank_id := 0, bankd_num_slots := 0
    has_parent := true
    reestablish_delay_idx := 0, reestablish_last_ms := 0
    calls := [], delays := [] }

/-- Results of library calls that all succeed. -/
def example_lib : srvc_lib :=
  { enc_ok := true, create_ok := true, keepalive_ok := true, open_rc := 0 }

/-- A client FSM in `state` with an open channel and a keepalive supervisor,
at reconnect index `idx`, whose last attempt began at `last_ms`; `T` and
`timer` are the timer of the state. -/
def example_srvc (state : server_conn_fsm_state) (T : Int) (timer : Option Int) (idx : Nat)
    (last_ms : Int) : rspro_server_conn :=
  { example_srvc_init with
    fi := { state := state, T := T, timer := timer }
    conn := some { fd_open := true, tx := [] }
    keepalive_fi := some { running := true }
    reestablish_delay_idx := idx
    reestablish_last_ms := last_ms }

/-- A client FSM in REESTABLISH_DELAY at the last index of the table: the
attempt that began at 40 s failed at 50 s, and timer 3 is due at 66 s. -/
def example_srvc_waiting : rspro_server_conn :=
  { example_srvc_init with
    fi := { state := SRVC_ST_REESTABLISH_DELAY, T := 3, timer := some 66000 }
    reestablish_delay_idx := 123
    reestablish_last_ms := 40000 }

/-- The signals that a list of calls sends to the parent FSM, oldest first:
`true` for `parent_conn_evt`, `false` for `parent_disc_evt`. -/
def parent_signals (calls : List srvc_call) : List Bool :=
  calls.filterMap (fun c =>
    match c with
    | srvc_call.parent_conn_evt => some true
    | srvc_call.parent_disc_evt => some false
    | _ => none)

/-- The list of `n` signals that alternate and begin with the connected
signal. -/
def alternating_signals : Nat → List Bool
  | 0 => []
  | n + 1 => alternating_signals n ++ [decide (n % 2 = 0)]

/-- Invariant of the signals to the parent: they alternate, beginning with the
connected signal, and their number is odd exactly in CONNECTED. -/
def srvc_parent_inv (s : rspro_server_conn) : Prop :=
  ∃ n, parent_signals s.calls = alternating_signals n ∧
    (n % 2 = 1 ↔ s.fi.state = SRVC_ST_CONNECTED)

/-- A part of a callback that sends nothing to the parent and leaves the
state alone. -/
def srvc_quiet (s s1 : rspro_server_conn) : Prop :=
  s1.has_parent = s.has_parent ∧ s1.fi.state = s.fi.state ∧
    parent_signals s1.calls = parent_signals s.calls

/-- How one step may change the signals to the parent: nothing is sent and
CONNECTED is neither entered nor left, or CONNECTED is entered with one
connected signal, or CONNECTED is left with one disconnected signal. -/
def srvc_parent_step (s s1 : rspro_server_conn) : Prop :=
  s1.has_parent = s.has_parent ∧
  ((parent_signals s1.calls = parent_signals s.calls ∧
      (s1.fi.state = SRVC_ST_CONNECTED ↔ s.fi.state = SRVC_ST_CONNECTED)) ∨
    (s.fi.state ≠ SRVC_ST_CONNECTED ∧ s1.fi.state = SRVC_ST_CONNECTED ∧
      parent_signals s1.calls = parent_signals s.calls ++ [true]) ∨
    (s.fi.state = SRVC_ST_CONNECTED ∧ s1.fi.state ≠ SRVC_ST_CONNECTED ∧
      parent_signals s1.calls = parent_signals s.calls ++ [false]))
/-- A run of the client FSM through a handshake: ESTABLISH, the delay timer
expires, the TCP connection comes up, the server accepts the handshake. -/
def example_srvc_handshake : List (Int × srvc_lib × srvc_input) :=
  [(50000, example_lib, srvc_input.dispatch SRVC_E_ESTABLISH none),
   (50001, example_lib, srvc_input.timer),
   (50020, example_lib, srvc_input.dispatch SRVC_E_TCP_UP none),
   (50030, example_lib, srvc_input.dispatch SRVC_E_CLIENT_CONN_RES
     (some (RsproPDU.connectClientRes ResultCode.ok)))]

/-- The client FSM after `example_srvc_handshake`: CONNECTED, the connect
request queued on the channel and the parent told once. -/
def example_srvc_connected : rspro_server_conn :=
  { example_srvc_init with
    fi := { state := SRVC_ST_CONNECTED, T := 0, timer := none }
    conn := some { fd_open := true,
                   tx := [RsproPDU.connectClientReq ComponentType.remsimClient
                     (some { client_id := 7, slot_nr := 0 })] }
    keepalive_fi := some { running := true }
    reestablish_delay_idx := 1
    reestablish_last_ms := 50001
    calls := [srvc_call.parent_conn_evt]
    delays := [{ reset := true, idx := 0, delay_ms := 1 }] }

/-- The server `example_active` after the keep-alive of client `(7, 0)` timed
out: the FSM instance is terminated and the stream destroyed, and the record
is still on `clients`. -/
def example_client_timed_out : rspro_server :=
  { example_active with
    clients :=
      [{ example_client ⟨⟨3, 5⟩, 200, 9999⟩ [RsproPDU.configClientBankReq ⟨3, 5⟩ 200 9999] with
         peer := none
         fi := none
         term_cause := some OSMO_FSM_TERM_REGULAR }] }

/-! ## The read callback of the server (`rspro_server.c`) -/

/-- Error number `EIO`. -/
def EIO : Int := 5

/-- Error number `EBADF`. -/
def EBADF : Int := 9

/-- An IPA CCM message as `_ipa_srv_conn_ccm` reads it: the message type with
what the library calls on it return. `empty` has no payload byte; for a PING
and an ID_ACK `send_rc` is the result of sending the answer; for an ID_RESP
`parse_rc` is the result of `ipa_ccm_id_resp_parse`, `unit_present` says
whether the unit tag is there and `len` is its length. -/
inductive ipa_ccm_msg where
  | empty
  | ping (send_rc : Int)
  | pong
  | id_ack (send_rc : Int)
  | id_resp (parse_rc : Int) (unit_present : Bool) (len : Int)
  | unknown
deriving DecidableEq, Repr

/-- A frame as `sock_read_cb` classifies it: protocol IPACCESS with its CCM
message, protocol OSMO with extension RSPRO and what `rspro_dec_msg` makes of
the payload (`none` when it does not decode), protocol OSMO with another
extension, another protocol. -/
inductive ipa_frame where
  | ipaccess (msg : ipa_ccm_msg)
  | osmo_rspro (pdu : Option RsproPDU)
  | osmo_ext_other
  | proto_other
deriving DecidableEq, Repr

/-- Function `_ipa_srv_conn_ccm`: the return value; `none` is the
`OSMO_ASSERT` on an empty message. The answers go out on the socket directly
and the PONG goes to the keepalive supervisor, neither of which the model of
the server holds. -/
def _ipa_srv_conn_ccm (msg : ipa_ccm_msg) : Option Int :=
  match msg with
  | .empty => none
  | .ping send_rc => if send_rc < 0 then some (-1) else some 0
  | .pong => some 0
  | .id_ack send_rc => if send_rc < 0 then some (-1) else some 0
  | .id_resp parse_rc unit_present len =>
    if parse_rc < 0 then some (-1)
    else if !unit_present then some (-1)
    else if len < 1 then some (-1)
    else some 0
  | .unknown => some (-1)

/-- Library call `osmo_stream_srv_destroy` on the stream of `conn`: the closed
callback runs and the stream is released. -/
def osmo_stream_srv_destroy (srv : rspro_server) (conn : Nat) : Option rspro_server :=
  sock_closed_cb srv conn

/-- Callback `sock_read_cb` on the stream of `conn` with the result `res` of
the read: return value and server. On the label `err` the stream is destroyed
and the result is `-EBADF`. -/
def sock_read_cb (srv : rspro_server) (conn : Nat) (res : Int) (frame : ipa_frame) :
    Option (Int × rspro_server) :=
  let err := (osmo_stream_srv_destroy srv conn).map (fun s => (-EBADF, s))
  if res ≤ 0 then err
  else
    match frame with
    | .ipaccess msg =>
      match _ipa_srv_conn_ccm msg with
      | none => none
      | some rc => if rc < 0 then err else some (rc, srv)
    | .osmo_rspro none => some (- EIO, srv)
    | .osmo_rspro (some pdu) => handle_rx_rspro srv conn pdu
    | .osmo_ext_other => err
    | .proto_other => err

/-- What the client-update procedure does for the connected client peer `cl`
of the mapping `m` when the bank coordinates work out to `(ip, port)`: it is a
write to the record of the client that leaves queues, instance and stream
alone; the last-known coordinates of the record become the bank slot of the
mapping with `ip` and `port`, and a configClientBankReq with them is sent to
the client exactly when one of the three values was different before; and a
second run right after leaves the record of the client as the first run left
it. -/
def client_updated (ma : Nat) (srv : rspro_server) (b : Option Nat) (m : slot_mapping)
    (cl : rspro_client_conn) (ip port : Nat) : Prop :=
  ∃ g, _update_client_for_slotmap ma srv b = some (update_conn srv cl.addr g) ∧ keeps_link g ∧
    ({ g cl with addr := cl.addr } : rspro_client_conn) =
      (if cl.client.bankd = ⟨m.bank, ip, port⟩ then cl
       else { cl with
              client.bankd := ⟨m.bank, ip, port⟩
              tx := cl.tx ++ [RsproPDU.configClientBankReq m.bank ip port] }) ∧
    ∃ s2, _update_client_for_slotmap ma (update_conn srv cl.addr g) b = some s2 ∧
      find_conn s2 cl.addr = find_conn (update_conn srv cl.addr g) cl.addr

/-- Mapping 50 is ACTIVE on bank 3, whose socket address cannot be read;
client `(7, 0)` is connected with the last-known coordinates `bankd`. -/
def example_unreadable (bankd : conn_bankd) : rspro_server :=
  { connections := []
    clients := [example_client bankd []]
    banks := [{ example_bank [] [] [50] [] [] [] with peer := some ⟨none⟩ }]
    slotmaps := ⟨[⟨50, ⟨3, 5⟩, ⟨7, 0⟩, SLMAP_S_ACTIVE⟩]⟩ }

/-- The keys of the records with the address `a`, registry by registry. -/
def registry_view.restrict (k : registry_view) (a : Nat) : registry_view :=
  { connections := k.connections.filter (fun x => x.addr == a)
    clients := k.clients.filter (fun x => x.addr == a)
    banks := k.banks.filter (fun x => x.addr == a) }

/-- The peer at `a` has an FSM instance in one of the states CONNECTED_CLIENT,
CONNECTED_BANKD and REJECTED. -/
def peer_settled (srv : rspro_server) (a : Nat) : Prop :=
  ∃ fi, conn_fi srv a = some fi ∧
    (fi.state = CLNTC_ST_CONNECTED_CLIENT ∨ fi.state = CLNTC_ST_CONNECTED_BANKD ∨
      fi.state = CLNTC_ST_REJECTED)

/-- The peer at `a` is in `srv1` what it is in `srv`: each of the three
registries holds the same keys at that address, so the peer is on the same
list with the same FSM state, the same client slot and the same bank id. -/
def peer_unchanged (srv srv1 : rspro_server) (a : Nat) : Prop :=
  (registry_keys srv1).restrict a = (registry_keys srv).restrict a

/-- A run that leaves a bank record without stream on `banks`: mapping 50 of
bank slot `(3, 5)` and client slot `(7, 0)` is added, bank 3 connects and is
sent its createMappingReq, the keep-alive of the bank times out, and peer 1
is accepted. -/
def example_stale_bank_inputs : List server_input :=
  [ .slotmap_add ⟨3, 5⟩ ⟨7, 0⟩ (some 50),
    .accept 2 ⟨some 200⟩,
    .rx 2 (RsproPDU.connectBankReq ComponentType.remsimBankd 3 8),
    .ka_timeout 2,
    .accept 1 ⟨some 100⟩ ]

/-- The server that `example_stale_bank_inputs` leads to: the record of bank 3
is on `banks` without instance and without stream, mapping 50 is on its
`maps_unack` queue, and peer 1 is waiting for its handshake. -/
def example_stale_bank : rspro_server :=
  { connections := [example_peer 1 100]
    clients := []
    banks :=
      [{ example_bank [] [50] [] [] [] [RsproPDU.createMappingReq ⟨7, 0⟩ ⟨3, 5⟩] with
         peer := none
         fi := none
         term_cause := some OSMO_FSM_TERM_REGULAR }]
    slotmaps := ⟨[⟨50, ⟨3, 5⟩, ⟨7, 0⟩, SLMAP_S_UNACKNOWLEDGED⟩]⟩ }

/-- The server `example_client_timed_out` after peer 3 was accepted: the
record of client `(7, 0)` is on `clients` without instance and without
stream, and peer 3 is waiting for its handshake. -/
def example_client_reconnects : rspro_server :=
  { example_client_timed_out with connections := [example_peer 3 300] }

/-- The server `example_bank_timed_out` after peer 3 was accepted: the record
of bank 3 is on `banks` without instance and without stream, and peer 3 is
waiting for its handshake. -/
def example_bank_reconnects : rspro_server :=
  { example_bank_timed_out with connections := [example_peer 3 300] }

/-- The record `example_srvc_waiting` as the all-state action hands it to
`srvc_do_reestablish` on `SRVC_E_ESTABLISH`: index and time of the last
attempt were set to 0, the instance is in REESTABLISH_DELAY with timer 3 due
at 66 s. -/
def example_srvc_restart : rspro_server_conn :=
  { example_srvc_waiting with
    reestablish_delay_idx := 0
    reestablish_last_ms := 0 }

/-! ## Theorems on the slot-map engine -/

theorem bank_slot_equals_iff (a b : bank_slot) : bank_slot_equals a b = true ↔ a = b := by
  cases a; cases b; simp [bank_slot_equals]

theorem client_slot_equals_iff (a b : client_slot) :
    client_slot_equals a b = true ↔ a = b := by
  cases a; cases b; simp [client_slot_equals]

theorem slotmap_by_bank_eq_none (maps : slotmaps) (bank : bank_slot) :
    slotmap_by_bank maps bank = none ↔ ∀ m ∈ maps.mappings, m.bank ≠ bank := by
  simp [slotmap_by_bank, List.find?_eq_none, bank_slot_equals_iff]

theorem slotmap_by_client_eq_none (maps : slotmaps) (client : client_slot) :
    slotmap_by_client maps client = none ↔ ∀ m ∈ maps.mappings, m.client ≠ client := by
  simp [slotmap_by_client, List.find?_eq_none, client_slot_equals_iff]

/-- The return value of `slotmap_add` in closed form. -/
theorem slotmap_add_fst (maps : slotmaps) (bank : bank_slot) (client : client_slot)
    (talloc : Option Nat) :
    (slotmap_add maps bank client talloc).1 =
      if (slotmap_by_bank maps bank).isSome || (slotmap_by_client maps client).isSome
      then -EBUSY else if talloc.isSome then 0 else -ENOMEM := by
  unfold slotmap_add
  cases slotmap_by_bank maps bank <;> cases slotmap_by_client maps client <;>
    cases talloc <;> simp

theorem slotmap_add_unique (maps : slotmaps) (bank : bank_slot) (client : client_slot)
    (talloc : Option Nat) (h : slotmaps_unique maps) :
    slotmaps_unique (slotmap_add maps bank client talloc).2 := by
  unfold slotmap_add
  cases hb : slotmap_by_bank maps bank with
  | some _ => simpa using h
  | none =>
    cases hc : slotmap_by_client maps client with
    | some _ => simpa using h
    | none =>
      cases talloc with
      | none => simpa using h
      | some addr =>
        rw [slotmap_by_bank_eq_none] at hb
        rw [slotmap_by_client_eq_none] at hc
        simp only [slotmaps_unique, List.pairwise_append, List.pairwise_singleton,
          List.mem_singleton, forall_eq, and_true]
        exact ⟨h, trivial, fun m hm => ⟨hb m hm, hc m hm⟩⟩

theorem slotmap_del_unique (maps : slotmaps) (map : Nat) (h : slotmaps_unique maps) :
    slotmaps_unique (slotmap_del maps map) :=
  List.Pairwise.sublist (List.eraseP_sublist _) h

theorem slotmap_calls_run_unique (calls : List slotmap_call) (maps : slotmaps)
    (h : slotmaps_unique maps) : slotmaps_unique (slotmap_calls_run maps calls) := by
  induction calls generalizing maps with
  | nil => simpa [slotmap_calls_run] using h
  | cons call rest ih =>
    have hstep : slotmaps_unique (slotmap_call_run maps call) := by
      cases call with
      | add bank client talloc => exact slotmap_add_unique maps bank client talloc h
      | del map => exact slotmap_del_unique maps map h
    simpa [slotmap_calls_run] using ih _ hstep

/-- C1: starting from the empty set of `slotmap_init`, after every finite
sequence of `slotmap_add` and `slotmap_del` calls any two mappings at different
positions of the set have different bank slots and different client slots. -/
theorem slotmap_unique_after_calls (calls : List slotmap_call) :
    (slotmap_calls_run slotmap_init calls).mappings.Pairwise
      (fun m1 m2 => m1.bank ≠ m2.bank ∧ m1.client ≠ m2.client) :=
  slotmap_calls_run_unique calls slotmap_init (by simp [slotmaps_unique, slotmap_init])

/-- C2: for every mapping set and every bank slot and client slot,
`slotmap_add` returns `-EBUSY` if and only if some mapping of the set already
has that bank slot or that client slot; otherwise, when the allocation
succeeds, it returns 0. -/
theorem slotmap_add_ebusy_iff (maps : slotmaps) (bank : bank_slot) (client : client_slot)
    (talloc : Option Nat) :
    ((slotmap_add maps bank client talloc).1 = -EBUSY ↔
        ∃ m ∈ maps.mappings, m.bank = bank ∨ m.client = client) ∧
    ((¬ ∃ m ∈ maps.mappings, m.bank = bank ∨ m.client = client) →
        talloc.isSome = true → (slotmap_add maps bank client talloc).1 = 0) := by
  have hbusy : ((slotmap_by_bank maps bank).isSome || (slotmap_by_client maps client).isSome)
      = true ↔ ∃ m ∈ maps.mappings, m.bank = bank ∨ m.client = client := by
    rw [Bool.or_eq_true, ← Option.ne_none_iff_isSome, ← Option.ne_none_iff_isSome, Ne, Ne,
      slotmap_by_bank_eq_none, slotmap_by_client_eq_none]
    constructor
    · rintro (h | h)
      · push_neg at h
        obtain ⟨m, hm, hb⟩ := h
        exact ⟨m, hm, Or.inl hb⟩
      · push_neg at h
        obtain ⟨m, hm, hc⟩ := h
        exact ⟨m, hm, Or.inr hc⟩
    · rintro ⟨m, hm, hb | hc⟩
      · exact Or.inl (fun h => h m hm hb)
      · exact Or.inr (fun h => h m hm hc)
  rw [slotmap_add_fst]
  constructor
  · constructor
    · intro h
      by_contra hno
      rw [← hbusy] at hno
      rw [if_neg hno] at h
      cases talloc <;> simp [EBUSY, ENOMEM] at h
    · intro h
      rw [if_pos (hbusy.2 h)]
  · intro hno hsome
    rw [← hbusy] at hno
    rw [if_neg hno, if_pos hsome]

theorem slotmap_add_ebusy_iff_witness :
    (slotmap_add (⟨[⟨1, ⟨3, 5⟩, ⟨7, 0⟩, SLMAP_S_NEW⟩]⟩ : slotmaps) ⟨3, 5⟩ ⟨8, 0⟩ (some 2)).1 = -EBUSY ∧
    (slotmap_add (⟨[⟨1, ⟨3, 5⟩, ⟨7, 0⟩, SLMAP_S_NEW⟩]⟩ : slotmaps) ⟨3, 6⟩ ⟨8, 0⟩ (some 2)).1 = 0 :=
  ⟨(slotmap_add_ebusy_iff _ ⟨3, 5⟩ ⟨8, 0⟩ (some 2)).1.2
      ⟨_, List.mem_singleton.2 rfl, Or.inl rfl⟩,
   (slotmap_add_ebusy_iff _ ⟨3, 6⟩ ⟨8, 0⟩ (some 2)).2 (by decide) rfl⟩

/-- C3: whenever `slotmap_add` returns `-EBUSY` the mapping set after the call
is the mapping set before the call: the same mappings in the same order with
the same fields. -/
theorem slotmap_add_ebusy_unchanged (maps : slotmaps) (bank : bank_slot)
    (client : client_slot) (talloc : Option Nat)
    (h : (slotmap_add maps bank client talloc).1 = -EBUSY) :
    (slotmap_add maps bank client talloc).2 = maps := by
  unfold slotmap_add at h ⊢
  cases hb : slotmap_by_bank maps bank with
  | some _ => rfl
  | none =>
    cases hc : slotmap_by_client maps client with
    | some _ => rfl
    | none =>
      cases talloc with
      | none => rfl
      | some addr => simp [hb, hc, EBUSY] at h

theorem slotmap_add_ebusy_unchanged_witness :
    (slotmap_add (⟨[⟨1, ⟨3, 5⟩, ⟨7, 0⟩, SLMAP_S_ACTIVE⟩]⟩ : slotmaps) ⟨4, 1⟩ ⟨7, 0⟩ (some 2)).2 =
      (⟨[⟨1, ⟨3, 5⟩, ⟨7, 0⟩, SLMAP_S_ACTIVE⟩]⟩ : slotmaps) :=
  slotmap_add_ebusy_unchanged _ ⟨4, 1⟩ ⟨7, 0⟩ (some 2) (by decide)

/-- What a successful `slotmap_add` does to the list. -/
theorem slotmap_add_ok (maps : slotmaps) (bank : bank_slot) (client : client_slot)
    (talloc : Option Nat) (h : (slotmap_add maps bank client talloc).1 = 0) :
    ∃ addr, talloc = some addr ∧
      (∀ m ∈ maps.mappings, m.bank ≠ bank) ∧ (∀ m ∈ maps.mappings, m.client ≠ client) ∧
      (slotmap_add maps bank client talloc).2 =
        { mappings := maps.mappings ++
            [{ addr := addr, bank := bank, client := client, state := SLMAP_S_NEW }] } := by
  unfold slotmap_add at h ⊢
  cases hb : slotmap_by_bank maps bank with
  | some _ => simp [hb, EBUSY] at h
  | none =>
    cases hc : slotmap_by_client maps client with
    | some _ => simp [hb, hc, EBUSY] at h
    | none =>
      cases talloc with
      | none => simp [hb, hc, ENOMEM] at h
      | some addr =>
        exact ⟨addr, rfl, (slotmap_by_bank_eq_none _ _).1 hb,
          (slotmap_by_client_eq_none _ _).1 hc, rfl⟩

/-- C4: for every mapping set `S` and every bank slot and client slot for which
`slotmap_add` succeeds, with `talloc_zero` handing out an address `addr` that no
live mapping has, `slotmap_del` on the mapping just added gives back `S`. -/
theorem slotmap_add_del (S : slotmaps) (bank : bank_slot) (client : client_slot)
    (addr : Nat) (hfresh : ∀ m ∈ S.mappings, m.addr ≠ addr)
    (h : (slotmap_add S bank client (some addr)).1 = 0) :
    slotmap_del (slotmap_add S bank client (some addr)).2 addr = S := by
  obtain ⟨a, ha, -, -, heq⟩ := slotmap_add_ok S bank client (some addr) h
  cases ha
  rw [heq]
  unfold slotmap_del
  have hno : ∀ m ∈ S.mappings, ¬ ((fun m : slot_mapping => m.addr == addr) m = true) := by
    intro m hm
    simpa using hfresh m hm
  simp only
  rw [List.eraseP_append_right _ hno]
  simp

theorem slotmap_add_del_witness :
    slotmap_del (slotmap_add (⟨[⟨1, ⟨3, 5⟩, ⟨7, 0⟩, SLMAP_S_ACTIVE⟩]⟩ : slotmaps) ⟨3, 6⟩ ⟨8, 0⟩ (some 2)).2 2 =
      (⟨[⟨1, ⟨3, 5⟩, ⟨7, 0⟩, SLMAP_S_ACTIVE⟩]⟩ : slotmaps) :=
  slotmap_add_del _ ⟨3, 6⟩ ⟨8, 0⟩ 2 (by decide) (by decide)

/-- C5: when `slotmap_add` returns 0 the new set is the old set with exactly
one mapping appended at the end, with the given bank slot and client slot and
in state NEW, so every earlier mapping is unchanged and keeps its position;
`slotmap_by_bank` and `slotmap_by_client` on the new set both return the new
mapping. -/
theorem slotmap_add_appends (maps : slotmaps) (bank : bank_slot) (client : client_slot)
    (talloc : Option Nat) (h : (slotmap_add maps bank client talloc).1 = 0) :
    ∃ addr, talloc = some addr ∧
      (slotmap_add maps bank client talloc).2.mappings = maps.mappings ++
        [{ addr := addr, bank := bank, client := client, state := SLMAP_S_NEW }] ∧
      slotmap_by_bank (slotmap_add maps bank client talloc).2 bank =
        some { addr := addr, bank := bank, client := client, state := SLMAP_S_NEW } ∧
      slotmap_by_client (slotmap_add maps bank client talloc).2 client =
        some { addr := addr, bank := bank, client := client, state := SLMAP_S_NEW } := by
  obtain ⟨addr, ha, hb, hc, heq⟩ := slotmap_add_ok maps bank client talloc h
  refine ⟨addr, ha, by rw [heq], ?_, ?_⟩
  · rw [heq]
    have hnone : List.find? (fun map => bank_slot_equals map.bank bank) maps.mappings = none :=
      (slotmap_by_bank_eq_none maps bank).2 hb
    simp [slotmap_by_bank, List.find?_append, hnone, bank_slot_equals_iff]
  · rw [heq]
    have hnone : List.find? (fun map => client_slot_equals map.client client) maps.mappings
        = none := (slotmap_by_client_eq_none maps client).2 hc
    simp [slotmap_by_client, List.find?_append, hnone, client_slot_equals_iff]

theorem slotmap_add_appends_witness :
    ∃ addr, some 2 = some addr ∧
      (slotmap_add (⟨[⟨1, ⟨3, 5⟩, ⟨7, 0⟩, SLMAP_S_ACTIVE⟩]⟩ : slotmaps) ⟨3, 6⟩ ⟨8, 0⟩ (some 2)).2.mappings =
        [⟨1, ⟨3, 5⟩, ⟨7, 0⟩, SLMAP_S_ACTIVE⟩] ++
        [{ addr := addr, bank := ⟨3, 6⟩, client := ⟨8, 0⟩, state := SLMAP_S_NEW }] ∧
      slotmap_by_bank (slotmap_add (⟨[⟨1, ⟨3, 5⟩, ⟨7, 0⟩, SLMAP_S_ACTIVE⟩]⟩ : slotmaps) ⟨3, 6⟩ ⟨8, 0⟩ (some 2)).2 ⟨3, 6⟩ =
        some { addr := addr, bank := ⟨3, 6⟩, client := ⟨8, 0⟩, state := SLMAP_S_NEW } ∧
      slotmap_by_client (slotmap_add (⟨[⟨1, ⟨3, 5⟩, ⟨7, 0⟩, SLMAP_S_ACTIVE⟩]⟩ : slotmaps) ⟨3, 6⟩ ⟨8, 0⟩ (some 2)).2 ⟨8, 0⟩ =
        some { addr := addr, bank := ⟨3, 6⟩, client := ⟨8, 0⟩, state := SLMAP_S_NEW } :=
  slotmap_add_appends _ ⟨3, 6⟩ ⟨8, 0⟩ (some 2) (by decide)

/-! ## Frame lemmas: what leaves the registry keys alone -/

theorem keys_map_conns (f : rspro_client_conn → rspro_client_conn) (srv : rspro_server)
    (h : ∀ c, conn_key (f c) = conn_key c) :
    registry_keys (map_conns f srv) = registry_keys srv := by
  simp [registry_keys, map_conns, List.map_map, Function.comp_def, h]

theorem keys_update_conn (f : rspro_client_conn → rspro_client_conn) (srv : rspro_server)
    (conn : Nat) (h : ∀ c, conn_key (f c) = conn_key c) :
    registry_keys (update_conn srv conn f) = registry_keys srv := by
  apply keys_map_conns
  intro c
  unfold conn_write
  by_cases hc : c.addr = conn
  · rw [if_pos hc]
    have h1 := h c
    simp only [conn_key, peer_key.mk.injEq] at h1 ⊢
    exact ⟨trivial, h1.2⟩
  · rw [if_neg hc]

theorem keys_slotmaps (srv : rspro_server) (maps : slotmaps) :
    registry_keys { srv with slotmaps := maps } = registry_keys srv := rfl

theorem keys_foldl {α : Type} (step : rspro_server → α → rspro_server)
    (h : ∀ s x, registry_keys (step s x) = registry_keys s) (l : List α) (srv : rspro_server) :
    registry_keys (l.foldl step srv) = registry_keys srv := by
  induction l generalizing srv with
  | nil => rfl
  | cons x rest ih => rw [List.foldl_cons, ih, h]

theorem keys_client_conn_send (srv : rspro_server) (conn : Nat) (pdu : Option RsproPDU) :
    registry_keys (client_conn_send srv conn pdu) = registry_keys srv := by
  cases pdu with
  | none => rfl
  | some p => exact keys_update_conn _ _ _ (fun c => rfl)

theorem conn_bank_add_tail_bank_id (b : conn_bank) (head : bank_list_head) (map : Nat) :
    (b.add_tail head map).bank_id = b.bank_id := by
  cases head <;> rfl

theorem keys_slotmap_state_change (srv : rspro_server) (map : Nat)
    (new_state : slot_mapping_state) (new_bank_list : Option (Nat × bank_list_head)) :
    registry_keys (_slotmap_state_change srv map new_state new_bank_list) =
      registry_keys srv := by
  unfold _slotmap_state_change
  cases new_bank_list with
  | none => exact keys_map_conns _ _ (fun c => rfl)
  | some p =>
    obtain ⟨conn, head⟩ := p
    simp only
    rw [keys_update_conn _ _ _ (fun c => by simp [conn_key, conn_bank_add_tail_bank_id])]
    exact keys_map_conns _ _ (fun c => rfl)

theorem keys_slotmap_del (srv : rspro_server) (map : Nat) :
    registry_keys (_slotmap_del srv map) = registry_keys srv := by
  unfold _slotmap_del
  exact keys_map_conns _ _ (fun c => rfl)

theorem keys_clnt_st_connected_client (srv : rspro_server) (conn : Nat)
    (event : remsim_server_client_event) :
    registry_keys (clnt_st_connected_client srv conn event) = registry_keys srv := by
  unfold clnt_st_connected_client
  split
  · split
    · rfl
    · exact keys_client_conn_send _ _ _
  · rfl

theorem keys_push_create (conn : Nat) (srv : rspro_server) (map : Nat) :
    registry_keys (push_create conn srv map) = registry_keys srv := by
  unfold push_create
  split
  · rfl
  · rw [keys_slotmap_state_change, keys_client_conn_send]

theorem keys_push_remove (conn : Nat) (srv : rspro_server) (map : Nat) :
    registry_keys (push_remove conn srv map) = registry_keys srv := by
  unfold push_remove
  split
  · rfl
  · rw [keys_slotmap_state_change, keys_client_conn_send]

theorem keys_clnt_st_connected_bankd_push (srv : rspro_server) (conn : Nat) :
    registry_keys (clnt_st_connected_bankd_push srv conn) = registry_keys srv := by
  unfold clnt_st_connected_bankd_push
  split
  · rfl
  · simp only
    split
    · exact keys_foldl _ (fun s x => keys_push_create conn s x) _ _
    · rw [keys_foldl _ (fun s x => keys_push_remove conn s x)]
      exact keys_foldl _ (fun s x => keys_push_create conn s x) _ _

theorem keys_dispatch_inner (srv : rspro_server) (conn : Nat)
    (event : remsim_server_client_event) :
    registry_keys (osmo_fsm_inst_dispatch_inner srv conn event) = registry_keys srv := by
  unfold osmo_fsm_inst_dispatch_inner
  split
  · rfl
  · split
    · split
      · exact keys_clnt_st_connected_client _ _ _
      · exact keys_clnt_st_connected_bankd_push _ _
      · rfl
    · rfl

theorem keys_set_bankd_slot (srv : rspro_server) (conn : Nat) (b : bank_slot) :
    registry_keys (update_conn srv conn (fun c => { c with client.bankd.slot := b })) =
      registry_keys srv :=
  keys_update_conn _ _ _ (fun _ => rfl)

theorem keys_set_bankd_ip_port (srv : rspro_server) (conn : Nat) (ip port : Nat) :
    registry_keys (update_conn srv conn
      (fun c => { c with client.bankd.ip := ip, client.bankd.port := port })) =
      registry_keys srv :=
  keys_update_conn _ _ _ (fun _ => rfl)

theorem keys_update_client_for_slotmap (map : Nat) (srv s : rspro_server)
    (bankd_conn : Option Nat) (h : _update_client_for_slotmap map srv bankd_conn = some s) :
    registry_keys s = registry_keys srv := by
  unfold _update_client_for_slotmap at h
  split at h
  · simp only [Option.some.injEq] at h
    rw [← h]
  · split at h
    · simp only [Option.some.injEq] at h
      rw [← h]
    · simp only at h
      split at h
      · simp at h
      · simp only [Option.some.injEq] at h
        rw [← h]
        split
        · exact keys_set_bankd_slot _ _ _
        · rfl
      · split at h
        · simp only [Option.some.injEq] at h
          rw [← h, keys_dispatch_inner]
          split
          · rw [keys_set_bankd_ip_port]
            split
            · exact keys_set_bankd_slot _ _ _
            · rfl
          · split
            · exact keys_set_bankd_slot _ _ _
            · rfl
        · simp only [Option.some.injEq] at h
          rw [← h]
          split
          · rw [keys_set_bankd_ip_port]
            split
            · exact keys_set_bankd_slot _ _ _
            · rfl
          · split
            · exact keys_set_bankd_slot _ _ _
            · rfl

theorem keys_connected_client_onenter (srv s : rspro_server) (conn : Nat)
    (h : clnt_st_connected_client_onenter srv conn = some s) :
    registry_keys s = registry_keys srv := by
  unfold clnt_st_connected_client_onenter at h
  split at h
  · simp only [Option.some.injEq] at h
    rw [← h]
  · split at h
    · simp only [Option.some.injEq] at h
      rw [← h]
    · exact keys_update_client_for_slotmap _ _ _ _ h

theorem keys_connected_bankd_onenter (srv : rspro_server) (conn : Nat) :
    registry_keys (clnt_st_connected_bankd_onenter srv conn) = registry_keys srv := by
  unfold clnt_st_connected_bankd_onenter
  split
  · rfl
  · apply keys_foldl
    intro s x
    split
    · exact keys_slotmap_state_change _ _ _ _
    · rfl

theorem keys_onenter (state : remsim_server_client_fsm_state) (srv s : rspro_server)
    (conn : Nat) (h : server_client_fsm_onenter state srv conn = some s) :
    registry_keys s = registry_keys srv := by
  unfold server_client_fsm_onenter at h
  split at h
  · exact keys_connected_client_onenter _ _ _ h
  · simp only [Option.some.injEq] at h
    rw [← h]
    exact keys_connected_bankd_onenter _ _
  · simp only [Option.some.injEq] at h
    rw [← h]

theorem keys_unlink_all_slotmaps (srv : rspro_server) (conn : Nat) :
    registry_keys (_unlink_all_slotmaps srv conn) = registry_keys srv := by
  unfold _unlink_all_slotmaps
  have hn : ∀ s x, registry_keys (unlink_to_new s x) = registry_keys s :=
    fun s x => keys_slotmap_state_change _ _ _ _
  simp only
  rw [keys_foldl _ keys_slotmap_del, keys_foldl _ keys_slotmap_del, keys_foldl _ hn,
    keys_foldl _ hn, keys_foldl _ hn]

theorem keys_event_fd_cb (srv : rspro_server) (rc : Int) :
    registry_keys (event_fd_cb srv rc).2 = registry_keys srv := by
  unfold event_fd_cb
  split
  · rfl
  · apply keys_foldl
    intro s x
    split
    · rfl
    · simp only
      split
      · exact keys_dispatch_inner _ _ _
      · rfl

/-! ## The registry invariant on keys -/

theorem keys_update_conn_gen (f : rspro_client_conn → rspro_client_conn) (g : peer_key → peer_key)
    (srv : rspro_server) (a : Nat) (h : ∀ c, conn_key (f c) = g (conn_key c))
    (hg : ∀ x, (g x).addr = x.addr) :
    registry_keys (update_conn srv a f) = (registry_keys srv).update a g := by
  have hu : ∀ c : rspro_client_conn, conn_key (conn_write a f c) =
      if (conn_key c).addr = a then g (conn_key c) else conn_key c := by
    intro c
    have hk : (conn_key c).addr = c.addr := rfl
    unfold conn_write
    by_cases hc : c.addr = a
    · rw [if_pos hc, if_pos (hk.trans hc), ← h]
      have h1 := hg (conn_key c)
      rw [← h] at h1
      simp only [conn_key] at h1 ⊢
      rw [h1]
    · rw [if_neg hc, if_neg (fun h' => hc (hk.symm.trans h'))]
  simp [registry_keys, update_conn, map_conns, registry_view.update, List.map_map,
    Function.comp_def, hu]

theorem keys_remove (srv : rspro_server) (a : Nat) :
    registry_keys { srv with
      connections := srv.connections.filter (fun c => c.addr != a)
      clients := srv.clients.filter (fun c => c.addr != a)
      banks := srv.banks.filter (fun c => c.addr != a) } = (registry_keys srv).remove a := by
  simp [registry_keys, registry_view.remove, List.filter_map, Function.comp_def, conn_key]

theorem keys_find_conn (srv : rspro_server) (a : Nat) :
    (find_conn srv a).map conn_key = (registry_keys srv).find a := by
  simp [find_conn, registry_view.find, registry_keys, List.find?_map, Function.comp_def,
    conn_key, ← List.map_append]

theorem keys_conn_fi (srv : rspro_server) (a : Nat) :
    (conn_fi srv a).map (fun fi => fi.state) = ((registry_keys srv).find a).bind (fun x => x.state) := by
  rw [← keys_find_conn]
  unfold conn_fi
  cases find_conn srv a <;> simp [conn_key]

theorem registry_view.find_mem (k : registry_view) (a : Nat) (x : peer_key)
    (h : k.find a = some x) : x.addr = a ∧ x ∈ k.connections ++ k.clients ++ k.banks := by
  unfold registry_view.find at h
  have h1 := List.find?_some h
  have h2 := List.mem_of_find?_eq_some h
  exact ⟨by simpa using h1, h2⟩

/-- Under the invariant a record in INIT or ESTABLISHED is on `connections`
only. -/
theorem registry_view.inv_not_registered (k : registry_view) (a : Nat) (x : peer_key)
    (hinv : k.inv) (h : k.find a = some x)
    (hst : x.state = some CLNTC_ST_INIT ∨ x.state = some CLNTC_ST_ESTABLISHED) :
    ∀ y ∈ k.clients ++ k.banks, y.addr ≠ a := by
  obtain ⟨hxa, hx⟩ := k.find_mem a x h
  obtain ⟨-, -, hd, hs⟩ := hinv
  rw [List.append_assoc, List.mem_append] at hx
  rcases hx with hx | hx
  · intro y hy
    rw [← hxa]
    exact hd y hy x hx
  · exfalso
    have := hs x hx
    rcases hst with h1 | h1
    · exact this.1 h1
    · exact this.2 h1

theorem registry_view.inv_update_conn_only (k : registry_view) (a : Nat)
    (g : peer_key → peer_key) (hinv : k.inv) (ha : ∀ y ∈ k.clients ++ k.banks, y.addr ≠ a)
    (hg : ∀ x, (g x).addr = x.addr) : (k.update a g).inv := by
  have hc : k.clients.map (fun x => if x.addr = a then g x else x) = k.clients := by
    conv_rhs => rw [← List.map_id k.clients]
    apply List.map_congr_left
    intro x hx
    simp [ha x (List.mem_append_left _ hx)]
  have hb : k.banks.map (fun x => if x.addr = a then g x else x) = k.banks := by
    conv_rhs => rw [← List.map_id k.banks]
    apply List.map_congr_left
    intro x hx
    simp [ha x (List.mem_append_right _ hx)]
  obtain ⟨h1, h2, hd, hs⟩ := hinv
  refine ⟨?_, ?_, ?_, ?_⟩
  · simpa [registry_view.update, hc] using h1
  · simpa [registry_view.update, hb] using h2
  · simp only [registry_view.update, hc, hb]
    intro x hx y hy
    rw [List.mem_map] at hy
    obtain ⟨z, hz, rfl⟩ := hy
    have := hd x hx z hz
    by_cases hza : z.addr = a <;> simp [hza, hg] <;> simpa [hza] using this
  · simpa [registry_view.update, hc, hb] using hs

theorem registry_view.inv_update_state (k : registry_view) (a : Nat)
    (st : Option remsim_server_client_fsm_state) (hinv : k.inv)
    (hst : st ≠ some CLNTC_ST_INIT ∧ st ≠ some CLNTC_ST_ESTABLISHED) :
    (k.update a (fun x => { x with state := st })).inv := by
  obtain ⟨h1, h2, hd, hs⟩ := hinv
  have hslot : ∀ l : List peer_key,
      (l.map (fun x => if x.addr = a then { x with state := st } else x)).map (fun x => x.slot)
        = l.map (fun x => x.slot) := by
    intro l
    rw [List.map_map]
    apply List.map_congr_left
    intro x _
    by_cases hx : x.addr = a <;> simp [hx]
  have hbank : ∀ l : List peer_key,
      (l.map (fun x => if x.addr = a then { x with state := st } else x)).map
        (fun x => x.bank_id) = l.map (fun x => x.bank_id) := by
    intro l
    rw [List.map_map]
    apply List.map_congr_left
    intro x _
    by_cases hx : x.addr = a <;> simp [hx]
  refine ⟨?_, ?_, ?_, ?_⟩
  · simpa [registry_view.update, hslot] using h1
  · simpa [registry_view.update, hbank] using h2
  · simp only [registry_view.update, ← List.map_append]
    intro x hx y hy
    rw [List.mem_map] at hx hy
    obtain ⟨x0, hx0, rfl⟩ := hx
    obtain ⟨y0, hy0, rfl⟩ := hy
    have := hd x0 hx0 y0 hy0
    by_cases hxa : x0.addr = a <;> by_cases hya : y0.addr = a <;> simp [hxa, hya] <;>
      simp_all
  · simp only [registry_view.update, ← List.map_append]
    intro x hx
    rw [List.mem_map] at hx
    obtain ⟨x0, hx0, rfl⟩ := hx
    by_cases hxa : x0.addr = a
    · simpa [hxa] using hst
    · simpa [hxa] using hs x0 hx0

theorem registry_view.inv_remove (k : registry_view) (a : Nat) (hinv : k.inv) :
    (k.remove a).inv := by
  obtain ⟨h1, h2, hd, hs⟩ := hinv
  refine ⟨?_, ?_, ?_, ?_⟩
  · exact List.Nodup.sublist (List.Sublist.map _ (List.filter_sublist _)) h1
  · exact List.Nodup.sublist (List.Sublist.map _ (List.filter_sublist _)) h2
  · intro x hx y hy
    simp only [registry_view.remove, List.mem_append, List.mem_filter] at hx hy
    apply hd x _ y hy.1
    rcases hx with hx | hx
    · exact List.mem_append_left _ hx.1
    · exact List.mem_append_right _ hx.1
  · intro x hx
    simp only [registry_view.remove, List.mem_append, List.mem_filter] at hx
    apply hs x
    rcases hx with hx | hx
    · exact List.mem_append_left _ hx.1
    · exact List.mem_append_right _ hx.1

/-! ## Writes through a peer pointer -/

theorem conn_write_addr (a : Nat) (f : rspro_client_conn → rspro_client_conn)
    (c : rspro_client_conn) : (conn_write a f c).addr = c.addr := by
  unfold conn_write
  split <;> rfl

theorem conn_write_of_ne (a : Nat) (f : rspro_client_conn → rspro_client_conn)
    (c : rspro_client_conn) (h : c.addr ≠ a) : conn_write a f c = c := by
  unfold conn_write
  rw [if_neg h]

theorem conn_write_of_eq (a : Nat) (f : rspro_client_conn → rspro_client_conn)
    (c : rspro_client_conn) (h : c.addr = a) :
    conn_write a f c = { f c with addr := c.addr } := by
  unfold conn_write
  rw [if_pos h]

theorem map_write_of_not_mem (a : Nat) (f : rspro_client_conn → rspro_client_conn)
    (l : List rspro_client_conn) (h : ∀ y ∈ l, y.addr ≠ a) : l.map (conn_write a f) = l := by
  conv_rhs => rw [← List.map_id l]
  apply List.map_congr_left
  intro x hx
  simp [conn_write_of_ne a f x (h x hx)]

theorem filter_of_not_mem (a : Nat) (l : List rspro_client_conn) (h : ∀ y ∈ l, y.addr ≠ a) :
    l.filter (fun c => c.addr != a) = l := by
  rw [List.filter_eq_self]
  intro x hx
  simpa using h x hx

theorem filter_map_write (a : Nat) (f : rspro_client_conn → rspro_client_conn)
    (l : List rspro_client_conn) :
    (l.map (conn_write a f)).filter (fun c => c.addr != a) = l.filter (fun c => c.addr != a) := by
  induction l with
  | nil => rfl
  | cons x rest ih =>
    by_cases hx : x.addr = a
    · simp [List.filter_cons, conn_write_addr, hx, ih]
    · simp [List.filter_cons, conn_write_addr, hx, ih, conn_write_of_ne a f x hx]

theorem not_mem_filter_addr (a : Nat) (l : List rspro_client_conn) :
    ∀ y ∈ l.filter (fun c => c.addr != a), y.addr ≠ a := by
  intro y hy
  simpa using (List.mem_filter.1 hy).2

theorem find_map_write (a : Nat) (f : rspro_client_conn → rspro_client_conn)
    (l : List rspro_client_conn) :
    (l.map (conn_write a f)).find? (fun c => c.addr == a) =
      (l.find? (fun c => c.addr == a)).map (fun c => { f c with addr := c.addr }) := by
  induction l with
  | nil => rfl
  | cons x rest ih =>
    by_cases hx : x.addr = a
    · simp [List.find?_cons, conn_write_addr, hx, conn_write_of_eq a f x hx]
    · simp [List.find?_cons, conn_write_addr, hx, ih]

theorem find_of_not_mem (a : Nat) (l : List rspro_client_conn) (h : ∀ y ∈ l, y.addr ≠ a) :
    l.find? (fun c => c.addr == a) = none := by
  rw [List.find?_eq_none]
  intro x hx
  simpa using h x hx

theorem unregistered_find_conn {srv : rspro_server} {c : rspro_client_conn}
    (h : unregistered srv c) : find_conn srv c.addr = some c := by
  unfold find_conn
  rw [List.append_assoc, List.find?_append, h.1]
  rfl

theorem unregistered_conn_fi {srv : rspro_server} {c : rspro_client_conn}
    (h : unregistered srv c) : conn_fi srv c.addr = c.fi := by
  unfold conn_fi
  rw [unregistered_find_conn h]

theorem unregistered_update_conn {srv : rspro_server} {c : rspro_client_conn}
    (h : unregistered srv c) (f : rspro_client_conn → rspro_client_conn) :
    update_conn srv c.addr f =
      { srv with connections := srv.connections.map (conn_write c.addr f) } := by
  unfold update_conn map_conns
  rw [map_write_of_not_mem _ _ srv.clients (fun y hy => h.2 y (List.mem_append_left _ hy)),
    map_write_of_not_mem _ _ srv.banks (fun y hy => h.2 y (List.mem_append_right _ hy))]

theorem unregistered_after_update {srv : rspro_server} {c : rspro_client_conn}
    (h : unregistered srv c) (f : rspro_client_conn → rspro_client_conn) :
    unregistered (update_conn srv c.addr f) { f c with addr := c.addr } := by
  rw [unregistered_update_conn h]
  refine ⟨?_, h.2⟩
  show List.find? _ (srv.connections.map (conn_write c.addr f)) = _
  rw [find_map_write, h.1]
  rfl

theorem client_conn_by_slot_mem (srv : rspro_server) (cslot : client_slot)
    (p : rspro_client_conn) (h : client_conn_by_slot srv cslot = some p) :
    p ∈ srv.clients ∧ p.client.slot = cslot := by
  unfold client_conn_by_slot at h
  have h1 := List.find?_some h
  exact ⟨List.mem_of_find?_eq_some h, (client_slot_equals_iff _ _).1 h1⟩

theorem bankd_conn_by_id_mem (srv : rspro_server) (bank_id : Nat)
    (p : rspro_client_conn) (h : bankd_conn_by_id srv bank_id = some p) :
    p ∈ srv.banks ∧ p.bank.bank_id = bank_id := by
  unfold bankd_conn_by_id at h
  exact ⟨List.mem_of_find?_eq_some h, by simpa using List.find?_some h⟩

theorem written_first {srv : rspro_server} {c : rspro_client_conn} (h : unregistered srv c)
    (f : rspro_client_conn → rspro_client_conn) :
    update_conn srv c.addr f = conn_written srv c.addr f :=
  unregistered_update_conn h f

theorem written_unregistered {srv : rspro_server} {c : rspro_client_conn}
    (h : unregistered srv c) (g : rspro_client_conn → rspro_client_conn) :
    unregistered (conn_written srv c.addr g) { g c with addr := c.addr } := by
  rw [← written_first h]
  exact unregistered_after_update h g

theorem written_next {srv : rspro_server} {c : rspro_client_conn} (h : unregistered srv c)
    (g f : rspro_client_conn → rspro_client_conn) :
    update_conn (conn_written srv c.addr g) c.addr f =
      conn_written srv c.addr (fun x => f { g x with addr := x.addr }) := by
  have h1 := unregistered_update_conn (written_unregistered h g) f
  refine h1.trans ?_
  unfold conn_written
  simp only [rspro_server.mk.injEq, and_true]
  rw [List.map_map]
  apply List.map_congr_left
  intro x _
  by_cases hx : x.addr = c.addr
  · simp [conn_write, hx]
  · simp [conn_write, hx]

theorem written_find_conn {srv : rspro_server} {c : rspro_client_conn}
    (h : unregistered srv c) (g : rspro_client_conn → rspro_client_conn) :
    find_conn (conn_written srv c.addr g) c.addr = some { g c with addr := c.addr } :=
  unregistered_find_conn (written_unregistered h g)

theorem written_conn_fi {srv : rspro_server} {c : rspro_client_conn}
    (h : unregistered srv c) (g : rspro_client_conn → rspro_client_conn) :
    conn_fi (conn_written srv c.addr g) c.addr = (g c).fi :=
  unregistered_conn_fi (written_unregistered h g)

theorem written_send {srv : rspro_server} {c : rspro_client_conn} (h : unregistered srv c)
    (g : rspro_client_conn → rspro_client_conn) (p : RsproPDU) :
    client_conn_send (conn_written srv c.addr g) c.addr (some p) =
      conn_written srv c.addr (fun x => { g x with addr := x.addr, tx := (g x).tx ++ [p] }) :=
  written_next h g _

theorem written_state_chg {srv : rspro_server} {c : rspro_client_conn}
    (h : unregistered srv c) (g : rspro_client_conn → rspro_client_conn) (fi : osmo_fsm_inst)
    (st : remsim_server_client_fsm_state) (t T : Nat) (hfi : (g c).fi = some fi)
    (hm : st ∈ out_state_mask fi.state) :
    osmo_fsm_inst_state_chg (conn_written srv c.addr g) c.addr st t T =
      server_client_fsm_onenter st
        (conn_written srv c.addr (fun x =>
          { g x with addr := x.addr,
                     fi := some { state := st, T := T,
                                  timer := if t = 0 then none else some t } }))
        c.addr := by
  unfold osmo_fsm_inst_state_chg
  rw [written_conn_fi h, hfi]
  simp only [hm, ↓reduceIte]
  rw [written_next h]

theorem written_clients (srv : rspro_server) (a : Nat)
    (g : rspro_client_conn → rspro_client_conn) :
    (conn_written srv a g).clients = srv.clients := rfl

theorem written_banks (srv : rspro_server) (a : Nat)
    (g : rspro_client_conn → rspro_client_conn) :
    (conn_written srv a g).banks = srv.banks := rfl

theorem written_slotmaps (srv : rspro_server) (a : Nat)
    (g : rspro_client_conn → rspro_client_conn) :
    (conn_written srv a g).slotmaps = srv.slotmaps := rfl

theorem written_client_conn_by_slot (srv : rspro_server) (a : Nat)
    (g : rspro_client_conn → rspro_client_conn) (cslot : client_slot) :
    client_conn_by_slot (conn_written srv a g) cslot = client_conn_by_slot srv cslot := rfl

theorem written_bankd_conn_by_id (srv : rspro_server) (a : Nat)
    (g : rspro_client_conn → rspro_client_conn) (bank_id : Nat) :
    bankd_conn_by_id (conn_written srv a g) bank_id = bankd_conn_by_id srv bank_id := rfl

/-- Rejected client: the state after `clnt_st_established`. -/
theorem established_client_reject (srv : rspro_server) (c p : rspro_client_conn)
    (fi : osmo_fsm_inst) (cs : client_slot)
    (stream pstream : osmo_stream_srv)
    (h : unregistered srv c) (hfi : c.fi = some fi) (hst : fi.state = CLNTC_ST_ESTABLISHED)
    (hpeer : c.peer = some stream)
    (hp : client_conn_by_slot srv (rspro2client_slot cs) = some p)
    (hppeer : p.peer = some pstream) :
    clnt_st_established srv c.addr CLNTC_E_CLIENT_CONN
        (some (RsproPDU.connectClientReq ComponentType.remsimClient (some cs))) =
      some (conn_written srv c.addr (fun x =>
          { x with
            comp_id_type := ComponentType.remsimClient
            client.slot := rspro2client_slot cs
            tx := x.tx ++ [RsproPDU.connectClientRes ResultCode.identityInUse]
            fi := some { state := CLNTC_ST_REJECTED, T := 2, timer := some 1 } })) := by
  have hpa : p.addr ≠ c.addr :=
    h.2 p (List.mem_append_left _ (client_conn_by_slot_mem _ _ _ hp).1)
  unfold clnt_st_established
  simp only [unregistered_find_conn h, Option.some_bind, hpeer, ne_eq, not_true_eq_false,
    ↓reduceIte, rspro_gen_ConnectClientRes]
  rw [written_first h, written_next h, written_client_conn_by_slot, hp]
  simp only [Option.map_some', Option.getD_some, bne_iff_ne, ne_eq, hpa, not_false_eq_true,
    ↓reduceIte, Option.some_bind, hppeer]
  rw [written_send h, written_state_chg h _ fi _ _ _ hfi (by rw [hst]; decide)]
  rfl

theorem to_clients_eq {srv : rspro_server} {c : rspro_client_conn} (h : unregistered srv c)
    (g : rspro_client_conn → rspro_client_conn) (x : rspro_client_conn)
    (hx : x.addr = c.addr) :
    rspro_server.mk
        ((conn_written srv c.addr g).connections.filter (fun y => y.addr != c.addr))
        ((conn_written srv c.addr g).clients.filter (fun y => y.addr != c.addr) ++ [x])
        ((conn_written srv c.addr g).banks.filter (fun y => y.addr != c.addr))
        (conn_written srv c.addr g).slotmaps = conn_to_clients srv x := by
  unfold conn_to_clients conn_written
  simp only [hx]
  rw [filter_map_write,
    filter_of_not_mem _ srv.clients (fun y hy => h.2 y (List.mem_append_left _ hy)),
    filter_of_not_mem _ srv.banks (fun y hy => h.2 y (List.mem_append_right _ hy))]

theorem to_banks_eq {srv : rspro_server} {c : rspro_client_conn} (h : unregistered srv c)
    (g : rspro_client_conn → rspro_client_conn) (x : rspro_client_conn)
    (hx : x.addr = c.addr) :
    rspro_server.mk
        ((conn_written srv c.addr g).connections.filter (fun y => y.addr != c.addr))
        ((conn_written srv c.addr g).clients.filter (fun y => y.addr != c.addr))
        ((conn_written srv c.addr g).banks.filter (fun y => y.addr != c.addr) ++ [x])
        (conn_written srv c.addr g).slotmaps = conn_to_banks srv x := by
  unfold conn_to_banks conn_written
  simp only [hx]
  rw [filter_map_write,
    filter_of_not_mem _ srv.clients (fun y hy => h.2 y (List.mem_append_left _ hy)),
    filter_of_not_mem _ srv.banks (fun y hy => h.2 y (List.mem_append_right _ hy))]

theorem to_clients_update {srv : rspro_server} {c : rspro_client_conn}
    (h : unregistered srv c) (x : rspro_client_conn) (hx : x.addr = c.addr)
    (f : rspro_client_conn → rspro_client_conn) :
    update_conn (conn_to_clients srv x) c.addr f =
      conn_to_clients srv { f x with addr := x.addr } := by
  unfold update_conn map_conns conn_to_clients
  simp only [List.map_append, List.map_cons, List.map_nil]
  rw [map_write_of_not_mem _ _ srv.clients (fun y hy => h.2 y (List.mem_append_left _ hy)),
    map_write_of_not_mem _ _ srv.banks (fun y hy => h.2 y (List.mem_append_right _ hy)),
    conn_write_of_eq _ _ x hx,
    map_write_of_not_mem _ _ _ (by rw [hx]; exact not_mem_filter_addr c.addr srv.connections)]

theorem to_banks_update {srv : rspro_server} {c : rspro_client_conn}
    (h : unregistered srv c) (x : rspro_client_conn) (hx : x.addr = c.addr)
    (f : rspro_client_conn → rspro_client_conn) :
    update_conn (conn_to_banks srv x) c.addr f =
      conn_to_banks srv { f x with addr := x.addr } := by
  unfold update_conn map_conns conn_to_banks
  simp only [List.map_append, List.map_cons, List.map_nil]
  rw [map_write_of_not_mem _ _ srv.clients (fun y hy => h.2 y (List.mem_append_left _ hy)),
    map_write_of_not_mem _ _ srv.banks (fun y hy => h.2 y (List.mem_append_right _ hy)),
    conn_write_of_eq _ _ x hx,
    map_write_of_not_mem _ _ _ (by rw [hx]; exact not_mem_filter_addr c.addr srv.connections)]

theorem to_clients_find_conn {srv : rspro_server} {c : rspro_client_conn}
    (h : unregistered srv c) (x : rspro_client_conn) (hx : x.addr = c.addr) :
    find_conn (conn_to_clients srv x) c.addr = some x := by
  unfold find_conn conn_to_clients
  simp only [List.find?_append]
  rw [find_of_not_mem _ _ (by rw [hx]; exact not_mem_filter_addr c.addr srv.connections),
    find_of_not_mem _ srv.clients (fun y hy => h.2 y (List.mem_append_left _ hy))]
  simp [hx]

theorem to_banks_find_conn {srv : rspro_server} {c : rspro_client_conn}
    (h : unregistered srv c) (x : rspro_client_conn) (hx : x.addr = c.addr) :
    find_conn (conn_to_banks srv x) c.addr = some x := by
  unfold find_conn conn_to_banks
  simp only [List.find?_append]
  rw [find_of_not_mem _ _ (by rw [hx]; exact not_mem_filter_addr c.addr srv.connections),
    find_of_not_mem _ srv.clients (fun y hy => h.2 y (List.mem_append_left _ hy)),
    find_of_not_mem _ srv.banks (fun y hy => h.2 y (List.mem_append_right _ hy))]
  simp [hx]

theorem to_clients_state_chg {srv : rspro_server} {c : rspro_client_conn}
    (h : unregistered srv c) (x : rspro_client_conn) (hx : x.addr = c.addr)
    (fi : osmo_fsm_inst) (st : remsim_server_client_fsm_state) (t T : Nat)
    (hfi : x.fi = some fi) (hm : st ∈ out_state_mask fi.state) :
    osmo_fsm_inst_state_chg (conn_to_clients srv x) c.addr st t T =
      server_client_fsm_onenter st
        (conn_to_clients srv
          { x with fi := some { state := st, T := T,
                                timer := if t = 0 then none else some t } })
        c.addr := by
  unfold osmo_fsm_inst_state_chg conn_fi
  rw [to_clients_find_conn h x hx]
  simp only [hfi, hm, ↓reduceIte]
  rw [to_clients_update h x hx]

theorem to_banks_state_chg {srv : rspro_server} {c : rspro_client_conn}
    (h : unregistered srv c) (x : rspro_client_conn) (hx : x.addr = c.addr)
    (fi : osmo_fsm_inst) (st : remsim_server_client_fsm_state) (t T : Nat)
    (hfi : x.fi = some fi) (hm : st ∈ out_state_mask fi.state) :
    osmo_fsm_inst_state_chg (conn_to_banks srv x) c.addr st t T =
      server_client_fsm_onenter st
        (conn_to_banks srv
          { x with fi := some { state := st, T := T,
                                timer := if t = 0 then none else some t } })
        c.addr := by
  unfold osmo_fsm_inst_state_chg conn_fi
  rw [to_banks_find_conn h x hx]
  simp only [hfi, hm, ↓reduceIte]
  rw [to_banks_update h x hx]

theorem to_clients_update_mk {srv : rspro_server} {c : rspro_client_conn}
    (h : unregistered srv c) (peer : Option osmo_stream_srv) (fi : Option osmo_fsm_inst)
    (ct : ComponentType) (cl : conn_client) (bk : conn_bank) (tx : List RsproPDU)
    (tc : Option osmo_fsm_term_cause) (f : rspro_client_conn → rspro_client_conn) :
    update_conn (conn_to_clients srv ⟨c.addr, peer, fi, ct, cl, bk, tx, tc⟩) c.addr f =
      conn_to_clients srv { f ⟨c.addr, peer, fi, ct, cl, bk, tx, tc⟩ with addr := c.addr } :=
  to_clients_update h ⟨c.addr, peer, fi, ct, cl, bk, tx, tc⟩ rfl f

theorem to_banks_update_mk {srv : rspro_server} {c : rspro_client_conn}
    (h : unregistered srv c) (peer : Option osmo_stream_srv) (fi : Option osmo_fsm_inst)
    (ct : ComponentType) (cl : conn_client) (bk : conn_bank) (tx : List RsproPDU)
    (tc : Option osmo_fsm_term_cause) (f : rspro_client_conn → rspro_client_conn) :
    update_conn (conn_to_banks srv ⟨c.addr, peer, fi, ct, cl, bk, tx, tc⟩) c.addr f =
      conn_to_banks srv { f ⟨c.addr, peer, fi, ct, cl, bk, tx, tc⟩ with addr := c.addr } :=
  to_banks_update h ⟨c.addr, peer, fi, ct, cl, bk, tx, tc⟩ rfl f

theorem to_clients_state_chg_mk {srv : rspro_server} {c : rspro_client_conn}
    (h : unregistered srv c) (peer : Option osmo_stream_srv) (fi : osmo_fsm_inst)
    (ct : ComponentType) (cl : conn_client) (bk : conn_bank) (tx : List RsproPDU)
    (tc : Option osmo_fsm_term_cause) (st : remsim_server_client_fsm_state) (t T : Nat)
    (hm : st ∈ out_state_mask fi.state) :
    osmo_fsm_inst_state_chg (conn_to_clients srv ⟨c.addr, peer, some fi, ct, cl, bk, tx, tc⟩)
        c.addr st t T =
      server_client_fsm_onenter st
        (conn_to_clients srv
          ⟨c.addr, peer, some { state := st, T := T, timer := if t = 0 then none else some t },
            ct, cl, bk, tx, tc⟩)
        c.addr :=
  to_clients_state_chg h ⟨c.addr, peer, some fi, ct, cl, bk, tx, tc⟩ rfl fi st t T rfl hm

theorem to_banks_state_chg_mk {srv : rspro_server} {c : rspro_client_conn}
    (h : unregistered srv c) (peer : Option osmo_stream_srv) (fi : osmo_fsm_inst)
    (ct : ComponentType) (cl : conn_client) (bk : conn_bank) (tx : List RsproPDU)
    (tc : Option osmo_fsm_term_cause) (st : remsim_server_client_fsm_state) (t T : Nat)
    (hm : st ∈ out_state_mask fi.state) :
    osmo_fsm_inst_state_chg (conn_to_banks srv ⟨c.addr, peer, some fi, ct, cl, bk, tx, tc⟩)
        c.addr st t T =
      server_client_fsm_onenter st
        (conn_to_banks srv
          ⟨c.addr, peer, some { state := st, T := T, timer := if t = 0 then none else some t },
            ct, cl, bk, tx, tc⟩)
        c.addr :=
  to_banks_state_chg h ⟨c.addr, peer, some fi, ct, cl, bk, tx, tc⟩ rfl fi st t T rfl hm

/-- Accepted client: the state after `clnt_st_established` is the on-entry
action of CONNECTED_CLIENT run on the server in which the peer was moved. -/
theorem established_client_accept (srv : rspro_server) (c : rspro_client_conn)
    (fi : osmo_fsm_inst) (cs : client_slot)
    (stream : osmo_stream_srv)
    (h : unregistered srv c) (hfi : c.fi = some fi) (hst : fi.state = CLNTC_ST_ESTABLISHED)
    (hpeer : c.peer = some stream)
    (hp : client_conn_by_slot srv (rspro2client_slot cs) = none) :
    clnt_st_established srv c.addr CLNTC_E_CLIENT_CONN
        (some (RsproPDU.connectClientReq ComponentType.remsimClient (some cs))) =
      clnt_st_connected_client_onenter
        (conn_to_clients srv
          { c with
            comp_id_type := ComponentType.remsimClient
            client.slot := rspro2client_slot cs
            tx := c.tx ++ [RsproPDU.connectClientRes ResultCode.ok]
            fi := some { state := CLNTC_ST_CONNECTED_CLIENT, T := 0, timer := none } })
        c.addr := by
  unfold clnt_st_established
  simp only [unregistered_find_conn h, Option.some_bind, hpeer, ne_eq, not_true_eq_false,
    ↓reduceIte, rspro_gen_ConnectClientRes]
  rw [written_first h, written_next h, written_client_conn_by_slot, hp]
  simp only [Option.map_none', Option.getD_none, Bool.false_eq_true, ↓reduceIte]
  rw [written_find_conn h]
  simp only
  rw [to_clients_eq h _
    { c with comp_id_type := ComponentType.remsimClient, client.slot := rspro2client_slot cs }
    rfl]
  unfold client_conn_send
  simp only
  rw [to_clients_update_mk h]
  simp only [hfi]
  rw [to_clients_state_chg_mk h _ fi _ _ _ _ _ _ _ _ (by rw [hst]; decide)]
  simp only [hpeer]
  rfl

/-- Accepted bank: the state after `clnt_st_established` is the dispatch of
PUSH after the on-entry action of CONNECTED_BANKD, run on the server in which
the peer was moved. -/
theorem established_bank_accept (srv : rspro_server) (c : rspro_client_conn)
    (fi : osmo_fsm_inst) (bankId numberOfSlots : Nat)
    (stream : osmo_stream_srv)
    (h : unregistered srv c) (hfi : c.fi = some fi) (hst : fi.state = CLNTC_ST_ESTABLISHED)
    (hpeer : c.peer = some stream)
    (hp : bankd_conn_by_id srv (bankId % 65536) = none) :
    clnt_st_established srv c.addr CLNTC_E_BANK_CONN
        (some (RsproPDU.connectBankReq ComponentType.remsimBankd bankId numberOfSlots)) =
      some (osmo_fsm_inst_dispatch_inner
        (clnt_st_connected_bankd_onenter
          (conn_to_banks srv
            { c with
              comp_id_type := ComponentType.remsimBankd
              bank.bank_id := bankId % 65536
              bank.num_slots := numberOfSlots % 65536
              tx := c.tx ++ [RsproPDU.connectBankRes ResultCode.ok]
              fi := some { state := CLNTC_ST_CONNECTED_BANKD, T := 0, timer := none } })
          c.addr)
        c.addr CLNTC_E_PUSH) := by
  unfold clnt_st_established
  simp only [unregistered_find_conn h, Option.some_bind, hpeer, ne_eq, not_true_eq_false,
    ↓reduceIte, rspro_gen_ConnectBankRes]
  rw [written_first h, written_next h, written_bankd_conn_by_id, hp]
  simp only [Option.map_none', Option.getD_none, Bool.false_eq_true, ↓reduceIte]
  rw [written_find_conn h]
  simp only
  rw [to_banks_eq h _
    { c with comp_id_type := ComponentType.remsimBankd, bank.bank_id := bankId % 65536,
             bank.num_slots := numberOfSlots % 65536 }
    rfl]
  unfold client_conn_send
  simp only
  rw [to_banks_update_mk h]
  simp only [hfi]
  rw [to_banks_state_chg_mk h _ fi _ _ _ _ _ _ _ _ (by rw [hst]; decide)]
  simp only [hpeer]
  rfl

/-- Rejected bank: the state after `clnt_st_established`. -/
theorem established_bank_reject (srv : rspro_server) (c p : rspro_client_conn)
    (fi : osmo_fsm_inst) (bankId numberOfSlots : Nat)
    (stream pstream : osmo_stream_srv)
    (h : unregistered srv c) (hfi : c.fi = some fi) (hst : fi.state = CLNTC_ST_ESTABLISHED)
    (hpeer : c.peer = some stream)
    (hp : bankd_conn_by_id srv (bankId % 65536) = some p)
    (hppeer : p.peer = some pstream) :
    clnt_st_established srv c.addr CLNTC_E_BANK_CONN
        (some (RsproPDU.connectBankReq ComponentType.remsimBankd bankId numberOfSlots)) =
      some (conn_written srv c.addr (fun x =>
          { x with
            comp_id_type := ComponentType.remsimBankd
            bank.bank_id := bankId % 65536
            bank.num_slots := numberOfSlots % 65536
            tx := x.tx ++ [RsproPDU.connectBankRes ResultCode.identityInUse]
            fi := some { state := CLNTC_ST_REJECTED, T := 2, timer := some 1 } })) := by
  have hpa : p.addr ≠ c.addr :=
    h.2 p (List.mem_append_right _ (bankd_conn_by_id_mem _ _ _ hp).1)
  unfold clnt_st_established
  simp only [unregistered_find_conn h, Option.some_bind, hpeer, ne_eq, not_true_eq_false,
    ↓reduceIte, rspro_gen_ConnectBankRes]
  rw [written_first h, written_next h, written_bankd_conn_by_id, hp]
  simp only [Option.map_some', Option.getD_some, bne_iff_ne, ne_eq, hpa, not_false_eq_true,
    ↓reduceIte, Option.some_bind, hppeer]
  rw [written_send h, written_state_chg h _ fi _ _ _ hfi (by rw [hst]; decide)]
  rfl

/-! ## Termination of a peer FSM -/

theorem keys_destroy (srv : rspro_server) (a : Nat) :
    registry_keys (rspro_client_conn_destroy srv a) = registry_keys srv ∨
    registry_keys (rspro_client_conn_destroy srv a) = (registry_keys srv).remove a := by
  unfold rspro_client_conn_destroy
  split
  · exact Or.inl rfl
  · split
    · exact Or.inl (keys_update_conn _ _ _ (fun _ => rfl))
    · right
      simp only
      rw [keys_remove, keys_unlink_all_slotmaps]

theorem keys_clear_fi (srv : rspro_server) (a : Nat) :
    registry_keys (update_conn srv a (fun c => { c with fi := none })) =
      (registry_keys srv).update a (fun x => { x with state := none }) :=
  keys_update_conn_gen _ _ _ _ (fun _ => rfl) (fun _ => rfl)

theorem keys_term (srv : rspro_server) (a : Nat) (cause : osmo_fsm_term_cause) :
    (conn_fi srv a = none ∧ osmo_fsm_inst_term srv a cause = srv) ∨
    registry_keys (osmo_fsm_inst_term srv a cause) =
      (registry_keys srv).update a (fun x => { x with state := none }) ∨
    registry_keys (osmo_fsm_inst_term srv a cause) =
      ((registry_keys srv).update a (fun x => { x with state := none })).remove a := by
  unfold osmo_fsm_inst_term
  split
  · rename_i h0
    exact Or.inl ⟨h0, rfl⟩
  · right
    unfold server_client_cleanup
    have hk : registry_keys (update_conn (update_conn srv a
        (fun c => { c with term_cause := some cause })) a (fun c => { c with fi := none })) =
        (registry_keys srv).update a (fun x => { x with state := none }) := by
      rw [keys_clear_fi]
      rw [keys_update_conn (fun c => { c with term_cause := some cause }) srv a (fun _ => rfl)]
    rcases keys_destroy (update_conn (update_conn srv a
        (fun c => { c with term_cause := some cause })) a (fun c => { c with fi := none })) a
      with h | h
    · exact Or.inl (h.trans hk)
    · exact Or.inr (h.trans (by rw [hk]))

theorem registry_view.find_remove (k : registry_view) (a : Nat) : (k.remove a).find a = none := by
  unfold registry_view.find registry_view.remove
  rw [List.find?_eq_none]
  intro x hx
  simp only [List.mem_append, List.mem_filter] at hx
  rcases hx with (hx | hx) | hx <;> simpa using hx.2

theorem registry_view.find_update_state_none (k : registry_view) (a : Nat) :
    ((k.update a (fun x => { x with state := none })).find a).bind (fun x => x.state) = none := by
  cases hf : (k.update a (fun x => { x with state := none })).find a with
  | none => rfl
  | some x =>
    obtain ⟨hxa, hx⟩ := registry_view.find_mem _ _ _ hf
    simp only [registry_view.update, ← List.map_append, List.mem_map] at hx
    obtain ⟨y, -, rfl⟩ := hx
    by_cases hy : y.addr = a
    · simp [hy]
    · simp [hy] at hxa

/-- After `osmo_fsm_inst_term` the peer has no FSM instance. -/
theorem conn_fi_term (srv : rspro_server) (a : Nat) (cause : osmo_fsm_term_cause) :
    conn_fi (osmo_fsm_inst_term srv a cause) a = none := by
  rcases keys_term srv a cause with ⟨h0, h⟩ | h | h
  · rw [h, h0]
  · have hmap := keys_conn_fi (osmo_fsm_inst_term srv a cause) a
    rw [h, registry_view.find_update_state_none] at hmap
    cases hc : conn_fi (osmo_fsm_inst_term srv a cause) a with
    | none => rfl
    | some fi => simp [hc] at hmap
  · have hmap := keys_conn_fi (osmo_fsm_inst_term srv a cause) a
    rw [h, registry_view.find_remove] at hmap
    cases hc : conn_fi (osmo_fsm_inst_term srv a cause) a with
    | none => rfl
    | some fi => simp [hc] at hmap

theorem registry_inv_term (srv : rspro_server) (a : Nat) (cause : osmo_fsm_term_cause)
    (hinv : (registry_keys srv).inv) : (registry_keys (osmo_fsm_inst_term srv a cause)).inv := by
  have hnone : (none : Option remsim_server_client_fsm_state) ≠ some CLNTC_ST_INIT ∧
      (none : Option remsim_server_client_fsm_state) ≠ some CLNTC_ST_ESTABLISHED := by
    constructor <;> simp
  rcases keys_term srv a cause with ⟨-, h⟩ | h | h
  · rw [h]
    exact hinv
  · rw [h]
    exact registry_view.inv_update_state _ a none hinv hnone
  · rw [h]
    exact registry_view.inv_remove _ a (registry_view.inv_update_state _ a none hinv hnone)

/-! ## The registry invariant along the FSM actions -/

theorem keys_set_state (srv : rspro_server) (a : Nat) (fi : osmo_fsm_inst) :
    registry_keys (update_conn srv a (fun c => { c with fi := some fi })) =
      (registry_keys srv).update a (fun x => { x with state := some fi.state }) :=
  keys_update_conn_gen _ _ _ _ (fun _ => rfl) (fun _ => rfl)

theorem keys_state_chg (srv s : rspro_server) (a : Nat)
    (st : remsim_server_client_fsm_state) (t T : Nat)
    (h : osmo_fsm_inst_state_chg srv a st t T = some s) :
    s = srv ∨
    registry_keys s = (registry_keys srv).update a (fun x => { x with state := some st }) := by
  unfold osmo_fsm_inst_state_chg at h
  split at h
  · simp only [Option.some.injEq] at h
    exact Or.inl h.symm
  · split at h
    · right
      rw [keys_onenter _ _ _ _ h, keys_set_state]
    · simp only [Option.some.injEq] at h
      exact Or.inl h.symm

theorem registry_inv_state_chg (srv s : rspro_server) (a : Nat)
    (st : remsim_server_client_fsm_state) (t T : Nat) (hinv : (registry_keys srv).inv)
    (hst : st ≠ CLNTC_ST_INIT ∧ st ≠ CLNTC_ST_ESTABLISHED)
    (hs : osmo_fsm_inst_state_chg srv a st t T = some s) :
    (registry_keys s).inv := by
  rcases keys_state_chg srv s a st t T hs with h | h
  · rw [h]
    exact hinv
  · rw [h]
    exact registry_view.inv_update_state _ a _ hinv
      ⟨fun h' => hst.1 (Option.some.inj h'), fun h' => hst.2 (Option.some.inj h')⟩

theorem registry_inv_state_chg_unregistered (srv s : rspro_server) (a : Nat)
    (st : remsim_server_client_fsm_state) (t T : Nat) (hinv : (registry_keys srv).inv)
    (ha : ∀ y ∈ (registry_keys srv).clients ++ (registry_keys srv).banks, y.addr ≠ a)
    (hs : osmo_fsm_inst_state_chg srv a st t T = some s) :
    (registry_keys s).inv := by
  rcases keys_state_chg srv s a st t T hs with h | h
  · rw [h]
    exact hinv
  · rw [h]
    exact registry_view.inv_update_conn_only _ a _ hinv ha (fun _ => rfl)

/-- Under the invariant a peer whose instance is in INIT or ESTABLISHED is an
unregistered record. -/
theorem registry_inv_unregistered (srv : rspro_server) (a : Nat) (fi : osmo_fsm_inst)
    (hinv : (registry_keys srv).inv) (hfi : conn_fi srv a = some fi)
    (hst : fi.state = CLNTC_ST_INIT ∨ fi.state = CLNTC_ST_ESTABLISHED) :
    (∀ y ∈ (registry_keys srv).clients ++ (registry_keys srv).banks, y.addr ≠ a) ∧
    ∃ c, unregistered srv c ∧ c.addr = a ∧ c.fi = some fi := by
  have hk := keys_conn_fi srv a
  rw [hfi] at hk
  cases hf : (registry_keys srv).find a with
  | none => simp [hf] at hk
  | some x =>
    rw [hf] at hk
    have hk : some fi.state = x.state := hk
    have hnot := registry_view.inv_not_registered _ a x hinv hf
      (by rcases hst with h | h
          · exact Or.inl (by rw [← hk, h])
          · exact Or.inr (by rw [← hk, h]))
    refine ⟨hnot, ?_⟩
    have hsrv : ∀ y ∈ srv.clients ++ srv.banks, y.addr ≠ a := by
      intro y hy
      apply hnot (conn_key y)
      simp only [registry_keys, ← List.map_append]
      exact List.mem_map_of_mem _ hy
    unfold conn_fi at hfi
    cases hc : find_conn srv a with
    | none => simp [hc] at hfi
    | some c =>
      rw [hc] at hfi
      simp only at hfi
      have hca : c.addr = a := by
        unfold find_conn at hc
        simpa using List.find?_some hc
      refine ⟨c, ⟨?_, by rw [hca]; exact hsrv⟩, hca, hfi⟩
      unfold find_conn at hc
      rw [List.append_assoc, List.find?_append] at hc
      have hrest : List.find? (fun c => c.addr == a) (srv.clients ++ srv.banks) = none :=
        find_of_not_mem a _ hsrv
      rw [hrest, Option.or_none] at hc
      rw [hca]
      exact hc

theorem keys_to_clients (srv : rspro_server) (x : rspro_client_conn) :
    registry_keys (conn_to_clients srv x) =
      { connections := (registry_keys srv).connections.filter (fun y => y.addr != x.addr)
        clients := (registry_keys srv).clients ++ [conn_key x]
        banks := (registry_keys srv).banks } := by
  simp [registry_keys, conn_to_clients, List.filter_map, Function.comp_def, conn_key]

theorem keys_to_banks (srv : rspro_server) (x : rspro_client_conn) :
    registry_keys (conn_to_banks srv x) =
      { connections := (registry_keys srv).connections.filter (fun y => y.addr != x.addr)
        clients := (registry_keys srv).clients
        banks := (registry_keys srv).banks ++ [conn_key x] } := by
  simp [registry_keys, conn_to_banks, List.filter_map, Function.comp_def, conn_key]

theorem registry_inv_to_clients (srv : rspro_server) (x : rspro_client_conn)
    (hinv : (registry_keys srv).inv)
    (hslot : ∀ y ∈ srv.clients, y.client.slot ≠ x.client.slot)
    (hst : x.fi.map (fun fi => fi.state) ≠ some CLNTC_ST_INIT ∧
      x.fi.map (fun fi => fi.state) ≠ some CLNTC_ST_ESTABLISHED) :
    (registry_keys (conn_to_clients srv x)).inv := by
  rw [keys_to_clients]
  obtain ⟨h1, h2, hd, hs⟩ := hinv
  refine ⟨?_, h2, ?_, ?_⟩
  · simp only [List.map_append, List.map_cons, List.map_nil]
    rw [List.nodup_append]
    refine ⟨h1, List.nodup_singleton _, ?_⟩
    intro s hs1 hs2
    rw [List.mem_singleton] at hs2
    simp only [registry_keys, List.map_map, List.mem_map, Function.comp_def] at hs1
    obtain ⟨y, hy, rfl⟩ := hs1
    exact hslot y hy hs2
  · intro z hz y hy
    simp only [List.mem_filter] at hy
    simp only [List.append_assoc, List.mem_append, List.mem_singleton, List.mem_cons] at hz
    rcases hz with hz | hz | hz
    · exact hd z (List.mem_append_left _ hz) y hy.1
    · rcases hz with rfl | hz
      · intro h'
        have := hy.2
        simp only [bne_iff_ne, ne_eq] at this
        exact this h'.symm
      · simp at hz
    · exact hd z (List.mem_append_right _ hz) y hy.1
  · intro z hz
    simp only [List.append_assoc, List.mem_append, List.mem_singleton, List.mem_cons] at hz
    rcases hz with hz | hz | hz
    · exact hs z (List.mem_append_left _ hz)
    · rcases hz with rfl | hz
      · exact hst
      · simp at hz
    · exact hs z (List.mem_append_right _ hz)

theorem registry_inv_to_banks (srv : rspro_server) (x : rspro_client_conn)
    (hinv : (registry_keys srv).inv)
    (hid : ∀ y ∈ srv.banks, y.bank.bank_id ≠ x.bank.bank_id)
    (hst : x.fi.map (fun fi => fi.state) ≠ some CLNTC_ST_INIT ∧
      x.fi.map (fun fi => fi.state) ≠ some CLNTC_ST_ESTABLISHED) :
    (registry_keys (conn_to_banks srv x)).inv := by
  rw [keys_to_banks]
  obtain ⟨h1, h2, hd, hs⟩ := hinv
  refine ⟨h1, ?_, ?_, ?_⟩
  · simp only [List.map_append, List.map_cons, List.map_nil]
    rw [List.nodup_append]
    refine ⟨h2, List.nodup_singleton _, ?_⟩
    intro s hs1 hs2
    rw [List.mem_singleton] at hs2
    simp only [registry_keys, List.map_map, List.mem_map, Function.comp_def] at hs1
    obtain ⟨y, hy, rfl⟩ := hs1
    exact hid y hy hs2
  · intro z hz y hy
    simp only [List.mem_filter] at hy
    simp only [List.mem_append, List.mem_singleton, List.mem_cons] at hz
    rcases hz with hz | hz | hz
    · exact hd z (List.mem_append_left _ hz) y hy.1
    · exact hd z (List.mem_append_right _ hz) y hy.1
    · rcases hz with rfl | hz
      · intro h'
        have := hy.2
        simp only [bne_iff_ne, ne_eq] at this
        exact this h'.symm
      · simp at hz
  · intro z hz
    simp only [List.mem_append, List.mem_singleton, List.mem_cons] at hz
    rcases hz with hz | hz | hz
    · exact hs z (List.mem_append_left _ hz)
    · exact hs z (List.mem_append_right _ hz)
    · rcases hz with rfl | hz
      · exact hst
      · simp at hz

theorem established_no_stream (srv : rspro_server) (a : Nat)
    (event : remsim_server_client_event) (data : Option RsproPDU)
    (h : (find_conn srv a).bind (fun c => c.peer) = none) :
    clnt_st_established srv a event data = none := by
  unfold clnt_st_established
  rw [h]

theorem established_client_bad_identity (srv : rspro_server) (a : Nat)
    (identity : ComponentType) (clientSlot : Option client_slot) (stream : osmo_stream_srv)
    (hpeer : (find_conn srv a).bind (fun c => c.peer) = some stream)
    (hi : identity ≠ ComponentType.remsimClient) :
    clnt_st_established srv a CLNTC_E_CLIENT_CONN
        (some (RsproPDU.connectClientReq identity clientSlot)) =
      some (osmo_fsm_inst_term
        (update_conn srv a (fun c => { c with comp_id_type := identity })) a
        OSMO_FSM_TERM_ERROR) := by
  unfold clnt_st_established
  simp only [hpeer, ne_eq, hi, not_false_eq_true, ↓reduceIte]

theorem established_client_no_slot (srv : rspro_server) (a : Nat) (stream : osmo_stream_srv)
    (hpeer : (find_conn srv a).bind (fun c => c.peer) = some stream) :
    clnt_st_established srv a CLNTC_E_CLIENT_CONN
        (some (RsproPDU.connectClientReq ComponentType.remsimClient none)) =
      some (osmo_fsm_inst_term
        (update_conn srv a (fun c => { c with comp_id_type := ComponentType.remsimClient })) a
        OSMO_FSM_TERM_ERROR) := by
  unfold clnt_st_established
  simp only [hpeer, ne_eq, not_true_eq_false, ↓reduceIte]

theorem established_bank_bad_identity (srv : rspro_server) (a : Nat)
    (identity : ComponentType) (bankId numberOfSlots : Nat) (stream : osmo_stream_srv)
    (hpeer : (find_conn srv a).bind (fun c => c.peer) = some stream)
    (hi : identity ≠ ComponentType.remsimBankd) :
    clnt_st_established srv a CLNTC_E_BANK_CONN
        (some (RsproPDU.connectBankReq identity bankId numberOfSlots)) =
      some (osmo_fsm_inst_term
        (update_conn srv a (fun c => { c with comp_id_type := identity })) a
        OSMO_FSM_TERM_ERROR) := by
  unfold clnt_st_established
  simp only [hpeer, ne_eq, hi, not_false_eq_true, ↓reduceIte]

/-- Collision with a client record whose stream is gone: the read of
`previous_conn->peer` has no defined behaviour. -/
theorem established_client_stale (srv : rspro_server) (c p : rspro_client_conn)
    (cs : client_slot) (stream : osmo_stream_srv)
    (h : unregistered srv c) (hpeer : c.peer = some stream)
    (hp : client_conn_by_slot srv (rspro2client_slot cs) = some p)
    (hppeer : p.peer = none) :
    clnt_st_established srv c.addr CLNTC_E_CLIENT_CONN
        (some (RsproPDU.connectClientReq ComponentType.remsimClient (some cs))) = none := by
  have hpa : p.addr ≠ c.addr :=
    h.2 p (List.mem_append_left _ (client_conn_by_slot_mem _ _ _ hp).1)
  unfold clnt_st_established
  simp only [unregistered_find_conn h, Option.some_bind, hpeer, ne_eq, not_true_eq_false,
    ↓reduceIte]
  rw [written_first h, written_next h, written_client_conn_by_slot, hp]
  simp only [Option.map_some', Option.getD_some, bne_iff_ne, ne_eq, hpa, not_false_eq_true,
    ↓reduceIte, Option.some_bind, hppeer]

/-- Collision with a bank record whose stream is gone: the read of
`previous_conn->peer` has no defined behaviour. -/
theorem established_bank_stale (srv : rspro_server) (c p : rspro_client_conn)
    (bankId numberOfSlots : Nat) (stream : osmo_stream_srv)
    (h : unregistered srv c) (hpeer : c.peer = some stream)
    (hp : bankd_conn_by_id srv (bankId % 65536) = some p)
    (hppeer : p.peer = none) :
    clnt_st_established srv c.addr CLNTC_E_BANK_CONN
        (some (RsproPDU.connectBankReq ComponentType.remsimBankd bankId numberOfSlots)) =
      none := by
  have hpa : p.addr ≠ c.addr :=
    h.2 p (List.mem_append_right _ (bankd_conn_by_id_mem _ _ _ hp).1)
  unfold clnt_st_established
  simp only [unregistered_find_conn h, Option.some_bind, hpeer, ne_eq, not_true_eq_false,
    ↓reduceIte]
  rw [written_first h, written_next h, written_bankd_conn_by_id, hp]
  simp only [Option.map_some', Option.getD_some, bne_iff_ne, ne_eq, hpa, not_false_eq_true,
    ↓reduceIte, Option.some_bind, hppeer]

theorem keys_set_comp_id (srv : rspro_server) (a : Nat) (identity : ComponentType) :
    registry_keys (update_conn srv a (fun c => { c with comp_id_type := identity })) =
      registry_keys srv :=
  keys_update_conn _ _ _ (fun _ => rfl)

theorem keys_conn_written (srv : rspro_server) (a : Nat)
    (f : rspro_client_conn → rspro_client_conn) (g : peer_key → peer_key)
    (ha : ∀ y ∈ srv.clients ++ srv.banks, y.addr ≠ a)
    (h : ∀ c, conn_key (f c) = g (conn_key c)) (hg : ∀ x, (g x).addr = x.addr) :
    registry_keys (conn_written srv a f) = (registry_keys srv).update a g := by
  rw [← keys_update_conn_gen f g srv a h hg]
  unfold update_conn map_conns conn_written
  rw [map_write_of_not_mem _ _ srv.clients (fun y hy => ha y (List.mem_append_left _ hy)),
    map_write_of_not_mem _ _ srv.banks (fun y hy => ha y (List.mem_append_right _ hy))]

theorem registry_inv_established (srv s : rspro_server) (a : Nat) (fi : osmo_fsm_inst)
    (event : remsim_server_client_event) (data : Option RsproPDU)
    (hinv : (registry_keys srv).inv) (hfi : conn_fi srv a = some fi)
    (hst : fi.state = CLNTC_ST_ESTABLISHED)
    (h : clnt_st_established srv a event data = some s) :
    (registry_keys s).inv := by
  obtain ⟨hnot, c, hu, rfl, hcfi⟩ := registry_inv_unregistered srv a fi hinv hfi (Or.inr hst)
  cases hcp : c.peer with
  | none =>
    rw [established_no_stream _ _ _ _ (by rw [unregistered_find_conn hu]; exact hcp)] at h
    simp at h
  | some stream =>
  have hown : (find_conn srv c.addr).bind (fun c => c.peer) = some stream := by
    rw [unregistered_find_conn hu]
    exact hcp
  have hterm : ∀ identity, (registry_keys (osmo_fsm_inst_term
      (update_conn srv c.addr (fun c => { c with comp_id_type := identity })) c.addr
      OSMO_FSM_TERM_ERROR)).inv := by
    intro identity
    apply registry_inv_term
    rw [keys_set_comp_id]
    exact hinv
  have same : some srv = some s → (registry_keys s).inv := by
    intro h1
    simp only [Option.some.injEq] at h1
    rw [← h1]
    exact hinv
  cases event <;> try (simp only [clnt_st_established, hown] at h; exact same h)
  · -- CLNTC_E_CLIENT_CONN
    cases data with
    | none => simp only [clnt_st_established, hown] at h; exact same h
    | some pdu =>
      cases pdu <;> try (simp only [clnt_st_established, hown] at h; exact same h)
      rename_i identity clientSlot
      by_cases hi : identity = ComponentType.remsimClient
      · subst hi
        cases clientSlot with
        | none =>
          rw [established_client_no_slot _ _ stream hown, Option.some.injEq] at h
          rw [← h]
          exact hterm _
        | some cs =>
          cases hp : client_conn_by_slot srv (rspro2client_slot cs) with
          | some p =>
            cases hpp : p.peer with
            | none =>
              rw [established_client_stale srv c p cs stream hu hcp hp hpp] at h
              simp at h
            | some pstream =>
              rw [established_client_reject srv c p fi cs stream pstream hu hcfi hst hcp hp hpp,
                Option.some.injEq] at h
              rw [← h, keys_conn_written srv c.addr _
                (fun x => { x with slot := rspro2client_slot cs,
                                   state := some CLNTC_ST_REJECTED })
                hu.2 (fun _ => rfl) (fun _ => rfl)]
              exact registry_view.inv_update_conn_only _ _ _ hinv hnot (fun _ => rfl)
          | none =>
            rw [established_client_accept srv c fi cs stream hu hcfi hst hcp hp] at h
            rw [keys_connected_client_onenter _ _ _ h]
            apply registry_inv_to_clients _ _ hinv
            · intro y hy
              unfold client_conn_by_slot at hp
              rw [List.find?_eq_none] at hp
              have := hp y hy
              rw [client_slot_equals_iff] at this
              exact this
            · constructor <;> simp
      · rw [established_client_bad_identity _ _ _ _ stream hown hi, Option.some.injEq] at h
        rw [← h]
        exact hterm _
  · -- CLNTC_E_BANK_CONN
    cases data with
    | none => simp only [clnt_st_established, hown] at h; exact same h
    | some pdu =>
      cases pdu <;> try (simp only [clnt_st_established, hown] at h; exact same h)
      rename_i identity bankId numberOfSlots
      by_cases hi : identity = ComponentType.remsimBankd
      · subst hi
        cases hp : bankd_conn_by_id srv (bankId % 65536) with
        | some p =>
          cases hpp : p.peer with
          | none =>
            rw [established_bank_stale srv c p bankId numberOfSlots stream hu hcp hp hpp] at h
            simp at h
          | some pstream =>
            rw [established_bank_reject srv c p fi bankId numberOfSlots stream pstream hu hcfi
              hst hcp hp hpp, Option.some.injEq] at h
            rw [← h, keys_conn_written srv c.addr _
              (fun x => { x with bank_id := bankId % 65536, state := some CLNTC_ST_REJECTED })
              hu.2 (fun _ => rfl) (fun _ => rfl)]
            exact registry_view.inv_update_conn_only _ _ _ hinv hnot (fun _ => rfl)
        | none =>
          rw [established_bank_accept srv c fi bankId numberOfSlots stream hu hcfi hst hcp hp,
            Option.some.injEq] at h
          rw [← h, keys_dispatch_inner, keys_connected_bankd_onenter]
          apply registry_inv_to_banks _ _ hinv
          · intro y hy
            unfold bankd_conn_by_id at hp
            rw [List.find?_eq_none] at hp
            simpa using hp y hy
          · constructor <;> simp
      · rw [established_bank_bad_identity _ _ _ _ _ stream hown hi, Option.some.injEq] at h
        rw [← h]
        exact hterm _

theorem keys_server_slotmap_del (srv s : rspro_server) (maps : Option Unit) (map : Nat)
    (h : server_slotmap_del srv maps map = some s) :
    registry_keys s = registry_keys srv := by
  unfold server_slotmap_del at h
  split at h
  · simp at h
  · simp only [Option.some.injEq] at h
    rw [← h]
    rfl

theorem keys_clnt_st_connected_bankd (srv srv1 : rspro_server) (a : Nat)
    (event : remsim_server_client_event)
    (h : clnt_st_connected_bankd srv a event = some srv1) :
    registry_keys srv1 = registry_keys srv := by
  unfold clnt_st_connected_bankd at h
  split at h
  · split at h
    · simp at h
    · split at h
      · simp at h
      · rw [keys_update_client_for_slotmap _ _ _ _ h, keys_slotmap_state_change]
  · split at h
    · simp at h
    · split at h
      · simp at h
      · split at h
        · simp at h
        · split at h
          · simp only [Option.bind_eq_some] at h
            obtain ⟨s1, h1, h2⟩ := h
            rw [keys_server_slotmap_del _ _ _ _ h2, keys_update_client_for_slotmap _ _ _ _ h1]
          · simp at h
  · simp only [Option.some.injEq] at h
    rw [← h, keys_clnt_st_connected_bankd_push]
  · simp at h

theorem registry_inv_of_keys_eq {srv srv1 : rspro_server}
    (h : registry_keys srv1 = registry_keys srv) (hinv : (registry_keys srv).inv) :
    (registry_keys srv1).inv := by
  rw [h]
  exact hinv

theorem registry_inv_allstate (srv : rspro_server) (a : Nat)
    (event : remsim_server_client_event) (hinv : (registry_keys srv).inv) :
    (registry_keys (clnt_allstate_action srv a event)).inv := by
  unfold clnt_allstate_action
  split
  · exact registry_inv_term _ _ _ hinv
  · exact registry_inv_term _ _ _ hinv
  · exact hinv

theorem registry_inv_dispatch (srv srv1 : rspro_server) (a : Nat)
    (event : remsim_server_client_event) (data : Option RsproPDU)
    (hinv : (registry_keys srv).inv)
    (h : osmo_fsm_inst_dispatch srv a event data = some srv1) : (registry_keys srv1).inv := by
  unfold osmo_fsm_inst_dispatch at h
  cases hfi : conn_fi srv a with
  | none =>
    rw [hfi] at h
    simp only [Option.some.injEq] at h
    rw [← h]
    exact hinv
  | some fi =>
    rw [hfi] at h
    simp only at h
    split at h
    · simp only [Option.some.injEq] at h
      rw [← h]
      exact registry_inv_allstate _ _ _ hinv
    · split at h
      · split at h
        · -- INIT
          rename_i hs
          unfold clnt_st_init at h
          split at h
          · exact registry_inv_state_chg_unregistered _ _ _ _ _ _ hinv
              (registry_inv_unregistered srv a fi hinv hfi (Or.inl hs)).1 h
          · simp only [Option.some.injEq] at h
            rw [← h]
            exact hinv
        · -- ESTABLISHED
          rename_i hs
          exact registry_inv_established srv srv1 a fi event data hinv hfi hs h
        · -- WAIT_CONF_RES
          unfold clnt_st_wait_cl_conf_res at h
          split at h
          · exact registry_inv_state_chg _ _ _ _ _ _ hinv (by constructor <;> simp) h
          · simp only [Option.some.injEq] at h
            rw [← h]
            exact hinv
        · -- CONNECTED_BANKD
          exact registry_inv_of_keys_eq (keys_clnt_st_connected_bankd _ _ _ _ h) hinv
        · -- CONNECTED_CLIENT
          simp only [Option.some.injEq] at h
          rw [← h]
          exact registry_inv_of_keys_eq (keys_clnt_st_connected_client _ _ _) hinv
        · -- REJECTED
          simp only [Option.some.injEq] at h
          rw [← h]
          exact hinv
      · simp only [Option.some.injEq] at h
        rw [← h]
        exact hinv

theorem registry_inv_accept (srv : rspro_server) (a : Nat) (stream : osmo_stream_srv)
    (hinv : (registry_keys srv).inv) (ha : a ∉ conn_addrs srv) :
    (registry_keys
      { srv with connections := srv.connections ++ [accept_conn a stream] }).inv := by
  obtain ⟨h1, h2, hd, hs⟩ := hinv
  refine ⟨h1, h2, ?_, hs⟩
  intro x hx y hy
  simp only [registry_keys, List.map_append, List.map_cons, List.map_nil, List.mem_append,
    List.mem_singleton] at hy
  rcases hy with hy | rfl
  · exact hd x hx y (by simpa [registry_keys] using hy)
  · intro hxa
    apply ha
    simp only [registry_keys, ← List.map_append, List.mem_map] at hx
    obtain ⟨z, hz, rfl⟩ := hx
    unfold conn_addrs
    rw [List.mem_map]
    refine ⟨z, ?_, hxa⟩
    rw [List.append_assoc]
    exact List.mem_append_right _ hz

theorem registry_inv_step (srv srv1 : rspro_server) (i : server_input)
    (hinv : (registry_keys srv).inv) (h : server_step srv i = some srv1) :
    (registry_keys srv1).inv := by
  cases i with
  | accept a stream =>
    simp only [server_step] at h
    split at h
    · simp at h
    · rename_i ha
      unfold accept_cb at h
      exact registry_inv_dispatch _ _ _ _ _ (registry_inv_accept srv a stream hinv ha) h
  | rx a pdu =>
    simp only [server_step, Option.map_eq_some'] at h
    obtain ⟨r, hr, rfl⟩ := h
    unfold handle_rx_rspro at hr
    split at hr
    all_goals first
      | (simp only [Option.map_eq_some'] at hr
         obtain ⟨s, hs, rfl⟩ := hr
         exact registry_inv_dispatch _ _ _ _ _ hinv hs)
      | (simp only [Option.some.injEq] at hr
         rw [← hr]
         exact hinv)
  | closed a =>
    simp only [server_step] at h
    unfold sock_closed_cb at h
    split at h
    · simp only [Option.some.injEq] at h
      rw [← h]
      exact hinv
    · split at h
      · simp only [Option.some.injEq] at h
        rw [← h]
        exact hinv
      · split at h
        · simp only [Option.some.injEq] at h
          rw [← h]
          exact hinv
        · refine registry_inv_dispatch _ _ _ _ _ ?_ h
          exact registry_inv_of_keys_eq
            (keys_update_conn (fun c => { c with peer := none }) srv a (fun _ => rfl)) hinv
  | ka_timeout a =>
    simp only [server_step] at h
    exact registry_inv_dispatch _ _ _ _ _ hinv h
  | timer a =>
    simp only [server_step] at h
    unfold fsm_tmr_cb at h
    split at h
    · simp only [Option.some.injEq] at h
      rw [← h]
      exact hinv
    · split at h
      · simp only [Option.some.injEq] at h
        rw [← h]
        exact hinv
      · split at h
        · simp at h
        · split at h
          · simp only [Option.some.injEq] at h
            rw [← h]
            exact registry_inv_term _ _ _ hinv
          · simp only [Option.some.injEq] at h
            rw [← h]
            exact hinv
  | event_fd rc =>
    simp only [server_step, Option.some.injEq] at h
    rw [← h]
    exact registry_inv_of_keys_eq (keys_event_fd_cb _ _) hinv
  | slotmap_add bank client talloc =>
    simp only [server_step] at h
    split at h
    · simp only [Option.some.injEq] at h
      rw [← h]
      exact hinv
    · split at h
      · simp at h
      · simp only [Option.some.injEq] at h
        rw [← h]
        exact hinv

theorem registry_inv_run (inputs : List server_input) (srv srv1 : rspro_server)
    (hinv : (registry_keys srv).inv) (h : server_run srv inputs = some srv1) :
    (registry_keys srv1).inv := by
  induction inputs generalizing srv with
  | nil =>
    simp only [server_run, Option.some.injEq] at h
    rw [← h]
    exact hinv
  | cons i rest ih =>
    simp only [server_run] at h
    split at h
    · simp at h
    · rename_i s hs
      exact ih s (registry_inv_step srv s i hinv hs) h

theorem registry_inv_unique (srv : rspro_server) (hinv : (registry_keys srv).inv) :
    registries_unique srv := by
  obtain ⟨h1, h2, -, -⟩ := hinv
  constructor
  · simp only [registry_keys, List.map_map] at h1
    exact (List.pairwise_map.1 h1)
  · simp only [registry_keys, List.map_map] at h2
    exact (List.pairwise_map.1 h2)

/-- C7: in every state that the server reaches from `rspro_server_create` by
accepting peers and processing received PDUs, closed sockets, keep-alive
timeouts, timer expiries, notifications and `slotmap_add` calls, no two peers
on the clients list have the same ClientSlot and no two peers on the banks list
have the same bank id. -/
theorem registries_unique_reachable (inputs : List server_input) (srv : rspro_server)
    (h : server_run rspro_server_create inputs = some srv) :
    srv.clients.Pairwise (fun c1 c2 => c1.client.slot ≠ c2.client.slot) ∧
    srv.banks.Pairwise (fun c1 c2 => c1.bank.bank_id ≠ c2.bank.bank_id) :=
  registry_inv_unique srv
    (registry_inv_run inputs rspro_server_create srv
      (by simp [registry_view.inv, registry_keys, rspro_server_create]) h)

/-! ## The on-entry action of CONNECTED_CLIENT on a freshly moved peer -/

theorem new_client_update (srv : rspro_server) (x : rspro_client_conn)
    (ha : ∀ y ∈ srv.clients ++ srv.banks, y.addr ≠ x.addr)
    (f : rspro_client_conn → rspro_client_conn) :
    update_conn (conn_to_clients srv x) x.addr f =
      conn_to_clients srv { f x with addr := x.addr } := by
  unfold update_conn map_conns conn_to_clients
  simp only [List.map_append, List.map_cons, List.map_nil]
  rw [map_write_of_not_mem _ _ srv.clients (fun y hy => ha y (List.mem_append_left _ hy)),
    map_write_of_not_mem _ _ srv.banks (fun y hy => ha y (List.mem_append_right _ hy)),
    conn_write_of_eq _ _ x rfl,
    map_write_of_not_mem _ _ _ (not_mem_filter_addr x.addr srv.connections)]

theorem new_client_find_conn (srv : rspro_server) (x : rspro_client_conn)
    (ha : ∀ y ∈ srv.clients ++ srv.banks, y.addr ≠ x.addr) :
    find_conn (conn_to_clients srv x) x.addr = some x := by
  unfold find_conn conn_to_clients
  simp only [List.find?_append]
  rw [find_of_not_mem _ _ (not_mem_filter_addr x.addr srv.connections),
    find_of_not_mem _ srv.clients (fun y hy => ha y (List.mem_append_left _ hy))]
  simp

theorem new_client_cfg_bankd (srv : rspro_server) (x : rspro_client_conn)
    (ha : ∀ y ∈ srv.clients ++ srv.banks, y.addr ≠ x.addr) (fi : osmo_fsm_inst)
    (hfi : x.fi = some fi) (hcc : fi.state = CLNTC_ST_CONNECTED_CLIENT) :
    osmo_fsm_inst_dispatch_inner (conn_to_clients srv x) x.addr CLNTC_E_CL_CFG_BANKD =
      conn_to_clients srv
        { x with tx := x.tx ++ [RsproPDU.configClientBankReq x.client.bankd.slot
            x.client.bankd.ip x.client.bankd.port] } := by
  unfold osmo_fsm_inst_dispatch_inner conn_fi
  rw [new_client_find_conn srv x ha]
  simp only [hfi, hcc, in_event_mask, List.mem_singleton, ↓reduceIte]
  unfold clnt_st_connected_client
  simp only
  rw [new_client_find_conn srv x ha]
  simp only [rspro_gen_ConfigClientBankReq, client_conn_send]
  rw [new_client_update srv x ha]
  simp only [hfi]

/-- What `_update_client_for_slotmap` does when the client peer of the mapping
is the record just appended to `clients`: it rewrites the last-known bank
coordinates of that record and sends it at most one configClientBankReq, with
the coordinates as rewritten. -/
theorem new_client_update_for_slotmap (srv : rspro_server) (x : rspro_client_conn)
    (ha : ∀ y ∈ srv.clients ++ srv.banks, y.addr ≠ x.addr) (fi : osmo_fsm_inst)
    (hfi : x.fi = some fi) (hcc : fi.state = CLNTC_ST_CONNECTED_CLIENT)
    (map : Nat) (m : slot_mapping)
    (hderef : slotmap_deref srv.slotmaps map = some m)
    (hlook : client_conn_by_slot (conn_to_clients srv x) m.client = some x)
    (hlive : ∀ b ∈ srv.banks, b.peer ≠ none) :
    ∃ (B : conn_bankd) (extra : List RsproPDU),
      _update_client_for_slotmap map (conn_to_clients srv x) none =
        some (conn_to_clients srv { x with client.bankd := B, tx := x.tx ++ extra }) ∧
      (extra = [] ∨ extra = [RsproPDU.configClientBankReq B.slot B.ip B.port]) := by
  have hd : slotmap_deref (conn_to_clients srv x).slotmaps map = some m := hderef
  unfold _update_client_for_slotmap
  rw [hd]
  simp only [hlook]
  -- first write: the bank slot
  have hslot : ∃ B1 : conn_bankd,
      (if (!bank_slot_equals x.client.bankd.slot m.bank) = true then
        update_conn (conn_to_clients srv x) x.addr
          (fun c => { c with client.bankd.slot := m.bank })
      else conn_to_clients srv x) = conn_to_clients srv { x with client.bankd := B1 } ∧
      B1.ip = x.client.bankd.ip ∧ B1.port = x.client.bankd.port ∧
      ((!bank_slot_equals x.client.bankd.slot m.bank) = false → B1 = x.client.bankd) := by
    by_cases hb : (!bank_slot_equals x.client.bankd.slot m.bank) = true
    · refine ⟨{ x.client.bankd with slot := m.bank }, ?_, rfl, rfl, ?_⟩
      · rw [if_pos hb, new_client_update srv x ha]
      · intro h'
        rw [h'] at hb
        exact absurd hb (by simp)
    · refine ⟨x.client.bankd, ?_, rfl, rfl, fun _ => rfl⟩
      rw [if_neg hb]
  obtain ⟨B1, hS1, hip, hport, hsame⟩ := hslot
  rw [hS1]
  have hbk : bankd_conn_by_id (conn_to_clients srv { x with client.bankd := B1 })
      m.bank.bank_id = bankd_conn_by_id srv m.bank.bank_id := rfl
  rw [hbk]
  generalize hco : (if m.state = SLMAP_S_DELETING then some (some ((0 : Nat), (0 : Nat)))
      else
        match bankd_conn_by_id srv m.bank.bank_id with
        | none => some (some (0, 0))
        | some b =>
          match b.peer with
          | none => none
          | some stream =>
            match stream.remote_ip with
            | none => some none
            | some ip => some (some (ip, 9999))) = coords
  rcases coords with _ | _ | p
  · exfalso
    split at hco
    · simp at hco
    · cases hb : bankd_conn_by_id srv m.bank.bank_id with
      | none => simp [hb] at hco
      | some b =>
        have hbl := hlive b (bankd_conn_by_id_mem _ _ _ hb).1
        rw [hb] at hco
        simp only at hco
        cases hbp : b.peer with
        | none => exact hbl hbp
        | some stream =>
          rw [hbp] at hco
          simp only at hco
          split at hco <;> simp at hco
  · refine ⟨B1, [], ?_, Or.inl rfl⟩
    simp
  · obtain ⟨bankd_ip, bankd_port⟩ := p
    simp only
    have ha1 : ∀ y ∈ srv.clients ++ srv.banks,
        y.addr ≠ ({ x with client.bankd := B1 } : rspro_client_conn).addr := ha
    by_cases hch : (x.client.bankd.port != bankd_port || x.client.bankd.ip != bankd_ip) = true
    · rw [if_pos hch]
      have e2 := new_client_update srv { x with client.bankd := B1 } ha1
        (fun c => { c with client.bankd.ip := bankd_ip, client.bankd.port := bankd_port })
      simp only at e2
      rw [e2]
      simp only [hch, Bool.or_true, ↓reduceIte]
      have e3 := new_client_cfg_bankd srv
        { x with client.bankd := { B1 with ip := bankd_ip, port := bankd_port } } ha fi hfi hcc
      simp only at e3
      rw [e3]
      exact ⟨{ B1 with ip := bankd_ip, port := bankd_port }, _, rfl, Or.inr rfl⟩
    · rw [if_neg hch]
      simp only [hch, Bool.or_false]
      by_cases hb : (!bank_slot_equals x.client.bankd.slot m.bank) = true
      · rw [if_pos hb]
        have e3 := new_client_cfg_bankd srv { x with client.bankd := B1 } ha1 fi hfi hcc
        simp only at e3
        rw [e3]
        exact ⟨B1, _, rfl, Or.inr rfl⟩
      · rw [if_neg hb]
        refine ⟨B1, [], ?_, Or.inl rfl⟩
        simp

/-! ## Handshake of a client peer -/

theorem dispatch_established (srv : rspro_server) (a : Nat) (fi : osmo_fsm_inst)
    (event : remsim_server_client_event) (data : Option RsproPDU)
    (hfi : conn_fi srv a = some fi) (hst : fi.state = CLNTC_ST_ESTABLISHED)
    (hev : event = CLNTC_E_CLIENT_CONN ∨ event = CLNTC_E_BANK_CONN) :
    osmo_fsm_inst_dispatch srv a event data = clnt_st_established srv a event data := by
  unfold osmo_fsm_inst_dispatch
  rw [hfi]
  rcases hev with rfl | rfl <;> simp [hst, allstate_event_mask, in_event_mask]

theorem find_addr_of_mem (l : List slot_mapping) (m : slot_mapping)
    (hn : (l.map (fun m => m.addr)).Nodup) (hm : m ∈ l) :
    l.find? (fun x => x.addr == m.addr) = some m := by
  induction l with
  | nil => simp at hm
  | cons y rest ih =>
    simp only [List.map_cons, List.nodup_cons, List.mem_map, not_exists, not_and] at hn
    rcases List.mem_cons.1 hm with rfl | hm'
    · simp
    · have hne : y.addr ≠ m.addr := fun h' => hn.1 m hm' h'.symm
      have hb : (y.addr == m.addr) = false := by simpa using hne
      rw [List.find?_cons, hb]
      exact ih hn.2 hm'

theorem slotmap_deref_of_mem (maps : slotmaps) (m : slot_mapping)
    (hn : (maps.mappings.map (fun m => m.addr)).Nodup) (hm : m ∈ maps.mappings) :
    slotmap_deref maps m.addr = some m :=
  find_addr_of_mem _ _ hn hm

theorem new_client_onenter (srv : rspro_server) (x : rspro_client_conn)
    (ha : ∀ y ∈ srv.clients ++ srv.banks, y.addr ≠ x.addr) (fi : osmo_fsm_inst)
    (hfi : x.fi = some fi) (hcc : fi.state = CLNTC_ST_CONNECTED_CLIENT)
    (hslot : ∀ y ∈ srv.clients, y.client.slot ≠ x.client.slot)
    (hmaps : (srv.slotmaps.mappings.map (fun m => m.addr)).Nodup)
    (hlive : ∀ b ∈ srv.banks, b.peer ≠ none) :
    ∃ (B : conn_bankd) (extra : List RsproPDU),
      clnt_st_connected_client_onenter (conn_to_clients srv x) x.addr =
        some (conn_to_clients srv { x with client.bankd := B, tx := x.tx ++ extra }) ∧
      (extra = [] ∨ extra = [RsproPDU.configClientBankReq B.slot B.ip B.port]) := by
  unfold clnt_st_connected_client_onenter
  rw [new_client_find_conn srv x ha]
  simp only
  have hsm : (conn_to_clients srv x).slotmaps = srv.slotmaps := rfl
  rw [hsm]
  cases hm : List.find? (fun map => client_slot_equals map.client x.client.slot)
      srv.slotmaps.mappings with
  | none =>
    refine ⟨x.client.bankd, [], ?_, Or.inl rfl⟩
    simp
  | some m =>
    simp only
    have hmc0 := List.find?_some hm
    have hmc : m.client = x.client.slot := (client_slot_equals_iff _ _).1 hmc0
    refine new_client_update_for_slotmap srv x ha fi hfi hcc m.addr m
      (slotmap_deref_of_mem _ _ hmaps (List.mem_of_find?_eq_some hm)) ?_ hlive
    unfold client_conn_by_slot conn_to_clients
    simp only [List.find?_append]
    have hnone : List.find? (fun conn => client_slot_equals conn.client.slot m.client)
        srv.clients = none := by
      rw [List.find?_eq_none]
      intro y hy
      rw [client_slot_equals_iff, hmc]
      exact hslot y hy
    rw [hnone]
    simp [hmc, client_slot_equals_iff]

/-- The handshake of a client where every record on `banks` has its stream: a
peer in ESTABLISHED (its record `c` on `connections`, the request arriving on
its stream) receives a connectClientReq with identity type Client and a
ClientSlot that no peer on the clients list has. Then the record is removed
from `connections` and appended to `clients`, exactly one connectClientRes,
with result ok, is sent to it (followed by at most one configClientBankReq
from the on-entry action), and its FSM is in CONNECTED_CLIENT. -/
theorem connect_client_ok (srv : rspro_server) (c : rspro_client_conn) (fi : osmo_fsm_inst)
    (cs : client_slot) (stream : osmo_stream_srv) (h : unregistered srv c)
    (hfi : c.fi = some fi) (hst : fi.state = CLNTC_ST_ESTABLISHED)
    (hpeer : c.peer = some stream)
    (hslot : ∀ y ∈ srv.clients, y.client.slot ≠ rspro2client_slot cs)
    (hmaps : (srv.slotmaps.mappings.map (fun m => m.addr)).Nodup)
    (hlive : ∀ b ∈ srv.banks, b.peer ≠ none) :
    ∃ (srv1 : rspro_server) (B : conn_bankd) (extra : List RsproPDU),
      handle_rx_rspro srv c.addr
          (RsproPDU.connectClientReq ComponentType.remsimClient (some cs)) = some (0, srv1) ∧
      srv1.connections = srv.connections.filter (fun x => x.addr != c.addr) ∧
      srv1.clients = srv.clients ++
        [{ c with
           comp_id_type := ComponentType.remsimClient
           client := { slot := rspro2client_slot cs, bankd := B }
           tx := c.tx ++ RsproPDU.connectClientRes ResultCode.ok :: extra
           fi := some { state := CLNTC_ST_CONNECTED_CLIENT, T := 0, timer := none } }] ∧
      srv1.banks = srv.banks ∧ srv1.slotmaps = srv.slotmaps ∧
      (extra = [] ∨ extra = [RsproPDU.configClientBankReq B.slot B.ip B.port]) := by
  have hp : client_conn_by_slot srv (rspro2client_slot cs) = none := by
    unfold client_conn_by_slot
    rw [List.find?_eq_none]
    intro y hy
    rw [client_slot_equals_iff]
    exact hslot y hy
  have hd := dispatch_established srv c.addr fi CLNTC_E_CLIENT_CONN
    (some (RsproPDU.connectClientReq ComponentType.remsimClient (some cs)))
    ((unregistered_conn_fi h).trans hfi) hst (Or.inl rfl)
  have key := new_client_onenter srv
    { c with
      comp_id_type := ComponentType.remsimClient
      client.slot := rspro2client_slot cs
      tx := c.tx ++ [RsproPDU.connectClientRes ResultCode.ok]
      fi := some { state := CLNTC_ST_CONNECTED_CLIENT, T := 0, timer := none } }
    h.2 _ rfl rfl hslot hmaps hlive
  obtain ⟨B, extra, he, hex⟩ := key
  refine ⟨conn_to_clients srv
    { c with
      comp_id_type := ComponentType.remsimClient
      client := { slot := rspro2client_slot cs, bankd := B }
      tx := (c.tx ++ [RsproPDU.connectClientRes ResultCode.ok]) ++ extra
      fi := some { state := CLNTC_ST_CONNECTED_CLIENT, T := 0, timer := none } },
    B, extra, ?_, rfl, ?_, rfl, rfl, hex⟩
  · unfold handle_rx_rspro
    simp only [hd]
    rw [established_client_accept srv c fi cs stream h hfi hst hpeer hp, he]
    rfl
  · simp [conn_to_clients]

/-! ## Identity conflict -/

theorem timer_rejected (srv1 : rspro_server) (a : Nat)
    (hfi : conn_fi srv1 a = some { state := CLNTC_ST_REJECTED, T := 2, timer := some 1 }) :
    fsm_tmr_cb srv1 a = some (osmo_fsm_inst_term srv1 a OSMO_FSM_TERM_TIMEOUT) := by
  unfold fsm_tmr_cb
  rw [hfi]
  simp [server_client_fsm_timer_cb]

theorem timer_rejected_terminates (srv1 : rspro_server) (a : Nat)
    (hfi : conn_fi srv1 a = some { state := CLNTC_ST_REJECTED, T := 2, timer := some 1 }) :
    ∃ srv2, fsm_tmr_cb srv1 a = some srv2 ∧ conn_fi srv2 a = none :=
  ⟨_, timer_rejected srv1 a hfi, conn_fi_term _ _ OSMO_FSM_TERM_TIMEOUT⟩

/-- The identity conflict where every record on `clients` and `banks` has its
stream: a peer in ESTABLISHED (its record `c` on `connections`, the request
arriving on its stream) sends a connect request that names a ClientSlot held
by a peer `p` on `clients`, or a bank id held by a peer `p` on `banks`. Then
the reply sent to it carries the result identityInUse, the clients and banks
lists and the mapping set are unchanged and `connections` changes in the
record of the new peer only, the new peer is in REJECTED with timer T2 armed
for 1 second, and when that timer fires the FSM instance of the new peer is
terminated. -/
theorem connect_identity_in_use (srv : rspro_server) (c : rspro_client_conn)
    (fi : osmo_fsm_inst) (stream : osmo_stream_srv) (h : unregistered srv c)
    (hfi : c.fi = some fi) (hst : fi.state = CLNTC_ST_ESTABLISHED)
    (hpeer : c.peer = some stream)
    (hlive : ∀ b ∈ srv.clients ++ srv.banks, b.peer ≠ none) :
    (∀ (cs : client_slot) (p : rspro_client_conn), p ∈ srv.clients →
      p.client.slot = rspro2client_slot cs →
      ∃ srv1 srv2,
        handle_rx_rspro srv c.addr
          (RsproPDU.connectClientReq ComponentType.remsimClient (some cs)) = some (0, srv1) ∧
        find_conn srv1 c.addr = some
          { c with
            comp_id_type := ComponentType.remsimClient
            client.slot := rspro2client_slot cs
            tx := c.tx ++ [RsproPDU.connectClientRes ResultCode.identityInUse]
            fi := some { state := CLNTC_ST_REJECTED, T := 2, timer := some 1 } } ∧
        srv1.connections = srv.connections.map (conn_write c.addr (fun x =>
          { x with
            comp_id_type := ComponentType.remsimClient
            client.slot := rspro2client_slot cs
            tx := x.tx ++ [RsproPDU.connectClientRes ResultCode.identityInUse]
            fi := some { state := CLNTC_ST_REJECTED, T := 2, timer := some 1 } })) ∧
        srv1.clients = srv.clients ∧ srv1.banks = srv.banks ∧ srv1.slotmaps = srv.slotmaps ∧
        fsm_tmr_cb srv1 c.addr = some srv2 ∧ conn_fi srv2 c.addr = none) ∧
    (∀ (bankId numberOfSlots : Nat) (p : rspro_client_conn), p ∈ srv.banks →
      p.bank.bank_id = bankId % 65536 →
      ∃ srv1 srv2,
        handle_rx_rspro srv c.addr
          (RsproPDU.connectBankReq ComponentType.remsimBankd bankId numberOfSlots) =
            some (0, srv1) ∧
        find_conn srv1 c.addr = some
          { c with
            comp_id_type := ComponentType.remsimBankd
            bank.bank_id := bankId % 65536
            bank.num_slots := numberOfSlots % 65536
            tx := c.tx ++ [RsproPDU.connectBankRes ResultCode.identityInUse]
            fi := some { state := CLNTC_ST_REJECTED, T := 2, timer := some 1 } } ∧
        srv1.connections = srv.connections.map (conn_write c.addr (fun x =>
          { x with
            comp_id_type := ComponentType.remsimBankd
            bank.bank_id := bankId % 65536
            bank.num_slots := numberOfSlots % 65536
            tx := x.tx ++ [RsproPDU.connectBankRes ResultCode.identityInUse]
            fi := some { state := CLNTC_ST_REJECTED, T := 2, timer := some 1 } })) ∧
        srv1.clients = srv.clients ∧ srv1.banks = srv.banks ∧ srv1.slotmaps = srv.slotmaps ∧
        fsm_tmr_cb srv1 c.addr = some srv2 ∧ conn_fi srv2 c.addr = none) := by
  have hcfi := (unregistered_conn_fi h).trans hfi
  constructor
  · intro cs p hp hps
    have hsome : ∃ q, client_conn_by_slot srv (rspro2client_slot cs) = some q := by
      cases hq : client_conn_by_slot srv (rspro2client_slot cs) with
      | some q => exact ⟨q, rfl⟩
      | none =>
        unfold client_conn_by_slot at hq
        rw [List.find?_eq_none] at hq
        exact absurd ((client_slot_equals_iff _ _).2 hps) (hq p hp)
    obtain ⟨q, hq⟩ := hsome
    obtain ⟨qs, hqs⟩ := Option.ne_none_iff_exists'.1
      (hlive q (List.mem_append_left _ (client_conn_by_slot_mem _ _ _ hq).1))
    have e := established_client_reject srv c q fi cs stream qs h hfi hst hpeer hq hqs
    have hd := dispatch_established srv c.addr fi CLNTC_E_CLIENT_CONN
      (some (RsproPDU.connectClientReq ComponentType.remsimClient (some cs))) hcfi hst
      (Or.inl rfl)
    have hf := written_find_conn h (fun x =>
      { x with
        comp_id_type := ComponentType.remsimClient
        client.slot := rspro2client_slot cs
        tx := x.tx ++ [RsproPDU.connectClientRes ResultCode.identityInUse]
        fi := some { state := CLNTC_ST_REJECTED, T := 2, timer := some 1 } })
    obtain ⟨srv2, ht, hn⟩ := timer_rejected_terminates _ c.addr
      (show conn_fi _ c.addr = _ by unfold conn_fi; rw [hf])
    refine ⟨_, srv2, ?_, hf, rfl, rfl, rfl, rfl, ht, hn⟩
    unfold handle_rx_rspro
    simp only [hd, e, Option.map_some']
  · intro bankId numberOfSlots p hp hps
    have hsome : ∃ q, bankd_conn_by_id srv (bankId % 65536) = some q := by
      cases hq : bankd_conn_by_id srv (bankId % 65536) with
      | some q => exact ⟨q, rfl⟩
      | none =>
        unfold bankd_conn_by_id at hq
        rw [List.find?_eq_none] at hq
        exact absurd (by simpa using hps) (hq p hp)
    obtain ⟨q, hq⟩ := hsome
    obtain ⟨qs, hqs⟩ := Option.ne_none_iff_exists'.1
      (hlive q (List.mem_append_right _ (bankd_conn_by_id_mem _ _ _ hq).1))
    have e := established_bank_reject srv c q fi bankId numberOfSlots stream qs h hfi hst hpeer
      hq hqs
    have hd := dispatch_established srv c.addr fi CLNTC_E_BANK_CONN
      (some (RsproPDU.connectBankReq ComponentType.remsimBankd bankId numberOfSlots)) hcfi hst
      (Or.inr rfl)
    have hf := written_find_conn h (fun x =>
      { x with
        comp_id_type := ComponentType.remsimBankd
        bank.bank_id := bankId % 65536
        bank.num_slots := numberOfSlots % 65536
        tx := x.tx ++ [RsproPDU.connectBankRes ResultCode.identityInUse]
        fi := some { state := CLNTC_ST_REJECTED, T := 2, timer := some 1 } })
    obtain ⟨srv2, ht, hn⟩ := timer_rejected_terminates _ c.addr
      (show conn_fi _ c.addr = _ by unfold conn_fi; rw [hf])
    refine ⟨_, srv2, ?_, hf, rfl, rfl, rfl, rfl, ht, hn⟩
    unfold handle_rx_rspro
    simp only [hd, e, Option.map_some']

/-! ## Handshakes that meet a record whose stream is gone -/

/-- C8 at an input where it fails: bank 3 was sent the createMappingReq of
mapping 50 when its keep-alive timed out, which leaves its record on `banks`
without instance and without stream; then peer 1, in ESTABLISHED, sends a
connectClientReq with identity type Client and the ClientSlot `(7, 0)` of
mapping 50, which no peer on `clients` has. The handshake has no defined
result: the on-entry action of CONNECTED_CLIENT runs the client update for
mapping 50, which finds the record of bank 3 and hands its `NULL` stream to
`osmo_stream_srv_get_fd`. When the stream of the bank closes instead of the
keep-alive timing out, the record is gone and the same request is answered
with result 0 and leaves the peer in CONNECTED_CLIENT. -/
theorem connect_client_stale_bank_undefined :
    server_run rspro_server_create example_stale_bank_inputs = some example_stale_bank ∧
    (∀ y ∈ example_stale_bank.clients, y.client.slot ≠ ⟨7, 0⟩) ∧
    (bankd_conn_by_id example_stale_bank 3).map (fun c => (c.addr, c.fi, c.peer)) =
      some (2, none, none) ∧
    handle_rx_rspro example_stale_bank 1
      (RsproPDU.connectClientReq ComponentType.remsimClient (some ⟨7, 0⟩)) = none ∧
    ((server_run rspro_server_create
        [ .slotmap_add ⟨3, 5⟩ ⟨7, 0⟩ (some 50), .accept 2 ⟨some 200⟩,
          .rx 2 (RsproPDU.connectBankReq ComponentType.remsimBankd 3 8), .closed 2,
          .accept 1 ⟨some 100⟩ ]).bind
      (fun s => handle_rx_rspro s 1
        (RsproPDU.connectClientReq ComponentType.remsimClient (some ⟨7, 0⟩)))).map
      (fun r => (r.1, (conn_fi r.2 1).map (fun fi => fi.state),
        r.2.clients.map (fun c => c.addr))) =
      some (0, some CLNTC_ST_CONNECTED_CLIENT, [1]) := by
  decide

/-- C9 at inputs where it fails (the state `example_active` is reached by the
run `example_active_inputs`). The keep-alive of client `(7, 0)` times out,
which leaves its record on `clients` without instance and without stream;
peer 3 is accepted and sends a connectClientReq with the ClientSlot `(7, 0)`.
The request has no defined result: the collision branch hands the `NULL`
stream of the record it found to `osmo_stream_srv_get_fd` before any reply is
made. The same holds for bank 3 after its keep-alive timed out and a
connectBankReq with bank id 3 from peer 3. With both records alive the two
requests are answered with result 0 and leave peer 3 in REJECTED. -/
theorem connect_collision_stale_peer_undefined :
    server_run rspro_server_create example_active_inputs = some example_active ∧
    server_run example_active [.ka_timeout 1, .accept 3 ⟨some 300⟩] =
      some example_client_reconnects ∧
    (client_conn_by_slot example_client_reconnects ⟨7, 0⟩).map
        (fun c => (c.addr, c.fi, c.peer)) = some (1, none, none) ∧
    handle_rx_rspro example_client_reconnects 3
      (RsproPDU.connectClientReq ComponentType.remsimClient (some ⟨7, 0⟩)) = none ∧
    server_run example_active [.ka_timeout 2, .accept 3 ⟨some 300⟩] =
      some example_bank_reconnects ∧
    (bankd_conn_by_id example_bank_reconnects 3).map (fun c => (c.addr, c.fi, c.peer)) =
      some (2, none, none) ∧
    handle_rx_rspro example_bank_reconnects 3
      (RsproPDU.connectBankReq ComponentType.remsimBankd 3 8) = none ∧
    ((server_run example_active [.accept 3 ⟨some 300⟩]).bind
      (fun s => handle_rx_rspro s 3
        (RsproPDU.connectClientReq ComponentType.remsimClient (some ⟨7, 0⟩)))).map
      (fun r => (r.1, (conn_fi r.2 3).map (fun fi => fi.state))) =
      some (0, some CLNTC_ST_REJECTED) ∧
    ((server_run example_active [.accept 3 ⟨some 300⟩]).bind
      (fun s => handle_rx_rspro s 3
        (RsproPDU.connectBankReq ComponentType.remsimBankd 3 8))).map
      (fun r => (r.1, (conn_fi r.2 3).map (fun fi => fi.state))) =
      some (0, some CLNTC_ST_REJECTED) := by
  decide

/-! ## Adding a mapping while the bank is connected -/

/-- C6, as amended: a successful `slotmap_add` appends the new mapping to the
global set in state NEW and changes no peer record, so the mapping is on the
`maps_new` queue of no bank peer when the call returns (its address being on no
such queue before the call), whether or not a bank peer with the bank id of the
mapping is connected. -/
theorem slotmap_add_leaves_peers (srv : rspro_server) (bank : bank_slot)
    (client : client_slot) (talloc : Option Nat)
    (h : (server_slotmap_add srv bank client talloc).1 = 0) :
    ∃ addr, talloc = some addr ∧
      (server_slotmap_add srv bank client talloc).2.slotmaps.mappings =
        srv.slotmaps.mappings ++
          [{ addr := addr, bank := bank, client := client, state := SLMAP_S_NEW }] ∧
      (server_slotmap_add srv bank client talloc).2.connections = srv.connections ∧
      (server_slotmap_add srv bank client talloc).2.clients = srv.clients ∧
      (server_slotmap_add srv bank client talloc).2.banks = srv.banks ∧
      ((∀ conn ∈ srv.banks, addr ∉ conn.bank.maps_new) →
        ∀ conn ∈ (server_slotmap_add srv bank client talloc).2.banks,
          addr ∉ conn.bank.maps_new) := by
  obtain ⟨addr, ha, -, -, heq⟩ := slotmap_add_ok srv.slotmaps bank client talloc h
  refine ⟨addr, ha, ?_, rfl, rfl, rfl, fun hq => hq⟩
  show (slotmap_add srv.slotmaps bank client talloc).2.mappings = _
  rw [heq]

/-! ## Handshake of a bank peer: linking and pushing the mappings -/

theorem map_set_state_addr (ma : Nat) (st : slot_mapping_state) (m : slot_mapping) :
    (map_set_state ma st m).addr = m.addr := by
  unfold map_set_state
  split <;> rfl

/-- Marking a first mapping and then a set of mappings is marking the larger
set. -/
theorem map_set_state_then (ma : Nat) (st : slot_mapping_state) (as : List Nat)
    (L : List slot_mapping) :
    (L.map (map_set_state ma st)).map
        (fun y => if y.addr ∈ as then { y with state := st } else y) =
      L.map (fun y => if y.addr ∈ ma :: as then { y with state := st } else y) := by
  rw [List.map_map]
  apply List.map_congr_left
  intro y _
  simp only [Function.comp_apply, map_set_state_addr, List.mem_cons]
  by_cases h1 : y.addr = ma <;> by_cases h2 : y.addr ∈ as <;> simp [h1, h2, map_set_state]

/-- Termination of the instance of a peer that is on `connections` only and
still has its stream: the cause is recorded, `conn->fi` and `conn->peer` are
cleared, and the record stays where it is. -/
theorem written_term {srv : rspro_server} {c : rspro_client_conn} (h : unregistered srv c)
    (g : rspro_client_conn → rspro_client_conn) (fi : osmo_fsm_inst) (stream : osmo_stream_srv)
    (cause : osmo_fsm_term_cause) (hfi : (g c).fi = some fi) (hpeer : (g c).peer = some stream) :
    osmo_fsm_inst_term (conn_written srv c.addr g) c.addr cause =
      conn_written srv c.addr (fun x =>
        { g x with addr := x.addr, peer := none, fi := none, term_cause := some cause }) := by
  unfold osmo_fsm_inst_term
  rw [written_conn_fi h g, hfi]
  simp only
  rw [written_next h]
  unfold server_client_cleanup
  rw [written_next h]
  unfold rspro_client_conn_destroy
  rw [written_find_conn h]
  simp only [hpeer]
  rw [written_next h]

theorem dispatch_without_instance (srv : rspro_server) (a : Nat) (pdu : RsproPDU)
    (hfi : conn_fi srv a = none) : (handle_rx_rspro srv a pdu).map Prod.snd = some srv := by
  cases pdu <;> simp [handle_rx_rspro, osmo_fsm_inst_dispatch, hfi]

theorem established_error_exit (srv : rspro_server) (c : rspro_client_conn)
    (fi : osmo_fsm_inst) (stream : osmo_stream_srv) (identity : ComponentType)
    (h : unregistered srv c) (hfi : c.fi = some fi) (hpeer : c.peer = some stream) :
    osmo_fsm_inst_term (update_conn srv c.addr (fun x => { x with comp_id_type := identity }))
        c.addr OSMO_FSM_TERM_ERROR =
      conn_written srv c.addr (fun x =>
        { x with comp_id_type := identity, peer := none, fi := none,
                 term_cause := some OSMO_FSM_TERM_ERROR }) := by
  rw [written_first h, written_term h _ fi stream _ hfi hpeer]

theorem run_without_instance (srv : rspro_server) (a : Nat) (hfi : conn_fi srv a = none)
    (later : List RsproPDU) : server_run srv (later.map (server_input.rx a)) = some srv := by
  induction later with
  | nil => rfl
  | cons pdu rest ih =>
    have hs : server_step srv (server_input.rx a pdu) = some srv :=
      dispatch_without_instance srv a pdu hfi
    simp only [List.map_cons, server_run, hs]
    exact ih

/-- C11: a peer in ESTABLISHED (its record `c` on `connections`, its stream
attached) receives a connectClientReq whose identity type is not Client, a
connectClientReq without a ClientSlot, or a connectBankReq whose identity type
is not Bank. Then the FSM instance is terminated with cause ERROR (`conn->fi`
is cleared and the stream is destroyed), the record keeps what was sent to it,
no other record is sent anything, `clients`, `banks` and the mapping set are
as before, no record with the address of the peer is on `clients` or `banks`,
and whatever the peer is made to receive later leaves the server as it is. -/
theorem connect_error_terminates (srv : rspro_server) (c : rspro_client_conn)
    (fi : osmo_fsm_inst) (stream : osmo_stream_srv) (pdu : RsproPDU) (identity : ComponentType)
    (h : unregistered srv c) (hfi : c.fi = some fi) (hst : fi.state = CLNTC_ST_ESTABLISHED)
    (hpeer : c.peer = some stream)
    (hpdu : (∃ clientSlot, identity ≠ ComponentType.remsimClient ∧
              pdu = RsproPDU.connectClientReq identity clientSlot) ∨
            pdu = RsproPDU.connectClientReq identity none ∨
            (∃ bankId numberOfSlots, identity ≠ ComponentType.remsimBankd ∧
              pdu = RsproPDU.connectBankReq identity bankId numberOfSlots)) :
    ∃ srv1,
      handle_rx_rspro srv c.addr pdu = some (0, srv1) ∧
      find_conn srv1 c.addr = some
        { c with comp_id_type := identity, peer := none, fi := none,
                 term_cause := some OSMO_FSM_TERM_ERROR } ∧
      srv1.connections.map (fun x => (x.addr, x.tx)) =
        srv.connections.map (fun x => (x.addr, x.tx)) ∧
      srv1.clients = srv.clients ∧ srv1.banks = srv.banks ∧ srv1.slotmaps = srv.slotmaps ∧
      (∀ y ∈ srv1.clients ++ srv1.banks, y.addr ≠ c.addr) ∧
      ∀ later : List RsproPDU,
        server_run srv1 (later.map (server_input.rx c.addr)) = some srv1 := by
  have hcfi := (unregistered_conn_fi h).trans hfi
  have hS := established_error_exit srv c fi stream identity h hfi hpeer
  have hfind := written_find_conn h (fun x =>
    { x with comp_id_type := identity, peer := none, fi := none,
             term_cause := some OSMO_FSM_TERM_ERROR })
  have hown : (find_conn srv c.addr).bind (fun c => c.peer) = some stream := by
    rw [unregistered_find_conn h]
    exact hpeer
  refine ⟨_, ?_, hfind, ?_, rfl, rfl, rfl, h.2, ?_⟩
  · rcases hpdu with ⟨clientSlot, hi, rfl⟩ | rfl | ⟨bankId, numberOfSlots, hi, rfl⟩
    · unfold handle_rx_rspro
      simp only [dispatch_established srv c.addr fi CLNTC_E_CLIENT_CONN _ hcfi hst (Or.inl rfl)]
      rw [established_client_bad_identity _ _ _ _ stream hown hi, hS, Option.map_some']
    · unfold handle_rx_rspro
      simp only [dispatch_established srv c.addr fi CLNTC_E_CLIENT_CONN _ hcfi hst (Or.inl rfl)]
      by_cases hi : identity = ComponentType.remsimClient
      · subst hi
        rw [established_client_no_slot _ _ stream hown, hS, Option.map_some']
      · rw [established_client_bad_identity _ _ _ _ stream hown hi, hS, Option.map_some']
    · unfold handle_rx_rspro
      simp only [dispatch_established srv c.addr fi CLNTC_E_BANK_CONN _ hcfi hst (Or.inr rfl)]
      rw [established_bank_bad_identity _ _ _ _ _ stream hown hi, hS, Option.map_some']
  · simp only [conn_written, List.map_map]
    apply List.map_congr_left
    intro x _
    simp only [Function.comp_apply, conn_write]
    split <;> rfl
  · apply run_without_instance
    unfold conn_fi
    rw [hfind]

/-! ## The reconnect schedule -/

set_option maxRecDepth 100000 in
/-- C20: the table `k_reestablish_delay_s` has 124 entries; the entry is 0 at
the indices 0..2, 1 at 3..32, 2 at 33..62, 4 at 63..92, 8 at 93..122 and 16 at
the index 123; and the entries do not decrease along the index. -/
theorem reestablish_delay_table :
    REESTABLISH_DELAY_COUNT = 124 ∧
    (∀ i : Fin 124, k_reestablish_delay_s[i.val]? =
      some (if i.val < 3 then 0 else if i.val < 33 then 1 else if i.val < 63 then 2
        else if i.val < 93 then 4 else if i.val < 123 then 8 else 16)) ∧
    (∀ i j : Nat, i ≤ j → j < REESTABLISH_DELAY_COUNT →
      k_reestablish_delay_s.getD i 0 ≤ k_reestablish_delay_s.getD j 0) := by
  have hidx : ∀ i : Fin 124, k_reestablish_delay_s[i.val]? =
      some (if i.val < 3 then 0 else if i.val < 33 then 1 else if i.val < 63 then 2
        else if i.val < 93 then 4 else if i.val < 123 then 8 else 16) := by
    decide
  refine ⟨rfl, hidx, ?_⟩
  intro i j hij hj
  have hj1 : j < 124 := hj
  have hi := hidx ⟨i, by omega⟩
  have hjj := hidx ⟨j, hj1⟩
  simp only at hi hjj
  rw [List.getD_eq_getElem?_getD, List.getD_eq_getElem?_getD, hi, hjj]
  simp only [Option.getD_some]
  split_ifs <;> omega

/-! ## Actions as maps over the peer records -/

theorem srv_map_comp (F1 F2 : rspro_client_conn → rspro_client_conn)
    (G1 G2 : List slot_mapping → List slot_mapping) (srv : rspro_server) :
    srv_map F2 G2 (srv_map F1 G1 srv) = srv_map (F2 ∘ F1) (G2 ∘ G1) srv := by
  simp [srv_map, List.map_map]

theorem update_conn_eq_map (srv : rspro_server) (a : Nat)
    (f : rspro_client_conn → rspro_client_conn) :
    update_conn srv a f = srv_map (conn_write a f) id srv := rfl

theorem state_change_none_eq_map (srv : rspro_server) (ma : Nat) (st : slot_mapping_state) :
    _slotmap_state_change srv ma st none =
      srv_map (conn_unlink ma) (List.map (map_set_state ma st)) srv := rfl

theorem slotmap_del_eq_map (srv : rspro_server) (ma : Nat) :
    _slotmap_del srv ma =
      srv_map (conn_unlink ma) (fun L => L.eraseP (fun m => m.addr == ma)) srv := rfl

theorem find_conn_map (F : rspro_client_conn → rspro_client_conn)
    (G : List slot_mapping → List slot_mapping) (srv : rspro_server) (a : Nat)
    (hF : ∀ y, (F y).addr = y.addr) :
    find_conn (srv_map F G srv) a = (find_conn srv a).map F := by
  unfold find_conn srv_map
  simp only [← List.map_append, List.find?_map]
  have : ((fun c : rspro_client_conn => c.addr == a) ∘ F) = fun c => c.addr == a := by
    funext y
    simp [hF]
  rw [this]

theorem find_conn_addr_of_mem (l : List rspro_client_conn) (c : rspro_client_conn)
    (hn : (l.map (fun c => c.addr)).Nodup) (hc : c ∈ l) :
    l.find? (fun x => x.addr == c.addr) = some c := by
  induction l with
  | nil => simp at hc
  | cons y rest ih =>
    simp only [List.map_cons, List.nodup_cons, List.mem_map, not_exists, not_and] at hn
    rcases List.mem_cons.1 hc with rfl | hc'
    · simp
    · have hne : y.addr ≠ c.addr := fun h' => hn.1 c hc' h'.symm
      have hb : (y.addr == c.addr) = false := by simpa using hne
      rw [List.find?_cons, hb]
      exact ih hn.2 hc'

/-- With pairwise distinct addresses a pointer to a live record reads that
record. -/
theorem find_conn_of_mem (srv : rspro_server) (c : rspro_client_conn)
    (hn : (conn_addrs srv).Nodup) (hc : c ∈ srv.connections ++ srv.clients ++ srv.banks) :
    find_conn srv c.addr = some c :=
  find_conn_addr_of_mem _ c hn hc

/-- A PUSH to a peer whose `maps_new` and `maps_delreq` are empty does
nothing, whatever the state of its instance. -/
theorem push_noop (srv : rspro_server) (a : Nat) (c : rspro_client_conn)
    (hfind : find_conn srv a = some c) (hnew : c.bank.maps_new = [])
    (hdel : c.bank.maps_delreq = []) :
    osmo_fsm_inst_dispatch_inner srv a CLNTC_E_PUSH = srv := by
  unfold osmo_fsm_inst_dispatch_inner conn_fi
  rw [hfind]
  simp only
  cases c.fi with
  | none => rfl
  | some fi =>
    simp only
    cases fi.state <;>
      simp [in_event_mask, clnt_st_connected_bankd_push, hfind, hnew, hdel]

theorem event_fd_fold_noop (srv : rspro_server) (l : List rspro_client_conn)
    (h : ∀ conn ∈ l, ∃ c, find_conn srv conn.addr = some c ∧ c.bank.maps_new = [] ∧
      c.bank.maps_delreq = []) :
    l.foldl
        (fun s conn =>
          match find_conn s conn.addr with
          | none => s
          | some c =>
            let non_empty_new := c.bank.maps_new.isEmpty
            let non_empty_del := c.bank.maps_delreq.isEmpty
            if non_empty_new || non_empty_del then
              osmo_fsm_inst_dispatch_inner s conn.addr CLNTC_E_PUSH
            else s)
        srv = srv := by
  induction l with
  | nil => rfl
  | cons conn rest ih =>
    obtain ⟨c, hfind, hnew, hdel⟩ := h conn (List.mem_cons_self _ _)
    rw [List.foldl_cons]
    simp only [hfind, hnew, hdel, List.isEmpty_nil, Bool.or_self, ↓reduceIte]
    rw [push_noop srv conn.addr c hfind hnew hdel]
    exact ih (fun x hx => h x (List.mem_cons_of_mem _ hx))

/-- C19: no two live peer records share an address, and `maps_new` and
`maps_delreq` are empty for every peer on the banks list. Then `event_fd_cb`
returns the server as it was, whatever `read` returned, and so does any
number of notifications one after the other: no PDU is sent to any peer and no
mapping changes its state or its queue. -/
theorem event_fd_cb_idle (srv : rspro_server) (hn : (conn_addrs srv).Nodup)
    (hq : ∀ c ∈ srv.banks, c.bank.maps_new = [] ∧ c.bank.maps_delreq = []) :
    (∀ rc : Int, (event_fd_cb srv rc).2 = srv) ∧
    ∀ rcs : List Int, server_run srv (rcs.map server_input.event_fd) = some srv := by
  have h1 : ∀ rc : Int, (event_fd_cb srv rc).2 = srv := by
    intro rc
    unfold event_fd_cb
    split
    · rfl
    · exact event_fd_fold_noop srv srv.banks (fun conn hconn =>
        ⟨conn, find_conn_of_mem srv conn hn (List.mem_append_right _ hconn),
          (hq conn hconn).1, (hq conn hconn).2⟩)
  refine ⟨h1, ?_⟩
  intro rcs
  induction rcs with
  | nil => rfl
  | cons rc rest ih =>
    simp only [List.map_cons, server_run, server_step, h1 rc]
    exact ih

/-! ## The PUSH arm -/

theorem set_states_nil (st : slot_mapping_state) (L : List slot_mapping) :
    set_states [] st L = L := by
  simp [set_states]

theorem set_states_cons (ma : Nat) (as : List Nat) (st : slot_mapping_state)
    (L : List slot_mapping) :
    set_states as st (L.map (map_set_state ma st)) = set_states (ma :: as) st L :=
  map_set_state_then ma st as L

theorem srv_map_id (srv : rspro_server) : srv_map (fun y => y) (fun L => L) srv = srv := by
  simp [srv_map]

theorem deref_set_states (L : List slot_mapping) (as : List Nat) (st : slot_mapping_state)
    (x : Nat) :
    slotmap_deref ⟨set_states as st L⟩ x =
      (slotmap_deref ⟨L⟩ x).map (fun y => if y.addr ∈ as then { y with state := st } else y) := by
  unfold slotmap_deref set_states
  simp only [List.find?_map]
  have : ((fun m : slot_mapping => m.addr == x) ∘
      fun y : slot_mapping => if y.addr ∈ as then { y with state := st } else y) =
      fun m => m.addr == x := by
    funext y
    simp only [Function.comp_apply]
    split <;> rfl
  rw [this]

theorem update_conn_twice (srv : rspro_server) (x : Nat)
    (g1 g2 : rspro_client_conn → rspro_client_conn) :
    update_conn (update_conn srv x g1) x g2 =
      update_conn srv x (fun y => g2 { g1 y with addr := y.addr }) := by
  simp only [update_conn, map_conns, List.map_map]
  have : conn_write x g2 ∘ conn_write x g1 =
      conn_write x (fun y => g2 { g1 y with addr := y.addr }) := by
    funext y
    simp only [Function.comp_apply, conn_write]
    split <;> simp_all
  rw [this]

theorem update_conn_id (srv : rspro_server) (x : Nat) : update_conn srv x (fun y => y) = srv := by
  have : conn_write x (fun y => y) = fun y => y := by
    funext y
    simp [conn_write]
  simp [update_conn, map_conns, this]

theorem keeps_link_id : keeps_link (fun y => y) := fun _ => ⟨rfl, rfl, rfl⟩

theorem keeps_link_comp (g1 g2 : rspro_client_conn → rspro_client_conn)
    (h1 : keeps_link g1) (h2 : keeps_link g2) :
    keeps_link (fun y => g2 { g1 y with addr := y.addr }) := by
  intro y
  obtain ⟨a1, a2, a3⟩ := h1 y
  obtain ⟨b1, b2, b3⟩ := h2 { g1 y with addr := y.addr }
  exact ⟨b1.trans a1, b2.trans a2, b3.trans a3⟩

theorem update_client_unfold (ma : Nat) (srv : rspro_server) (b : Option Nat)
    (m : slot_mapping) (conn : rspro_client_conn)
    (hderef : slotmap_deref srv.slotmaps ma = some m)
    (hcl : client_conn_by_slot srv m.client = some conn) :
    _update_client_for_slotmap ma srv b =
      match bankd_coords
        (if (!bank_slot_equals conn.client.bankd.slot m.bank) = true then
          update_conn srv conn.addr (fun c => { c with client.bankd.slot := m.bank })
        else srv) m b with
      | none => none
      | some none =>
        some (if (!bank_slot_equals conn.client.bankd.slot m.bank) = true then
          update_conn srv conn.addr (fun c => { c with client.bankd.slot := m.bank })
        else srv)
      | some (some (bankd_ip, bankd_port)) =>
        some (if (!bank_slot_equals conn.client.bankd.slot m.bank ||
            (conn.client.bankd.port != bankd_port || conn.client.bankd.ip != bankd_ip)) = true
        then
          osmo_fsm_inst_dispatch_inner
            (if (conn.client.bankd.port != bankd_port || conn.client.bankd.ip != bankd_ip) = true
              then
                update_conn
                  (if (!bank_slot_equals conn.client.bankd.slot m.bank) = true then
                    update_conn srv conn.addr (fun c => { c with client.bankd.slot := m.bank })
                  else srv) conn.addr
                  (fun c => { c with client.bankd.ip := bankd_ip,
                                     client.bankd.port := bankd_port })
              else
                if (!bank_slot_equals conn.client.bankd.slot m.bank) = true then
                  update_conn srv conn.addr (fun c => { c with client.bankd.slot := m.bank })
                else srv)
            conn.addr CLNTC_E_CL_CFG_BANKD
        else
          if (conn.client.bankd.port != bankd_port || conn.client.bankd.ip != bankd_ip) = true
          then
            update_conn
              (if (!bank_slot_equals conn.client.bankd.slot m.bank) = true then
                update_conn srv conn.addr (fun c => { c with client.bankd.slot := m.bank })
              else srv) conn.addr
              (fun c => { c with client.bankd.ip := bankd_ip,
                                 client.bankd.port := bankd_port })
          else
            if (!bank_slot_equals conn.client.bankd.slot m.bank) = true then
              update_conn srv conn.addr (fun c => { c with client.bankd.slot := m.bank })
            else srv) := by
  unfold _update_client_for_slotmap bankd_coords
  rw [hderef]
  simp only [hcl]
  split
  · rename_i heq
    simp only [heq]
  · rename_i heq
    simp only [heq]
  · rename_i heq
    simp only [heq]
    split <;> rfl

theorem find_conn_update (srv : rspro_server) (x a : Nat)
    (g : rspro_client_conn → rspro_client_conn) :
    find_conn (update_conn srv x g) a = (find_conn srv a).map (conn_write x g) := by
  rw [update_conn_eq_map]
  exact find_conn_map _ _ srv a (conn_write_addr x g)

theorem conn_write_keeps (x : Nat) (g : rspro_client_conn → rspro_client_conn)
    (hg : keeps_link g) (y : rspro_client_conn) :
    (conn_write x g y).bank = y.bank ∧ (conn_write x g y).fi = y.fi ∧
      (conn_write x g y).peer = y.peer := by
  unfold conn_write
  split
  · exact hg y
  · exact ⟨rfl, rfl, rfl⟩

theorem bankd_coords_deleting (srv1 : rspro_server) (m : slot_mapping) (b : Option Nat)
    (h : m.state = SLMAP_S_DELETING) : bankd_coords srv1 m b = some (some (0, 0)) := by
  simp [bankd_coords, h]

theorem bankd_coords_of_peer (srv : rspro_server) (m : slot_mapping) (a x ip : Nat)
    (c : rspro_client_conn) (g : rspro_client_conn → rspro_client_conn) (hg : keeps_link g)
    (h : m.state ≠ SLMAP_S_DELETING) (hfind : find_conn srv a = some c)
    (hpeer : c.peer = some ⟨some ip⟩) :
    bankd_coords (update_conn srv x g) m (some a) = some (some (ip, 9999)) := by
  unfold bankd_coords
  rw [if_neg h]
  simp only [find_conn_update, hfind, Option.map_some', (conn_write_keeps x g hg c).2.2, hpeer]

/-- The self-dispatched `CLNTC_E_CL_CFG_BANKD` on a peer in CONNECTED_CLIENT:
a configClientBankReq with the last-known coordinates of the record is sent
to it. -/
theorem cfg_bankd_exact (srv : rspro_server) (a : Nat) (c : rspro_client_conn)
    (fi : osmo_fsm_inst) (hfind : find_conn srv a = some c) (hfi : c.fi = some fi)
    (hst : fi.state = CLNTC_ST_CONNECTED_CLIENT) :
    osmo_fsm_inst_dispatch_inner srv a CLNTC_E_CL_CFG_BANKD =
      update_conn srv a (fun y =>
        { y with tx := y.tx ++ [RsproPDU.configClientBankReq c.client.bankd.slot
            c.client.bankd.ip c.client.bankd.port] }) := by
  unfold osmo_fsm_inst_dispatch_inner conn_fi
  rw [hfind]
  simp only [hfi, hst, in_event_mask, List.mem_singleton, ↓reduceIte]
  unfold clnt_st_connected_client
  simp only [hfind, rspro_gen_ConfigClientBankReq, client_conn_send]

theorem find_conn_update_self (srv : rspro_server) (c : rspro_client_conn)
    (g : rspro_client_conn → rspro_client_conn) (hfind : find_conn srv c.addr = some c) :
    find_conn (update_conn srv c.addr g) c.addr = some { g c with addr := c.addr } := by
  rw [find_conn_update, hfind, Option.map_some', conn_write_of_eq _ _ _ rfl]

theorem conn_bankd_eq_iff (B : conn_bankd) (s : bank_slot) (i p : Nat) :
    B = ⟨s, i, p⟩ ↔ B.slot = s ∧ B.ip = i ∧ B.port = p := by
  cases B
  simp

/-- The client-update procedure when the client peer of the mapping is
connected and the bank coordinates work out to `(ip, port)`: the last-known
coordinates of the client become the bank slot of the mapping with `ip` and
`port`, and a configClientBankReq with them is sent to the client when they
were different before. -/
theorem update_client_exact (ma : Nat) (srv : rspro_server) (b : Option Nat)
    (m : slot_mapping) (cl : rspro_client_conn) (fi2 : osmo_fsm_inst) (ip port : Nat)
    (hderef : slotmap_deref srv.slotmaps ma = some m)
    (hcl : client_conn_by_slot srv m.client = some cl)
    (hfindcl : find_conn srv cl.addr = some cl) (hfi : cl.fi = some fi2)
    (hst : fi2.state = CLNTC_ST_CONNECTED_CLIENT)
    (hco : ∀ g1, keeps_link g1 →
      bankd_coords (update_conn srv cl.addr g1) m b = some (some (ip, port))) :
    ∃ g, _update_client_for_slotmap ma srv b = some (update_conn srv cl.addr g) ∧
      keeps_link g ∧
      ({ g cl with addr := cl.addr } : rspro_client_conn) =
        if cl.client.bankd = ⟨m.bank, ip, port⟩ then cl
        else { cl with
               client.bankd := ⟨m.bank, ip, port⟩
               tx := cl.tx ++ [RsproPDU.configClientBankReq m.bank ip port] } := by
  rw [update_client_unfold ma srv b m cl hderef hcl]
  by_cases hs : cl.client.bankd.slot = m.bank
  · have hbs : (!bank_slot_equals cl.client.bankd.slot m.bank) = false := by
      simp [(bank_slot_equals_iff _ _).2 hs]
    simp only [hbs, Bool.false_eq_true, ↓reduceIte, Bool.false_or]
    have hc0 := hco (fun y => y) keeps_link_id
    rw [update_conn_id] at hc0
    rw [hc0]
    simp only
    by_cases hp : (cl.client.bankd.port != port || cl.client.bankd.ip != ip) = true
    · simp only [hp, ↓reduceIte]
      have hf2 := find_conn_update_self srv cl
        (fun c => { c with client.bankd.ip := ip, client.bankd.port := port }) hfindcl
      have hd := cfg_bankd_exact _ cl.addr _ fi2 hf2 hfi hst
      simp only at hd
      rw [hd, update_conn_twice]
      refine ⟨_, rfl, keeps_link_comp
        (fun c => { c with client.bankd.ip := ip, client.bankd.port := port }) _
        (fun _ => ⟨rfl, rfl, rfl⟩) (fun _ => ⟨rfl, rfl, rfl⟩), ?_⟩
      have hne : cl.client.bankd ≠ ⟨m.bank, ip, port⟩ := by
        intro h'
        rw [conn_bankd_eq_iff] at h'
        simp [h'.2.1, h'.2.2] at hp
      rw [if_neg hne]
      simp [hs]
    · simp only [hp, Bool.false_eq_true, ↓reduceIte]
      refine ⟨fun y => y, by rw [update_conn_id], keeps_link_id, ?_⟩
      have he : cl.client.bankd = ⟨m.bank, ip, port⟩ := by
        simp only [Bool.or_eq_true, bne_iff_ne, ne_eq, not_or, not_not] at hp
        rw [conn_bankd_eq_iff]
        exact ⟨hs, hp.2, hp.1⟩
      rw [if_pos he]
  · have hbs : (!bank_slot_equals cl.client.bankd.slot m.bank) = true := by
      have : bank_slot_equals cl.client.bankd.slot m.bank = false := by
        rw [← Bool.not_eq_true]
        exact fun h' => hs ((bank_slot_equals_iff _ _).1 h')
      simp [this]
    have hne : cl.client.bankd ≠ ⟨m.bank, ip, port⟩ := by
      intro h'
      rw [conn_bankd_eq_iff] at h'
      exact hs h'.1
    simp only [hbs, ↓reduceIte, Bool.true_or]
    rw [hco (fun c => { c with client.bankd.slot := m.bank }) (fun _ => ⟨rfl, rfl, rfl⟩),
      if_neg hne]
    simp only
    by_cases hp : (cl.client.bankd.port != port || cl.client.bankd.ip != ip) = true
    · simp only [hp, ↓reduceIte]
      rw [update_conn_twice]
      have hf2 := find_conn_update_self srv cl
        (fun y => (fun c : rspro_client_conn =>
            { c with client.bankd.ip := ip, client.bankd.port := port })
          { (fun c : rspro_client_conn => { c with client.bankd.slot := m.bank }) y with
            addr := y.addr }) hfindcl
      have hd := cfg_bankd_exact _ cl.addr _ fi2 hf2 hfi hst
      simp only at hd
      rw [hd, update_conn_twice]
      exact ⟨_, rfl, keeps_link_comp
        (fun y => (fun c : rspro_client_conn =>
            { c with client.bankd.ip := ip, client.bankd.port := port })
          { (fun c : rspro_client_conn => { c with client.bankd.slot := m.bank }) y with
            addr := y.addr }) _
        (fun _ => ⟨rfl, rfl, rfl⟩) (fun _ => ⟨rfl, rfl, rfl⟩), rfl⟩
    · simp only [hp, Bool.false_eq_true, ↓reduceIte]
      have hf2 := find_conn_update_self srv cl
        (fun c => { c with client.bankd.slot := m.bank }) hfindcl
      have hd := cfg_bankd_exact _ cl.addr _ fi2 hf2 hfi hst
      simp only at hd
      rw [hd, update_conn_twice]
      refine ⟨_, rfl, keeps_link_comp
        (fun c => { c with client.bankd.slot := m.bank }) _
        (fun _ => ⟨rfl, rfl, rfl⟩) (fun _ => ⟨rfl, rfl, rfl⟩), ?_⟩
      simp only [Bool.or_eq_true, bne_iff_ne, ne_eq, not_or, not_not] at hp
      simp [hp.1, hp.2]

theorem deref_addr (maps : slotmaps) (ma : Nat) (m : slot_mapping)
    (h : slotmap_deref maps ma = some m) : m.addr = ma := by
  unfold slotmap_deref at h
  simpa using List.find?_some h

/-- C14 at concrete inputs. For createMappingReq the order is kept: a PUSH
sends the createMappingReq of mapping 50 and then of mapping 51 to bank 3, the
first createMappingRes activates mapping 50 and the second mapping 51. For
removeMappingReq no response is worked off: a PUSH sends the removeMappingReq
of mapping 50 and then of mapping 51 and puts them on `maps_deleting` in this
order, with both mappings in state DELETING; the first removeMappingRes
already has no defined result, because `slotmap_del(map->maps, map)` is handed
the `NULL` that `map->maps` is in every mapping, so neither mapping 50 nor
mapping 51 is ever removed by a response. -/
theorem remove_map_res_order_undefined :
    server_run example_two_new
        [.event_fd 8, .rx 2 (RsproPDU.createMappingRes ResultCode.ok)] =
      some example_one_acked ∧
    server_step example_one_acked (.rx 2 (RsproPDU.createMappingRes ResultCode.ok)) =
      some example_two_acked ∧
    osmo_fsm_inst_dispatch_inner example_two_delreq 2 CLNTC_E_PUSH = example_two_deleting ∧
    (find_conn example_two_deleting 2).map (fun c => c.bank.maps_deleting) = some [50, 51] ∧
    (slotmap_deref example_two_deleting.slotmaps 50).map (fun m => (m.state, m.maps)) =
      some (SLMAP_S_DELETING, none) ∧
    handle_rx_rspro example_two_deleting 2 (RsproPDU.removeMappingRes ResultCode.ok) = none := by
  decide

/-- C15 at a concrete input: mapping 50 is DELETING at the head of
`maps_deleting` of bank 3 and client `(7, 0)` knows the bank at address 200,
port 9999. On the removeMappingRes the client update runs: the client is sent
configClientBankReq with the bank slot of the mapping, ip 0 and port 0, and
its last-known ip and port are 0. Then `slotmap_del(map->maps, map)` is
called with the `NULL` that `map->maps` is in every mapping, which has no
defined behaviour: the handler has no result, and the mapping is removed
neither from the global set nor from `maps_deleting`. -/
theorem remove_map_res_undefined :
    _update_client_for_slotmap 50 example_deleting (some 2) = some example_client_cleared ∧
    example_client_cleared.clients =
      [example_client ⟨⟨3, 5⟩, 0, 0⟩
        [RsproPDU.configClientBankReq ⟨3, 5⟩ 200 9999, RsproPDU.configClientBankReq ⟨3, 5⟩ 0 0]] ∧
    (slotmap_deref example_client_cleared.slotmaps 50).map (fun m => m.maps) = some none ∧
    server_slotmap_del example_client_cleared none 50 = none ∧
    handle_rx_rspro example_deleting 2 (RsproPDU.removeMappingRes ResultCode.ok) = none := by
  decide

/-- C16 at a concrete input: bank 3 holds the ACTIVE mapping 50 when its
keep-alive times out. The instance is terminated, but `conn->peer` is still
set, so `rspro_client_conn_destroy` destroys the stream and returns: the
record stays on the banks list with mapping 50 on its `maps_active` queue, and
the mapping is still ACTIVE. When instead the stream closes, the mapping
returns to NEW and the record leaves the banks list. -/
theorem ka_timeout_keeps_mappings :
    server_run rspro_server_create example_active_inputs = some example_active ∧
    server_step example_active (.ka_timeout 2) = some example_bank_timed_out ∧
    (find_conn example_bank_timed_out 2).map (fun c => (c.fi, c.bank.maps_active)) =
      some (none, [50]) ∧
    slotmap_deref example_bank_timed_out.slotmaps 50 =
      some ⟨50, ⟨3, 5⟩, ⟨7, 0⟩, SLMAP_S_ACTIVE⟩ ∧
    server_step example_active (.closed 2) = some example_bank_gone ∧
    slotmap_deref example_bank_gone.slotmaps 50 = some ⟨50, ⟨3, 5⟩, ⟨7, 0⟩, SLMAP_S_NEW⟩ := by
  decide

/-- C17 as stated fails: bank 3 holds the ACTIVE mapping 50 and client
`(7, 0)` is connected and knows the bank at address 200, port 9999 (the state
is reached by the run `example_active_inputs`). When the stream of bank 3
closes, the mapping returns to NEW and the bank peer is gone, but the record
of the client is as before: it was sent nothing, and no configClientBankReq
with ip 0 and port 0 is among what was sent to it. -/
theorem bank_down_client_not_told :
    server_run rspro_server_create example_active_inputs = some example_active ∧
    (∃ c ∈ example_active.banks, 50 ∈ c.bank.maps_active) ∧
    slotmap_deref example_active.slotmaps 50 = some ⟨50, ⟨3, 5⟩, ⟨7, 0⟩, SLMAP_S_ACTIVE⟩ ∧
    (client_conn_by_slot example_active ⟨7, 0⟩).map (fun c => c.client.bankd) =
      some ⟨⟨3, 5⟩, 200, 9999⟩ ∧
    server_step example_active (.closed 2) = some example_bank_gone ∧
    example_bank_gone.clients = example_active.clients ∧
    ∀ c ∈ example_bank_gone.clients, RsproPDU.configClientBankReq ⟨3, 5⟩ 0 0 ∉ c.tx := by
  decide

/-! ## Termination of a bank peer whose stream closed -/

theorem unlink_fold_map (ms : List Nat) :
    ∀ s : rspro_server,
      ms.foldl unlink_to_new s = srv_map (unlink_list ms) (set_states ms SLMAP_S_NEW) s := by
  induction ms with
  | nil =>
    intro s
    have h1 : unlink_list [] = fun y => y := rfl
    have h2 : set_states [] SLMAP_S_NEW = fun L => L := funext (set_states_nil _)
    rw [List.foldl_nil, h1, h2, srv_map_id]
  | cons m rest ih =>
    intro s
    rw [List.foldl_cons, ih]
    unfold unlink_to_new
    rw [state_change_none_eq_map, srv_map_comp]
    have hG : set_states rest SLMAP_S_NEW ∘ List.map (map_set_state m SLMAP_S_NEW) =
        set_states (m :: rest) SLMAP_S_NEW := funext (set_states_cons m rest _)
    rw [hG]
    rfl

theorem del_fold_map (ms : List Nat) :
    ∀ s : rspro_server,
      ms.foldl _slotmap_del s = srv_map (unlink_list ms) (erase_list ms) s := by
  induction ms with
  | nil =>
    intro s
    have h1 : unlink_list [] = fun y => y := rfl
    have h2 : erase_list [] = fun L => L := rfl
    rw [List.foldl_nil, h1, h2, srv_map_id]
  | cons m rest ih =>
    intro s
    rw [List.foldl_cons, ih, slotmap_del_eq_map, srv_map_comp]
    rfl

/-- Unlinking a list of mappings leaves everything but the queues of a peer
record alone, and removes the mappings of the list from each queue. -/
theorem unlink_list_eq (ms : List Nat) :
    ∀ y : rspro_client_conn,
      unlink_list ms y =
        { y with bank :=
          { y.bank with
            maps_new := y.bank.maps_new.filter (fun x => decide (x ∉ ms))
            maps_unack := y.bank.maps_unack.filter (fun x => decide (x ∉ ms))
            maps_active := y.bank.maps_active.filter (fun x => decide (x ∉ ms))
            maps_delreq := y.bank.maps_delreq.filter (fun x => decide (x ∉ ms))
            maps_deleting := y.bank.maps_deleting.filter (fun x => decide (x ∉ ms)) } } := by
  induction ms with
  | nil =>
    intro y
    simp [unlink_list]
  | cons m rest ih =>
    intro y
    have hstep : unlink_list (m :: rest) y = unlink_list rest (conn_unlink m y) := rfl
    rw [hstep, ih]
    have hf : ∀ l : List Nat,
        (l.filter (fun a => a != m)).filter (fun x => decide (x ∉ rest)) =
          l.filter (fun x => decide (x ∉ m :: rest)) := by
      intro l
      rw [List.filter_filter]
      apply List.filter_congr
      intro x _
      simp only [List.mem_cons, not_or, bne_iff_ne, ne_eq, Bool.and_eq_true, decide_eq_true_eq,
        Bool.decide_and, Bool.decide_eq_true]
      by_cases h1 : x = m <;> by_cases h2 : x ∈ rest <;> simp [h1, h2]
    simp only [conn_unlink, conn_bank.unlink, hf]

theorem unlink_list_addr (ms : List Nat) (y : rspro_client_conn) :
    (unlink_list ms y).addr = y.addr := by
  rw [unlink_list_eq]

theorem unlink_list_append (A B : List Nat) :
    unlink_list B ∘ unlink_list A = unlink_list (A ++ B) := by
  funext y
  simp [unlink_list, List.foldl_append]

theorem erase_list_append (A B : List Nat) :
    erase_list B ∘ erase_list A = erase_list (A ++ B) := by
  funext L
  simp [erase_list, List.foldl_append]

theorem set_states_append (A B : List Nat) (st : slot_mapping_state) :
    set_states B st ∘ set_states A st = set_states (A ++ B) st := by
  funext L
  simp only [Function.comp_apply, set_states, List.map_map]
  apply List.map_congr_left
  intro y _
  simp only [Function.comp_apply, List.mem_append]
  by_cases h1 : y.addr ∈ A <;> by_cases h2 : y.addr ∈ B <;> simp [h1, h2]

/-- One loop of `_unlink_all_slotmaps` that returns mappings to NEW, on a
server that is a map of `s`: the queue is read through the pointer `a`. -/
theorem unlink_loop (s : rspro_server) (a : Nat) (c : rspro_client_conn)
    (hfind : find_conn s a = some c) (K : List Nat) (G : List slot_mapping → List slot_mapping)
    (head : bank_list_head) :
    (match find_conn (srv_map (unlink_list K) G s) a with
      | none => []
      | some c => c.bank.queue head).foldl unlink_to_new (srv_map (unlink_list K) G s) =
      srv_map (unlink_list (K ++ (unlink_list K c).bank.queue head))
        (set_states ((unlink_list K c).bank.queue head) SLMAP_S_NEW ∘ G) s := by
  rw [find_conn_map _ _ _ _ (unlink_list_addr K), hfind]
  simp only [Option.map_some']
  rw [unlink_fold_map, srv_map_comp, unlink_list_append]

/-- One loop of `_unlink_all_slotmaps` that deletes mappings, on a server that
is a map of `s`. -/
theorem del_loop (s : rspro_server) (a : Nat) (c : rspro_client_conn)
    (hfind : find_conn s a = some c) (K : List Nat) (G : List slot_mapping → List slot_mapping)
    (head : bank_list_head) :
    (match find_conn (srv_map (unlink_list K) G s) a with
      | none => []
      | some c => c.bank.queue head).foldl _slotmap_del (srv_map (unlink_list K) G s) =
      srv_map (unlink_list (K ++ (unlink_list K c).bank.queue head))
        (erase_list ((unlink_list K c).bank.queue head) ∘ G) s := by
  rw [find_conn_map _ _ _ _ (unlink_list_addr K), hfind]
  simp only [Option.map_some']
  rw [del_fold_map, srv_map_comp, unlink_list_append]

/-- Function `_unlink_all_slotmaps` as one map over the peer records: `K` are
the mappings that return to NEW, `D` the mappings that are deleted. -/
theorem unlink_all_map (s : rspro_server) (a : Nat) (c : rspro_client_conn)
    (hfind : find_conn s a = some c) :
    ∃ K D : List Nat,
      _unlink_all_slotmaps s a =
        srv_map (unlink_list (K ++ D))
          (fun L => erase_list D (set_states K SLMAP_S_NEW L)) s ∧
      (∀ x, x ∈ K ↔ x ∈ c.bank.maps_new ∨ x ∈ c.bank.maps_unack ∨ x ∈ c.bank.maps_active) ∧
      (∀ x, x ∈ D ↔ (x ∈ c.bank.maps_delreq ∨ x ∈ c.bank.maps_deleting) ∧ x ∉ K) := by
  have e1 : (match find_conn s a with
      | none => []
      | some c => c.bank.queue bank_list_head.maps_new).foldl unlink_to_new s =
      srv_map (unlink_list c.bank.maps_new) (set_states c.bank.maps_new SLMAP_S_NEW) s := by
    rw [hfind]
    exact unlink_fold_map _ s
  refine ⟨c.bank.maps_new ++
      (unlink_list c.bank.maps_new c).bank.queue bank_list_head.maps_unack ++
      (unlink_list (c.bank.maps_new ++
        (unlink_list c.bank.maps_new c).bank.queue bank_list_head.maps_unack) c).bank.queue
          bank_list_head.maps_active, ?_, ?_, ?_, ?_⟩
  · exact (unlink_list (c.bank.maps_new ++
        (unlink_list c.bank.maps_new c).bank.queue bank_list_head.maps_unack ++
        (unlink_list (c.bank.maps_new ++
          (unlink_list c.bank.maps_new c).bank.queue bank_list_head.maps_unack) c).bank.queue
            bank_list_head.maps_active) c).bank.queue bank_list_head.maps_delreq ++
      (unlink_list (c.bank.maps_new ++
        (unlink_list c.bank.maps_new c).bank.queue bank_list_head.maps_unack ++
        (unlink_list (c.bank.maps_new ++
          (unlink_list c.bank.maps_new c).bank.queue bank_list_head.maps_unack) c).bank.queue
            bank_list_head.maps_active ++
        (unlink_list (c.bank.maps_new ++
          (unlink_list c.bank.maps_new c).bank.queue bank_list_head.maps_unack ++
          (unlink_list (c.bank.maps_new ++
            (unlink_list c.bank.maps_new c).bank.queue bank_list_head.maps_unack) c).bank.queue
              bank_list_head.maps_active) c).bank.queue bank_list_head.maps_delreq) c).bank.queue
          bank_list_head.maps_deleting
  · unfold _unlink_all_slotmaps
    simp only
    rw [e1, unlink_loop s a c hfind, unlink_loop s a c hfind, del_loop s a c hfind,
      del_loop s a c hfind]
    simp only [← set_states_append, ← erase_list_append, List.append_assoc]
    rfl
  · intro x
    simp only [unlink_list_eq, conn_bank.queue, List.mem_append, List.mem_filter,
      decide_eq_true_eq, not_or]
    tauto
  · intro x
    simp only [unlink_list_eq, conn_bank.queue, List.mem_append, List.mem_filter,
      decide_eq_true_eq, not_or]
    tauto

theorem deref_erase_ne (L : List slot_mapping) (x ma : Nat) (h : x ≠ ma) :
    slotmap_deref ⟨L.eraseP (fun m => m.addr == x)⟩ ma = slotmap_deref ⟨L⟩ ma := by
  unfold slotmap_deref
  induction L with
  | nil => rfl
  | cons y rest ih =>
    simp only at ih
    by_cases hy : y.addr = x
    · have hyb : (y.addr == x) = true := by simpa using hy
      have hb : (y.addr == ma) = false := by
        rw [hy]
        simpa using h
      simp only [List.eraseP_cons, hyb, cond_true, List.find?_cons, hb]
    · have hyb : (y.addr == x) = false := by simpa using hy
      simp only [List.eraseP_cons, hyb, cond_false, List.find?_cons]
      rw [ih]

theorem deref_erase_list (D : List Nat) (ma : Nat) (h : ma ∉ D) :
    ∀ L : List slot_mapping, slotmap_deref ⟨erase_list D L⟩ ma = slotmap_deref ⟨L⟩ ma := by
  induction D with
  | nil => intro L; rfl
  | cons x rest ih =>
    intro L
    have hstep : erase_list (x :: rest) L =
        erase_list rest (L.eraseP (fun m => m.addr == x)) := rfl
    rw [hstep, ih (fun h' => h (List.mem_cons_of_mem _ h')),
      deref_erase_ne L x ma (fun h' => h (h' ▸ List.mem_cons_self _ _))]

/-- The stream of a peer with an instance closes: `conn->peer` is cleared,
the instance is terminated with cause REGULAR, the mappings of the peer are
unlinked and the record leaves its registry list. -/
theorem closed_exact (srv : rspro_server) (c : rspro_client_conn) (fi : osmo_fsm_inst)
    (stream : osmo_stream_srv) (hfind : find_conn srv c.addr = some c) (hfi : c.fi = some fi)
    (hpeer : c.peer = some stream) :
    sock_closed_cb srv c.addr = some
      { connections :=
          (_unlink_all_slotmaps (update_conn srv c.addr (fun y =>
            { y with peer := none, fi := none, term_cause := some OSMO_FSM_TERM_REGULAR }))
            c.addr).connections.filter (fun y => y.addr != c.addr)
        clients :=
          (_unlink_all_slotmaps (update_conn srv c.addr (fun y =>
            { y with peer := none, fi := none, term_cause := some OSMO_FSM_TERM_REGULAR }))
            c.addr).clients.filter (fun y => y.addr != c.addr)
        banks :=
          (_unlink_all_slotmaps (update_conn srv c.addr (fun y =>
            { y with peer := none, fi := none, term_cause := some OSMO_FSM_TERM_REGULAR }))
            c.addr).banks.filter (fun y => y.addr != c.addr)
        slotmaps :=
          (_unlink_all_slotmaps (update_conn srv c.addr (fun y =>
            { y with peer := none, fi := none, term_cause := some OSMO_FSM_TERM_REGULAR }))
            c.addr).slotmaps } := by
  have hf0 := find_conn_update_self srv c (fun y => { y with peer := none }) hfind
  have hf3 := find_conn_update_self srv c (fun y =>
    { y with peer := none, fi := none, term_cause := some OSMO_FSM_TERM_REGULAR }) hfind
  unfold sock_closed_cb
  rw [hfind]
  simp only [hpeer, hfi]
  unfold osmo_fsm_inst_dispatch conn_fi
  rw [hf0]
  simp only [hfi, allstate_event_mask, List.mem_cons, true_or, ↓reduceIte, clnt_allstate_action]
  unfold osmo_fsm_inst_term conn_fi
  rw [hf0]
  simp only [hfi]
  unfold server_client_cleanup
  rw [update_conn_twice, update_conn_twice]
  unfold rspro_client_conn_destroy
  have hf3' : find_conn (update_conn srv c.addr (fun y =>
      (fun c : rspro_client_conn => { c with fi := none })
        { (fun y => (fun c : rspro_client_conn =>
              { c with term_cause := some OSMO_FSM_TERM_REGULAR })
            { (fun y : rspro_client_conn => { y with peer := none }) y with addr := y.addr })
          y with addr := y.addr })) c.addr =
      some { c with peer := none, fi := none, term_cause := some OSMO_FSM_TERM_REGULAR } := hf3
  rw [hf3']

theorem find_conn_filter_ne (C Cl B : List rspro_client_conn) (M : slotmaps) (a x : Nat)
    (h : x ≠ a) :
    find_conn ⟨C.filter (fun y => y.addr != a), Cl.filter (fun y => y.addr != a),
        B.filter (fun y => y.addr != a), M⟩ x = find_conn ⟨C, Cl, B, M⟩ x := by
  unfold find_conn
  simp only [← List.filter_append, List.find?_filter]
  congr 1
  funext y
  by_cases hy : y.addr = x
  · simp [hy, h]
  · simp [hy]

theorem find_conn_filter_self (C Cl B : List rspro_client_conn) (M : slotmaps) (a : Nat) :
    find_conn ⟨C.filter (fun y => y.addr != a), Cl.filter (fun y => y.addr != a),
        B.filter (fun y => y.addr != a), M⟩ a = none := by
  unfold find_conn
  simp only [← List.filter_append]
  exact find_of_not_mem a _ (not_mem_filter_addr a _)

/-- The amended C17: a peer with an instance (its record `c` is what its
address reads) has the mapping at `ma` on `maps_active` when its stream closes
(TCP_DOWN). Then the mapping is in state NEW in the global set and on no queue
of any peer, the record of the peer is gone, and any other peer `cl`, in
particular the client peer of the mapping, whatever its last-known
coordinates, was sent nothing: what was sent to it, its last-known bank
coordinates and its instance are as before. -/
theorem bank_down_leaves_client (srv : rspro_server) (c cl : rspro_client_conn)
    (fi : osmo_fsm_inst) (stream : osmo_stream_srv) (ma : Nat) (m : slot_mapping)
    (hfind : find_conn srv c.addr = some c) (hfi : c.fi = some fi)
    (hpeer : c.peer = some stream) (hma : ma ∈ c.bank.maps_active)
    (hderef : slotmap_deref srv.slotmaps ma = some m)
    (hcl : find_conn srv cl.addr = some cl) (hne : cl.addr ≠ c.addr) :
    ∃ srv1 cl1,
      sock_closed_cb srv c.addr = some srv1 ∧
      find_conn srv1 cl.addr = some cl1 ∧ cl1.tx = cl.tx ∧ cl1.client = cl.client ∧
      cl1.fi = cl.fi ∧
      slotmap_deref srv1.slotmaps ma = some { m with state := SLMAP_S_NEW } ∧
      (∀ y ∈ srv1.connections ++ srv1.clients ++ srv1.banks, ma ∉ y.bank.all) ∧
      find_conn srv1 c.addr = none := by
  have hf3 := find_conn_update_self srv c (fun y =>
    { y with peer := none, fi := none, term_cause := some OSMO_FSM_TERM_REGULAR }) hfind
  obtain ⟨K, D, hU, hK, hD⟩ := unlink_all_map _ c.addr _ hf3
  have hmK : ma ∈ K := (hK ma).2 (Or.inr (Or.inr hma))
  have hmD : ma ∉ D := fun h' => ((hD ma).1 h').2 hmK
  have hclosed := closed_exact srv c fi stream hfind hfi hpeer
  rw [hU] at hclosed
  refine ⟨_, unlink_list (K ++ D) cl, hclosed, ?_, ?_, ?_, ?_, ?_, ?_, ?_⟩
  · simp only [srv_map]
    rw [find_conn_filter_ne _ _ _ _ _ _ hne]
    have h1 := find_conn_map (unlink_list (K ++ D))
      (fun L => erase_list D (set_states K SLMAP_S_NEW L))
      (update_conn srv c.addr (fun y =>
        { y with peer := none, fi := none, term_cause := some OSMO_FSM_TERM_REGULAR }))
      cl.addr (unlink_list_addr _)
    simp only [srv_map] at h1
    rw [h1, find_conn_update, hcl, Option.map_some', Option.map_some',
      conn_write_of_ne _ _ _ hne]
  · rw [unlink_list_eq]
  · rw [unlink_list_eq]
  · rw [unlink_list_eq]
  · show slotmap_deref ⟨erase_list D (set_states K SLMAP_S_NEW srv.slotmaps.mappings)⟩ ma = _
    rw [deref_erase_list D ma hmD, deref_set_states]
    show Option.map _ (slotmap_deref srv.slotmaps ma) = _
    rw [hderef, Option.map_some', deref_addr _ _ _ hderef, if_pos hmK]
  · intro y hy
    simp only [srv_map, ← List.filter_append, ← List.map_append] at hy
    obtain ⟨y0, _, rfl⟩ := List.mem_map.1 (List.mem_filter.1 hy).1
    rw [unlink_list_eq]
    simp only [conn_bank.all, List.mem_append, List.mem_filter, decide_eq_true_eq, not_or,
      not_and, not_not]
    refine ⟨⟨⟨⟨?_, ?_⟩, ?_⟩, ?_⟩, ?_⟩ <;> exact fun _ h' => absurd hmK h'
  · simp only [srv_map]
    exact find_conn_filter_self _ _ _ _ _

/-! ## The reconnect delay of the client FSM -/

set_option maxRecDepth 100000 in
theorem srvc_reset_ms_eq : srvc_reset_ms = 32000 := by decide

set_option maxRecDepth 100000 in
theorem reestablish_delay_count_eq : REESTABLISH_DELAY_COUNT = 124 := by decide

theorem int64_t_id (x : Int) (h1 : -9223372036854775808 ≤ x) (h2 : x < 9223372036854775808) :
    int64_t x = x := by
  unfold int64_t
  rw [Int.emod_eq_of_lt (by omega) (by omega)]
  omega

set_option maxRecDepth 100000 in
theorem delay_table_fin : ∀ i : Fin 124,
    k_reestablish_delay_s[i.val]? = some (k_reestablish_delay_s.getD i.val 0) ∧
    0 ≤ k_reestablish_delay_s.getD i.val 0 ∧ k_reestablish_delay_s.getD i.val 0 ≤ 16 := by
  decide

theorem delay_table_lookup (i : Nat) (h : i < REESTABLISH_DELAY_COUNT) :
    k_reestablish_delay_s[i]? = some (k_reestablish_delay_s.getD i 0) ∧
    0 ≤ k_reestablish_delay_s.getD i 0 ∧ k_reestablish_delay_s.getD i 0 ≤ 16 :=
  delay_table_fin ⟨i, h⟩

theorem reestablish_reset_eq (srvc : rspro_server_conn) (now : Int)
    (hlo : -9223372036854775808 ≤ now - srvc.reestablish_last_ms)
    (hhi : now - srvc.reestablish_last_ms < 9223372036854775808) :
    srvc_reestablish_reset srvc now =
      if 32000 < now - srvc.reestablish_last_ms then { srvc with reestablish_delay_idx := 0 }
      else srvc := by
  unfold srvc_reestablish_reset
  simp only [int64_t_id _ hlo hhi, srvc_reset_ms_eq, gt_iff_lt]

theorem reestablish_reset_idx_lt (srvc : rspro_server_conn) (now : Int)
    (hidx : srvc.reestablish_delay_idx < REESTABLISH_DELAY_COUNT) :
    (srvc_reestablish_reset srvc now).reestablish_delay_idx < REESTABLISH_DELAY_COUNT := by
  unfold srvc_reestablish_reset
  simp only
  split
  · show 0 < REESTABLISH_DELAY_COUNT
    rw [reestablish_delay_count_eq]
    omega
  · exact hidx

/-- The delay that `srvc_do_reestablish` computes at the time `now`. -/
theorem do_reestablish_eq (srvc : rspro_server_conn) (now : Int) (lib : srvc_lib)
    (hidx : srvc.reestablish_delay_idx < REESTABLISH_DELAY_COUNT)
    (hlo : -9223372036854759808 < now - srvc.reestablish_last_ms)
    (hhi : now - srvc.reestablish_last_ms < 9223372036854775808) :
    srvc_do_reestablish srvc now lib =
      srvc_fsm_inst_state_chg_ms
        { srvc_reestablish_reset srvc now with
          delays := srvc.delays ++
            [{ reset := decide (32000 < now - srvc.reestablish_last_ms),
               idx := (srvc_reestablish_reset srvc now).reestablish_delay_idx,
               delay_ms := max 1 (k_reestablish_delay_s.getD
                 (srvc_reestablish_reset srvc now).reestablish_delay_idx 0 * 1000 -
                 (now - srvc.reestablish_last_ms)) }] }
        SRVC_ST_REESTABLISH_DELAY
        (max 1 (k_reestablish_delay_s.getD
          (srvc_reestablish_reset srvc now).reestablish_delay_idx 0 * 1000 -
          (now - srvc.reestablish_last_ms))).toNat 3 now lib := by
  obtain ⟨h1, h2, h3⟩ := delay_table_lookup _ (reestablish_reset_idx_lt srvc now hidx)
  have hd : (srvc_reestablish_reset srvc now).delays = srvc.delays := by
    unfold srvc_reestablish_reset
    simp only
    split <;> rfl
  unfold srvc_do_reestablish
  simp only [h1, hd]
  generalize k_reestablish_delay_s.getD (srvc_reestablish_reset srvc now).reestablish_delay_idx 0
    = d at h2 h3 ⊢
  rw [int64_t_id (now - srvc.reestablish_last_ms) (by omega) hhi,
    int64_t_id (d * 1000) (by omega) (by omega),
    int64_t_id (d * 1000 - (now - srvc.reestablish_last_ms)) (by omega) (by omega),
    srvc_reset_ms_eq]
  have hm : (if d * 1000 - (now - srvc.reestablish_last_ms) > 0
      then d * 1000 - (now - srvc.reestablish_last_ms) else 1) =
      max 1 (d * 1000 - (now - srvc.reestablish_last_ms)) := by
    split <;> omega
  rw [hm]
  have hmod : max 1 (d * 1000 - (now - srvc.reestablish_last_ms)) % 18446744073709551616 =
      max 1 (d * 1000 - (now - srvc.reestablish_last_ms)) :=
    Int.emod_eq_of_lt (by omega) (by omega)
  rw [hmod]
theorem state_chg_delay_refused (s : rspro_server_conn) (t : Nat) (T now : Int) (lib : srvc_lib)
    (hst : s.fi.state = SRVC_ST_REESTABLISH_DELAY) :
    srvc_fsm_inst_state_chg_ms s SRVC_ST_REESTABLISH_DELAY t T now lib = some s := by
  unfold srvc_fsm_inst_state_chg_ms
  rw [hst]
  simp [server_conn_fsm_out_state_mask]

theorem state_chg_delay_permitted (s : rspro_server_conn) (t : Nat) (T now : Int)
    (lib : srvc_lib) (hst : s.fi.state ≠ SRVC_ST_REESTABLISH_DELAY) :
    srvc_fsm_inst_state_chg_ms s SRVC_ST_REESTABLISH_DELAY t T now lib =
      some (srvc_st_reestablish_delay_onenter
        { server_conn_fsm_onleave s.fi.state { s with fi := { s.fi with timer := none } } with
          fi := { state := SRVC_ST_REESTABLISH_DELAY, T := T,
                  timer := if t = 0 then none else some (now + t) } }) := by
  unfold srvc_fsm_inst_state_chg_ms
  have h : SRVC_ST_REESTABLISH_DELAY ∈ server_conn_fsm_out_state_mask s.fi.state := by
    cases hs : s.fi.state <;> simp_all [server_conn_fsm_out_state_mask]
  rw [if_pos h]
  rfl

/-- What the on-entry action of REESTABLISH_DELAY leaves and what it sets. -/
theorem reestablish_delay_onenter_fields (s : rspro_server_conn) :
    (srvc_st_reestablish_delay_onenter s).fi = s.fi ∧
    (srvc_st_reestablish_delay_onenter s).conn = none ∧
    (srvc_st_reestablish_delay_onenter s).keepalive_fi = none ∧
    (srvc_st_reestablish_delay_onenter s).reestablish_delay_idx =
      (if s.reestablish_delay_idx < REESTABLISH_DELAY_COUNT - 1
        then s.reestablish_delay_idx + 1 else s.reestablish_delay_idx) ∧
    (srvc_st_reestablish_delay_onenter s).reestablish_last_ms = s.reestablish_last_ms ∧
    (srvc_st_reestablish_delay_onenter s).delays = s.delays := by
  unfold srvc_st_reestablish_delay_onenter srvc_conn_teardown srvc_keepalive_teardown
  cases hk : s.keepalive_fi <;> cases hc : s.conn <;> simp only [hk, hc] <;>
    split <;> simp_all

theorem idx_step_min (i : Nat) (h : i < REESTABLISH_DELAY_COUNT) :
    (if i < REESTABLISH_DELAY_COUNT - 1 then i + 1 else i) =
      min (i + 1) (REESTABLISH_DELAY_COUNT - 1) := by
  rw [reestablish_delay_count_eq] at h ⊢
  split <;> omega

/-- What the on-leave callbacks leave alone: everything but the list of calls. -/
theorem onleave_fields (st : server_conn_fsm_state) (s : rspro_server_conn) :
    (server_conn_fsm_onleave st s).fi = s.fi ∧
    (server_conn_fsm_onleave st s).conn = s.conn ∧
    (server_conn_fsm_onleave st s).keepalive_fi = s.keepalive_fi ∧
    (server_conn_fsm_onleave st s).reestablish_delay_idx = s.reestablish_delay_idx ∧
    (server_conn_fsm_onleave st s).reestablish_last_ms = s.reestablish_last_ms ∧
    (server_conn_fsm_onleave st s).delays = s.delays := by
  unfold server_conn_fsm_onleave srvc_st_connected_onleave
  cases st <;> simp only <;> (try split) <;> simp

/-- Result of a permitted state change to REESTABLISH_DELAY. -/
theorem state_chg_delay_fields (s : rspro_server_conn) (t : Nat) (T now : Int)
    (lib : srvc_lib) (hst : s.fi.state ≠ SRVC_ST_REESTABLISH_DELAY) (ht : t ≠ 0) :
    ∃ s1, srvc_fsm_inst_state_chg_ms s SRVC_ST_REESTABLISH_DELAY t T now lib = some s1 ∧
      s1.fi = { state := SRVC_ST_REESTABLISH_DELAY, T := T, timer := some (now + t) } ∧
      s1.conn = none ∧ s1.keepalive_fi = none ∧
      s1.reestablish_delay_idx =
        (if s.reestablish_delay_idx < REESTABLISH_DELAY_COUNT - 1
          then s.reestablish_delay_idx + 1 else s.reestablish_delay_idx) ∧
      s1.reestablish_last_ms = s.reestablish_last_ms ∧
      s1.delays = s.delays := by
  rw [state_chg_delay_permitted s t T now lib hst]
  refine ⟨_, rfl, ?_, ?_, ?_, ?_, ?_, ?_⟩
  · rw [(reestablish_delay_onenter_fields _).1]
    simp only [if_neg ht]
  · exact (reestablish_delay_onenter_fields _).2.1
  · exact (reestablish_delay_onenter_fields _).2.2.1
  · rw [(reestablish_delay_onenter_fields _).2.2.2.1]
    simp only [(onleave_fields _ _).2.2.2.1]
  · rw [(reestablish_delay_onenter_fields _).2.2.2.2.1]
    simp only [(onleave_fields _ _).2.2.2.2.1]
  · rw [(reestablish_delay_onenter_fields _).2.2.2.2.2]
    simp only [(onleave_fields _ _).2.2.2.2.2]

theorem reestablish_reset_fields (srvc : rspro_server_conn) (now : Int) :
    (srvc_reestablish_reset srvc now).fi = srvc.fi ∧
    (srvc_reestablish_reset srvc now).reestablish_last_ms = srvc.reestablish_last_ms ∧
    (srvc_reestablish_reset srvc now).delays = srvc.delays ∧
    (srvc_reestablish_reset srvc now).conn = srvc.conn ∧
    (srvc_reestablish_reset srvc now).keepalive_fi = srvc.keepalive_fi := by
  unfold srvc_reestablish_reset
  simp only
  split <;> exact ⟨rfl, rfl, rfl, rfl, rfl⟩

/-- Result of `srvc_do_reestablish` in a state that permits the change to
REESTABLISH_DELAY. -/
theorem do_reestablish_permitted (srvc : rspro_server_conn) (now : Int) (lib : srvc_lib)
    (hidx : srvc.reestablish_delay_idx < REESTABLISH_DELAY_COUNT)
    (hlo : -9223372036854759808 < now - srvc.reestablish_last_ms)
    (hhi : now - srvc.reestablish_last_ms < 9223372036854775808)
    (hst : srvc.fi.state ≠ SRVC_ST_REESTABLISH_DELAY) :
    ∃ s, srvc_do_reestablish srvc now lib = some s ∧
      s.fi = { state := SRVC_ST_REESTABLISH_DELAY, T := 3,
               timer := some (now + max 1 (k_reestablish_delay_s.getD
                 (srvc_reestablish_reset srvc now).reestablish_delay_idx 0 * 1000 -
                 (now - srvc.reestablish_last_ms))) } ∧
      s.conn = none ∧ s.keepalive_fi = none ∧
      s.reestablish_delay_idx =
        min ((srvc_reestablish_reset srvc now).reestablish_delay_idx + 1)
          (REESTABLISH_DELAY_COUNT - 1) ∧
      s.reestablish_last_ms = srvc.reestablish_last_ms ∧
      s.delays = srvc.delays ++
        [{ reset := decide (32000 < now - srvc.reestablish_last_ms),
           idx := (srvc_reestablish_reset srvc now).reestablish_delay_idx,
           delay_ms := max 1 (k_reestablish_delay_s.getD
             (srvc_reestablish_reset srvc now).reestablish_delay_idx 0 * 1000 -
             (now - srvc.reestablish_last_ms)) }] := by
  have hpos : (0:Int) < max 1 (k_reestablish_delay_s.getD
      (srvc_reestablish_reset srvc now).reestablish_delay_idx 0 * 1000 -
      (now - srvc.reestablish_last_ms)) := by omega
  rw [do_reestablish_eq srvc now lib hidx hlo hhi]
  obtain ⟨s1, h1, h2, h3, h4, h5, h6, h7⟩ := state_chg_delay_fields
    { srvc_reestablish_reset srvc now with
      delays := srvc.delays ++
        [{ reset := decide (32000 < now - srvc.reestablish_last_ms),
           idx := (srvc_reestablish_reset srvc now).reestablish_delay_idx,
           delay_ms := max 1 (k_reestablish_delay_s.getD
             (srvc_reestablish_reset srvc now).reestablish_delay_idx 0 * 1000 -
             (now - srvc.reestablish_last_ms)) }] }
    (max 1 (k_reestablish_delay_s.getD
      (srvc_reestablish_reset srvc now).reestablish_delay_idx 0 * 1000 -
      (now - srvc.reestablish_last_ms))).toNat 3 now lib
    (by rw [(reestablish_reset_fields srvc now).1]; exact hst) (by omega)
  refine ⟨s1, h1, ?_, h3, h4, ?_, ?_, h7⟩
  · rw [h2, Int.toNat_of_nonneg (le_of_lt hpos)]
  · rw [h5]
    exact idx_step_min _ (reestablish_reset_idx_lt srvc now hidx)
  · rw [h6]
    exact (reestablish_reset_fields srvc now).2.1
/-- Result of `srvc_do_reestablish` in REESTABLISH_DELAY, whose
`out_state_mask` lacks the state itself: the change is refused. -/
theorem do_reestablish_refused (srvc : rspro_server_conn) (now : Int) (lib : srvc_lib)
    (hidx : srvc.reestablish_delay_idx < REESTABLISH_DELAY_COUNT)
    (hlo : -9223372036854759808 < now - srvc.reestablish_last_ms)
    (hhi : now - srvc.reestablish_last_ms < 9223372036854775808)
    (hst : srvc.fi.state = SRVC_ST_REESTABLISH_DELAY) :
    srvc_do_reestablish srvc now lib =
      some { srvc_reestablish_reset srvc now with
        delays := srvc.delays ++
          [{ reset := decide (32000 < now - srvc.reestablish_last_ms),
             idx := (srvc_reestablish_reset srvc now).reestablish_delay_idx,
             delay_ms := max 1 (k_reestablish_delay_s.getD
               (srvc_reestablish_reset srvc now).reestablish_delay_idx 0 * 1000 -
               (now - srvc.reestablish_last_ms)) }] } := by
  rw [do_reestablish_eq srvc now lib hidx hlo hhi]
  exact state_chg_delay_refused _ _ _ _ _
    (by rw [← hst]; exact congrArg _ (reestablish_reset_fields srvc now).1)

/-- The delay of `srvc_do_reestablish` where the state change is permitted:
for every time `now`, time of the last attempt and index within the table
such that the 64-bit subtractions do not overflow, `srvc_do_reestablish`
asks for the state REESTABLISH_DELAY with timer 3 and exactly
`max(1, delay[i]*1000 - (now - last))` milliseconds, `i` being the index after
the good-connection check: the run is recorded with that index and delay, and
in every state whose `out_state_mask` holds REESTABLISH_DELAY the instance is
then in REESTABLISH_DELAY with `T = 3` and the timer expiring that many
milliseconds after `now`. -/
theorem do_reestablish_arms_T3 (srvc : rspro_server_conn) (now : Int) (lib : srvc_lib)
    (hidx : srvc.reestablish_delay_idx < REESTABLISH_DELAY_COUNT)
    (hlo : -9223372036854759808 < now - srvc.reestablish_last_ms)
    (hhi : now - srvc.reestablish_last_ms < 9223372036854775808) :
    ∃ s, srvc_do_reestablish srvc now lib = some s ∧
      s.delays = srvc.delays ++
        [{ reset := decide (32000 < now - srvc.reestablish_last_ms),
           idx := (srvc_reestablish_reset srvc now).reestablish_delay_idx,
           delay_ms := max 1 (k_reestablish_delay_s.getD
             (srvc_reestablish_reset srvc now).reestablish_delay_idx 0 * 1000 -
             (now - srvc.reestablish_last_ms)) }] ∧
      (srvc.fi.state ≠ SRVC_ST_REESTABLISH_DELAY →
        s.fi = { state := SRVC_ST_REESTABLISH_DELAY, T := 3,
                 timer := some (now + max 1 (k_reestablish_delay_s.getD
                   (srvc_reestablish_reset srvc now).reestablish_delay_idx 0 * 1000 -
                   (now - srvc.reestablish_last_ms))) }) := by
  by_cases hst : srvc.fi.state = SRVC_ST_REESTABLISH_DELAY
  · exact ⟨_, do_reestablish_refused srvc now lib hidx hlo hhi hst, rfl,
      fun h => absurd hst h⟩
  · obtain ⟨s, h1, h2, _, _, _, _, h7⟩ := do_reestablish_permitted srvc now lib hidx hlo hhi hst
    exact ⟨s, h1, h7, fun _ => h2⟩

set_option maxRecDepth 100000 in
/-- C21 at an input where it fails: the instance is in REESTABLISH_DELAY with
timer 3 due at 66 s when `SRVC_E_ESTABLISH` arrives at 51 s, and the all-state
action calls `srvc_do_reestablish` with index and time of the last attempt set
to 0. The function works out the delay `max(1, 0 * 1000 - (51000 - 0)) = 1`
and asks for REESTABLISH_DELAY with it (the run is recorded with index 0 and
delay 1), but the state change is refused, so timer 3 is not armed with 1 ms:
it is still due at 66 s and not at 51.001 s. Called with the same index and
times in REESTABLISH, the function arms timer 3 for 51.001 s. -/
theorem do_reestablish_in_delay_keeps_timer :
    example_srvc_restart.fi =
      { state := SRVC_ST_REESTABLISH_DELAY, T := 3, timer := some 66000 } ∧
    max 1 (k_reestablish_delay_s.getD 0 0 * 1000 - ((51000 : Int) - 0)) = 1 ∧
    srvc_do_reestablish example_srvc_restart 51000 example_lib =
      some { example_srvc_restart with delays := [{ reset := true, idx := 0, delay_ms := 1 }] } ∧
    (srvc_do_reestablish (example_srvc SRVC_ST_REESTABLISH 2 (some 60000) 0 0) 51000
        example_lib).map (fun s => (s.fi, s.delays)) =
      some ({ state := SRVC_ST_REESTABLISH_DELAY, T := 3, timer := some 51001 },
        [{ reset := true, idx := 0, delay_ms := 1 }]) := by
  decide

/-- C22: `reset_ms` is 32000; the good-connection check of
`srvc_do_reestablish` sets the index to 0 when `now - last` is greater than
32000 and leaves the record as it was when the difference is at most 32000;
the run is recorded as a reset exactly in the first case, and the state change
that follows enters REESTABLISH_DELAY, where the index so obtained advances by
one up to the last entry. -/
theorem do_reestablish_reset_iff (srvc : rspro_server_conn) (now : Int) (lib : srvc_lib)
    (hidx : srvc.reestablish_delay_idx < REESTABLISH_DELAY_COUNT)
    (hlo : -9223372036854759808 < now - srvc.reestablish_last_ms)
    (hhi : now - srvc.reestablish_last_ms < 9223372036854775808) :
    srvc_reset_ms = 2 * (max (max 10 10) 16) * 1000 ∧ srvc_reset_ms = 32000 ∧
    (32000 < now - srvc.reestablish_last_ms →
      srvc_reestablish_reset srvc now = { srvc with reestablish_delay_idx := 0 }) ∧
    (now - srvc.reestablish_last_ms ≤ 32000 → srvc_reestablish_reset srvc now = srvc) ∧
    ∃ s d, srvc_do_reestablish srvc now lib = some s ∧
      s.delays = srvc.delays ++
        [{ reset := decide (32000 < now - srvc.reestablish_last_ms),
           idx := if 32000 < now - srvc.reestablish_last_ms then 0
             else srvc.reestablish_delay_idx,
           delay_ms := d }] ∧
      (srvc.fi.state ≠ SRVC_ST_REESTABLISH_DELAY →
        s.reestablish_delay_idx =
          min ((if 32000 < now - srvc.reestablish_last_ms then 0
            else srvc.reestablish_delay_idx) + 1) 123) := by
  have hr := reestablish_reset_eq srvc now (by omega) hhi
  have hi : (srvc_reestablish_reset srvc now).reestablish_delay_idx =
      if 32000 < now - srvc.reestablish_last_ms then 0 else srvc.reestablish_delay_idx := by
    rw [hr]
    split <;> rfl
  refine ⟨by rw [srvc_reset_ms_eq]; decide, srvc_reset_ms_eq, fun h => by rw [hr, if_pos h],
    fun h => by rw [hr, if_neg (by omega)], ?_⟩
  by_cases hst : srvc.fi.state = SRVC_ST_REESTABLISH_DELAY
  · refine ⟨_, (max 1 (k_reestablish_delay_s.getD
      (srvc_reestablish_reset srvc now).reestablish_delay_idx 0 * 1000 -
      (now - srvc.reestablish_last_ms))),
      do_reestablish_refused srvc now lib hidx hlo hhi hst, ?_, fun h => absurd hst h⟩
    simp only [hi]
  · obtain ⟨s, h1, _, _, _, h5, _, h7⟩ :=
      do_reestablish_permitted srvc now lib hidx hlo hhi hst
    refine ⟨s, (max 1 (k_reestablish_delay_s.getD
      (srvc_reestablish_reset srvc now).reestablish_delay_idx 0 * 1000 -
      (now - srvc.reestablish_last_ms))), h1, ?_, fun _ => ?_⟩
    · rw [h7, hi]
    · rw [h5, hi, reestablish_delay_count_eq]

/-! ## The reconnect index along the runs of the client FSM -/

theorem int64_t_range (x : Int) :
    -9223372036854775808 ≤ int64_t x ∧ int64_t x < 9223372036854775808 := by
  unfold int64_t
  have h1 := Int.emod_nonneg (x + 9223372036854775808)
    (by omega : (18446744073709551616 : Int) ≠ 0)
  have h2 := Int.emod_lt_of_pos (x + 9223372036854775808)
    (by omega : (0 : Int) < 18446744073709551616)
  omega

/-- What `srvc_do_reestablish` does to a record whose index is inside the
table, whatever the times. -/
theorem do_reestablish_char (s : rspro_server_conn) (now : Int) (lib : srvc_lib)
    (hidx : s.reestablish_delay_idx < REESTABLISH_DELAY_COUNT) :
    ∃ s1 r, srvc_do_reestablish s now lib = some s1 ∧ s1.delays = s.delays ++ [r] ∧
      r.idx = (if r.reset then 0 else s.reestablish_delay_idx) ∧ 1 ≤ r.delay_ms ∧
      s1.reestablish_last_ms = s.reestablish_last_ms ∧
      (s.fi.state ≠ SRVC_ST_REESTABLISH_DELAY →
        s1.fi = { state := SRVC_ST_REESTABLISH_DELAY, T := 3,
                  timer := some (now + r.delay_ms) } ∧
        s1.reestablish_delay_idx = min (r.idx + 1) (REESTABLISH_DELAY_COUNT - 1) ∧
        s1.conn = none ∧ s1.keepalive_fi = none) ∧
      (s.fi.state = SRVC_ST_REESTABLISH_DELAY →
        s1.fi = s.fi ∧ s1.reestablish_delay_idx = r.idx ∧ s1.conn = s.conn ∧
        s1.keepalive_fi = s.keepalive_fi) := by
  obtain ⟨h1, _, _⟩ := delay_table_lookup _ (reestablish_reset_idx_lt s now hidx)
  obtain ⟨f1, f2, f3, f4, f5⟩ := reestablish_reset_fields s now
  unfold srvc_do_reestablish
  simp only [h1]
  generalize hd : int64_t (int64_t (k_reestablish_delay_s.getD
    (srvc_reestablish_reset s now).reestablish_delay_idx 0 * 1000) -
    int64_t (now - s.reestablish_last_ms)) = d
  have hdr := int64_t_range (int64_t (k_reestablish_delay_s.getD
    (srvc_reestablish_reset s now).reestablish_delay_idx 0 * 1000) -
    int64_t (now - s.reestablish_last_ms))
  rw [hd] at hdr
  have hpos : 1 ≤ (if d > 0 then d else 1) := by split <;> omega
  have hlt : (if d > 0 then d else 1) < 9223372036854775808 := by split <;> omega
  generalize (if d > 0 then d else 1) = dm at hpos hlt
  have hmod : dm % 18446744073709551616 = dm := Int.emod_eq_of_lt (by omega) (by omega)
  rw [hmod]
  have hri : (srvc_reestablish_reset s now).reestablish_delay_idx =
      if decide (int64_t (now - s.reestablish_last_ms) > srvc_reset_ms) = true then 0
      else s.reestablish_delay_idx := by
    unfold srvc_reestablish_reset
    simp only [decide_eq_true_eq]
    split <;> rfl
  by_cases hst : s.fi.state = SRVC_ST_REESTABLISH_DELAY
  · rw [state_chg_delay_refused _ _ _ _ _ (by rw [← hst]; exact congrArg _ f1)]
    exact ⟨_, _, rfl, by rw [f3], hri, hpos, f2, fun h => absurd hst h,
      fun _ => ⟨f1, rfl, f4, f5⟩⟩
  · obtain ⟨s1, g1, g2, g3, g4, g5, g6, g7⟩ := state_chg_delay_fields
      { srvc_reestablish_reset s now with
        delays := (srvc_reestablish_reset s now).delays ++
          [{ reset := decide (int64_t (now - s.reestablish_last_ms) > srvc_reset_ms),
             idx := (srvc_reestablish_reset s now).reestablish_delay_idx, delay_ms := dm }] }
      dm.toNat 3 now lib (by rw [f1]; exact hst) (by omega)
    refine ⟨s1, _, g1, by rw [g7, f3], hri, hpos, by rw [g6]; exact f2, fun _ => ⟨?_, ?_, g3, g4⟩,
      fun h => absurd h hst⟩
    · rw [g2, Int.toNat_of_nonneg (by omega)]
    · rw [g5]
      exact idx_step_min _ (reestablish_reset_idx_lt s now hidx)
theorem teardown_fields (s : rspro_server_conn) :
    (srvc_conn_teardown (srvc_keepalive_teardown s)).fi = s.fi ∧
    (srvc_conn_teardown (srvc_keepalive_teardown s)).reestablish_delay_idx =
      s.reestablish_delay_idx ∧
    (srvc_conn_teardown (srvc_keepalive_teardown s)).delays = s.delays ∧
    (srvc_conn_teardown (srvc_keepalive_teardown s)).reestablish_last_ms =
      s.reestablish_last_ms ∧
    (srvc_conn_teardown (srvc_keepalive_teardown s)).conn = none ∧
    (srvc_conn_teardown (srvc_keepalive_teardown s)).keepalive_fi = none := by
  unfold srvc_conn_teardown srvc_keepalive_teardown
  cases hk : s.keepalive_fi <;> cases hc : s.conn <;> simp [hk, hc]

theorem send_fields (s : rspro_server_conn) (pdu : RsproPDU) (lib : srvc_lib)
    (r : Int × rspro_server_conn) (h : _server_conn_send_rspro s pdu lib = some r) :
    r.2.fi = s.fi ∧ r.2.reestablish_delay_idx = s.reestablish_delay_idx ∧
      r.2.delays = s.delays ∧ r.2.reestablish_last_ms = s.reestablish_last_ms := by
  unfold _server_conn_send_rspro ipa_client_conn_send_rspro at h
  split at h
  · cases hc : s.conn <;> simp only [hc, Option.some.injEq, reduceCtorEq] at h
    subst h
    exact ⟨rfl, rfl, rfl, rfl⟩
  · simp only [Option.some.injEq] at h
    subst h
    exact ⟨rfl, rfl, rfl, rfl⟩

/-- Expiry of the timer in REESTABLISH_DELAY: before its time nothing
happens; from its time on the instance changes to REESTABLISH with timer 2 and
the on-entry action runs. -/
theorem tmr_cb_delay (s1 : rspro_server_conn) (t3 d : Int) (lib : srvc_lib)
    (hfi : s1.fi = { state := SRVC_ST_REESTABLISH_DELAY, T := 3, timer := some d }) :
    srvc_fsm_tmr_cb s1 t3 lib =
      if d ≤ t3 then
        srvc_st_reestablish_onenter
          { s1 with fi := { state := SRVC_ST_REESTABLISH, T := 2, timer := some (t3 + 10000) } }
          t3 lib
      else some s1 := by
  unfold srvc_fsm_tmr_cb
  simp only [hfi]
  split
  · simp only [server_conn_fsm_timer_cb, srvc_fsm_inst_state_chg, srvc_fsm_inst_state_chg_ms,
      server_conn_fsm_out_state_mask, server_conn_fsm_onleave, server_conn_fsm_onenter,
      List.mem_cons, true_or, if_true, Option.map_map]
    have h10 : T2_RECONNECT.toNat * 1000 = 10000 := by decide
    rw [h10]
    simp only [Nat.cast_ofNat, OfNat.ofNat_ne_zero, if_false]
    cases h : srvc_st_reestablish_onenter
      { s1 with fi := { state := SRVC_ST_REESTABLISH, T := 2, timer := some (t3 + 10000) } }
      t3 lib <;> simp [h]
  · rfl

/-- The on-entry action of REESTABLISH stores the time of the attempt, and it
returns when the library calls succeed. -/
theorem reestablish_onenter_fields (s : rspro_server_conn) (now : Int) (lib : srvc_lib) :
    (∀ s1, srvc_st_reestablish_onenter s now lib = some s1 →
      s1.reestablish_last_ms = now ∧ s1.fi = s.fi ∧
      s1.reestablish_delay_idx = s.reestablish_delay_idx ∧
      s1.conn = some { fd_open := true, tx := [] } ∧
      s1.keepalive_fi = some { running := false }) ∧
    (lib.create_ok = true → lib.keepalive_ok = true → 0 ≤ lib.open_rc →
      ∃ s1, srvc_st_reestablish_onenter s now lib = some s1) := by
  unfold srvc_st_reestablish_onenter
  refine ⟨fun s1 h => ?_, fun h1 h2 h3 => ?_⟩
  · split at h
    · exact absurd h (by simp)
    · split at h
      · exact absurd h (by simp)
      · split at h
        · exact absurd h (by simp)
        · simp only [Option.some.injEq] at h
          subst h
          exact ⟨rfl, rfl, rfl, rfl, rfl⟩
  · simp [h1, h2, not_lt.mpr h3]
/-- In REESTABLISH_DELAY every event outside the all-state mask is refused. -/
theorem delay_state_refuses (s1 : rspro_server_conn) (event : server_conn_fsm_event)
    (data : Option RsproPDU) (now : Int) (lib : srvc_lib)
    (hst : s1.fi.state = SRVC_ST_REESTABLISH_DELAY)
    (hev : event ∉ server_conn_fsm_allstate_event_mask) :
    srvc_fsm_inst_dispatch s1 event data now lib = some (-1, s1) := by
  unfold srvc_fsm_inst_dispatch srvc_fsm_inst_dispatch_with
  simp only [if_neg hev, hst, server_conn_fsm_in_event_mask, List.not_mem_nil, if_false]

/-- C24: a connection attempt begins with the entry into REESTABLISH, whose
on-entry action stores the time in `reestablish_last_ms`. When the attempt
fails at a time `now` not before that, `srvc_do_reestablish` arms timer 3 with
a delay of at least 1 ms; REESTABLISH_DELAY takes no event but the two of the
all-state mask, and the timer does not expire before its time; when it
expires, REESTABLISH is entered again at a time that is at least
`delay[i] * 1000` ms after the stored one, `i` being the index that
`srvc_do_reestablish` used. -/
theorem reestablish_spacing (s : rspro_server_conn) (now : Int) (lib : srvc_lib)
    (hidx : s.reestablish_delay_idx < REESTABLISH_DELAY_COUNT)
    (hst : s.fi.state ≠ SRVC_ST_REESTABLISH_DELAY)
    (hclock : s.reestablish_last_ms ≤ now)
    (hrange : now - s.reestablish_last_ms < 9223372036854775808) :
    (∀ s0 t1 lib1 sa, srvc_st_reestablish_onenter s0 t1 lib1 = some sa →
      sa.reestablish_last_ms = t1) ∧
    ∃ s1 r, srvc_do_reestablish s now lib = some s1 ∧ s1.delays = s.delays ++ [r] ∧
      r.idx = (srvc_reestablish_reset s now).reestablish_delay_idx ∧ 1 ≤ r.delay_ms ∧
      s1.fi = { state := SRVC_ST_REESTABLISH_DELAY, T := 3,
                timer := some (now + r.delay_ms) } ∧
      (∀ event data t lib4, event ∉ server_conn_fsm_allstate_event_mask →
        srvc_fsm_inst_dispatch s1 event data t lib4 = some (-1, s1)) ∧
      (∀ t3 lib3 s2, srvc_fsm_tmr_cb s1 t3 lib3 = some s2 →
        (s2 = s1 ∧ t3 < now + r.delay_ms) ∨
        (s2.fi.state = SRVC_ST_REESTABLISH ∧ s2.reestablish_last_ms = t3 ∧
          k_reestablish_delay_s.getD r.idx 0 * 1000 ≤ t3 - s.reestablish_last_ms)) ∧
      (∀ t3 lib3, now + r.delay_ms ≤ t3 → lib3.create_ok = true →
        lib3.keepalive_ok = true → 0 ≤ lib3.open_rc →
        ∃ s2, srvc_fsm_tmr_cb s1 t3 lib3 = some s2 ∧ s2.fi.state = SRVC_ST_REESTABLISH) := by
  refine ⟨fun s0 t1 lib1 sa h => ((reestablish_onenter_fields s0 t1 lib1).1 sa h).1, ?_⟩
  obtain ⟨s1, h1, h2, _, _, _, _, h7⟩ :=
    do_reestablish_permitted s now lib hidx (by omega) hrange hst
  refine ⟨s1, _, h1, h7, rfl, le_max_left _ _, h2, ?_, ?_, ?_⟩
  · intro event data t lib4 hev
    exact delay_state_refuses s1 event data t lib4 (by rw [h2]) hev
  · intro t3 lib3 s2 h
    rw [tmr_cb_delay s1 t3 _ lib3 h2] at h
    split at h
    · obtain ⟨e1, e2, _⟩ := (reestablish_onenter_fields _ t3 lib3).1 s2 h
      refine Or.inr ⟨by rw [e2], e1, ?_⟩
      simp only
      omega
    · simp only [Option.some.injEq] at h
      exact Or.inl ⟨h.symm, by simp only; omega⟩
  · intro t3 lib3 ht hc hk ho
    rw [tmr_cb_delay s1 t3 _ lib3 h2, if_pos ht]
    obtain ⟨s2, hs2⟩ := (reestablish_onenter_fields
      { s1 with fi := { state := SRVC_ST_REESTABLISH, T := 2, timer := some (t3 + 10000) } }
      t3 lib3).2 hc hk ho
    exact ⟨s2, hs2, by rw [((reestablish_onenter_fields _ t3 lib3).1 s2 hs2).2.1]⟩

/-! ## The all-state events of the client FSM -/

set_option maxRecDepth 100000 in
/-- C25: ESTABLISH dispatched in REESTABLISH_DELAY at 51 s sets index and time
of the last attempt to 0, but the state change is refused: the on-entry action
does not run (the index stays 0) and the timer stays due at 66 s. In
REESTABLISH the same dispatch enters REESTABLISH_DELAY, tears down channel and
keepalive, makes the index 1 and arms timer 3 for 51.001 s. -/
theorem establish_in_delay_refused :
    srvc_fsm_inst_dispatch example_srvc_waiting SRVC_E_ESTABLISH none 51000 example_lib =
      some (0, { example_srvc_waiting with
        reestablish_delay_idx := 0
        reestablish_last_ms := 0
        delays := [{ reset := true, idx := 0, delay_ms := 1 }] }) ∧
    srvc_fsm_inst_dispatch (example_srvc SRVC_ST_REESTABLISH 2 (some 60000) 123 50000)
        SRVC_E_ESTABLISH none 51000 example_lib =
      some (0, { example_srvc_init with
        fi := { state := SRVC_ST_REESTABLISH_DELAY, T := 3, timer := some 51001 }
        reestablish_delay_idx := 1
        reestablish_last_ms := 0
        calls := [srvc_call.ipa_keepalive_fsm_stop, srvc_call.keepalive_term,
          srvc_call.ipa_client_conn_close, srvc_call.ipa_client_conn_destroy]
        delays := [{ reset := true, idx := 0, delay_ms := 1 }] }) := by
  decide

theorem state_chg_init (s : rspro_server_conn) (now : Int) (lib : srvc_lib) :
    srvc_fsm_inst_state_chg s SRVC_ST_INIT 0 0 now lib =
      some { server_conn_fsm_onleave s.fi.state { s with fi := { s.fi with timer := none } } with
        fi := { state := SRVC_ST_INIT, T := 0, timer := none } } := by
  unfold srvc_fsm_inst_state_chg srvc_fsm_inst_state_chg_ms
  have h : SRVC_ST_INIT ∈ server_conn_fsm_out_state_mask s.fi.state := by
    cases s.fi.state <;> simp [server_conn_fsm_out_state_mask]
  rw [if_pos h]
  rfl

/-- C26: in every state of the client FSM the dispatch of DISCONNECT returns
0 and leaves the instance in INIT with no timer armed, with the handles of the
keepalive supervisor and of the channel cleared, and with the reconnect index
and the time of the last attempt as they were. -/
theorem disconnect_to_init (s : rspro_server_conn) (data : Option RsproPDU) (now : Int)
    (lib : srvc_lib) :
    ∃ s1, srvc_fsm_inst_dispatch s SRVC_E_DISCONNECT data now lib = some (0, s1) ∧
      s1.fi = { state := SRVC_ST_INIT, T := 0, timer := none } ∧
      s1.keepalive_fi = none ∧ s1.conn = none ∧
      s1.reestablish_delay_idx = s.reestablish_delay_idx ∧
      s1.reestablish_last_ms = s.reestablish_last_ms := by
  obtain ⟨_, t2, _, t4, t5, t6⟩ := teardown_fields s
  have h : srvc_fsm_inst_dispatch s SRVC_E_DISCONNECT data now lib =
      (srvc_fsm_inst_state_chg (srvc_conn_teardown (srvc_keepalive_teardown s))
        SRVC_ST_INIT 0 0 now lib).map (fun s1 => (0, s1)) := by
    unfold srvc_fsm_inst_dispatch srvc_fsm_inst_dispatch_with
    simp [server_conn_fsm_allstate_event_mask, srvc_allstate_action]
  rw [h, state_chg_init, Option.map_some']
  refine ⟨_, rfl, rfl, ?_, ?_, ?_, ?_⟩
  · simp only [(onleave_fields _ _).2.2.1]
    exact t6
  · simp only [(onleave_fields _ _).2.1]
    exact t5
  · simp only [(onleave_fields _ _).2.2.2.1]
    exact t2
  · simp only [(onleave_fields _ _).2.2.2.2.1]
    exact t4

/-! ## The handshake of the client FSM -/

theorem onleave_calls (st : server_conn_fsm_state) (s : rspro_server_conn) :
    s.calls <+: (server_conn_fsm_onleave st s).calls := by
  unfold server_conn_fsm_onleave srvc_st_connected_onleave
  cases st <;> simp only
  case SRVC_ST_CONNECTED =>
    split
    · exact List.prefix_append _ _
    · exact List.prefix_refl _
  all_goals exact List.prefix_refl _

theorem reestablish_delay_onenter_calls (s : rspro_server_conn) :
    s.calls <+: (srvc_st_reestablish_delay_onenter s).calls := by
  unfold srvc_st_reestablish_delay_onenter srvc_conn_teardown srvc_keepalive_teardown
  cases hk : s.keepalive_fi <;> cases hc : s.conn <;> simp only [hk, hc] <;> split <;>
    (try simp only [List.append_assoc]) <;>
    first
      | exact List.prefix_append _ _
      | exact List.prefix_refl _

theorem state_chg_delay_calls (s : rspro_server_conn) (t : Nat) (T now : Int)
    (lib : srvc_lib) (hst : s.fi.state ≠ SRVC_ST_REESTABLISH_DELAY) :
    ∃ s1, srvc_fsm_inst_state_chg_ms s SRVC_ST_REESTABLISH_DELAY t T now lib = some s1 ∧
      s.calls <+: s1.calls := by
  rw [state_chg_delay_permitted s t T now lib hst]
  refine ⟨_, rfl, ?_⟩
  exact List.IsPrefix.trans
    (onleave_calls s.fi.state { s with fi := { s.fi with timer := none } })
    (reestablish_delay_onenter_calls
      { server_conn_fsm_onleave s.fi.state { s with fi := { s.fi with timer := none } } with
        fi := { state := SRVC_ST_REESTABLISH_DELAY, T := T,
                timer := if t = 0 then none else some (now + t) } })

theorem do_reestablish_as_chg (s : rspro_server_conn) (now : Int) (lib : srvc_lib)
    (hidx : s.reestablish_delay_idx < REESTABLISH_DELAY_COUNT) :
    ∃ r t, srvc_do_reestablish s now lib =
      srvc_fsm_inst_state_chg_ms
        { srvc_reestablish_reset s now with
          delays := (srvc_reestablish_reset s now).delays ++ [r] }
        SRVC_ST_REESTABLISH_DELAY t 3 now lib := by
  obtain ⟨h1, _, _⟩ := delay_table_lookup _ (reestablish_reset_idx_lt s now hidx)
  unfold srvc_do_reestablish
  simp only [h1]
  exact ⟨_, _, rfl⟩

/-- What `srvc_do_reestablish` does in a state that permits the change to
REESTABLISH_DELAY: the state is entered, the handles are cleared, and calls
are only added. -/
theorem do_reestablish_calls (s : rspro_server_conn) (now : Int) (lib : srvc_lib)
    (hidx : s.reestablish_delay_idx < REESTABLISH_DELAY_COUNT)
    (hst : s.fi.state ≠ SRVC_ST_REESTABLISH_DELAY) :
    ∃ s1, srvc_do_reestablish s now lib = some s1 ∧
      s1.fi.state = SRVC_ST_REESTABLISH_DELAY ∧ s1.conn = none ∧ s1.keepalive_fi = none ∧
      s.calls <+: s1.calls := by
  obtain ⟨s1, r, g1, _, _, _, _, g6, _⟩ := do_reestablish_char s now lib hidx
  obtain ⟨k1, _, k3, k4⟩ := g6 hst
  refine ⟨s1, g1, by rw [k1], k3, k4, ?_⟩
  have hrc : (srvc_reestablish_reset s now).calls = s.calls := by
    unfold srvc_reestablish_reset
    simp only
    split <;> rfl
  obtain ⟨r2, t, e⟩ := do_reestablish_as_chg s now lib hidx
  obtain ⟨s2, e1, e2⟩ := state_chg_delay_calls
    { srvc_reestablish_reset s now with
      delays := (srvc_reestablish_reset s now).delays ++ [r2] } t 3 now lib
    (by rw [(reestablish_reset_fields s now).1]; exact hst)
  rw [e, e1, Option.some.injEq] at g1
  subst g1
  rw [← hrc]
  exact e2
theorem dispatch_inner_down_established (s : rspro_server_conn) (now : Int) (lib : srvc_lib)
    (hst : s.fi.state = SRVC_ST_ESTABLISHED) :
    srvc_fsm_inst_dispatch_inner s SRVC_E_TCP_DOWN none now lib =
      (srvc_do_reestablish s now lib).map (fun s1 => (0, s1)) := by
  unfold srvc_fsm_inst_dispatch_inner srvc_fsm_inst_dispatch_with
  simp [server_conn_fsm_allstate_event_mask, server_conn_fsm_in_event_mask, hst,
    srvc_st_established]

theorem conn_close_some (s : rspro_server_conn) (h : s.conn ≠ none) :
    ∃ s2, ipa_client_conn_close s = some s2 ∧ s2.fi = s.fi ∧
      s2.reestablish_delay_idx = s.reestablish_delay_idx ∧
      s2.calls = s.calls ++ [srvc_call.ipa_client_conn_close] := by
  unfold ipa_client_conn_close
  cases hc : s.conn with
  | none => exact absurd hc h
  | some ipa => exact ⟨_, rfl, rfl, rfl, rfl⟩

/-- C27: in ESTABLISHED, with the reconnect index inside the table, a
handshake response with result ok moves the client FSM to CONNECTED; a
response with another result closes the channel (which the state has) and
moves the FSM to REESTABLISH_DELAY; TCP_DOWN and KA_TIMEOUT each move it to
REESTABLISH_DELAY. Each dispatch returns 0. -/
theorem established_transitions (s : rspro_server_conn) (now : Int) (lib : srvc_lib)
    (hst : s.fi.state = SRVC_ST_ESTABLISHED)
    (hidx : s.reestablish_delay_idx < REESTABLISH_DELAY_COUNT) :
    (∀ pdu, rspro_get_result pdu = some ResultCode.ok →
      ∃ s1, srvc_fsm_inst_dispatch s SRVC_E_CLIENT_CONN_RES (some pdu) now lib = some (0, s1) ∧
        s1.fi.state = SRVC_ST_CONNECTED) ∧
    (∀ pdu res, rspro_get_result pdu = some res → res ≠ ResultCode.ok → s.conn ≠ none →
      ∃ s1 rest, srvc_fsm_inst_dispatch s SRVC_E_CLIENT_CONN_RES (some pdu) now lib =
          some (0, s1) ∧
        s1.calls = s.calls ++ srvc_call.ipa_client_conn_close :: rest ∧
        s1.conn = none ∧ s1.fi.state = SRVC_ST_REESTABLISH_DELAY) ∧
    (∃ s1, srvc_fsm_inst_dispatch s SRVC_E_TCP_DOWN none now lib = some (0, s1) ∧
      s1.fi.state = SRVC_ST_REESTABLISH_DELAY) ∧
    (∃ s1, srvc_fsm_inst_dispatch s SRVC_E_KA_TIMEOUT none now lib = some (0, s1) ∧
      s1.fi.state = SRVC_ST_REESTABLISH_DELAY) := by
  have hne : s.fi.state ≠ SRVC_ST_REESTABLISH_DELAY := by rw [hst]; decide
  obtain ⟨sd, d1, d2, _, _, _⟩ := do_reestablish_calls s now lib hidx hne
  refine ⟨?_, ?_, ?_, ?_⟩
  · intro pdu hres
    have h : srvc_fsm_inst_dispatch s SRVC_E_CLIENT_CONN_RES (some pdu) now lib =
        (srvc_fsm_inst_state_chg s SRVC_ST_CONNECTED 0 0 now lib).map (fun s1 => (0, s1)) := by
      unfold srvc_fsm_inst_dispatch srvc_fsm_inst_dispatch_with
      simp [server_conn_fsm_allstate_event_mask, server_conn_fsm_in_event_mask, hst,
        srvc_st_established, hres]
    rw [h]
    unfold srvc_fsm_inst_state_chg srvc_fsm_inst_state_chg_ms
    simp only [hst, server_conn_fsm_out_state_mask, List.mem_cons, true_or, if_true,
      server_conn_fsm_onleave, server_conn_fsm_onenter, Option.map_some']
    refine ⟨_, rfl, ?_⟩
    unfold srvc_st_connected_onenter
    simp only
    split <;> rfl
  · intro pdu res hres hnok hconn
    obtain ⟨s2, hcl, c1, c2, c3⟩ := conn_close_some s hconn
    have hst2 : s2.fi.state = SRVC_ST_ESTABLISHED := by rw [c1]; exact hst
    have h : srvc_fsm_inst_dispatch s SRVC_E_CLIENT_CONN_RES (some pdu) now lib =
        (srvc_do_reestablish s2 now lib).map (fun s1 => (0, s1)) := by
      unfold srvc_fsm_inst_dispatch srvc_fsm_inst_dispatch_with
      simp only [server_conn_fsm_allstate_event_mask, server_conn_fsm_in_event_mask, hst,
        List.mem_cons, List.mem_singleton, reduceCtorEq, or_self, or_true, or_false, if_true,
        if_false, false_or, List.not_mem_nil, srvc_st_established, Option.bind_some, hres,
        ne_eq, hnok, not_false_eq_true, hcl]
      rw [dispatch_inner_down_established s2 now lib hst2]
      cases srvc_do_reestablish s2 now lib <;> simp [hres, hnok]
    obtain ⟨s1, e1, e2, e3, _, e5⟩ := do_reestablish_calls s2 now lib (by rw [c2]; exact hidx)
      (by rw [hst2]; decide)
    obtain ⟨rest, hrest⟩ := e5
    rw [h, e1, Option.map_some']
    refine ⟨s1, rest, rfl, ?_, e3, e2⟩
    rw [← hrest, c3]
    simp only [List.append_assoc, List.singleton_append]
  · have h : srvc_fsm_inst_dispatch s SRVC_E_TCP_DOWN none now lib =
        (srvc_do_reestablish s now lib).map (fun s1 => (0, s1)) := by
      unfold srvc_fsm_inst_dispatch srvc_fsm_inst_dispatch_with
      simp [server_conn_fsm_allstate_event_mask, server_conn_fsm_in_event_mask, hst,
        srvc_st_established]
    rw [h, d1]
    exact ⟨sd, rfl, d2⟩
  · have h : srvc_fsm_inst_dispatch s SRVC_E_KA_TIMEOUT none now lib =
        (srvc_do_reestablish s now lib).map (fun s1 => (0, s1)) := by
      unfold srvc_fsm_inst_dispatch srvc_fsm_inst_dispatch_with
      simp [server_conn_fsm_allstate_event_mask, server_conn_fsm_in_event_mask, hst,
        srvc_st_established]
    rw [h, d1]
    exact ⟨sd, rfl, d2⟩

/-! ## Sending a PDU through the client FSM -/

set_option maxRecDepth 100000 in
/-- C28, the claim at an input where it fails: in CONNECTED a PDU that
`rspro_enc_msg` cannot encode is released and nothing is queued on the
channel, and `server_conn_send_rspro` returns 0. -/
theorem send_rspro_encode_failure_returns_zero :
    server_conn_send_rspro (example_srvc SRVC_ST_CONNECTED 0 none 1 1000)
        (some (RsproPDU.configClientBankRes ResultCode.ok)) 5000
        { example_lib with enc_ok := false } =
      some (0, { example_srvc SRVC_ST_CONNECTED 0 none 1 1000 with
        calls := [srvc_call.enc_failed (RsproPDU.configClientBankRes ResultCode.ok)] }) := by
  decide

/-- C28 as amended: `server_conn_send_rspro` returns `-EINVAL` (-22) for a
null PDU and `-EPERM` (-1) in every state other than CONNECTED, leaving the
record as it was; in CONNECTED, with a channel, it returns 0: the PDU is
queued on the channel when it encodes, and released without being queued when
it does not. -/
theorem send_rspro_results (s : rspro_server_conn) (now : Int) (lib : srvc_lib) :
    -EINVAL = -22 ∧ -EPERM = -1 ∧
    server_conn_send_rspro s none now lib = some (-EINVAL, s) ∧
    (∀ pdu, s.fi.state ≠ SRVC_ST_CONNECTED →
      server_conn_send_rspro s (some pdu) now lib = some (-EPERM, s)) ∧
    (∀ pdu ipa, s.fi.state = SRVC_ST_CONNECTED → s.conn = some ipa →
      server_conn_send_rspro s (some pdu) now lib =
        some (0, if lib.enc_ok
          then { s with conn := some { ipa with tx := ipa.tx ++ [pdu] } }
          else { s with calls := s.calls ++ [srvc_call.enc_failed pdu] })) := by
  refine ⟨by decide, by decide, rfl, ?_, ?_⟩
  · intro pdu hst
    unfold server_conn_send_rspro srvc_fsm_inst_dispatch srvc_fsm_inst_dispatch_with
    cases hs : s.fi.state <;>
      simp [server_conn_fsm_allstate_event_mask, server_conn_fsm_in_event_mask, hs] at hst ⊢
  · intro pdu ipa hst hc
    unfold server_conn_send_rspro srvc_fsm_inst_dispatch srvc_fsm_inst_dispatch_with
    simp only [server_conn_fsm_allstate_event_mask, server_conn_fsm_in_event_mask, hst,
      List.mem_cons, List.mem_singleton, reduceCtorEq, or_self, or_true, or_false, if_true,
      if_false, false_or, List.not_mem_nil, srvc_st_connected, _server_conn_send_rspro,
      ipa_client_conn_send_rspro, hc]
    cases lib.enc_ok <;> simp

/-! ## Range of the reconnect delay -/

/-- C37: for every reconnect index inside the table (0..123) and every elapsed
time `now - last` that is not negative, the delay that `srvc_do_reestablish`
computes and hands to the state change is between 1 ms and 16000 ms
inclusive; where the change to REESTABLISH_DELAY is permitted, timer 3 is
armed to expire that many milliseconds after `now`. -/
theorem reestablish_delay_range (s : rspro_server_conn) (now : Int) (lib : srvc_lib)
    (hidx : s.reestablish_delay_idx < REESTABLISH_DELAY_COUNT)
    (hclock : 0 ≤ now - s.reestablish_last_ms)
    (hrange : now - s.reestablish_last_ms < 9223372036854775808) :
    ∃ s1 r, srvc_do_reestablish s now lib = some s1 ∧ s1.delays = s.delays ++ [r] ∧
      1 ≤ r.delay_ms ∧ r.delay_ms ≤ 16000 ∧
      (s.fi.state ≠ SRVC_ST_REESTABLISH_DELAY →
        s1.fi = { state := SRVC_ST_REESTABLISH_DELAY, T := 3,
                  timer := some (now + r.delay_ms) }) := by
  obtain ⟨_, h2, h3⟩ := delay_table_lookup _ (reestablish_reset_idx_lt s now hidx)
  have hb : max 1 (k_reestablish_delay_s.getD
      (srvc_reestablish_reset s now).reestablish_delay_idx 0 * 1000 -
      (now - s.reestablish_last_ms)) ≤ 16000 := by omega
  by_cases hst : s.fi.state = SRVC_ST_REESTABLISH_DELAY
  · exact ⟨_, _, do_reestablish_refused s now lib hidx (by omega) hrange hst, rfl,
      le_max_left _ _, hb, fun h => absurd hst h⟩
  · obtain ⟨s1, g1, g2, _, _, _, _, g7⟩ :=
      do_reestablish_permitted s now lib hidx (by omega) hrange hst
    exact ⟨s1, _, g1, g7, le_max_left _ _, hb, fun _ => g2⟩

/-! ## The timers of the client FSM -/

theorem tmr_cb_due (s : rspro_server_conn) (now d : Int) (lib : srvc_lib)
    (ht : s.fi.timer = some d) (hd : d ≤ now) :
    srvc_fsm_tmr_cb s now lib =
      (server_conn_fsm_timer_cb { s with fi := { s.fi with timer := none } } now lib).map
        (fun r => r.2) := by
  unfold srvc_fsm_tmr_cb
  simp only [ht, if_pos hd]

theorem timer_cb_T2 (s : rspro_server_conn) (now : Int) (lib : srvc_lib) (h : s.fi.T = 2) :
    server_conn_fsm_timer_cb s now lib =
      (srvc_do_reestablish s now lib).map (fun s1 => (0, s1)) := by
  unfold server_conn_fsm_timer_cb
  simp only [h]

theorem timer_cb_T1 (s s2 : rspro_server_conn) (now : Int) (lib : srvc_lib) (h : s.fi.T = 1)
    (hcl : ipa_client_conn_close s = some s2) :
    server_conn_fsm_timer_cb s now lib =
      (srvc_fsm_inst_dispatch_inner s2 SRVC_E_TCP_DOWN none now lib).map
        (fun r => (0, r.2)) := by
  unfold server_conn_fsm_timer_cb
  simp only [h, hcl]

/-- C32: with the reconnect index inside the table. Expiry of timer 3 in
REESTABLISH_DELAY moves the client FSM to REESTABLISH with timer 2 armed for
10 s (the library calls of the on-entry action succeeding); expiry of timer 2
in REESTABLISH moves it to REESTABLISH_DELAY; expiry of timer 1 in ESTABLISHED
closes the channel and moves it to REESTABLISH_DELAY. In REESTABLISH, TCP_UP
moves it to ESTABLISHED with timer 1 armed for 10 s, and TCP_DOWN changes
nothing. -/
theorem client_fsm_timers (s : rspro_server_conn) (now : Int) (lib : srvc_lib)
    (hidx : s.reestablish_delay_idx < REESTABLISH_DELAY_COUNT) :
    T1_WAIT_CLIENT_CONN_RES = 10 ∧ T2_RECONNECT = 10 ∧
    (∀ d, s.fi = { state := SRVC_ST_REESTABLISH_DELAY, T := 3, timer := some d } → d ≤ now →
      lib.create_ok = true → lib.keepalive_ok = true → 0 ≤ lib.open_rc →
      ∃ s1, srvc_fsm_tmr_cb s now lib = some s1 ∧
        s1.fi = { state := SRVC_ST_REESTABLISH, T := 2, timer := some (now + 10000) }) ∧
    (∀ d, s.fi = { state := SRVC_ST_REESTABLISH, T := 2, timer := some d } → d ≤ now →
      ∃ s1, srvc_fsm_tmr_cb s now lib = some s1 ∧
        s1.fi.state = SRVC_ST_REESTABLISH_DELAY) ∧
    (∀ d, s.fi = { state := SRVC_ST_ESTABLISHED, T := 1, timer := some d } → d ≤ now →
      s.conn ≠ none →
      ∃ s1 rest, srvc_fsm_tmr_cb s now lib = some s1 ∧
        s1.calls = s.calls ++ srvc_call.ipa_client_conn_close :: rest ∧
        s1.fi.state = SRVC_ST_REESTABLISH_DELAY) ∧
    (s.fi.state = SRVC_ST_REESTABLISH → s.conn ≠ none →
      ∃ s1, srvc_fsm_inst_dispatch s SRVC_E_TCP_UP none now lib = some (0, s1) ∧
        s1.fi = { state := SRVC_ST_ESTABLISHED, T := 1, timer := some (now + 10000) }) ∧
    (s.fi.state = SRVC_ST_REESTABLISH →
      srvc_fsm_inst_dispatch s SRVC_E_TCP_DOWN none now lib = some (0, s)) := by
  refine ⟨rfl, rfl, ?_, ?_, ?_, ?_, ?_⟩
  · intro d hfi hd hc hk ho
    rw [tmr_cb_delay s now d lib hfi, if_pos hd]
    obtain ⟨s2, hs2⟩ := (reestablish_onenter_fields
      { s with fi := { state := SRVC_ST_REESTABLISH, T := 2, timer := some (now + 10000) } }
      now lib).2 hc hk ho
    exact ⟨s2, hs2, ((reestablish_onenter_fields _ now lib).1 s2 hs2).2.1⟩
  · intro d hfi hd
    rw [tmr_cb_due s now d lib (by rw [hfi]) hd]
    obtain ⟨s1, e1, e2, _⟩ := do_reestablish_calls
      { s with fi := { s.fi with timer := none } } now lib hidx
      (by show s.fi.state ≠ _; simp [hfi])
    refine ⟨s1, ?_, e2⟩
    rw [timer_cb_T2 _ now lib (by show s.fi.T = 2; rw [hfi]), e1]
    rfl
  · intro d hfi hd hconn
    rw [tmr_cb_due s now d lib (by rw [hfi]) hd]
    obtain ⟨s2, hcl, c1, c2, c3⟩ := conn_close_some
      { s with fi := { s.fi with timer := none } } hconn
    have hst2 : s2.fi.state = SRVC_ST_ESTABLISHED := by
      rw [c1]
      show s.fi.state = _
      rw [hfi]
    obtain ⟨s1, e1, e2, _, _, e5⟩ := do_reestablish_calls s2 now lib (by rw [c2]; exact hidx)
      (by rw [hst2]; decide)
    obtain ⟨rest, hrest⟩ := e5
    refine ⟨s1, rest, ?_, ?_, e2⟩
    · rw [timer_cb_T1 _ s2 now lib (by show s.fi.T = 1; rw [hfi]) hcl,
        dispatch_inner_down_established s2 now lib hst2, e1]
      rfl
    · rw [← hrest, c3]
      simp only [List.append_assoc, List.singleton_append]
  · intro hst hconn
    cases hc : s.conn with
    | none => exact absurd hc hconn
    | some ipa =>
      unfold srvc_fsm_inst_dispatch srvc_fsm_inst_dispatch_with
      simp only [server_conn_fsm_allstate_event_mask, server_conn_fsm_in_event_mask, hst,
        List.mem_cons, List.mem_singleton, reduceCtorEq, or_self, or_true, or_false, if_true,
        if_false, false_or, true_or, List.not_mem_nil, srvc_st_reestablish,
        srvc_fsm_inst_state_chg, srvc_fsm_inst_state_chg_ms, server_conn_fsm_out_state_mask,
        server_conn_fsm_onleave, server_conn_fsm_onenter, srvc_st_established_onenter,
        _server_conn_send_rspro, ipa_client_conn_send_rspro, hc]
      have h10 : T1_WAIT_CLIENT_CONN_RES.toNat * 1000 = 10000 := by decide
      rw [h10]
      cases lib.enc_ok <;> simp
  · intro hst
    unfold srvc_fsm_inst_dispatch srvc_fsm_inst_dispatch_with
    simp [server_conn_fsm_allstate_event_mask, server_conn_fsm_in_event_mask, hst,
      srvc_st_reestablish]

/-! ## The signals of the client FSM to its parent -/

theorem parent_signals_append (a b : List srvc_call) :
    parent_signals (a ++ b) = parent_signals a ++ parent_signals b := by
  unfold parent_signals
  exact List.filterMap_append _ _ _

theorem quiet_refl (s : rspro_server_conn) : srvc_quiet s s := ⟨rfl, rfl, rfl⟩

theorem parent_step_of_quiet (s s1 : rspro_server_conn) (h : srvc_quiet s s1) :
    srvc_parent_step s s1 :=
  ⟨h.1, Or.inl ⟨h.2.2, by rw [h.2.1]⟩⟩

theorem parent_step_after_quiet (s s1 s2 : rspro_server_conn) (h : srvc_quiet s s1)
    (h2 : srvc_parent_step s1 s2) : srvc_parent_step s s2 := by
  unfold srvc_parent_step at h2 ⊢
  rw [h.1, h.2.1, h.2.2] at h2
  exact h2

theorem teardown_quiet (s : rspro_server_conn) :
    srvc_quiet s (srvc_conn_teardown (srvc_keepalive_teardown s)) := by
  unfold srvc_quiet srvc_conn_teardown srvc_keepalive_teardown
  cases hk : s.keepalive_fi <;> cases hc : s.conn <;>
    simp [hk, hc, parent_signals_append, parent_signals]

theorem conn_close_quiet (s s1 : rspro_server_conn) (h : ipa_client_conn_close s = some s1) :
    srvc_quiet s s1 := by
  unfold ipa_client_conn_close at h
  cases hc : s.conn <;> simp only [hc, Option.some.injEq, reduceCtorEq] at h
  subst h
  exact ⟨rfl, rfl, by simp [parent_signals_append, parent_signals]⟩

theorem send_quiet (s : rspro_server_conn) (pdu : RsproPDU) (lib : srvc_lib)
    (r : Int × rspro_server_conn) (h : _server_conn_send_rspro s pdu lib = some r) :
    srvc_quiet s r.2 := by
  unfold _server_conn_send_rspro ipa_client_conn_send_rspro at h
  split at h
  · cases hc : s.conn <;> simp only [hc, Option.some.injEq, reduceCtorEq] at h
    subst h
    exact ⟨rfl, rfl, rfl⟩
  · simp only [Option.some.injEq] at h
    subst h
    exact ⟨rfl, rfl, by simp [parent_signals_append, parent_signals]⟩

theorem onleave_parent (st : server_conn_fsm_state) (s : rspro_server_conn)
    (hp : s.has_parent = true) :
    (server_conn_fsm_onleave st s).has_parent = s.has_parent ∧
    (server_conn_fsm_onleave st s).fi = s.fi ∧
    parent_signals (server_conn_fsm_onleave st s).calls =
      parent_signals s.calls ++ (if st = SRVC_ST_CONNECTED then [false] else []) := by
  unfold server_conn_fsm_onleave srvc_st_connected_onleave
  cases st <;> simp [hp, parent_signals_append, parent_signals]

theorem onenter_parent (st : server_conn_fsm_state) (s s1 : rspro_server_conn) (now : Int)
    (lib : srvc_lib) (hp : s.has_parent = true)
    (h : server_conn_fsm_onenter st s now lib = some s1) :
    s1.has_parent = s.has_parent ∧ s1.fi = s.fi ∧
    parent_signals s1.calls =
      parent_signals s.calls ++ (if st = SRVC_ST_CONNECTED then [true] else []) := by
  cases st
  · simp only [server_conn_fsm_onenter, Option.some.injEq] at h
    subst h
    simp
  · simp only [server_conn_fsm_onenter, srvc_st_established_onenter, Option.map_eq_some'] at h
    obtain ⟨r, h1, rfl⟩ := h
    obtain ⟨q1, _, q3⟩ := send_quiet _ _ lib r h1
    exact ⟨q1, (send_fields _ _ lib r h1).1, by simpa using q3⟩
  · simp only [server_conn_fsm_onenter, srvc_st_connected_onenter, hp, if_true,
      Option.some.injEq] at h
    subst h
    simp [parent_signals_append, parent_signals, hp]
  · simp only [server_conn_fsm_onenter, Option.some.injEq] at h
    subst h
    obtain ⟨q1, _, q3⟩ := teardown_quiet s
    have hf := (teardown_fields s).1
    unfold srvc_st_reestablish_delay_onenter
    simp only
    split <;> exact ⟨q1, hf, by simpa using q3⟩
  · simp only [server_conn_fsm_onenter, srvc_st_reestablish_onenter] at h
    split at h
    · exact absurd h (by simp)
    · split at h
      · exact absurd h (by simp)
      · split at h
        · exact absurd h (by simp)
        · simp only [Option.some.injEq] at h
          subst h
          simp
/-- A state change sends the disconnected signal when it leaves CONNECTED and
the connected signal when it enters CONNECTED, and nothing else. -/
theorem state_chg_parent (s s1 : rspro_server_conn) (st : server_conn_fsm_state) (t : Nat)
    (T now : Int) (lib : srvc_lib) (hp : s.has_parent = true)
    (h : srvc_fsm_inst_state_chg_ms s st t T now lib = some s1) :
    srvc_parent_step s s1 := by
  unfold srvc_fsm_inst_state_chg_ms at h
  split at h
  · rename_i hm
    obtain ⟨l1, _, l3⟩ := onleave_parent s.fi.state
      { s with fi := { s.fi with timer := none } } hp
    obtain ⟨e1, e2, e3⟩ := onenter_parent st _ s1 now lib (by rw [← hp]; exact l1) h
    have hst1 : s1.fi.state = st := by rw [e2]
    have hsig : parent_signals s1.calls = parent_signals s.calls ++
        (if s.fi.state = SRVC_ST_CONNECTED then [false] else []) ++
        (if st = SRVC_ST_CONNECTED then [true] else []) := by
      rw [e3]
      exact congrArg (fun l => l ++ (if st = SRVC_ST_CONNECTED then [true] else [])) l3
    refine ⟨e1.trans l1, ?_⟩
    by_cases hc : s.fi.state = SRVC_ST_CONNECTED
    · have hne : st ≠ SRVC_ST_CONNECTED := by
        intro hst
        rw [hc, hst] at hm
        simp [server_conn_fsm_out_state_mask] at hm
      refine Or.inr (Or.inr ⟨hc, by rw [hst1]; exact hne, ?_⟩)
      rw [hsig, if_pos hc, if_neg hne, List.append_nil]
    · by_cases hst : st = SRVC_ST_CONNECTED
      · refine Or.inr (Or.inl ⟨hc, by rw [hst1]; exact hst, ?_⟩)
        rw [hsig, if_neg hc, if_pos hst, List.append_nil]
      · refine Or.inl ⟨?_, ?_⟩
        · rw [hsig, if_neg hc, if_neg hst, List.append_nil, List.append_nil]
        · rw [hst1]
          exact ⟨fun h1 => absurd h1 hst, fun h1 => absurd h1 hc⟩
  · simp only [Option.some.injEq] at h
    subst h
    exact parent_step_of_quiet s s (quiet_refl s)

theorem reestablish_reset_quiet (s : rspro_server_conn) (now : Int) :
    srvc_quiet s (srvc_reestablish_reset s now) := by
  unfold srvc_reestablish_reset
  simp only
  split <;> exact ⟨rfl, rfl, rfl⟩

theorem do_reestablish_parent (s s1 : rspro_server_conn) (now : Int) (lib : srvc_lib)
    (hp : s.has_parent = true) (h : srvc_do_reestablish s now lib = some s1) :
    srvc_parent_step s s1 := by
  unfold srvc_do_reestablish at h
  simp only at h
  split at h
  · exact absurd h (by simp)
  · obtain ⟨q1, q2, q3⟩ := reestablish_reset_quiet s now
    have key : ∀ (X : rspro_server_conn) (t : Nat),
        srvc_fsm_inst_state_chg_ms X SRVC_ST_REESTABLISH_DELAY t 3 now lib = some s1 →
        srvc_quiet s X → srvc_parent_step s s1 :=
      fun X t hX hq => parent_step_after_quiet s X s1 hq
        (state_chg_parent X s1 _ t 3 now lib (by rw [← hp]; exact hq.1) hX)
    exact key _ _ h ⟨q1, q2, q3⟩

/-- Every dispatch changes the signals to the parent in one of the three
ways. -/
theorem dispatch_with_parent (dispatch : srvc_dispatch_fn) (now : Int) (lib : srvc_lib)
    (hd : ∀ s1 r, s1.has_parent = true →
      dispatch s1 SRVC_E_TCP_DOWN none now lib = some r → srvc_parent_step s1 r.2)
    (s : rspro_server_conn) (event : server_conn_fsm_event) (data : Option RsproPDU)
    (r : Int × rspro_server_conn) (hp : s.has_parent = true)
    (h : srvc_fsm_inst_dispatch_with dispatch s event data now lib = some r) :
    srvc_parent_step s r.2 := by
  unfold srvc_fsm_inst_dispatch_with at h
  cases event
  · -- ESTABLISH
    simp [server_conn_fsm_allstate_event_mask, srvc_allstate_action] at h
    obtain ⟨s1, h1, rfl⟩ := h
    exact parent_step_after_quiet s
      { s with reestablish_delay_idx := 0, reestablish_last_ms := 0 } s1 ⟨rfl, rfl, rfl⟩
      (do_reestablish_parent _ s1 now lib hp h1)
  · -- DISCONNECT
    simp [server_conn_fsm_allstate_event_mask, srvc_allstate_action, srvc_fsm_inst_state_chg] at h
    obtain ⟨s1, h1, rfl⟩ := h
    have hq := teardown_quiet s
    exact parent_step_after_quiet s _ s1 hq
      (state_chg_parent (srvc_conn_teardown (srvc_keepalive_teardown s)) s1 SRVC_ST_INIT 0 0
        now lib (by rw [← hp]; exact hq.1) h1)
  all_goals
    cases hs : s.fi.state <;>
    simp [hs, server_conn_fsm_allstate_event_mask, server_conn_fsm_in_event_mask,
      srvc_st_established, srvc_st_connected, srvc_st_reestablish, srvc_fsm_inst_state_chg,
      srvc_st_init, srvc_st_reestablish_delay] at h
  all_goals try (subst h; exact parent_step_of_quiet s s (quiet_refl s))
  case SRVC_E_TCP_UP.SRVC_ST_REESTABLISH =>
    obtain ⟨s1, h1, rfl⟩ := h
    exact state_chg_parent s s1 SRVC_ST_ESTABLISHED
      (T1_WAIT_CLIENT_CONN_RES.toNat * 1000) 1 now lib hp h1
  case SRVC_E_TCP_DOWN.SRVC_ST_ESTABLISHED =>
    obtain ⟨s1, h1, rfl⟩ := h
    exact do_reestablish_parent s s1 now lib hp h1
  case SRVC_E_TCP_DOWN.SRVC_ST_CONNECTED =>
    obtain ⟨s1, h1, rfl⟩ := h
    exact do_reestablish_parent s s1 now lib hp h1
  case SRVC_E_KA_TIMEOUT.SRVC_ST_ESTABLISHED =>
    obtain ⟨s1, h1, rfl⟩ := h
    exact do_reestablish_parent s s1 now lib hp h1
  case SRVC_E_KA_TIMEOUT.SRVC_ST_CONNECTED =>
    obtain ⟨s1, h1, rfl⟩ := h
    exact do_reestablish_parent s s1 now lib hp h1
  case SRVC_E_CLIENT_CONN_RES.SRVC_ST_ESTABLISHED =>
    obtain ⟨s1, h1, rfl⟩ := h
    cases hres : data.bind rspro_get_result with
    | none => simp [hres] at h1
    | some res =>
      simp only [hres] at h1
      split at h1
      · exact state_chg_parent s s1 SRVC_ST_CONNECTED 0 0 now lib hp h1
      · cases hcl : ipa_client_conn_close s with
        | none => simp [hcl] at h1
        | some s2 =>
          simp only [hcl, Option.map_eq_some'] at h1
          obtain ⟨r2, h2, rfl⟩ := h1
          have hq := conn_close_quiet s s2 hcl
          exact parent_step_after_quiet s s2 _ hq (hd s2 r2 (by rw [← hp]; exact hq.1) h2)
  case SRVC_E_RSPRO_TX.SRVC_ST_CONNECTED =>
    obtain ⟨s1, h1, rfl⟩ := h
    cases data with
    | none => simp at h1
    | some pdu =>
      simp only [Option.map_eq_some'] at h1
      obtain ⟨r2, h2, rfl⟩ := h1
      exact parent_step_of_quiet s _ (send_quiet s pdu lib r2 h2)
theorem dispatch_inner_parent (now : Int) (lib : srvc_lib) (s : rspro_server_conn)
    (r : Int × rspro_server_conn) (hp : s.has_parent = true)
    (h : srvc_fsm_inst_dispatch_inner s SRVC_E_TCP_DOWN none now lib = some r) :
    srvc_parent_step s r.2 :=
  dispatch_with_parent (fun _ _ _ _ _ => none) now lib
    (fun _ _ _ h1 => absurd h1 (by simp)) s SRVC_E_TCP_DOWN none r hp h

theorem dispatch_parent (now : Int) (lib : srvc_lib) (s : rspro_server_conn)
    (event : server_conn_fsm_event) (data : Option RsproPDU)
    (r : Int × rspro_server_conn) (hp : s.has_parent = true)
    (h : srvc_fsm_inst_dispatch s event data now lib = some r) :
    srvc_parent_step s r.2 :=
  dispatch_with_parent srvc_fsm_inst_dispatch_inner now lib
    (fun s1 r1 hp1 h1 => dispatch_inner_parent now lib s1 r1 hp1 h1) s event data r hp h

theorem timer_cb_parent (now : Int) (lib : srvc_lib) (s : rspro_server_conn)
    (r : Int × rspro_server_conn) (hp : s.has_parent = true)
    (h : server_conn_fsm_timer_cb s now lib = some r) : srvc_parent_step s r.2 := by
  unfold server_conn_fsm_timer_cb at h
  split at h
  · simp only [srvc_fsm_inst_state_chg, Option.map_eq_some'] at h
    obtain ⟨s1, h1, rfl⟩ := h
    exact state_chg_parent s s1 SRVC_ST_REESTABLISH (T2_RECONNECT.toNat * 1000) 2 now lib hp h1
  · simp only [Option.map_eq_some'] at h
    obtain ⟨s1, h1, rfl⟩ := h
    exact do_reestablish_parent s s1 now lib hp h1
  · cases hcl : ipa_client_conn_close s with
    | none => simp [hcl] at h
    | some s2 =>
      simp only [hcl, Option.map_eq_some'] at h
      obtain ⟨r2, h2, rfl⟩ := h
      have hq := conn_close_quiet s s2 hcl
      exact parent_step_after_quiet s s2 _ hq
        (dispatch_inner_parent now lib s2 r2 (by rw [← hp]; exact hq.1) h2)
  · exact absurd h (by simp)

theorem srvc_step_parent (now : Int) (lib : srvc_lib) (s s1 : rspro_server_conn)
    (i : srvc_input) (hp : s.has_parent = true) (h : srvc_step s now lib i = some s1) :
    srvc_parent_step s s1 := by
  cases i with
  | dispatch event data =>
    simp only [srvc_step, Option.map_eq_some'] at h
    obtain ⟨r, h1, rfl⟩ := h
    exact dispatch_parent now lib s event data r hp h1
  | send_rspro rspro =>
    simp only [srvc_step, Option.map_eq_some'] at h
    obtain ⟨r, h1, rfl⟩ := h
    unfold server_conn_send_rspro at h1
    cases rspro with
    | none =>
      simp only [Option.some.injEq] at h1
      subst h1
      exact parent_step_of_quiet s s (quiet_refl s)
    | some pdu =>
      simp only at h1
      cases hd : srvc_fsm_inst_dispatch s SRVC_E_RSPRO_TX (some pdu) now lib with
      | none => simp [hd] at h1
      | some r1 =>
        obtain ⟨rc, s2⟩ := r1
        have hc := dispatch_parent now lib s SRVC_E_RSPRO_TX (some pdu) (rc, s2) hp hd
        simp only [hd] at h1
        split at h1 <;> (simp only [Option.some.injEq] at h1; subst h1; exact hc)
  | timer =>
    simp only [srvc_step, srvc_fsm_tmr_cb] at h
    cases ht : s.fi.timer with
    | none =>
      simp only [ht, Option.some.injEq] at h
      subst h
      exact parent_step_of_quiet s s (quiet_refl s)
    | some expiry =>
      simp only [ht] at h
      split at h
      · simp only [Option.map_eq_some'] at h
        obtain ⟨r, h1, rfl⟩ := h
        exact parent_step_after_quiet s { s with fi := { s.fi with timer := none } } _
          ⟨rfl, rfl, rfl⟩ (timer_cb_parent now lib _ r hp h1)
      · simp only [Option.some.injEq] at h
        subst h
        exact parent_step_of_quiet s s (quiet_refl s)

theorem alternating_signals_getElem (n : Nat) :
    ∀ k b, (alternating_signals n)[k]? = some b → b = decide (k % 2 = 0) := by
  induction n with
  | zero =>
    intro k b h
    simp [alternating_signals] at h
  | succ n ih =>
    intro k b h
    have hlen : ∀ m, (alternating_signals m).length = m := by
      intro m
      induction m with
      | zero => rfl
      | succ m ihm => simp [alternating_signals, ihm]
    simp only [alternating_signals] at h
    by_cases hk : k < n
    · rw [List.getElem?_append_left (by rw [hlen]; exact hk)] at h
      exact ih k b h
    · rw [List.getElem?_append_right (by rw [hlen]; omega), hlen] at h
      by_cases hkn : k = n
      · subst hkn
        simp only [Nat.sub_self, List.getElem?_cons_zero, Option.some.injEq] at h
        exact h.symm
      · have : k - n = (k - n - 1) + 1 := by omega
        rw [this] at h
        simp at h

theorem alternating_signals_count (n : Nat) :
    (alternating_signals n).count true = (n + 1) / 2 ∧
    (alternating_signals n).count false = n / 2 := by
  induction n with
  | zero => exact ⟨rfl, rfl⟩
  | succ n ih =>
    simp only [alternating_signals, List.count_append, ih.1, ih.2]
    by_cases h : n % 2 = 0
    · simp only [h, decide_True, List.count_singleton, beq_self_eq_true, if_true]
      constructor
      · omega
      · simp
        omega
    · simp only [h, decide_False, List.count_singleton, beq_self_eq_true, if_true]
      constructor
      · simp
        omega
      · omega

theorem parent_inv_step (s s1 : rspro_server_conn) (h : srvc_parent_step s s1)
    (hi : srvc_parent_inv s) : srvc_parent_inv s1 := by
  obtain ⟨n, h1, h2⟩ := hi
  rcases h.2 with ⟨a, b⟩ | ⟨a, b, c⟩ | ⟨a, b, c⟩
  · exact ⟨n, by rw [a, h1], by rw [b]; exact h2⟩
  · refine ⟨n + 1, ?_, ?_⟩
    · have hn : n % 2 = 0 := by
        have := mt h2.mp a
        omega
      rw [c, h1]
      simp [alternating_signals, hn]
    · have hn : n % 2 = 0 := by
        have := mt h2.mp a
        omega
      exact ⟨fun _ => b, fun _ => by omega⟩
  · refine ⟨n + 1, ?_, ?_⟩
    · have hn : n % 2 = 1 := h2.mpr a
      rw [c, h1]
      simp [alternating_signals, hn]
    · have hn : n % 2 = 1 := h2.mpr a
      exact ⟨fun h3 => by omega, fun h3 => absurd h3 b⟩

theorem srvc_run_parent (ins : List (Int × srvc_lib × srvc_input)) :
    ∀ s s1 : rspro_server_conn, s.has_parent = true → srvc_parent_inv s →
      srvc_run s ins = some s1 → s1.has_parent = true ∧ srvc_parent_inv s1 := by
  induction ins with
  | nil =>
    intro s s1 hp hi h
    simp only [srvc_run, Option.some.injEq] at h
    subst h
    exact ⟨hp, hi⟩
  | cons x rest ih =>
    intro s s1 hp hi h
    obtain ⟨now, lib, i⟩ := x
    simp only [srvc_run] at h
    cases hs : srvc_step s now lib i with
    | none => simp [hs] at h
    | some s2 =>
      simp only [hs] at h
      have hst := srvc_step_parent now lib s s2 i hp hs
      exact ih s2 s1 (by rw [hst.1]; exact hp) (parent_inv_step s s2 hst hi) h
/-- C33: for a client FSM with a parent that has sent no signal when
`server_conn_fsm_alloc` returns, in every state that a run reaches the signals
to the parent alternate and begin with the connected signal; their number is
odd exactly in CONNECTED, so the number of connected signals minus the number
of disconnected signals is 1 in CONNECTED and 0 in every other state; and a
step sends one connected signal when it enters CONNECTED, one disconnected
signal when it leaves CONNECTED, and no signal otherwise. -/
theorem parent_signals_alternate (srvc0 s : rspro_server_conn)
    (ins : List (Int × srvc_lib × srvc_input)) (hp : srvc0.has_parent = true)
    (h0 : parent_signals srvc0.calls = [])
    (hrun : srvc_run (server_conn_fsm_alloc srvc0 true).2 ins = some s) :
    (∀ k b, (parent_signals s.calls)[k]? = some b → b = decide (k % 2 = 0)) ∧
    ((parent_signals s.calls).length % 2 = 1 ↔ s.fi.state = SRVC_ST_CONNECTED) ∧
    ((parent_signals s.calls).count true : Int) - (parent_signals s.calls).count false =
      (if s.fi.state = SRVC_ST_CONNECTED then 1 else 0) ∧
    (∀ now lib i s1, srvc_step s now lib i = some s1 → srvc_parent_step s s1) := by
  have hinit : srvc_parent_inv (server_conn_fsm_alloc srvc0 true).2 :=
    ⟨0, h0, by simp [server_conn_fsm_alloc]⟩
  obtain ⟨hp1, n, h1, h2⟩ :=
    srvc_run_parent ins (server_conn_fsm_alloc srvc0 true).2 s hp hinit hrun
  have hlen : ∀ m, (alternating_signals m).length = m := by
    intro m
    induction m with
    | zero => rfl
    | succ m ihm => simp [alternating_signals, ihm]
  obtain ⟨c1, c2⟩ := alternating_signals_count n
  refine ⟨?_, ?_, ?_, fun now lib i s1 h => srvc_step_parent now lib s s1 i hp1 h⟩
  · rw [h1]
    exact alternating_signals_getElem n
  · rw [h1, hlen]
    exact h2
  · rw [h1, c1, c2]
    by_cases hc : s.fi.state = SRVC_ST_CONNECTED
    · have hn := h2.mpr hc
      rw [if_pos hc]
      omega
    · have hn : n % 2 = 0 := by
        have := mt h2.mp hc
        omega
      rw [if_neg hc]
      omega

/-! ## Cleanup of a peer record and responses without a request -/

/-- C34 at an input where it fails: client `(7, 0)` is on `clients` (the state
is reached by the run `example_active_inputs`). After `CLNTC_E_KA_TIMEOUT` its
FSM instance is terminated regularly and cleaned up, and the record is still
on `clients`, the only list it is on; when instead its stream closes
(`CLNTC_E_TCP_DOWN`), the record is on none of the three lists. -/
theorem ka_timeout_leaves_record :
    server_run rspro_server_create example_active_inputs = some example_active ∧
    server_step example_active (.ka_timeout 1) = some example_client_timed_out ∧
    (example_client_timed_out.clients.map
        (fun c => (c.addr, c.fi, c.peer, c.term_cause)) =
      [(1, none, none, some OSMO_FSM_TERM_REGULAR)]) ∧
    (1 ∉ (example_client_timed_out.connections ++ example_client_timed_out.banks).map
      (fun c => c.addr)) ∧
    server_step example_active (.closed 1) = some { example_active with clients := [] } := by
  decide

/-- C35 at the inputs it names: bank 3 is in CONNECTED_BANKD with `maps_unack`
and `maps_deleting` empty. For a createMappingRes and for a removeMappingRes
the code has no defined result: `llist_first_entry` of the empty queue is not
`NULL`, so the `!map` test does not fire and the action works on a mapping
that does not exist. -/
theorem map_res_without_request_undefined :
    (find_conn example_active 2).map
        (fun c => (c.fi.map (fun fi => fi.state), c.bank.maps_unack, c.bank.maps_deleting)) =
      some (some CLNTC_ST_CONNECTED_BANKD, [], []) ∧
    handle_rx_rspro example_active 2 (RsproPDU.createMappingRes ResultCode.ok) = none ∧
    handle_rx_rspro example_active 2 (RsproPDU.removeMappingRes ResultCode.ok) = none := by
  decide

/-! ## Frames and PDUs that the server does not accept -/

/-- C29 at an input where it fails: client `(7, 0)` is connected (the state is
reached by the run `example_active_inputs`). A frame with an unexpected IPA
protocol, or with an unexpected extension, makes `sock_read_cb` destroy the
stream and return `-EBADF`; the closed callback terminates the FSM instance
and the record of the peer is gone. -/
theorem unexpected_frame_destroys_peer :
    server_run rspro_server_create example_active_inputs = some example_active ∧
    sock_read_cb example_active 1 10 ipa_frame.proto_other =
      some (-9, { example_active with clients := [] }) ∧
    sock_read_cb example_active 1 10 ipa_frame.osmo_ext_other =
      some (-9, { example_active with clients := [] }) := by
  decide

/-- C29 as amended: in `sock_read_cb` a frame whose RSPRO payload does not
decode is dropped, the result is `-EIO` (-5) and the server is as before:
the stream is not destroyed and no FSM instance is terminated. A frame with an
unexpected IPA protocol or extension destroys the stream of the peer, the
result is `-EBADF` (-9), and for a peer with a stream and an FSM instance the
closed callback terminates the instance. -/
theorem read_cb_unaccepted_frames (srv : rspro_server) (conn : Nat) (res : Int) :
    - EIO = -5 ∧ -EBADF = -9 ∧
    (0 < res → sock_read_cb srv conn res (ipa_frame.osmo_rspro none) = some (- EIO, srv)) ∧
    (∀ frame c fi stream, frame = ipa_frame.proto_other ∨ frame = ipa_frame.osmo_ext_other →
      find_conn srv conn = some c → c.fi = some fi → c.peer = some stream →
      ∃ srv1, sock_read_cb srv conn res frame = some (-EBADF, srv1) ∧
        conn_fi srv1 conn = none) := by
  refine ⟨by decide, by decide, ?_, ?_⟩
  · intro hres
    unfold sock_read_cb
    simp only [if_neg (not_le.mpr hres)]
  · intro frame c fi stream hframe hfind hfi hpeer
    have hcl : ∃ srv1, sock_closed_cb srv conn = some srv1 ∧ conn_fi srv1 conn = none := by
      unfold sock_closed_cb osmo_fsm_inst_dispatch
      have hcf : conn_fi (update_conn srv conn (fun c => { c with peer := none })) conn =
          some fi := by
        unfold conn_fi
        rw [find_conn_update, hfind]
        simp only [Option.map_some', conn_write]
        split <;> exact hfi
      simp only [hfind, hpeer, hfi, hcf, allstate_event_mask, List.mem_cons, true_or, if_true,
        clnt_allstate_action]
      exact ⟨_, rfl, conn_fi_term _ _ _⟩
    obtain ⟨srv1, h1, h2⟩ := hcl
    refine ⟨srv1, ?_, h2⟩
    unfold sock_read_cb osmo_stream_srv_destroy
    rcases hframe with rfl | rfl <;> simp only [h1, Option.map_some'] <;> split <;> rfl

/-- C30 at inputs where it fails: client `(7, 0)` is in CONNECTED_CLIENT (the
state is reached by the run `example_active_inputs`). A second
connectClientReq, a connectBankReq, and a PDU of a kind that the server does
not handle each leave the server as it is: no FSM instance is terminated. The
first two return 0, the third returns -1. -/
theorem late_connect_request_dropped :
    server_run rspro_server_create example_active_inputs = some example_active ∧
    handle_rx_rspro example_active 1
        (RsproPDU.connectClientReq ComponentType.remsimClient (some ⟨7, 0⟩)) =
      some (0, example_active) ∧
    handle_rx_rspro example_active 1
        (RsproPDU.connectBankReq ComponentType.remsimBankd 4 8) =
      some (0, example_active) ∧
    handle_rx_rspro example_active 1 RsproPDU.other = some (-1, example_active) := by
  decide

/-- C30 as amended: a connect request whose identity type does not match the
request kind, received by a peer in ESTABLISHED (its record on `connections`,
its stream attached), terminates the FSM instance of the peer with cause
ERROR. A connect request received by a peer whose instance is in another
state is dropped by the FSM: the result is 0 and the server is as before. A
decoded PDU of a kind that `handle_rx_rspro` does not handle gives the result
-1 and leaves the server as before. -/
theorem protocol_errors (srv : rspro_server) (a : Nat) :
    (∀ c fi stream identity pdu, unregistered srv c → c.addr = a → c.fi = some fi →
      fi.state = CLNTC_ST_ESTABLISHED → c.peer = some stream →
      ((∃ clientSlot, identity ≠ ComponentType.remsimClient ∧
          pdu = RsproPDU.connectClientReq identity clientSlot) ∨
        (∃ bankId numberOfSlots, identity ≠ ComponentType.remsimBankd ∧
          pdu = RsproPDU.connectBankReq identity bankId numberOfSlots)) →
      ∃ srv1, handle_rx_rspro srv a pdu = some (0, srv1) ∧
        find_conn srv1 a = some
          { c with comp_id_type := identity, peer := none, fi := none,
                   term_cause := some OSMO_FSM_TERM_ERROR }) ∧
    (∀ fi pdu, conn_fi srv a = some fi → fi.state ≠ CLNTC_ST_ESTABLISHED →
      ((∃ identity clientSlot, pdu = RsproPDU.connectClientReq identity clientSlot) ∨
        (∃ identity bankId numberOfSlots,
          pdu = RsproPDU.connectBankReq identity bankId numberOfSlots)) →
      handle_rx_rspro srv a pdu = some (0, srv)) ∧
    (∀ pdu,
      ((∃ r, pdu = RsproPDU.connectBankRes r) ∨ (∃ r, pdu = RsproPDU.connectClientRes r) ∨
        (∃ cs bs, pdu = RsproPDU.createMappingReq cs bs) ∨
        (∃ cs bs, pdu = RsproPDU.removeMappingReq cs bs) ∨
        (∃ bs ip port, pdu = RsproPDU.configClientBankReq bs ip port) ∨
        pdu = RsproPDU.other) →
      handle_rx_rspro srv a pdu = some (-1, srv)) := by
  refine ⟨?_, ?_, ?_⟩
  · intro c fi stream identity pdu h ha hfi hst hpeer hpdu
    subst ha
    have hcfi := (unregistered_conn_fi h).trans hfi
    have hS := established_error_exit srv c fi stream identity h hfi hpeer
    have hfind := written_find_conn h (fun x =>
      { x with comp_id_type := identity, peer := none, fi := none,
               term_cause := some OSMO_FSM_TERM_ERROR })
    have hown : (find_conn srv c.addr).bind (fun c => c.peer) = some stream := by
      rw [unregistered_find_conn h]
      exact hpeer
    refine ⟨_, ?_, hfind⟩
    rcases hpdu with ⟨clientSlot, hi, rfl⟩ | ⟨bankId, numberOfSlots, hi, rfl⟩
    · unfold handle_rx_rspro
      simp only [dispatch_established srv c.addr fi CLNTC_E_CLIENT_CONN _ hcfi hst (Or.inl rfl)]
      rw [established_client_bad_identity _ _ _ _ stream hown hi, hS, Option.map_some']
    · unfold handle_rx_rspro
      simp only [dispatch_established srv c.addr fi CLNTC_E_BANK_CONN _ hcfi hst (Or.inr rfl)]
      rw [established_bank_bad_identity _ _ _ _ _ stream hown hi, hS, Option.map_some']
  · intro fi pdu hfi hst hpdu
    rcases hpdu with ⟨identity, clientSlot, rfl⟩ | ⟨identity, bankId, numberOfSlots, rfl⟩ <;>
      (unfold handle_rx_rspro osmo_fsm_inst_dispatch
       cases hs : fi.state <;>
         simp [hfi, hs, allstate_event_mask, in_event_mask] at hst ⊢)
  · intro pdu hpdu
    rcases hpdu with ⟨r, rfl⟩ | ⟨r, rfl⟩ | ⟨cs, bs, rfl⟩ | ⟨cs, bs, rfl⟩ | ⟨bs, ip, port, rfl⟩ | rfl <;>
      rfl

/-! ## The client-update procedure run twice -/

theorem find_map_of_pred {α : Type} (L : List α) (F : α → α) (p : α → Bool)
    (h : ∀ x ∈ L, p (F x) = p x) : (L.map F).find? p = (L.find? p).map F := by
  induction L with
  | nil => rfl
  | cons x rest ih =>
    have hx := h x (List.mem_cons_self _ _)
    have hr := ih (fun y hy => h y (List.mem_cons_of_mem _ hy))
    simp only [List.map_cons, List.find?_cons, hx]
    cases p x
    · exact hr
    · rfl

/-- A write that leaves the keys of the registries leaves the result of
`client_conn_by_slot` but for the write itself. -/
theorem client_conn_by_slot_update (srv : rspro_server) (a : Nat)
    (g : rspro_client_conn → rspro_client_conn) (cslot : client_slot)
    (hk : registry_keys (update_conn srv a g) = registry_keys srv) :
    client_conn_by_slot (update_conn srv a g) cslot =
      (client_conn_by_slot srv cslot).map (conn_write a g) := by
  have hc : (srv.clients.map (conn_write a g)).map conn_key = srv.clients.map conn_key :=
    congrArg registry_view.clients hk
  rw [List.map_map] at hc
  have hmem : ∀ x ∈ srv.clients, conn_key (conn_write a g x) = conn_key x :=
    fun x hx => (List.map_inj_left.1 hc) x hx
  unfold client_conn_by_slot
  exact find_map_of_pred srv.clients (conn_write a g) _
    (fun x hx => by rw [show (conn_write a g x).client.slot = x.client.slot from
      congrArg peer_key.slot (hmem x hx)])

/-- The second of two runs of the client-update procedure returns and leaves
the record of the client as the first run left it. -/
theorem update_client_twice (ma : Nat) (srv : rspro_server) (b : Option Nat)
    (m : slot_mapping) (cl : rspro_client_conn) (fi2 : osmo_fsm_inst) (ip port : Nat)
    (g : rspro_client_conn → rspro_client_conn)
    (hderef : slotmap_deref srv.slotmaps ma = some m)
    (hcl : client_conn_by_slot srv m.client = some cl)
    (hfindcl : find_conn srv cl.addr = some cl) (hfi : cl.fi = some fi2)
    (hst : fi2.state = CLNTC_ST_CONNECTED_CLIENT)
    (hco : ∀ g1, keeps_link g1 →
      bankd_coords (update_conn srv cl.addr g1) m b = some (some (ip, port)))
    (hg : _update_client_for_slotmap ma srv b = some (update_conn srv cl.addr g))
    (hkl : keeps_link g)
    (hrec : ({ g cl with addr := cl.addr } : rspro_client_conn) =
      if cl.client.bankd = ⟨m.bank, ip, port⟩ then cl
      else { cl with
             client.bankd := ⟨m.bank, ip, port⟩
             tx := cl.tx ++ [RsproPDU.configClientBankReq m.bank ip port] }) :
    ∃ s2, _update_client_for_slotmap ma (update_conn srv cl.addr g) b = some s2 ∧
      find_conn s2 cl.addr = find_conn (update_conn srv cl.addr g) cl.addr := by
  have hk : registry_keys (update_conn srv cl.addr g) = registry_keys srv :=
    keys_update_client_for_slotmap ma srv _ b hg
  have hf1 : find_conn (update_conn srv cl.addr g) cl.addr = some { g cl with addr := cl.addr } :=
    find_conn_update_self srv cl g hfindcl
  have hcl1 : client_conn_by_slot (update_conn srv cl.addr g) m.client =
      some { g cl with addr := cl.addr } := by
    rw [client_conn_by_slot_update srv cl.addr g m.client hk, hcl, Option.map_some',
      conn_write_of_eq _ _ _ rfl]
  have hbankd : ({ g cl with addr := cl.addr } : rspro_client_conn).client.bankd =
      ⟨m.bank, ip, port⟩ := by
    rw [hrec]
    split
    · assumption
    · rfl
  have hco1 : ∀ g1, keeps_link g1 →
      bankd_coords (update_conn (update_conn srv cl.addr g) cl.addr g1) m b =
        some (some (ip, port)) := by
    intro g1 h1
    rw [update_conn_twice]
    exact hco _ (keeps_link_comp g g1 hkl h1)
  obtain ⟨g2, hg2, _, hrec2⟩ := update_client_exact ma (update_conn srv cl.addr g) b m
    { g cl with addr := cl.addr } fi2 ip port hderef hcl1 hf1
    (by show (g cl).fi = some fi2; rw [(hkl cl).2.1]; exact hfi) hst hco1
  refine ⟨_, hg2, ?_⟩
  have hf2 := find_conn_update_self (update_conn srv cl.addr g)
    { g cl with addr := cl.addr } g2 hf1
  rw [if_pos hbankd] at hrec2
  rw [hf1]
  exact hf2.trans (congrArg some hrec2)

theorem bankd_conn_by_id_update (srv : rspro_server) (x : Nat)
    (g : rspro_client_conn → rspro_client_conn) (hg : keeps_link g) (bank_id : Nat) :
    bankd_conn_by_id (update_conn srv x g) bank_id =
      (bankd_conn_by_id srv bank_id).map (conn_write x g) := by
  unfold bankd_conn_by_id
  exact find_map_of_pred srv.banks (conn_write x g) _
    (fun y _ => by rw [(conn_write_keeps x g hg y).1])

theorem bankd_coords_no_bank (srv : rspro_server) (m : slot_mapping) (x : Nat)
    (g : rspro_client_conn → rspro_client_conn) (hg : keeps_link g)
    (hnone : bankd_conn_by_id srv m.bank.bank_id = none) :
    bankd_coords (update_conn srv x g) m none = some (some (0, 0)) := by
  unfold bankd_coords
  split
  · rfl
  · simp only [bankd_conn_by_id_update srv x g hg, hnone, Option.map_none']

theorem bankd_coords_by_id (srv : rspro_server) (m : slot_mapping) (x ip : Nat)
    (c : rspro_client_conn) (g : rspro_client_conn → rspro_client_conn) (hg : keeps_link g)
    (h : m.state ≠ SLMAP_S_DELETING) (hfind : bankd_conn_by_id srv m.bank.bank_id = some c)
    (hpeer : c.peer = some ⟨some ip⟩) :
    bankd_coords (update_conn srv x g) m none = some (some (ip, 9999)) := by
  unfold bankd_coords
  rw [if_neg h]
  simp only [bankd_conn_by_id_update srv x g hg, hfind, Option.map_some',
    (conn_write_keeps x g hg c).2.2, hpeer]

theorem client_updated_of_coords (ma : Nat) (srv : rspro_server) (b : Option Nat)
    (m : slot_mapping) (cl : rspro_client_conn) (fi2 : osmo_fsm_inst) (ip port : Nat)
    (hderef : slotmap_deref srv.slotmaps ma = some m)
    (hcl : client_conn_by_slot srv m.client = some cl)
    (hfindcl : find_conn srv cl.addr = some cl) (hfi : cl.fi = some fi2)
    (hst : fi2.state = CLNTC_ST_CONNECTED_CLIENT)
    (hco : ∀ g1, keeps_link g1 →
      bankd_coords (update_conn srv cl.addr g1) m b = some (some (ip, port))) :
    client_updated ma srv b m cl ip port := by
  obtain ⟨g, hg, hkl, hrec⟩ :=
    update_client_exact ma srv b m cl fi2 ip port hderef hcl hfindcl hfi hst hco
  exact ⟨g, hg, hkl, hrec,
    update_client_twice ma srv b m cl fi2 ip port g hderef hcl hfindcl hfi hst hco hg hkl
      hrec⟩

/-- C31, the claim at an input where it fails: the socket address of bank 3
cannot be read. The client-update procedure for mapping 50 stores the bank
slot `(3, 5)` in the record of client `(7, 0)`, where `(0, 0)` was stored,
leaves ip and port, and sends nothing to the client: a stored value changed
and `CLNTC_E_CL_CFG_BANKD` was not dispatched. -/
theorem update_client_unreadable_bank :
    _update_client_for_slotmap 50 (example_unreadable ⟨⟨0, 0⟩, 0, 0⟩) (some 2) =
      some (example_unreadable ⟨⟨3, 5⟩, 0, 0⟩) ∧
    _update_client_for_slotmap 50 (example_unreadable ⟨⟨0, 0⟩, 0, 0⟩) none =
      some (example_unreadable ⟨⟨3, 5⟩, 0, 0⟩) := by
  decide

/-- C31 as amended: the client-update procedure for the mapping `m` changes
nothing when no client peer has the client slot of `m`. For its connected
client peer `cl` (in CONNECTED_CLIENT) it sets the last-known slot to the bank
slot of `m`, and ip and port to `(0, 0)` when `m` is DELETING or when the bank
is looked up by its id and no peer on `banks` has it, and to the ip of the
bank with port 9999 when the bank peer (given by the caller or found by its
id) has a stream whose address can be read; it sends the configClientBankReq
of `CLNTC_E_CL_CFG_BANKD` exactly when one of the three stored values changed;
and a second run right after the first leaves the record of the client as it
is, so that nothing is sent. -/
theorem update_client_for_slotmap_cases (ma : Nat) (srv : rspro_server) (b : Option Nat)
    (m : slot_mapping) (hderef : slotmap_deref srv.slotmaps ma = some m) :
    (client_conn_by_slot srv m.client = none →
      _update_client_for_slotmap ma srv b = some srv) ∧
    (∀ cl fi2, client_conn_by_slot srv m.client = some cl → find_conn srv cl.addr = some cl →
      cl.fi = some fi2 → fi2.state = CLNTC_ST_CONNECTED_CLIENT →
      (m.state = SLMAP_S_DELETING → client_updated ma srv b m cl 0 0) ∧
      (m.state ≠ SLMAP_S_DELETING → b = none →
        bankd_conn_by_id srv m.bank.bank_id = none → client_updated ma srv b m cl 0 0) ∧
      (∀ c ip, m.state ≠ SLMAP_S_DELETING →
        ((∃ a, b = some a ∧ find_conn srv a = some c) ∨
          (b = none ∧ bankd_conn_by_id srv m.bank.bank_id = some c)) →
        c.peer = some ⟨some ip⟩ → client_updated ma srv b m cl ip 9999)) := by
  refine ⟨?_, ?_⟩
  · intro hnone
    unfold _update_client_for_slotmap
    simp only [hderef, hnone]
  · intro cl fi2 hcl hfindcl hfi hst
    refine ⟨?_, ?_, ?_⟩
    · intro hdel
      exact client_updated_of_coords ma srv b m cl fi2 0 0 hderef hcl hfindcl hfi hst
        (fun g1 _ => bankd_coords_deleting _ m b hdel)
    · intro _ hb hnone
      subst hb
      exact client_updated_of_coords ma srv none m cl fi2 0 0 hderef hcl hfindcl hfi hst
        (fun g1 h1 => bankd_coords_no_bank srv m cl.addr g1 h1 hnone)
    · intro c ip hnd hbank hpeer
      rcases hbank with ⟨a, hb, hfind⟩ | ⟨hb, hfind⟩
      · subst hb
        exact client_updated_of_coords ma srv (some a) m cl fi2 ip 9999 hderef hcl hfindcl hfi
          hst (fun g1 h1 => bankd_coords_of_peer srv m a cl.addr ip c g1 h1 hnd hfind hpeer)
      · subst hb
        exact client_updated_of_coords ma srv none m cl fi2 ip 9999 hderef hcl hfindcl hfi hst
          (fun g1 h1 => bankd_coords_by_id srv m cl.addr ip c g1 h1 hnd hfind hpeer)

/-! ## A peer that reached CONNECTED_CLIENT, CONNECTED_BANKD or REJECTED -/

theorem find_filter_self {α : Type} (p : α → Bool) (L : List α) :
    (L.filter p).find? p = L.find? p := by
  induction L with
  | nil => rfl
  | cons x xs ih =>
    by_cases hx : p x = true
    · simp [List.filter_cons, hx]
    · simp [List.filter_cons, hx, ih]

theorem registry_view.find_restrict (k : registry_view) (a : Nat) :
    (k.restrict a).find a = k.find a := by
  unfold registry_view.find registry_view.restrict
  simp only
  rw [← List.filter_append, ← List.filter_append, find_filter_self]

theorem filter_map_other (L : List peer_key) (a b : Nat) (g : peer_key → peer_key)
    (hg : ∀ x, (g x).addr = x.addr) (hab : a ≠ b) :
    (L.map (fun x => if x.addr = b then g x else x)).filter (fun x => x.addr == a) =
      L.filter (fun x => x.addr == a) := by
  induction L with
  | nil => rfl
  | cons x xs ih =>
    rw [List.map_cons, List.filter_cons, List.filter_cons, ih]
    by_cases hx : x.addr = b
    · have h1 : ((if x.addr = b then g x else x).addr == a) = false := by
        rw [if_pos hx, hg, hx]
        simpa using fun h => hab h.symm
      have h2 : (x.addr == a) = false := by
        rw [hx]
        simpa using fun h => hab h.symm
      simp only [h1, h2, Bool.false_eq_true, if_false]
    · simp only [if_neg hx]

theorem registry_view.restrict_update (k : registry_view) (a b : Nat) (g : peer_key → peer_key)
    (hg : ∀ x, (g x).addr = x.addr) (hab : a ≠ b) :
    (k.update b g).restrict a = k.restrict a := by
  unfold registry_view.restrict registry_view.update
  simp only [filter_map_other _ a b g hg hab]

theorem filter_filter_other (L : List peer_key) (a b : Nat) (hab : a ≠ b) :
    (L.filter (fun x => x.addr != b)).filter (fun x => x.addr == a) =
      L.filter (fun x => x.addr == a) := by
  rw [List.filter_filter]
  congr 1
  funext x
  by_cases hx : x.addr = a
  · simp [hx, hab]
  · simp [hx]

theorem registry_view.restrict_remove (k : registry_view) (a b : Nat) (hab : a ≠ b) :
    (k.remove b).restrict a = k.restrict a := by
  unfold registry_view.restrict registry_view.remove
  simp only [filter_filter_other _ a b hab]

theorem filter_append_other (L : List peer_key) (x : peer_key) (a : Nat) (hx : a ≠ x.addr) :
    (L ++ [x]).filter (fun y => y.addr == a) = L.filter (fun y => y.addr == a) := by
  rw [List.filter_append]
  have h : (x.addr == a) = false := by simpa using fun h => hx h.symm
  simp [List.filter_cons, h]

theorem restrict_to_clients (srv : rspro_server) (x : rspro_client_conn) (a : Nat)
    (hx : a ≠ x.addr) :
    (registry_keys (conn_to_clients srv x)).restrict a = (registry_keys srv).restrict a := by
  rw [keys_to_clients]
  unfold registry_view.restrict
  simp only [filter_filter_other _ a x.addr hx, filter_append_other _ (conn_key x) a hx]

theorem restrict_to_banks (srv : rspro_server) (x : rspro_client_conn) (a : Nat)
    (hx : a ≠ x.addr) :
    (registry_keys (conn_to_banks srv x)).restrict a = (registry_keys srv).restrict a := by
  rw [keys_to_banks]
  unfold registry_view.restrict
  simp only [filter_filter_other _ a x.addr hx, filter_append_other _ (conn_key x) a hx]

theorem restrict_term (srv : rspro_server) (a b : Nat) (cause : osmo_fsm_term_cause)
    (hab : a ≠ b) :
    (registry_keys (osmo_fsm_inst_term srv b cause)).restrict a =
      (registry_keys srv).restrict a := by
  rcases keys_term srv b cause with ⟨-, h⟩ | h | h
  · rw [h]
  · rw [h]
    exact registry_view.restrict_update _ _ _ _ (fun _ => rfl) hab
  · rw [h, registry_view.restrict_remove _ _ _ hab]
    exact registry_view.restrict_update _ _ _ _ (fun _ => rfl) hab

theorem restrict_state_chg (srv s : rspro_server) (a b : Nat)
    (st : remsim_server_client_fsm_state) (t T : Nat) (hab : a ≠ b)
    (hs : osmo_fsm_inst_state_chg srv b st t T = some s) :
    (registry_keys s).restrict a = (registry_keys srv).restrict a := by
  rcases keys_state_chg srv s b st t T hs with h | h
  · rw [h]
  · rw [h]
    exact registry_view.restrict_update _ _ _ _ (fun _ => rfl) hab

theorem restrict_established (srv s : rspro_server) (a b : Nat) (fi : osmo_fsm_inst)
    (event : remsim_server_client_event) (data : Option RsproPDU) (hab : a ≠ b)
    (hinv : (registry_keys srv).inv) (hfi : conn_fi srv b = some fi)
    (hst : fi.state = CLNTC_ST_ESTABLISHED)
    (h : clnt_st_established srv b event data = some s) :
    (registry_keys s).restrict a = (registry_keys srv).restrict a := by
  obtain ⟨hnot, c, hu, rfl, hcfi⟩ := registry_inv_unregistered srv b fi hinv hfi (Or.inr hst)
  cases hcp : c.peer with
  | none =>
    rw [established_no_stream _ _ _ _ (by rw [unregistered_find_conn hu]; exact hcp)] at h
    simp at h
  | some stream =>
  have hown : (find_conn srv c.addr).bind (fun c => c.peer) = some stream := by
    rw [unregistered_find_conn hu]
    exact hcp
  have hterm : ∀ identity, (registry_keys (osmo_fsm_inst_term
      (update_conn srv c.addr (fun c => { c with comp_id_type := identity })) c.addr
      OSMO_FSM_TERM_ERROR)).restrict a = (registry_keys srv).restrict a := by
    intro identity
    rw [restrict_term _ _ _ _ hab, keys_set_comp_id]
  have same : some srv = some s →
      (registry_keys s).restrict a = (registry_keys srv).restrict a := by
    intro h1
    simp only [Option.some.injEq] at h1
    rw [← h1]
  cases event <;> try (simp only [clnt_st_established, hown] at h; exact same h)
  · -- CLNTC_E_CLIENT_CONN
    cases data with
    | none => simp only [clnt_st_established, hown] at h; exact same h
    | some pdu =>
      cases pdu <;> try (simp only [clnt_st_established, hown] at h; exact same h)
      rename_i identity clientSlot
      by_cases hi : identity = ComponentType.remsimClient
      · subst hi
        cases clientSlot with
        | none =>
          rw [established_client_no_slot _ _ stream hown, Option.some.injEq] at h
          rw [← h]
          exact hterm _
        | some cs =>
          cases hp : client_conn_by_slot srv (rspro2client_slot cs) with
          | some p =>
            cases hpp : p.peer with
            | none =>
              rw [established_client_stale srv c p cs stream hu hcp hp hpp] at h
              simp at h
            | some pstream =>
              rw [established_client_reject srv c p fi cs stream pstream hu hcfi hst hcp hp hpp,
                Option.some.injEq] at h
              rw [← h, keys_conn_written srv c.addr _
                (fun x => { x with slot := rspro2client_slot cs,
                                   state := some CLNTC_ST_REJECTED })
                hu.2 (fun _ => rfl) (fun _ => rfl)]
              exact registry_view.restrict_update _ _ _ _ (fun _ => rfl) hab
          | none =>
            rw [established_client_accept srv c fi cs stream hu hcfi hst hcp hp] at h
            rw [keys_connected_client_onenter _ _ _ h]
            exact restrict_to_clients _ _ _ hab
      · rw [established_client_bad_identity _ _ _ _ stream hown hi, Option.some.injEq] at h
        rw [← h]
        exact hterm _
  · -- CLNTC_E_BANK_CONN
    cases data with
    | none => simp only [clnt_st_established, hown] at h; exact same h
    | some pdu =>
      cases pdu <;> try (simp only [clnt_st_established, hown] at h; exact same h)
      rename_i identity bankId numberOfSlots
      by_cases hi : identity = ComponentType.remsimBankd
      · subst hi
        cases hp : bankd_conn_by_id srv (bankId % 65536) with
        | some p =>
          cases hpp : p.peer with
          | none =>
            rw [established_bank_stale srv c p bankId numberOfSlots stream hu hcp hp hpp] at h
            simp at h
          | some pstream =>
            rw [established_bank_reject srv c p fi bankId numberOfSlots stream pstream hu hcfi
              hst hcp hp hpp, Option.some.injEq] at h
            rw [← h, keys_conn_written srv c.addr _
              (fun x => { x with bank_id := bankId % 65536, state := some CLNTC_ST_REJECTED })
              hu.2 (fun _ => rfl) (fun _ => rfl)]
            exact registry_view.restrict_update _ _ _ _ (fun _ => rfl) hab
        | none =>
          rw [established_bank_accept srv c fi bankId numberOfSlots stream hu hcfi hst hcp hp,
            Option.some.injEq] at h
          rw [← h, keys_dispatch_inner, keys_connected_bankd_onenter]
          exact restrict_to_banks _ _ _ hab
      · rw [established_bank_bad_identity _ _ _ _ _ stream hown hi, Option.some.injEq] at h
        rw [← h]
        exact hterm _

/-- An event dispatched to the peer at `b` leaves the keys of every other
peer. -/
theorem restrict_dispatch (srv srv1 : rspro_server) (a b : Nat)
    (event : remsim_server_client_event) (data : Option RsproPDU) (hab : a ≠ b)
    (hinv : (registry_keys srv).inv)
    (h : osmo_fsm_inst_dispatch srv b event data = some srv1) :
    (registry_keys srv1).restrict a = (registry_keys srv).restrict a := by
  unfold osmo_fsm_inst_dispatch at h
  cases hfi : conn_fi srv b with
  | none =>
    rw [hfi] at h
    simp only [Option.some.injEq] at h
    rw [← h]
  | some fi =>
    rw [hfi] at h
    simp only at h
    split at h
    · simp only [Option.some.injEq] at h
      rw [← h]
      unfold clnt_allstate_action
      split
      · exact restrict_term _ _ _ _ hab
      · exact restrict_term _ _ _ _ hab
      · rfl
    · split at h
      · split at h
        · -- INIT
          unfold clnt_st_init at h
          split at h
          · exact restrict_state_chg _ _ _ _ _ _ _ hab h
          · simp only [Option.some.injEq] at h
            rw [← h]
        · -- ESTABLISHED
          rename_i hs
          exact restrict_established srv srv1 a b fi event data hab hinv hfi hs h
        · -- WAIT_CONF_RES
          unfold clnt_st_wait_cl_conf_res at h
          split at h
          · exact restrict_state_chg _ _ _ _ _ _ _ hab h
          · simp only [Option.some.injEq] at h
            rw [← h]
        · -- CONNECTED_BANKD
          rw [keys_clnt_st_connected_bankd _ _ _ _ h]
        · -- CONNECTED_CLIENT
          simp only [Option.some.injEq] at h
          rw [← h, keys_clnt_st_connected_client]
        · -- REJECTED
          simp only [Option.some.injEq] at h
          rw [← h]
      · simp only [Option.some.injEq] at h
        rw [← h]

/-- Whether a peer is settled can be read off the keys at its address. -/
theorem settled_of_restrict (srv srv1 : rspro_server) (a : Nat) (hs : peer_settled srv a)
    (h : (registry_keys srv1).restrict a = (registry_keys srv).restrict a) :
    peer_settled srv1 a := by
  obtain ⟨fi, hfi, hst⟩ := hs
  have h0 := keys_conn_fi srv a
  have h1 := keys_conn_fi srv1 a
  rw [← registry_view.find_restrict, h, registry_view.find_restrict, ← h0, hfi] at h1
  cases hc : conn_fi srv1 a with
  | none => simp [hc] at h1
  | some fi1 =>
    rw [hc] at h1
    simp only [Option.map_some', Option.some.injEq] at h1
    exact ⟨fi1, hc, by rw [h1]; exact hst⟩

/-- An event dispatched to a settled peer leaves all keys, or the peer has no
instance afterwards. -/
theorem settled_dispatch (srv srv1 : rspro_server) (a : Nat)
    (event : remsim_server_client_event) (data : Option RsproPDU) (hs : peer_settled srv a)
    (h : osmo_fsm_inst_dispatch srv a event data = some srv1) :
    registry_keys srv1 = registry_keys srv ∨ conn_fi srv1 a = none := by
  obtain ⟨fi, hfi, hst⟩ := hs
  unfold osmo_fsm_inst_dispatch at h
  rw [hfi] at h
  simp only at h
  split at h
  · simp only [Option.some.injEq] at h
    rw [← h]
    unfold clnt_allstate_action
    split
    · exact Or.inr (conn_fi_term _ _ _)
    · exact Or.inr (conn_fi_term _ _ _)
    · exact Or.inl rfl
  · split at h
    · split at h
      · rename_i hs
        rw [hs] at hst
        simp at hst
      · rename_i hs
        rw [hs] at hst
        simp at hst
      · rename_i hs
        rw [hs] at hst
        simp at hst
      · exact Or.inl (keys_clnt_st_connected_bankd _ _ _ _ h)
      · simp only [Option.some.injEq] at h
        rw [← h]
        exact Or.inl (keys_clnt_st_connected_client _ _ _)
      · simp only [Option.some.injEq] at h
        rw [← h]
        exact Or.inl rfl
    · simp only [Option.some.injEq] at h
      rw [← h]
      exact Or.inl rfl

theorem settled_mem_addrs (srv : rspro_server) (a : Nat) (hs : peer_settled srv a) :
    a ∈ conn_addrs srv := by
  obtain ⟨fi, hfi, -⟩ := hs
  unfold conn_fi at hfi
  cases hc : find_conn srv a with
  | none => simp [hc] at hfi
  | some c =>
    unfold find_conn at hc
    have hm := List.mem_of_find?_eq_some hc
    have ha : c.addr = a := by simpa using List.find?_some hc
    unfold conn_addrs
    rw [List.mem_map]
    exact ⟨c, hm, ha⟩

/-- One step of the server on a state in which the peer at `a` is settled: the
peer is unchanged and still settled, or it has no instance any more. -/
theorem settled_step (srv srv1 : rspro_server) (a : Nat) (i : server_input)
    (hinv : (registry_keys srv).inv) (hs : peer_settled srv a)
    (h : server_step srv i = some srv1) :
    (peer_unchanged srv srv1 a ∧ peer_settled srv1 a) ∨ conn_fi srv1 a = none := by
  have same : (registry_keys srv1).restrict a = (registry_keys srv).restrict a →
      (peer_unchanged srv srv1 a ∧ peer_settled srv1 a) ∨ conn_fi srv1 a = none :=
    fun hr => Or.inl ⟨hr, settled_of_restrict srv srv1 a hs hr⟩
  have disp : ∀ (s : rspro_server) (b : Nat) (ev : remsim_server_client_event)
      (data : Option RsproPDU), registry_keys s = registry_keys srv → peer_settled s a →
      osmo_fsm_inst_dispatch s b ev data = some srv1 →
      (peer_unchanged srv srv1 a ∧ peer_settled srv1 a) ∨ conn_fi srv1 a = none := by
    intro s b ev data hk hss hd
    by_cases hab : a = b
    · subst hab
      rcases settled_dispatch s srv1 a ev data hss hd with h1 | h1
      · exact same (by rw [h1, hk])
      · exact Or.inr h1
    · exact same (by rw [restrict_dispatch s srv1 a b ev data hab (by rw [hk]; exact hinv) hd, hk])
  have term : ∀ (b : Nat) (cause : osmo_fsm_term_cause),
      srv1 = osmo_fsm_inst_term srv b cause →
      (peer_unchanged srv srv1 a ∧ peer_settled srv1 a) ∨ conn_fi srv1 a = none := by
    intro b cause hd
    by_cases hab : a = b
    · subst hab
      rw [hd]
      exact Or.inr (conn_fi_term _ _ _)
    · exact same (by rw [hd, restrict_term _ _ _ _ hab])
  cases i with
  | accept b stream =>
    simp only [server_step] at h
    split at h
    · simp at h
    · rename_i hb
      have hab : a ≠ b := fun e => hb (e ▸ settled_mem_addrs srv a hs)
      unfold accept_cb at h
      have hk : (registry_keys
          { srv with connections := srv.connections ++ [accept_conn b stream] }).restrict a =
          (registry_keys srv).restrict a := by
        simp only [registry_keys, registry_view.restrict, List.map_append, List.map_cons,
          List.map_nil]
        rw [filter_append_other _ (conn_key (accept_conn b stream)) a hab]
      refine same ?_
      rw [restrict_dispatch _ srv1 a b _ _ hab (registry_inv_accept srv b stream hinv hb) h, hk]
  | rx b pdu =>
    simp only [server_step, Option.map_eq_some'] at h
    obtain ⟨r, hr, rfl⟩ := h
    unfold handle_rx_rspro at hr
    split at hr
    all_goals first
      | (simp only [Option.map_eq_some'] at hr
         obtain ⟨s, hd, rfl⟩ := hr
         exact disp srv b _ _ rfl hs hd)
      | (simp only [Option.some.injEq] at hr
         subst hr
         exact same rfl)
  | closed b =>
    simp only [server_step] at h
    unfold sock_closed_cb at h
    split at h
    · simp only [Option.some.injEq] at h
      subst h
      exact same rfl
    · split at h
      · simp only [Option.some.injEq] at h
        subst h
        exact same rfl
      · split at h
        · simp only [Option.some.injEq] at h
          subst h
          exact same rfl
        · have hk := keys_update_conn (fun c => { c with peer := none }) srv b (fun _ => rfl)
          exact disp _ b _ _ hk (settled_of_restrict srv _ a hs (by rw [hk])) h
  | ka_timeout b =>
    simp only [server_step] at h
    exact disp srv b _ _ rfl hs h
  | timer b =>
    simp only [server_step] at h
    unfold fsm_tmr_cb at h
    split at h
    · simp only [Option.some.injEq] at h
      subst h
      exact same rfl
    · split at h
      · simp only [Option.some.injEq] at h
        subst h
        exact same rfl
      · split at h
        · simp at h
        · split at h
          · simp only [Option.some.injEq] at h
            exact term b _ h.symm
          · simp only [Option.some.injEq] at h
            subst h
            exact same rfl
  | event_fd rc =>
    simp only [server_step, Option.some.injEq] at h
    refine same ?_
    rw [← h, keys_event_fd_cb]
  | slotmap_add bank client talloc =>
    simp only [server_step] at h
    split at h
    · simp only [Option.some.injEq] at h
      refine same ?_
      rw [← h]
      rfl
    · split at h
      · simp at h
      · simp only [Option.some.injEq] at h
        refine same ?_
        rw [← h]
        rfl

/-- Along a run of the server from a state in which the peer at `a` is
settled: at the end the peer is unchanged and still settled, or some prefix of
the run ends in a state in which the peer has no instance. -/
theorem settled_run (ins : List server_input) (srv srv1 : rspro_server) (a : Nat)
    (hinv : (registry_keys srv).inv) (hs : peer_settled srv a)
    (h : server_run srv ins = some srv1) :
    (peer_unchanged srv srv1 a ∧ peer_settled srv1 a) ∨
      ∃ n s, n ≤ ins.length ∧ server_run srv (ins.take n) = some s ∧ conn_fi s a = none := by
  induction ins generalizing srv with
  | nil =>
    simp only [server_run, Option.some.injEq] at h
    rw [← h]
    exact Or.inl ⟨rfl, hs⟩
  | cons i rest ih =>
    simp only [server_run] at h
    cases hstep : server_step srv i with
    | none => simp [hstep] at h
    | some s1 =>
      rw [hstep] at h
      simp only at h
      rcases settled_step srv s1 a i hinv hs hstep with ⟨hu, hs1⟩ | hgone
      · rcases ih s1 (registry_inv_step srv s1 i hinv hstep) hs1 h with ⟨hu2, hs2⟩ | ⟨n, s, hn, hr, hg⟩
        · exact Or.inl ⟨hu2.trans hu, hs2⟩
        · refine Or.inr ⟨n + 1, s, by simpa using hn, ?_, hg⟩
          simp only [List.take_succ_cons, server_run, hstep]
          exact hr
      · refine Or.inr ⟨1, s1, by simp, ?_, hgone⟩
        simp [server_run, hstep]

/-- C36: for a peer whose FSM instance is in CONNECTED_CLIENT, CONNECTED_BANKD
or REJECTED (in any server state that satisfies the registry invariant, as
every reachable one does): a connectClientReq and a connectBankReq received
from it are dropped, the handler returns 0 and the server is as before; every
event dispatched to its instance leaves the registries with the same keys
(every peer on the same list with the same FSM state, client slot and bank
id) or leaves the peer without instance; an event outside the two mapping
responses always produces a result; and along every run of the server the
peer stays on its list with the same state, client slot and bank id up to the
input after which it has no instance. -/
theorem settled_peer_stays (srv : rspro_server) (a : Nat)
    (hinv : (registry_keys srv).inv) (hs : peer_settled srv a) :
    (∀ identity clientSlot, handle_rx_rspro srv a
      (RsproPDU.connectClientReq identity clientSlot) = some (0, srv)) ∧
    (∀ identity bankId numberOfSlots, handle_rx_rspro srv a
      (RsproPDU.connectBankReq identity bankId numberOfSlots) = some (0, srv)) ∧
    (∀ event data srv1, osmo_fsm_inst_dispatch srv a event data = some srv1 →
      registry_keys srv1 = registry_keys srv ∨ conn_fi srv1 a = none) ∧
    (∀ event data, event ≠ CLNTC_E_CREATE_MAP_RES → event ≠ CLNTC_E_REMOVE_MAP_RES →
      ∃ srv1, osmo_fsm_inst_dispatch srv a event data = some srv1) ∧
    (∀ ins srv1, server_run srv ins = some srv1 →
      (peer_unchanged srv srv1 a ∧ peer_settled srv1 a) ∨
        ∃ n s, n ≤ ins.length ∧ server_run srv (ins.take n) = some s ∧ conn_fi s a = none) := by
  refine ⟨?_, ?_, ?_, ?_, ?_⟩
  · intro identity clientSlot
    obtain ⟨fi, hfi, hst⟩ := hs
    rcases hst with hst | hst | hst <;>
      simp [handle_rx_rspro, osmo_fsm_inst_dispatch, hfi, hst, allstate_event_mask,
        in_event_mask]
  · intro identity bankId numberOfSlots
    obtain ⟨fi, hfi, hst⟩ := hs
    rcases hst with hst | hst | hst <;>
      simp [handle_rx_rspro, osmo_fsm_inst_dispatch, hfi, hst, allstate_event_mask,
        in_event_mask]
  · intro event data srv1 h
    exact settled_dispatch srv srv1 a event data hs h
  · intro event data h1 h2
    obtain ⟨fi, hfi, hst⟩ := hs
    unfold osmo_fsm_inst_dispatch
    rw [hfi]
    simp only
    split
    · exact ⟨_, rfl⟩
    · split
      · rename_i hmask
        rcases hst with hst | hst | hst
        · simp only [hst]
          exact ⟨_, rfl⟩
        · simp only [hst]
          rw [hst] at hmask
          cases event <;> simp [in_event_mask] at hmask h1 h2
          exact ⟨_, rfl⟩
        · simp only [hst]
          exact ⟨_, rfl⟩
      · exact ⟨_, rfl⟩
  · intro ins srv1 h
    exact settled_run ins srv srv1 a hinv hs h

/-! ## The theorems at concrete inputs -/

theorem registries_unique_reachable_witness :
    server_run rspro_server_create example_inputs = some example_final ∧
    (example_final.clients.Pairwise (fun c1 c2 => c1.client.slot ≠ c2.client.slot) ∧
      example_final.banks.Pairwise (fun c1 c2 => c1.bank.bank_id ≠ c2.bank.bank_id)) :=
  ⟨by decide, registries_unique_reachable example_inputs example_final (by decide)⟩

/-- C6 as stated fails: bank 3 is connected (the state is reached by accepting
the peer and receiving its connectBankReq), `slotmap_add` of a mapping for bank
slot `(3, 5)` returns 0, and the new mapping is not on the `maps_new` queue of
the bank peer when the call returns. -/
theorem slotmap_add_not_on_maps_new :
    server_run rspro_server_create
        [.accept 2 ⟨some 200⟩, .rx 2 (RsproPDU.connectBankReq ComponentType.remsimBankd 3 8)] =
      some example_bank_connected ∧
    (∃ conn ∈ example_bank_connected.banks, conn.bank.bank_id = 3 ∧
      conn.fi = some { state := CLNTC_ST_CONNECTED_BANKD, T := 0, timer := none }) ∧
    (server_slotmap_add example_bank_connected ⟨3, 5⟩ ⟨7, 0⟩ (some 50)).1 = 0 ∧
    (server_slotmap_add example_bank_connected ⟨3, 5⟩ ⟨7, 0⟩ (some 50)).2.slotmaps.mappings =
      [⟨50, ⟨3, 5⟩, ⟨7, 0⟩, SLMAP_S_NEW⟩] ∧
    ∀ conn ∈ (server_slotmap_add example_bank_connected ⟨3, 5⟩ ⟨7, 0⟩ (some 50)).2.banks,
      50 ∉ conn.bank.maps_new := by
  decide

theorem slotmap_add_leaves_peers_witness :
    ∃ addr, some 50 = some addr ∧
      (server_slotmap_add example_bank_connected ⟨3, 5⟩ ⟨7, 0⟩ (some 50)).2.slotmaps.mappings =
        example_bank_connected.slotmaps.mappings ++
          [{ addr := addr, bank := ⟨3, 5⟩, client := ⟨7, 0⟩, state := SLMAP_S_NEW }] ∧
      (server_slotmap_add example_bank_connected ⟨3, 5⟩ ⟨7, 0⟩ (some 50)).2.connections =
        example_bank_connected.connections ∧
      (server_slotmap_add example_bank_connected ⟨3, 5⟩ ⟨7, 0⟩ (some 50)).2.clients =
        example_bank_connected.clients ∧
      (server_slotmap_add example_bank_connected ⟨3, 5⟩ ⟨7, 0⟩ (some 50)).2.banks =
        example_bank_connected.banks ∧
      ((∀ conn ∈ example_bank_connected.banks, addr ∉ conn.bank.maps_new) →
        ∀ conn ∈ (server_slotmap_add example_bank_connected ⟨3, 5⟩ ⟨7, 0⟩ (some 50)).2.banks,
          addr ∉ conn.bank.maps_new) :=
  slotmap_add_leaves_peers example_bank_connected ⟨3, 5⟩ ⟨7, 0⟩ (some 50) (by decide)

theorem connect_client_ok_witness :
    ∃ (srv1 : rspro_server) (B : conn_bankd) (extra : List RsproPDU),
      handle_rx_rspro example_waiting 1
          (RsproPDU.connectClientReq ComponentType.remsimClient (some ⟨7, 0⟩)) = some (0, srv1) ∧
      srv1.connections = example_waiting.connections.filter (fun x => x.addr != 1) ∧
      srv1.clients = example_waiting.clients ++
        [{ example_peer 1 100 with
           comp_id_type := ComponentType.remsimClient
           client := { slot := rspro2client_slot ⟨7, 0⟩, bankd := B }
           tx := (example_peer 1 100).tx ++ RsproPDU.connectClientRes ResultCode.ok :: extra
           fi := some { state := CLNTC_ST_CONNECTED_CLIENT, T := 0, timer := none } }] ∧
      srv1.banks = example_waiting.banks ∧ srv1.slotmaps = example_waiting.slotmaps ∧
      (extra = [] ∨ extra = [RsproPDU.configClientBankReq B.slot B.ip B.port]) :=
  connect_client_ok example_waiting (example_peer 1 100)
    { state := CLNTC_ST_ESTABLISHED, T := 1, timer := some 10 } ⟨7, 0⟩ ⟨some 100⟩
    (by unfold unregistered; decide) rfl rfl rfl (by decide) (by decide) (by decide)

theorem connect_identity_in_use_witness :
    (∃ srv1 srv2,
      handle_rx_rspro example_conflict 9
        (RsproPDU.connectClientReq ComponentType.remsimClient (some ⟨7, 0⟩)) = some (0, srv1) ∧
      find_conn srv1 9 = some
        { example_peer 9 900 with
          comp_id_type := ComponentType.remsimClient
          client.slot := rspro2client_slot ⟨7, 0⟩
          tx := (example_peer 9 900).tx ++ [RsproPDU.connectClientRes ResultCode.identityInUse]
          fi := some { state := CLNTC_ST_REJECTED, T := 2, timer := some 1 } } ∧
      srv1.connections = example_conflict.connections.map (conn_write 9 (fun x =>
        { x with
          comp_id_type := ComponentType.remsimClient
          client.slot := rspro2client_slot ⟨7, 0⟩
          tx := x.tx ++ [RsproPDU.connectClientRes ResultCode.identityInUse]
          fi := some { state := CLNTC_ST_REJECTED, T := 2, timer := some 1 } })) ∧
      srv1.clients = example_conflict.clients ∧ srv1.banks = example_conflict.banks ∧
      srv1.slotmaps = example_conflict.slotmaps ∧
      fsm_tmr_cb srv1 9 = some srv2 ∧ conn_fi srv2 9 = none) ∧
    (∃ srv1 srv2,
      handle_rx_rspro example_conflict 9
        (RsproPDU.connectBankReq ComponentType.remsimBankd 3 8) = some (0, srv1) ∧
      find_conn srv1 9 = some
        { example_peer 9 900 with
          comp_id_type := ComponentType.remsimBankd
          bank.bank_id := 3 % 65536
          bank.num_slots := 8 % 65536
          tx := (example_peer 9 900).tx ++ [RsproPDU.connectBankRes ResultCode.identityInUse]
          fi := some { state := CLNTC_ST_REJECTED, T := 2, timer := some 1 } } ∧
      srv1.connections = example_conflict.connections.map (conn_write 9 (fun x =>
        { x with
          comp_id_type := ComponentType.remsimBankd
          bank.bank_id := 3 % 65536
          bank.num_slots := 8 % 65536
          tx := x.tx ++ [RsproPDU.connectBankRes ResultCode.identityInUse]
          fi := some { state := CLNTC_ST_REJECTED, T := 2, timer := some 1 } })) ∧
      srv1.clients = example_conflict.clients ∧ srv1.banks = example_conflict.banks ∧
      srv1.slotmaps = example_conflict.slotmaps ∧
      fsm_tmr_cb srv1 9 = some srv2 ∧ conn_fi srv2 9 = none) :=
  ⟨(connect_identity_in_use example_conflict (example_peer 9 900)
      { state := CLNTC_ST_ESTABLISHED, T := 1, timer := some 10 } ⟨some 900⟩
      (by unfold unregistered; decide) rfl rfl rfl (by decide)).1 ⟨7, 0⟩
      { example_peer 1 100 with
        client := { slot := ⟨7, 0⟩, bankd := { slot := ⟨0, 0⟩, ip := 0, port := 0 } }
        fi := some { state := CLNTC_ST_CONNECTED_CLIENT, T := 0, timer := none }
        tx := [RsproPDU.connectClientRes ResultCode.ok] }
      (by decide) (by decide),
   (connect_identity_in_use example_conflict (example_peer 9 900)
      { state := CLNTC_ST_ESTABLISHED, T := 1, timer := some 10 } ⟨some 900⟩
      (by unfold unregistered; decide) rfl rfl rfl (by decide)).2 3 8
      { example_peer 2 200 with
        comp_id_type := ComponentType.remsimBankd
        bank := ⟨3, 8, [], [], [], [], []⟩
        fi := some { state := CLNTC_ST_CONNECTED_BANKD, T := 0, timer := none }
        tx := [RsproPDU.connectBankRes ResultCode.ok] }
      (by decide) (by decide)⟩

theorem connect_error_terminates_witness :
    ∃ srv1,
      handle_rx_rspro example_waiting (example_peer 1 100).addr
          (RsproPDU.connectClientReq ComponentType.remsimBankd (some ⟨7, 0⟩)) = some (0, srv1) ∧
      find_conn srv1 (example_peer 1 100).addr = some
        { example_peer 1 100 with
          comp_id_type := ComponentType.remsimBankd, peer := none, fi := none,
          term_cause := some OSMO_FSM_TERM_ERROR } ∧
      srv1.connections.map (fun x => (x.addr, x.tx)) =
        example_waiting.connections.map (fun x => (x.addr, x.tx)) ∧
      srv1.clients = example_waiting.clients ∧ srv1.banks = example_waiting.banks ∧
      srv1.slotmaps = example_waiting.slotmaps ∧
      (∀ y ∈ srv1.clients ++ srv1.banks, y.addr ≠ (example_peer 1 100).addr) ∧
      ∀ later : List RsproPDU,
        server_run srv1 (later.map (server_input.rx (example_peer 1 100).addr)) = some srv1 :=
  connect_error_terminates example_waiting (example_peer 1 100)
    { state := CLNTC_ST_ESTABLISHED, T := 1, timer := some 10 } ⟨some 100⟩
    (RsproPDU.connectClientReq ComponentType.remsimBankd (some ⟨7, 0⟩))
    ComponentType.remsimBankd (by unfold unregistered; decide) rfl rfl rfl
    (Or.inl ⟨some ⟨7, 0⟩, by decide, rfl⟩)

/-- C18 at a concrete input: bank 3 is in CONNECTED_BANKD with a mapping on
`maps_new` and a mapping on `maps_delreq`, and `read` returned 8. A PUSH
dispatched to the peer sends a createMappingReq and a removeMappingReq and
moves both mappings on, yet `event_fd_cb` returns the server unchanged: with
both queues non-empty both calls of `llist_empty` are false and no PUSH is
dispatched. -/
theorem event_fd_cb_skips_pending :
    (∃ c ∈ example_pending.banks, c.bank.maps_new ≠ [] ∧ c.bank.maps_delreq ≠ [] ∧
      c.fi = some { state := CLNTC_ST_CONNECTED_BANKD, T := 0, timer := none }) ∧
    osmo_fsm_inst_dispatch_inner example_pending 2 CLNTC_E_PUSH = example_pushed ∧
    example_pushed ≠ example_pending ∧
    event_fd_cb example_pending 8 = (0, example_pending) := by
  decide

theorem event_fd_cb_idle_witness :
    (∀ rc : Int, (event_fd_cb example_final rc).2 = example_final) ∧
    ∀ rcs : List Int,
      server_run example_final (rcs.map server_input.event_fd) = some example_final :=
  event_fd_cb_idle example_final (by decide) (by decide)

theorem bank_down_leaves_client_witness :
    ∃ srv1 cl1,
      sock_closed_cb example_active 2 = some srv1 ∧
      find_conn srv1 1 = some cl1 ∧
      cl1.tx = [RsproPDU.connectClientRes ResultCode.ok,
        RsproPDU.configClientBankReq ⟨3, 5⟩ 200 9999] ∧
      cl1.client = { slot := ⟨7, 0⟩, bankd := ⟨⟨3, 5⟩, 200, 9999⟩ } ∧
      cl1.fi = some { state := CLNTC_ST_CONNECTED_CLIENT, T := 0, timer := none } ∧
      slotmap_deref srv1.slotmaps 50 = some ⟨50, ⟨3, 5⟩, ⟨7, 0⟩, SLMAP_S_NEW⟩ ∧
      (∀ y ∈ srv1.connections ++ srv1.clients ++ srv1.banks, 50 ∉ y.bank.all) ∧
      find_conn srv1 2 = none :=
  bank_down_leaves_client example_active
    (example_bank [] [] [50] [] [] [RsproPDU.createMappingReq ⟨7, 0⟩ ⟨3, 5⟩])
    (example_client ⟨⟨3, 5⟩, 200, 9999⟩ [RsproPDU.configClientBankReq ⟨3, 5⟩ 200 9999])
    { state := CLNTC_ST_CONNECTED_BANKD, T := 0, timer := none } ⟨some 200⟩ 50
    ⟨50, ⟨3, 5⟩, ⟨7, 0⟩, SLMAP_S_ACTIVE⟩ (by decide) rfl rfl (by decide) (by decide) (by decide)
    (by decide)

set_option maxRecDepth 100000 in
theorem do_reestablish_arms_T3_witness :
    ∃ s, srvc_do_reestablish (example_srvc SRVC_ST_ESTABLISHED 1 (some 11000) 5 1000) 1400
        example_lib = some s ∧
      s.delays = (example_srvc SRVC_ST_ESTABLISHED 1 (some 11000) 5 1000).delays ++
        [{ reset := decide ((32000 : Int) < 1400 - 1000),
           idx := (srvc_reestablish_reset
             (example_srvc SRVC_ST_ESTABLISHED 1 (some 11000) 5 1000) 1400).reestablish_delay_idx,
           delay_ms := max 1 (k_reestablish_delay_s.getD
             (srvc_reestablish_reset
               (example_srvc SRVC_ST_ESTABLISHED 1 (some 11000) 5 1000) 1400).reestablish_delay_idx
               0 * 1000 - (1400 - 1000)) }] ∧
      ((example_srvc SRVC_ST_ESTABLISHED 1 (some 11000) 5 1000).fi.state ≠
          SRVC_ST_REESTABLISH_DELAY →
        s.fi = { state := SRVC_ST_REESTABLISH_DELAY, T := 3,
                 timer := some (1400 + max 1 (k_reestablish_delay_s.getD
                   (srvc_reestablish_reset
                     (example_srvc SRVC_ST_ESTABLISHED 1 (some 11000) 5 1000)
                     1400).reestablish_delay_idx 0 * 1000 - (1400 - 1000))) }) :=
  do_reestablish_arms_T3 (example_srvc SRVC_ST_ESTABLISHED 1 (some 11000) 5 1000) 1400
    example_lib (by decide) (by decide) (by decide)

set_option maxRecDepth 100000 in
theorem do_reestablish_reset_iff_witness :
    srvc_reset_ms = 2 * (max (max 10 10) 16) * 1000 ∧ srvc_reset_ms = 32000 ∧
    ((32000 : Int) < 41000 - 1000 →
      srvc_reestablish_reset (example_srvc SRVC_ST_CONNECTED 0 none 5 1000) 41000 =
        { example_srvc SRVC_ST_CONNECTED 0 none 5 1000 with reestablish_delay_idx := 0 }) ∧
    ((41000 : Int) - 1000 ≤ 32000 →
      srvc_reestablish_reset (example_srvc SRVC_ST_CONNECTED 0 none 5 1000) 41000 =
        example_srvc SRVC_ST_CONNECTED 0 none 5 1000) ∧
    ∃ s d, srvc_do_reestablish (example_srvc SRVC_ST_CONNECTED 0 none 5 1000) 41000
        example_lib = some s ∧
      s.delays = (example_srvc SRVC_ST_CONNECTED 0 none 5 1000).delays ++
        [{ reset := decide ((32000 : Int) < 41000 - 1000),
           idx := if (32000 : Int) < 41000 - 1000 then 0
             else (example_srvc SRVC_ST_CONNECTED 0 none 5 1000).reestablish_delay_idx,
           delay_ms := d }] ∧
      ((example_srvc SRVC_ST_CONNECTED 0 none 5 1000).fi.state ≠ SRVC_ST_REESTABLISH_DELAY →
        s.reestablish_delay_idx =
          min ((if (32000 : Int) < 41000 - 1000 then 0
            else (example_srvc SRVC_ST_CONNECTED 0 none 5 1000).reestablish_delay_idx) + 1)
            123) :=
  do_reestablish_reset_iff (example_srvc SRVC_ST_CONNECTED 0 none 5 1000) 41000
    example_lib (by decide) (by decide) (by decide)

set_option maxRecDepth 100000 in
theorem reestablish_spacing_witness :
    ∃ (s1 : rspro_server_conn) (r : reestablish_record),
      srvc_do_reestablish (example_srvc SRVC_ST_REESTABLISH 2 (some 11000) 40 1000) 11000
        example_lib = some s1 ∧ 1 ≤ r.delay_ms ∧
      s1.fi = { state := SRVC_ST_REESTABLISH_DELAY, T := 3,
                timer := some (11000 + r.delay_ms) } := by
  obtain ⟨_, s1, r, h1, _, _, h4, h5, _⟩ :=
    reestablish_spacing (example_srvc SRVC_ST_REESTABLISH 2 (some 11000) 40 1000) 11000
      example_lib (by decide) (by decide) (by decide) (by decide)
  exact ⟨s1, r, h1, h4, h5⟩

set_option maxRecDepth 100000 in
theorem established_transitions_witness :
    ∃ s1 rest, srvc_fsm_inst_dispatch (example_srvc SRVC_ST_ESTABLISHED 1 (some 11000) 5 1000)
        SRVC_E_CLIENT_CONN_RES (some (RsproPDU.connectClientRes ResultCode.identityInUse))
        1400 example_lib = some (0, s1) ∧
      s1.calls = (example_srvc SRVC_ST_ESTABLISHED 1 (some 11000) 5 1000).calls ++
        srvc_call.ipa_client_conn_close :: rest ∧
      s1.conn = none ∧ s1.fi.state = SRVC_ST_REESTABLISH_DELAY :=
  (established_transitions (example_srvc SRVC_ST_ESTABLISHED 1 (some 11000) 5 1000) 1400
    example_lib (by decide) (by decide)).2.1
    (RsproPDU.connectClientRes ResultCode.identityInUse) ResultCode.identityInUse
    (by decide) (by decide) (by decide)

set_option maxRecDepth 100000 in
theorem reestablish_delay_range_witness :
    ∃ (s1 : rspro_server_conn) (r : reestablish_record),
      srvc_do_reestablish (example_srvc SRVC_ST_CONNECTED 0 none 123 1000) 3000
        example_lib = some s1 ∧ 1 ≤ r.delay_ms ∧ r.delay_ms ≤ 16000 ∧
      s1.fi = { state := SRVC_ST_REESTABLISH_DELAY, T := 3,
                timer := some (3000 + r.delay_ms) } := by
  obtain ⟨s1, r, h1, _, h3, h4, h5⟩ :=
    reestablish_delay_range (example_srvc SRVC_ST_CONNECTED 0 none 123 1000) 3000
      example_lib (by decide) (by decide) (by decide)
  exact ⟨s1, r, h1, h3, h4, h5 (by decide)⟩

set_option maxRecDepth 100000 in
theorem client_fsm_timers_witness :
    ∃ s1, srvc_fsm_tmr_cb (example_srvc SRVC_ST_REESTABLISH 2 (some 11000) 5 1000) 11000
        example_lib = some s1 ∧ s1.fi.state = SRVC_ST_REESTABLISH_DELAY :=
  (client_fsm_timers (example_srvc SRVC_ST_REESTABLISH 2 (some 11000) 5 1000) 11000
    example_lib (by decide)).2.2.2.1 11000 rfl (by decide)

set_option maxRecDepth 100000 in
theorem parent_signals_alternate_witness :
    srvc_run (server_conn_fsm_alloc example_srvc_init true).2 example_srvc_handshake =
      some example_srvc_connected ∧
    ((parent_signals example_srvc_connected.calls).count true : Int) -
        (parent_signals example_srvc_connected.calls).count false =
      (if example_srvc_connected.fi.state = SRVC_ST_CONNECTED then 1 else 0) :=
  ⟨by decide,
    (parent_signals_alternate example_srvc_init example_srvc_connected example_srvc_handshake
      (by decide) (by decide) (by decide)).2.2.1⟩

theorem update_client_for_slotmap_cases_witness :
    client_updated 50 example_deleting (some 2) ⟨50, ⟨3, 5⟩, ⟨7, 0⟩, SLMAP_S_DELETING⟩
      (example_client ⟨⟨3, 5⟩, 200, 9999⟩ [RsproPDU.configClientBankReq ⟨3, 5⟩ 200 9999]) 0 0 :=
  ((update_client_for_slotmap_cases 50 example_deleting (some 2)
      ⟨50, ⟨3, 5⟩, ⟨7, 0⟩, SLMAP_S_DELETING⟩ (by decide)).2
    (example_client ⟨⟨3, 5⟩, 200, 9999⟩ [RsproPDU.configClientBankReq ⟨3, 5⟩ 200 9999])
    { state := CLNTC_ST_CONNECTED_CLIENT, T := 0, timer := none }
    (by decide) (by decide) rfl rfl).1 rfl

theorem settled_peer_stays_witness :
    (registry_keys example_active).inv ∧ peer_settled example_active 2 ∧
    handle_rx_rspro example_active 2
      (RsproPDU.connectClientReq ComponentType.remsimClient (some ⟨9, 1⟩)) =
        some (0, example_active) :=
  have hinv : (registry_keys example_active).inv := by
    unfold registry_view.inv
    decide
  have hs : peer_settled example_active 2 :=
    ⟨{ state := CLNTC_ST_CONNECTED_BANKD, T := 0, timer := none }, by decide,
      Or.inr (Or.inl rfl)⟩
  ⟨hinv, hs, (settled_peer_stays example_active 2 hinv hs).1 _ _⟩

end Remsim
